import Mathlib

/-!
# The application modeller of mkTools (`appModeller.cpp`)

A shallow embedding of `framework/tools/mkTools/modeller/appModeller.cpp`.

* C++ objects reached through pointers that the modeller mutates (the client and
  server interface instances) live in two stores indexed by a pointer value
  (`Nat`); every other object is held by value.
* A routine that can throw returns `Except`; when the routine mutates the
  application model, the error carries the model as it was when the exception
  left the routine, so that what a failed call has already changed is visible.
* `std::map<std::string, T>` is an association list with one entry per key.
* A `Component_t` carries its address: the set of components of an app is a set of
  pointers, compared by address.
* The process environment variables and the standard error stream are state of the
  process: `GetApp` takes them as they are before the call and gives them back as
  the call leaves them, also when it throws.  The standard error stream is the list
  of the lines written to it.

The last part embeds `pa_gnss_GetTtff` of the default platform adaptor of the
positioning service (`pa_gnss_default.c`).
-/

set_option autoImplicit false

namespace std

/-- A `std::map<std::string, T>`: an association list holding each key once.  The
modeller looks entries up by key only, so the order of the entries is not
observable to it. -/
abbrev map (α : Type) := List (String × α)

namespace map

variable {α : Type}

/-- The value under `k`, if any: `m.find(k)`, with `none` for `m.end()`. -/
def find (m : map α) (k : String) : Option α :=
  List.lookup k m

/-- The keys of the map. -/
def keys (m : map α) : List String :=
  List.map Prod.fst m

/-- The assignment `m[k] = v`: replaces the value of an existing key, adds the
entry otherwise. -/
def assign : map α → String → α → map α
  | [], k, v => [(k, v)]
  | (k0, v0) :: rest, k, v =>
    if k = k0 then (k0, v) :: rest else (k0, v0) :: assign rest k v

/-- The call `m.insert({k, v})`: the map is left alone when the key is already
there; the second component is the `second` field of the returned pair. -/
def insert (m : map α) (k : String) (v : α) : map α × Bool :=
  match m.find k with
  | some _ => (m, false)
  | none => (m ++ [(k, v)], true)

end map

end std

namespace mk

/-- An `mk::Exception_t` as thrown by `ThrowException` of a parse-tree node: the
location of the node and the message. -/
structure Exception_t where
  location : String
  message : String
deriving DecidableEq, Repr

end mk

namespace parseTree

/-- The token kinds (`Token_t::Type_t`) that the application modeller tests for;
`OTHER` stands for every remaining kind. -/
inductive Token_t.Type_t where
  | NAME
  | IPC_AGENT
  | STAR
  | DOT
  | FILE_PERMISSIONS
  | OPEN_PARENTHESIS
  | OTHER
deriving DecidableEq, Repr

/-- A token of the parse tree: its kind, its text and where it stands in the
definition file (what `GetLocation()` returns). -/
structure Token_t where
  type : Token_t.Type_t
  text : String
  location : String
deriving DecidableEq, Repr

namespace Token_t

/-- The method `Token_t::GetLocation()`. -/
def GetLocation (t : Token_t) : String :=
  t.location

/-- The exception `t->ThrowException(message)` throws. -/
def ThrowException (t : Token_t) (message : String) : mk.Exception_t :=
  { location := t.GetLocation, message := message }

end Token_t

/-- The element `tokens[i]` of a `std::vector<Token_t*>`.  The parser builds every
token list long enough for the indices the modeller reads; past the end (undefined
behaviour in the source) the embedding reads an empty NAME token. -/
def tokenAt (tokens : List Token_t) (i : Nat) : Token_t :=
  tokens.getD i { type := .NAME, text := "", location := "" }

/-- The class of a parse-tree node that is not a token (`Content_t::Type_t`): the
section classes and the classes of the items found inside sections; `OTHER`
stands for every class the application modeller never asks for. -/
inductive Content_t.Type_t where
  | SIMPLE_SECTION
  | TOKEN_LIST_SECTION
  | COMPLEX_SECTION
  | COMPOUND_ITEM_LIST
  | BUNDLED_FILE
  | BUNDLED_DIR
  | REQUIRED_FILE
  | REQUIRED_DIR
  | REQUIRED_DEVICE
  | REQUIRED_CONFIG_TREE
  | EXTERN_API_INTERFACE
  | BINDING
  | EXECUTABLE
  | RUN_PROCESS
  | ENV_VAR
  | OTHER
deriving DecidableEq, Repr

/-- A node holding a list of tokens (`TokenList_t` and its subclasses, among them
`SimpleSection_t`, `TokenListSection_t`, `Binding_t`, `ExternApiInterface_t`,
`Executable_t`, `RunProcess_t` and `RequiredConfigTree_t`): its class, its first
token, and its content tokens. -/
structure TokenList_t where
  type : Content_t.Type_t
  firstTokenPtr : Token_t
  contents : List Token_t
deriving DecidableEq, Repr

namespace TokenList_t

/-- The method `Contents()`. -/
def Contents (l : TokenList_t) : List Token_t :=
  l.contents

/-- The method `SimpleSection_t::Text()`: the text of the first content token. -/
def Text (l : TokenList_t) : String :=
  (tokenAt l.contents 0).text

/-- The exception `l->ThrowException(message)` throws: located at the first token
of the node. -/
def ThrowException (l : TokenList_t) (message : String) : mk.Exception_t :=
  l.firstTokenPtr.ThrowException message

end TokenList_t

/-- A compound item of the parse tree (`CompoundItem_t`): a token list, or a list of
compound items (`CompoundItemList_t` and its subclass `ComplexSection_t`) with its
class and its first token. -/
inductive CompoundItem_t where
  | tokenList (l : TokenList_t)
  | itemList (type : Content_t.Type_t) (firstTokenPtr : Token_t)
      (contents : List CompoundItem_t)

namespace CompoundItem_t

/-- The first token of the node (`firstTokenPtr`). -/
def firstTokenPtr : CompoundItem_t → Token_t
  | .tokenList l => l.firstTokenPtr
  | .itemList _ first _ => first

/-- The class of the node (`type`). -/
def type : CompoundItem_t → Content_t.Type_t
  | .tokenList l => l.type
  | .itemList ty _ _ => ty

/-- The exception `item->ThrowException(message)` throws: located at the first
token of the node. -/
def ThrowException (item : CompoundItem_t) (message : String) : mk.Exception_t :=
  item.firstTokenPtr.ThrowException message

/-- The result of `dynamic_cast<const T*>(item)` for the token-list class `T`
whose tag is `ty`: the node itself when it is of that class, a null pointer
(`none`) otherwise. -/
def dynamicCast (ty : Content_t.Type_t) : CompoundItem_t → Option TokenList_t
  | .tokenList l => if l.type = ty then some l else none
  | .itemList _ _ _ => none

end CompoundItem_t

/-- Modelled from the spec: `ToTokenListPtr` is not among the sources.  The checked
cast of a node to a token list; a node of another shape is structurally
impossible, which is a fatal internal error. -/
def ToTokenListPtr : CompoundItem_t → Except mk.Exception_t TokenList_t
  | .tokenList l => .ok l
  | item => .error (item.ThrowException "Internal error: not a TokenList_t.")

/-- Modelled from the spec: `ToSimpleSectionPtr` is not among the sources.  The
checked cast of a node to a simple section. -/
def ToSimpleSectionPtr (item : CompoundItem_t) : Except mk.Exception_t TokenList_t :=
  match item.dynamicCast .SIMPLE_SECTION with
  | some l => .ok l
  | none => .error (item.ThrowException "Internal error: not a SimpleSection_t.")

/-- Modelled from the spec: `ToTokenListSectionPtr` is not among the sources.  The
checked cast of a node to a token-list section. -/
def ToTokenListSectionPtr (item : CompoundItem_t) : Except mk.Exception_t TokenList_t :=
  match item.dynamicCast .TOKEN_LIST_SECTION with
  | some l => .ok l
  | none => .error (item.ThrowException "Internal error: not a TokenListSection_t.")

/-- Modelled from the spec: `ToCompoundItemListPtr` is not among the sources.  The
checked cast of a node to a list of compound items; its result is the list. -/
def ToCompoundItemListPtr : CompoundItem_t → Except mk.Exception_t (List CompoundItem_t)
  | .itemList _ _ contents => .ok contents
  | item => .error (item.ThrowException "Internal error: not a CompoundItemList_t.")

/-- Modelled from the spec: `ToComplexSectionPtr` is not among the sources.  The
checked cast of a node to a complex section; its result is the list of the
members of the section. -/
def ToComplexSectionPtr : CompoundItem_t → Except mk.Exception_t (List CompoundItem_t)
  | .itemList .COMPLEX_SECTION _ contents => .ok contents
  | item => .error (item.ThrowException "Internal error: not a ComplexSection_t.")

/-- Modelled from the spec: `TypeName()` is not among the sources.  The name of the
class of a node, for diagnostics. -/
def Content_t.Type_t.TypeName : Content_t.Type_t → String
  | .SIMPLE_SECTION => "simple section"
  | .TOKEN_LIST_SECTION => "token list section"
  | .COMPLEX_SECTION => "complex section"
  | .COMPOUND_ITEM_LIST => "compound item list"
  | .BUNDLED_FILE => "bundled file"
  | .BUNDLED_DIR => "bundled directory"
  | .REQUIRED_FILE => "required file"
  | .REQUIRED_DIR => "required directory"
  | .REQUIRED_DEVICE => "required device"
  | .REQUIRED_CONFIG_TREE => "required configuration tree"
  | .EXTERN_API_INTERFACE => "external API interface"
  | .BINDING => "binding"
  | .EXECUTABLE => "executable"
  | .RUN_PROCESS => "process to be run"
  | .ENV_VAR => "environment variable"
  | .OTHER => "other"

/-- A parsed application definition file (`AdefFile_t`): its path and its
top-level sections, in file order. -/
structure AdefFile_t where
  path : String
  sections : List CompoundItem_t

end parseTree

namespace envVars

/-- Modelled from the spec: `envVars::Get` is not among the sources.  The value of
a variable of the process environment, empty when the variable is not set. -/
def Get (env : std.map String) (name : String) : String :=
  (env.find name).getD ""

/-- Modelled from the spec: `envVars::Set` is not among the sources.  Sets a
variable of the process environment. -/
def Set (env : std.map String) (name value : String) : std.map String :=
  env.assign name value

end envVars

namespace mk

/-- The build parameters the application modeller reads. -/
structure BuildParams_t where
  beVerbose : Bool
  workingDir : String
deriving DecidableEq, Repr

end mk

namespace model

open parseTree

/-- The kind of agent at one end of a binding (`Binding_t::EndPointType_t`). -/
inductive Binding_t.EndPointType_t where
  | INTERNAL
  | EXTERNAL_APP
  | EXTERNAL_USER
deriving DecidableEq, Repr

/-- A binding of a client-side interface to a server-side interface; `parseTreePtr`
is the binding specification of the parse tree it was made from. -/
structure Binding_t where
  clientType : Binding_t.EndPointType_t
  clientAgentName : String
  clientIfName : String
  serverType : Binding_t.EndPointType_t
  serverAgentName : String
  serverIfName : String
  parseTreePtr : TokenList_t
deriving DecidableEq, Repr

/-- What `new model::Binding_t(bindingSpecPtr)` yields before the modeller fills
the fields in. -/
def Binding_t.new (parseTreePtr : TokenList_t) : Binding_t :=
  { clientType := .INTERNAL, clientAgentName := "", clientIfName := "",
    serverType := .INTERNAL, serverAgentName := "", serverIfName := "",
    parseTreePtr := parseTreePtr }

/-- An interface as the component declares it: the internal name it has on the
component, and the file defining its API. -/
structure ApiInterface_t where
  internalName : String
  apiFilePath : String
deriving DecidableEq, Repr

/-- The part common to client-side and server-side interface instances: the name
(overwritten when the instance is made external) and the token that marked it
external (`NULL`, here `none`, while it is not external). -/
structure ApiInterfaceInstance_t where
  name : String
  externMarkPtr : Option Token_t
deriving DecidableEq, Repr

/-- A server-side interface instance. -/
structure ApiServerInterfaceInstance_t extends ApiInterfaceInstance_t where
  ifPtr : ApiInterface_t
deriving DecidableEq, Repr

/-- A client-side interface instance, with the binding attached to it (`NULL`, here
`none`, while it is unbound). -/
structure ApiClientInterfaceInstance_t extends ApiInterfaceInstance_t where
  ifPtr : ApiInterface_t
  bindingPtr : Option Binding_t
deriving DecidableEq, Repr

/-- A component: a unit of source code with its declared interfaces.  The modeller
holds components through pointers (`Component_t*`) and compares the pointers, not the
objects: `address` is the address of the object, so that two pointers are the same
pointer exactly when the addresses are the same, whatever the fields hold. -/
structure Component_t where
  address : Nat
  name : String
  dir : String
  hasCOrCppCode : Bool
  hasJavaCode : Bool
  clientApis : List ApiInterface_t
  serverApis : List ApiInterface_t
deriving DecidableEq, Repr

/-- An instance of a component inside an executable.  `clientApis` and
`serverApis` hold pointers into the interface-instance stores of the app. -/
structure ComponentInstance_t where
  componentPtr : Component_t
  clientApis : List Nat
  serverApis : List Nat
deriving DecidableEq, Repr

/-- An executable; `exeDefPtr` is its definition in the parse tree. -/
structure Exe_t where
  name : String
  path : String
  componentInstances : List ComponentInstance_t
  hasCOrCppCode : Bool
  hasJavaCode : Bool
  exeDefPtr : TokenList_t
deriving DecidableEq, Repr

/-- A scalar the definition file may override: whether it has been set
explicitly, and its effective value (the built-in default while it is not set),
which is what `Get()` returns. -/
structure Limit_t (α : Type) where
  isSet : Bool
  value : α
deriving DecidableEq, Repr

namespace Limit_t

variable {α : Type}

/-- The method `IsSet()`. -/
def IsSet (l : Limit_t α) : Bool :=
  l.isSet

/-- The method `Get()`. -/
def Get (l : Limit_t α) : α :=
  l.value

/-- The assignment `limit = v`: the value is now explicitly set. -/
def set (_l : Limit_t α) (v : α) : Limit_t α :=
  { isSet := true, value := v }

end Limit_t

/-- Access permissions (`Permissions_t`). -/
structure Permissions_t where
  readable : Bool
  writeable : Bool
  executable : Bool
deriving DecidableEq, Repr

/-- A file-system object bundled with or required by the app
(`FileSystemObject_t`). -/
structure FileSystemObject_t where
  srcPath : String
  destPath : String
  permissions : Permissions_t
deriving DecidableEq, Repr

/-- A process to run when the app starts. -/
structure Process_t where
  name : String
  exePath : String
  commandLineArgs : List String
deriving DecidableEq, Repr

/-- The environment shared by the processes of one "processes:" section. -/
structure ProcessEnv_t where
  processes : List Process_t
  envVars : std.map String
  faultAction : Limit_t String
  startPriority : Limit_t String
  maxCoreDumpFileBytes : Limit_t Nat
  maxFileBytes : Limit_t Nat
  maxFileDescriptors : Limit_t Nat
  maxLockedMemoryBytes : Limit_t Nat
  watchdogAction : Limit_t String
  watchdogTimeout : Limit_t Int
deriving DecidableEq, Repr

/-- When the app is started (`App_t::StartTrigger_t`). -/
inductive App_t.StartTrigger_t where
  | AUTO
  | MANUAL
deriving DecidableEq, Repr

/-- The application model under construction.

The stores `clientIfInstances` and `serverIfInstances` hold the interface instance
objects: the `ApiClientInterfaceInstance_t*` and
`ApiServerInterfaceInstance_t*` held by component instances and by the two
maps of external interfaces are indices into them. -/
structure App_t where
  name : String
  dir : String
  version : String
  isSandboxed : Bool
  startTrigger : App_t.StartTrigger_t
  components : List Component_t
  executables : std.map Exe_t
  bundledFiles : List FileSystemObject_t
  bundledDirs : List FileSystemObject_t
  requiredFiles : List FileSystemObject_t
  requiredDirs : List FileSystemObject_t
  requiredDevices : List FileSystemObject_t
  configTrees : std.map Permissions_t
  groups : List String
  cpuShare : Limit_t Nat
  maxFileSystemBytes : Limit_t Nat
  maxMemoryBytes : Limit_t Nat
  maxMQueueBytes : Limit_t Nat
  maxQueuedSignals : Limit_t Nat
  maxThreads : Limit_t Nat
  maxSecureStorageBytes : Limit_t Nat
  watchdogAction : Limit_t String
  watchdogTimeout : Limit_t Int
  processEnvs : List ProcessEnv_t
  wildcardBindings : std.map Binding_t
  externClientInterfaces : std.map Nat
  externServerInterfaces : std.map Nat
  clientIfInstances : Nat → ApiClientInterfaceInstance_t
  serverIfInstances : Nat → ApiServerInterfaceInstance_t

/-- A pointer to an interface instance seen through its base class
(`ApiInterfaceInstance_t*`): a client-side or a server-side instance. -/
inductive ApiInterfaceInstancePtr where
  | client (p : Nat)
  | server (p : Nat)
deriving DecidableEq, Repr

namespace App_t

/-- The base-class part of the instance `ptr` points to. -/
def ifInstance (app : App_t) : ApiInterfaceInstancePtr → ApiInterfaceInstance_t
  | .client p => (app.clientIfInstances p).toApiInterfaceInstance_t
  | .server p => (app.serverIfInstances p).toApiInterfaceInstance_t

/-- Overwrites the base-class part of the instance `ptr` points to. -/
def setIfInstance (app : App_t) (ptr : ApiInterfaceInstancePtr)
    (v : ApiInterfaceInstance_t) : App_t :=
  match ptr with
  | .client p =>
    { app with
      clientIfInstances :=
        Function.update app.clientIfInstances p
          { (app.clientIfInstances p) with toApiInterfaceInstance_t := v } }
  | .server p =>
    { app with
      serverIfInstances :=
        Function.update app.serverIfInstances p
          { (app.serverIfInstances p) with toApiInterfaceInstance_t := v } }

/-- Overwrites the `bindingPtr` field of the client-side instance at `p`. -/
def setBinding (app : App_t) (p : Nat) (b : Binding_t) : App_t :=
  { app with
    clientIfInstances :=
      Function.update app.clientIfInstances p
        { (app.clientIfInstances p) with bindingPtr := some b } }

end App_t

namespace ComponentInstance_t

/-- Modelled from the spec: `ComponentInstance_t::FindClientInterface(name)` is not
among the sources.  It searches the client interface list of the component instance
for the interface with the given (declared, internal) name and yields `NULL`,
here `none`, when there is none. -/
def FindClientInterface (ci : ComponentInstance_t) (app : App_t) (name : String) :
    Option Nat :=
  ci.clientApis.find? (fun p => (app.clientIfInstances p).ifPtr.internalName == name)

/-- Modelled from the spec: `ComponentInstance_t::FindServerInterface(name)` is not
among the sources.  It searches the server interface list of the component instance
for the interface with the given (declared, internal) name and yields `NULL`,
here `none`, when there is none. -/
def FindServerInterface (ci : ComponentInstance_t) (app : App_t) (name : String) :
    Option Nat :=
  ci.serverApis.find? (fun p => (app.serverIfInstances p).ifPtr.internalName == name)

end ComponentInstance_t

namespace App_t

/-- Modelled from the spec: `App_t::FindComponentInstance` is not among the
sources.  Lookup by executable name, then by component name inside that
executable; a name that is not found is a fatal error thrown from its token. -/
def FindComponentInstance (app : App_t) (exeTokenPtr componentTokenPtr : Token_t) :
    Except mk.Exception_t ComponentInstance_t :=
  match app.executables.find exeTokenPtr.text with
  | none =>
    .error (exeTokenPtr.ThrowException
      ("Executable '" ++ exeTokenPtr.text ++ "' not defined in application."))
  | some exePtr =>
    match exePtr.componentInstances.find?
        (fun ci => ci.componentPtr.name == componentTokenPtr.text) with
    | none =>
      .error (componentTokenPtr.ThrowException
        ("Component '" ++ componentTokenPtr.text ++ "' not found in executable '"
          ++ exeTokenPtr.text ++ "'."))
    | some ci => .ok ci

/-- Modelled from the spec: `App_t::FindClientInterface` is not among the sources.
The exe/component/interface lookup of a client-side interface instance; fatal when
unresolved. -/
def FindClientInterface (app : App_t)
    (exeTokenPtr componentTokenPtr interfaceTokenPtr : Token_t) :
    Except mk.Exception_t Nat :=
  match app.FindComponentInstance exeTokenPtr componentTokenPtr with
  | .error e => .error e
  | .ok ci =>
    match ci.FindClientInterface app interfaceTokenPtr.text with
    | none =>
      .error (interfaceTokenPtr.ThrowException
        ("Client interface '" ++ interfaceTokenPtr.text ++ "' not found in component '"
          ++ componentTokenPtr.text ++ "' in executable '" ++ exeTokenPtr.text ++ "'."))
    | some p => .ok p

/-- Modelled from the spec: `App_t::FindServerInterface` is not among the sources.
The exe/component/interface lookup of a server-side interface instance; fatal when
unresolved. -/
def FindServerInterface (app : App_t)
    (exeTokenPtr componentTokenPtr interfaceTokenPtr : Token_t) :
    Except mk.Exception_t Nat :=
  match app.FindComponentInstance exeTokenPtr componentTokenPtr with
  | .error e => .error e
  | .ok ci =>
    match ci.FindServerInterface app interfaceTokenPtr.text with
    | none =>
      .error (interfaceTokenPtr.ThrowException
        ("Server interface '" ++ interfaceTokenPtr.text ++ "' not found in component '"
          ++ componentTokenPtr.text ++ "' in executable '" ++ exeTokenPtr.text ++ "'."))
    | some p => .ok p

end App_t

end model

namespace modeller

open parseTree model

/-- Mark an interface instance as externally visible for binding at the system
level (`MarkInterfaceExternal`). -/
def MarkInterfaceExternal (app : App_t) (ifInstancePtr : ApiInterfaceInstancePtr)
    (nameTokenPtr : Token_t) : Except (mk.Exception_t × App_t) App_t :=
  -- If the interface is already marked external, this is a duplicate.
  match (app.ifInstance ifInstancePtr).externMarkPtr with
  | some externMarkPtr =>
    .error (nameTokenPtr.ThrowException
      ("Same interface marked 'extern' more than once.\n"
        ++ externMarkPtr.GetLocation ++ ": note: Previously done here."), app)
  | none =>
    -- Mark it external and assign it the external name.
    .ok (app.setIfInstance ifInstancePtr
      { name := nameTokenPtr.text, externMarkPtr := some nameTokenPtr })

/-- Mark a single API interface instance as externally visible to other apps
(`MakeInterfaceExternal`). -/
def MakeInterfaceExternal (app : App_t)
    (nameTokenPtr exeTokenPtr componentTokenPtr interfaceTokenPtr : Token_t) :
    Except (mk.Exception_t × App_t) App_t :=
  let exeName := exeTokenPtr.text
  let componentName := componentTokenPtr.text
  let interfaceName := interfaceTokenPtr.text
  -- Check that there are no other external interfaces using the same name already.
  let name := nameTokenPtr.text
  if (app.externServerInterfaces.find name).isSome
      || (app.externClientInterfaces.find name).isSome then
    .error (nameTokenPtr.ThrowException
      ("Duplicate external interface name: '" ++ name ++ "'."), app)
  else
    -- Find the component instance.
    match app.FindComponentInstance exeTokenPtr componentTokenPtr with
    | .error e => .error (e, app)
    | .ok componentInstancePtr =>
      -- Find the interface (look in both the client and server interface lists).
      let serverIfPtr := componentInstancePtr.FindServerInterface app interfaceTokenPtr.text
      let clientIfPtr := componentInstancePtr.FindClientInterface app interfaceTokenPtr.text
      match clientIfPtr, serverIfPtr with
      | none, none =>
        .error (nameTokenPtr.ThrowException
          ("Interface '" ++ interfaceName ++ "' not found in component '"
            ++ componentName ++ "' in executable '" ++ exeName ++ "'."), app)
      | some c, _ =>
        match MarkInterfaceExternal app (.client c) nameTokenPtr with
        | .error e => .error e
        | .ok app1 =>
          .ok { app1 with
            externClientInterfaces := app1.externClientInterfaces.assign name c }
      | none, some s =>
        match MarkInterfaceExternal app (.server s) nameTokenPtr with
        | .error e => .error e
        | .ok app1 =>
          .ok { app1 with
            externServerInterfaces := app1.externServerInterfaces.assign name s }

/-- The outcome of dereferencing the null pointer that a failed `dynamic_cast`
yields.  The source does not test for it (the parser never produces such an
item); the embedding makes it a fatal outcome of its own. -/
def nullPointer (location : String) : mk.Exception_t :=
  { location := location, message := "null pointer dereferenced" }

/-- One turn of the loop of `MakeInterfacesExternal`, for one queued item (`none`
is a null pointer in the queue). -/
def MakeInterfacesExternal.item (app : App_t) (ifPtr : Option TokenList_t) :
    Except (mk.Exception_t × App_t) App_t :=
  match ifPtr with
  | none => .error (nullPointer "", app)
  | some ifPtr =>
    -- Each interface spec is a token list.
    let tokens := ifPtr.Contents
    -- If there are 4 content tokens, the first token is the external name
    -- to be used to identify the interface, and the remaining three tokens are the
    -- exe, component, and interface names of the interface instance.
    if tokens.length = 4 then
      MakeInterfaceExternal app (tokenAt tokens 0) (tokenAt tokens 1) (tokenAt tokens 2)
        (tokenAt tokens 3)
    -- Otherwise, there are 3 content tokens and the interface is exported using the
    -- internal name of the interface on the component.
    else
      MakeInterfaceExternal app (tokenAt tokens 2) (tokenAt tokens 0) (tokenAt tokens 1)
        (tokenAt tokens 2)

/-- Mark API interface instances as externally visible to other apps
(`MakeInterfacesExternal`): the loop over the queue stops at the first
exception. -/
def MakeInterfacesExternal (app : App_t) (interfaces : List (Option TokenList_t)) :
    Except (mk.Exception_t × App_t) App_t :=
  interfaces.foldlM MakeInterfacesExternal.item app

/-- Modelled from the spec: `RemoveAngleBrackets` is not among the sources.  The
text with its delimiters stripped: the opening angle bracket in front and the
closing one at the end. -/
def RemoveAngleBrackets (name : String) : String :=
  let inner := if name.data.head? = some '<' then name.data.tail else name.data
  String.mk (if inner.getLast? = some '>' then inner.dropLast else inner)

/-- Extract the server side details from a binding specification
(`GetBindingServerSide`); the binding object it populates is returned. -/
def GetBindingServerSide (bindingPtr : Binding_t) (tokens : List Token_t)
    (startIndex : Nat) (app : App_t) : Except mk.Exception_t Binding_t :=
  -- startIndex   startIndex + 1  startIndex + 2
  -- NAME         NAME            NAME            = internal binding
  -- IPC_AGENT    NAME                            = external binding
  -- External binding?
  if (tokenAt tokens startIndex).type = .IPC_AGENT then
    let serverAgentName := (tokenAt tokens startIndex).text
    let bindingPtr := { bindingPtr with serverIfName := (tokenAt tokens (startIndex + 1)).text }
    if serverAgentName.data.head? = some '<' then -- non-app user?
      .ok { bindingPtr with
        serverType := .EXTERNAL_USER
        serverAgentName := RemoveAngleBrackets serverAgentName }
    else -- app
      .ok { bindingPtr with
        serverType := .EXTERNAL_APP
        serverAgentName := serverAgentName }
  else -- Internal binding.
    -- Find the interface that matches this specification.
    match app.FindServerInterface (tokenAt tokens startIndex) (tokenAt tokens (startIndex + 1))
        (tokenAt tokens (startIndex + 2)) with
    | .error e => .error e
    | .ok serverIfPtr =>
      -- Populate the binding object.
      .ok { bindingPtr with
        serverType := .INTERNAL
        serverAgentName := app.name
        serverIfName := (app.serverIfInstances serverIfPtr).name }

/-- One turn of the loop of `AddBindings`, for one binding specification of a
bindings section. -/
def AddBindings.item (app : App_t) (bindingSpecPtr : TokenList_t) :
    Except (mk.Exception_t × App_t) App_t :=
  let tokens := bindingSpecPtr.Contents
  -- Create a new Binding object for the model.
  let bindingPtr := Binding_t.new bindingSpecPtr
  -- Bindings in .adef files are always for that app's client-side internal interfaces.
  let bindingPtr := { bindingPtr with clientType := .INTERNAL, clientAgentName := app.name }
  -- Is this a "wildcard binding" of all unspecified client interfaces with a given name?
  if (tokenAt tokens 0).type = .STAR then
    -- 0    1    2         3    4
    -- STAR NAME IPC_AGENT NAME      = external binding to user or app
    -- STAR NAME NAME      NAME NAME = internal binding to exe
    let bindingPtr := { bindingPtr with clientIfName := (tokenAt tokens 1).text }
    match GetBindingServerSide bindingPtr tokens 2 app with
    | .error e => .error (e, app)
    | .ok bindingPtr =>
      -- Check for multiple bindings of the same client-side wildcard.
      if (app.wildcardBindings.find bindingPtr.clientIfName).isSome then
        .error ((tokenAt tokens 1).ThrowException "Duplicate wildcard binding.", app)
      else
        -- Add to list of wildcard bindings.
        .ok { app with
          wildcardBindings := app.wildcardBindings.assign bindingPtr.clientIfName bindingPtr }
  else -- Specific client interface binding (not a wildcard binding).
    -- 0    1    2    3         4    5
    -- NAME NAME NAME IPC_AGENT NAME      = external binding to user or app
    -- NAME NAME NAME NAME      NAME NAME = internal binding to exe
    match app.FindClientInterface (tokenAt tokens 0) (tokenAt tokens 1) (tokenAt tokens 2) with
    | .error e => .error (e, app)
    | .ok clientIfPtr =>
      let bindingPtr := { bindingPtr with clientIfName := (app.clientIfInstances clientIfPtr).name }
      match GetBindingServerSide bindingPtr tokens 3 app with
      | .error e => .error (e, app)
      | .ok bindingPtr =>
        -- Check for multiple bindings of the same client-side interface.
        if ((app.clientIfInstances clientIfPtr).bindingPtr).isSome then
          .error ((tokenAt tokens 0).ThrowException "Client interface bound more than once.", app)
        else
          -- Record the binding in the client-side interface object.
          .ok (app.setBinding clientIfPtr bindingPtr)

/-- Add all the IPC bindings from a bindings section of the definition file to
the app (`AddBindings`, first overload).  The loop over the section stops at the
first exception. -/
def AddBindings (app : App_t) (bindingsSectionPtr : CompoundItem_t) :
    Except (mk.Exception_t × App_t) App_t :=
  -- The bindings section is a list of compound items.
  match ToCompoundItemListPtr bindingsSectionPtr with
  | .error e => .error (e, app)
  | .ok sectionContents =>
    sectionContents.foldlM
      (fun app itemPtr =>
        -- Each binding specification inside the bindings section is a token list.
        match itemPtr.dynamicCast .BINDING with
        | none => .error (nullPointer itemPtr.firstTokenPtr.GetLocation, app)
        | some bindingSpecPtr => AddBindings.item app bindingSpecPtr)
      app

/-- Add all the IPC bindings from a list of bindings sections to the app
(`AddBindings`, second overload). -/
def AddBindings.sections (app : App_t) (bindingsSections : List CompoundItem_t) :
    Except (mk.Exception_t × App_t) App_t :=
  bindingsSections.foldlM AddBindings app

end modeller

namespace modeller

open parseTree model

/-- The application model a routine leaves behind, whether it returned or threw. -/
def stateAfter : Except (mk.Exception_t × App_t) App_t → App_t
  | .ok app => app
  | .error (_, app) => app

/-- The interface instance that the exe, component and interface tokens of an
extern candidate resolve to, as `MakeInterfaceExternal` finds it: first the
component instance, then the client-side interface of that name, and the
server-side one only when there is no client-side one; `none` when a lookup
fails. -/
def externTarget (app : App_t) (exeTokenPtr componentTokenPtr interfaceTokenPtr : Token_t) :
    Option ApiInterfaceInstancePtr :=
  match app.FindComponentInstance exeTokenPtr componentTokenPtr with
  | .error _ => none
  | .ok componentInstancePtr =>
    match componentInstancePtr.FindClientInterface app interfaceTokenPtr.text,
        componentInstancePtr.FindServerInterface app interfaceTokenPtr.text with
    | some c, _ => some (.client c)
    | none, some s => some (.server s)
    | none, none => none

/-- The token of an extern candidate that holds its external name: the first of
four content tokens; with three content tokens, the interface token. -/
def externNameToken (tokens : List Token_t) : Token_t :=
  if tokens.length = 4 then tokenAt tokens 0 else tokenAt tokens 2

/-- The token of an extern candidate that holds the name of the executable. -/
def externExeToken (tokens : List Token_t) : Token_t :=
  if tokens.length = 4 then tokenAt tokens 1 else tokenAt tokens 0

/-- The token of an extern candidate that holds the name of the component. -/
def externComponentToken (tokens : List Token_t) : Token_t :=
  if tokens.length = 4 then tokenAt tokens 2 else tokenAt tokens 1

/-- The token of an extern candidate that holds the name of the interface. -/
def externInterfaceToken (tokens : List Token_t) : Token_t :=
  if tokens.length = 4 then tokenAt tokens 3 else tokenAt tokens 2

/-- Two states of the app under construction have the same graph: the same name, the
same executables (with their component instances), and in both stores, at every
pointer, an instance of the same declared interface. -/
def sameGraph (a b : App_t) : Prop :=
  a.name = b.name ∧ a.executables = b.executables
    ∧ (∀ p, (a.clientIfInstances p).ifPtr = (b.clientIfInstances p).ifPtr)
    ∧ (∀ p, (a.serverIfInstances p).ifPtr = (b.serverIfInstances p).ifPtr)

/-- What extern resolution keeps: the graph of the app, and every interface instance
that is already marked external. -/
def externKeeps (a b : App_t) : Prop :=
  sameGraph a b
    ∧ ∀ q m, (a.ifInstance q).externMarkPtr = some m → b.ifInstance q = a.ifInstance q

/-- What binding resolution keeps: the graph of the app, the server-side
interface instances, every binding attached to a client-side interface instance,
and every entry of the wildcard-binding map. -/
def bindingKeeps (a b : App_t) : Prop :=
  sameGraph a b ∧ a.serverIfInstances = b.serverIfInstances
    ∧ (∀ c bd, (a.clientIfInstances c).bindingPtr = some bd →
        (b.clientIfInstances c).bindingPtr = some bd)
    ∧ (∀ k bd, a.wildcardBindings.find k = some bd → b.wildcardBindings.find k = some bd)

/-- Where the server side of a binding specification starts: after `STAR name` in a
wildcard specification, after `exe component interface` in a specific one. -/
def serverSideStart (tokens : List Token_t) : Nat :=
  if (tokenAt tokens 0).type = .STAR then 2 else 3

/-- The app after the instance `ptr` has been recorded under `name` in the map of
external interfaces of its side, as `MakeInterfaceExternal` does after marking
it. -/
def recordExternal (app : App_t) (name : String) : ApiInterfaceInstancePtr → App_t
  | .client c =>
    { app with externClientInterfaces := app.externClientInterfaces.assign name c }
  | .server s =>
    { app with externServerInterfaces := app.externServerInterfaces.assign name s }

/-- The server side of a binding specification, read from `startIndex`, is complete
and resolves: it is agent-addressed (`AGENT interface`, two tokens), or it names
(`exe component interface`, three tokens) a server-side interface instance of the
app. -/
def serverSideResolves (app : App_t) (tokens : List Token_t) (startIndex : Nat) : Prop :=
  ((tokenAt tokens startIndex).type = .IPC_AGENT ∧ tokens.length = startIndex + 2)
  ∨ ((tokenAt tokens startIndex).type ≠ .IPC_AGENT ∧ tokens.length = startIndex + 3
      ∧ ∃ s, app.FindServerInterface (tokenAt tokens startIndex)
          (tokenAt tokens (startIndex + 1)) (tokenAt tokens (startIndex + 2)) = .ok s)

end modeller

/-! ## The main pass and its handlers -/

namespace modeller

open parseTree model

/-- The routines and constructors the application modeller calls that are not among
the sources (the parser, the component modeller, the path and file-system
utilities, the substitution of environment variables, the constructors of the model
classes and the extractors of `modellerCommon`).  The embedding takes them as
parameters, and every statement about the modeller holds for all of them.  A call
that returns leaves the process environment variables as it found them (a nested
build of the component modeller sets CURDIR and restores it before it returns) and
writes nothing to the standard error stream.  A call of the component modeller that
throws leaves the variables as its result says; the other routines, which start no
nested build, leave them as they found them also when they throw. -/
structure Collaborators where
  /-- The parser `parser::adef::Parse(adefPath, beVerbose)`. -/
  Parse : String → Bool → Except mk.Exception_t AdefFile_t
  /-- The constructor `model::App_t(adefFilePtr)`. -/
  newApp : AdefFile_t → App_t
  /-- The constructor `model::Exe_t(path, appPtr, workingDir)`. -/
  newExe : String → App_t → String → Exe_t
  /-- The constructor `model::ProcessEnv_t()`. -/
  newProcessEnv : ProcessEnv_t
  /-- The value a watchdog timeout takes when it is given as a NAME token. -/
  watchdogTimeoutOfName : String → Except mk.Exception_t Int
  /-- The function `path::GetContainingDir`. -/
  GetContainingDir : String → String
  /-- The function `path::IsAbsolute`. -/
  IsAbsolute : String → Bool
  /-- The function `path::Combine`. -/
  Combine : String → String → String
  /-- The function `path::Unquote`. -/
  Unquote : String → String
  /-- The predicate `file::FileExists`. -/
  FileExists : String → Bool
  /-- The predicate `file::DirectoryExists`. -/
  DirectoryExists : String → Bool
  /-- The predicate `file::AnythingExists`. -/
  AnythingExists : String → Bool
  /-- The function `envVars::DoSubstitution`, which reads the process
  environment. -/
  DoSubstitution : std.map String → String → Except mk.Exception_t String
  /-- The extractor `GetBundledItem`. -/
  GetBundledItem : TokenList_t → Except mk.Exception_t FileSystemObject_t
  /-- The extractor `GetRequiredFileOrDir`. -/
  GetRequiredFileOrDir : TokenList_t → Except mk.Exception_t FileSystemObject_t
  /-- The extractor `GetRequiredDevice`. -/
  GetRequiredDevice : TokenList_t → Except mk.Exception_t FileSystemObject_t
  /-- The extractor `GetPermissions`, applied to a fresh `Permissions_t`. -/
  GetPermissions : Token_t → Except mk.Exception_t Permissions_t
  /-- The extractor `GetInt`. -/
  GetInt : TokenList_t → Except mk.Exception_t Int
  /-- The extractor `GetPositiveInt`. -/
  GetPositiveInt : TokenList_t → Except mk.Exception_t Nat
  /-- The extractor `GetNonNegativeInt`. -/
  GetNonNegativeInt : TokenList_t → Except mk.Exception_t Nat
  /-- The component modeller `GetComponent(tokenPtr, buildParams, dirs)`; `none` is
  the null pointer it returns when the name is empty after substitution.  A call
  that throws gives, with the exception, the process environment variables as it
  leaves them: a nested build sets CURDIR. -/
  GetComponent : std.map String → Token_t → mk.BuildParams_t → List String →
    Except (mk.Exception_t × std.map String) (Option Component_t)
  /-- The routine `AddComponentInstance(exePtr, componentPtr)`: it creates the
  interface instances (in the stores of the app) and updates the executable. -/
  AddComponentInstance : App_t → Exe_t → Component_t → App_t × Exe_t
  /-- The routine `AddGroups`. -/
  AddGroups : App_t → TokenList_t → Except (mk.Exception_t × App_t) App_t
  /-- The routine `SetStart`. -/
  SetStart : App_t → TokenList_t → Except (mk.Exception_t × App_t) App_t
  /-- The routine `SetWatchdogAction`. -/
  SetWatchdogAction : App_t → TokenList_t → Except (mk.Exception_t × App_t) App_t
  /-- The routine `SetWatchdogTimeout`. -/
  SetWatchdogTimeout : App_t → TokenList_t → Except (mk.Exception_t × App_t) App_t

/-- The exception of a collaborator that does not touch the app, with the app as
it is. -/
def liftExcept {α : Type} (app : App_t) : Except mk.Exception_t α →
    Except (mk.Exception_t × App_t) α
  | .ok v => .ok v
  | .error e => .error (e, app)

/-- The exception of a step that leaves the process environment variables alone,
with the variables as they are. -/
def withEnv {σ α : Type} (env : std.map String) : Except (mk.Exception_t × σ) α →
    Except (mk.Exception_t × σ × std.map String) α
  | .ok v => .ok v
  | .error (e, st) => .error (e, st, env)

/-- The exception of the component modeller, which does not touch the app, with the
app as it is and the process environment variables as the call leaves them. -/
def liftNested {α : Type} (app : App_t) : Except (mk.Exception_t × std.map String) α →
    Except (mk.Exception_t × App_t × std.map String) α
  | .ok v => .ok v
  | .error (e, env) => .error (e, app, env)

/-- One turn of the loop of `AddBundledItems` over the items of a "file"
subsection. -/
def AddBundledItems.file (X : Collaborators) (app : App_t) (itemPtr : CompoundItem_t) :
    Except (mk.Exception_t × App_t) App_t := do
  let bundledFileTokenListPtr ← liftExcept app (ToTokenListPtr itemPtr)
  let bundledFilePtr ← liftExcept app (X.GetBundledItem bundledFileTokenListPtr)
  -- If the source path is not absolute, then it is relative to the directory
  -- containing the .adef file.
  let bundledFilePtr :=
    if !X.IsAbsolute bundledFilePtr.srcPath then
      { bundledFilePtr with srcPath := X.Combine app.dir bundledFilePtr.srcPath }
    else bundledFilePtr
  -- Make sure that the source path exists and is a file.
  if X.FileExists bundledFilePtr.srcPath then
    pure { app with bundledFiles := app.bundledFiles ++ [bundledFilePtr] }
  else if X.AnythingExists bundledFilePtr.srcPath then
    throw (bundledFileTokenListPtr.ThrowException
      ("Not a regular file: '" ++ bundledFilePtr.srcPath ++ "'."), app)
  else
    throw (bundledFileTokenListPtr.ThrowException
      ("File not found: '" ++ bundledFilePtr.srcPath ++ "'."), app)

/-- One turn of the loop of `AddBundledItems` over the items of a "dir"
subsection. -/
def AddBundledItems.dir (X : Collaborators) (app : App_t) (itemPtr : CompoundItem_t) :
    Except (mk.Exception_t × App_t) App_t := do
  let bundledDirTokenListPtr ← liftExcept app (ToTokenListPtr itemPtr)
  let bundledDirPtr ← liftExcept app (X.GetBundledItem bundledDirTokenListPtr)
  -- If the source path is not absolute, then it is relative to the directory
  -- containing the .adef file.
  let bundledDirPtr :=
    if !X.IsAbsolute bundledDirPtr.srcPath then
      { bundledDirPtr with srcPath := X.Combine app.dir bundledDirPtr.srcPath }
    else bundledDirPtr
  -- Make sure that the source path exists and is a directory.
  if X.DirectoryExists bundledDirPtr.srcPath then
    pure { app with bundledDirs := app.bundledDirs ++ [bundledDirPtr] }
  else if X.AnythingExists bundledDirPtr.srcPath then
    throw (bundledDirTokenListPtr.ThrowException
      ("Not a directory: '" ++ bundledDirPtr.srcPath ++ "'."), app)
  else
    throw (bundledDirTokenListPtr.ThrowException
      ("Directory not found: '" ++ bundledDirPtr.srcPath ++ "'."), app)

/-- Adds the items from a "bundles:" section to the app (`AddBundledItems`). -/
def AddBundledItems (X : Collaborators) (app : App_t) (sectionPtr : CompoundItem_t) :
    Except (mk.Exception_t × App_t) App_t := do
  -- Bundles section is comprised of subsections (either "file:" or "dir:").
  let members ← liftExcept app (ToComplexSectionPtr sectionPtr)
  members.foldlM
    (fun app memberPtr => do
      let subsectionPtr ← liftExcept app (ToCompoundItemListPtr memberPtr)
      if memberPtr.firstTokenPtr.text = "file" then
        subsectionPtr.foldlM (AddBundledItems.file X) app
      else if memberPtr.firstTokenPtr.text = "dir" then
        subsectionPtr.foldlM (AddBundledItems.dir X) app
      else
        throw (memberPtr.ThrowException
          ("Internal error: Unexpected content item: " ++ memberPtr.type.TypeName ++ "."), app))
    app

/-- The call `components.insert(componentPtr)` on the set of components of the app, a
set of pointers: a pointer already in the set (one of the same address) is not added
again; a pointer to another object is added, also when the two objects have the same
fields. -/
def insertComponent (components : List Component_t) (componentPtr : Component_t) :
    List Component_t :=
  if components.any (fun c => c.address == componentPtr.address) then components
  else components ++ [componentPtr]

/-- Adds to the app the components listed in a "components" section
(`AddComponents`). -/
def AddComponents (X : Collaborators) (env : std.map String) (app : App_t)
    (sectionPtr : TokenList_t) (buildParams : mk.BuildParams_t) :
    Except (mk.Exception_t × App_t × std.map String) App_t :=
  -- Iterate over the list of contents of the section in the parse tree and add each item
  -- as a component.
  sectionPtr.Contents.foldlM
    (fun app tokenPtr => do
      -- Get the component object.
      let componentPtr ← liftNested app (X.GetComponent env tokenPtr buildParams [app.dir])
      -- Skip if environment variable substitution resulted in an empty string.
      match componentPtr with
      | some componentPtr =>
        -- Add the component to the app's list of components.
        pure { app with components := insertComponent app.components componentPtr }
      | none => pure app)
    app

/-- Adds an executable to the app's list of executables, and makes sure all
components used by that executable are in the app's list of components
(`AddExecutable`). -/
def AddExecutable (app : App_t) (exePtr : Exe_t) : Except (mk.Exception_t × App_t) App_t :=
  -- Add the executable to the app.
  let insertion := app.executables.insert exePtr.name exePtr
  let app := { app with executables := insertion.1 }
  if insertion.2 = false then
    .error (exePtr.exeDefPtr.ThrowException
      ("Duplicate executable found: " ++ exePtr.name ++ "."), app)
  else
    -- Add all the components used in the executable to the app's list of components.
    let app := exePtr.componentInstances.foldl
      (fun app componentInstancePtr =>
        { app with
          components := insertComponent app.components componentInstancePtr.componentPtr })
      app
    -- If none of the components in the executable has any source code files, then the
    -- executable would just sit there doing nothing, so throw an exception.
    if exePtr.hasCOrCppCode = false && exePtr.hasJavaCode = false then
      .error (exePtr.exeDefPtr.ThrowException
        "Executable doesn't contain any components that have source code files.", app)
    else
      .ok app

/-- One turn of the loop of `addExe` over the contents of the specification of an
executable: gets the component that a token names and adds an instance of it to the
executable. -/
def AddExecutables.addExe.component (X : Collaborators) (env : std.map String)
    (buildParams : mk.BuildParams_t) (st : App_t × Exe_t) (tokenPtr : Token_t) :
    Except (mk.Exception_t × App_t × std.map String) (App_t × Exe_t) := do
  -- Get the component object.
  let componentPtr ← liftNested st.1 (X.GetComponent env tokenPtr buildParams [st.1.dir])
  -- Skip if environment variable substitution resulted in an empty string.
  match componentPtr with
  | some componentPtr =>
    -- Add an instance of the component to the executable.
    pure (X.AddComponentInstance st.1 st.2 componentPtr)
  | none => pure st

/-- The local function `addExe` of `AddExecutables`: creates the executable that one
item of the section specifies and adds it to the app. -/
def AddExecutables.addExe (X : Collaborators) (env : std.map String)
    (buildParams : mk.BuildParams_t) (app : App_t) (itemPtr : TokenList_t) :
    Except (mk.Exception_t × App_t × std.map String) App_t := do
  -- The exe name is the first token in the named item
  let exeName := itemPtr.firstTokenPtr.text
  -- Compute the path to the executable, relative to the app's working directory
  -- and create an object for this exe.
  let exePtr := X.newExe ("staging/read-only/bin/" ++ exeName) app buildParams.workingDir
  let exePtr := { exePtr with exeDefPtr := itemPtr }
  -- Iterate over the list of contents of the executable specification in the parse
  -- tree and add each item as a component.
  let (app, exePtr) ← itemPtr.Contents.foldlM
    (AddExecutables.addExe.component X env buildParams) (app, exePtr)
  let exePtr :=
    if exePtr.hasJavaCode then { exePtr with path := exePtr.path ++ ".jar" } else exePtr
  -- Add the executable to the application.
  withEnv env (AddExecutable app exePtr)

/-- Creates the executables of an "executables" section (`AddExecutables`). -/
def AddExecutables (X : Collaborators) (env : std.map String) (app : App_t)
    (sectionPtr : CompoundItem_t) (buildParams : mk.BuildParams_t) :
    Except (mk.Exception_t × App_t × std.map String) App_t := do
  let executablesSectionPtr ← withEnv env (liftExcept app (ToCompoundItemListPtr sectionPtr))
  executablesSectionPtr.foldlM
    (fun app item => do
      let itemPtr ← withEnv env (liftExcept app (ToTokenListPtr item))
      AddExecutables.addExe X env buildParams app itemPtr)
    app

/-- Adds pointers to the items of a section of extern API interfaces to the list of
interfaces to be processed later (`AddExternApiInterfaces`); a failed
`dynamic_cast` adds a null pointer. -/
def AddExternApiInterfaces (interfaces : List (Option TokenList_t))
    (sectionContents : List CompoundItem_t) : List (Option TokenList_t) :=
  -- Each item in the section is an ExternApiInterface_t.
  sectionContents.foldl
    (fun interfaces itemPtr => interfaces ++ [itemPtr.dynamicCast .EXTERN_API_INTERFACE])
    interfaces

/-- Models a "provides:" section: the provided APIs are added to the list of extern
API interfaces to be processed later (`AddProvidedItems`).  The state is the app
with that list. -/
def AddProvidedItems (st : App_t × List (Option TokenList_t)) (sectionPtr : CompoundItem_t) :
    Except (mk.Exception_t × App_t × List (Option TokenList_t))
      (App_t × List (Option TokenList_t)) :=
  match ToCompoundItemListPtr sectionPtr with
  | .error e => .error (e, st)
  | .ok subsections =>
    subsections.foldlM
      (fun st subsectionPtr =>
        let subsectionName := subsectionPtr.firstTokenPtr.text
        if subsectionName = "api" then
          -- The "api" section is a complex section.
          match ToComplexSectionPtr subsectionPtr with
          | .error e => .error (e, st)
          | .ok apiSectionPtr =>
            -- Add all the items in this section to the list of extern API interfaces
            -- to be processed later.
            .ok (st.1, AddExternApiInterfaces st.2 apiSectionPtr)
        else
          .error (subsectionPtr.ThrowException
            ("Internal error: Unrecognized section '" ++ subsectionName ++ "'."), st))
      st

/-- Adds access permissions for a configuration tree to the app
(`AddConfigTree`). -/
def AddConfigTree (X : Collaborators) (app : App_t) (specPtr : TokenList_t) :
    Except (mk.Exception_t × App_t) App_t :=
  let contents := specPtr.Contents
  -- Check for optional FILE_PERMISSIONS token.
  let parsed : Except mk.Exception_t (Permissions_t × Token_t) :=
    if (tokenAt contents 0).type = .FILE_PERMISSIONS then
      match X.GetPermissions (tokenAt contents 0) with
      | .error e => .error e
      | .ok permissions => .ok (permissions, tokenAt contents 1)
    else -- No FILE_PERMISSIONS
      -- read-only by default.
      .ok ({ readable := true, writeable := false, executable := false }, tokenAt contents 0)
  match parsed with
  | .error e => .error (e, app)
  | .ok (permissions, treeNameTokenPtr) =>
    -- Replace the "DOT" with current application name.
    let fileName :=
      if treeNameTokenPtr.type = .DOT then app.name else treeNameTokenPtr.text
    -- Check for duplicates.
    if (app.configTrees.find fileName).isSome then
      .error (treeNameTokenPtr.ThrowException
        ("Configuration tree '" ++ fileName ++ "' appears in application more than once."),
        app)
    else
      -- Add config tree access permissions to the app.
      .ok { app with configTrees := app.configTrees.assign fileName permissions }

end modeller

namespace modeller

open parseTree model

/-- Models a "requires:" section: the required APIs are added to the list of extern
API interfaces to be processed later, everything else is added to the app
immediately (`AddRequiredItems`).  The state is the app with that list. -/
def AddRequiredItems (X : Collaborators) (st : App_t × List (Option TokenList_t))
    (sectionPtr : CompoundItem_t) :
    Except (mk.Exception_t × App_t × List (Option TokenList_t))
      (App_t × List (Option TokenList_t)) :=
  match ToCompoundItemListPtr sectionPtr with
  | .error e => .error (e, st)
  | .ok subsections =>
    subsections.foldlM
      (fun st subsectionPtr =>
        let subsectionName := subsectionPtr.firstTokenPtr.text
        if subsectionName = "api" then
          -- Add all the items in this section to the list of extern API interfaces to be
          -- processed later.
          match ToComplexSectionPtr subsectionPtr with
          | .error e => .error (e, st)
          | .ok apiSectionPtr => .ok (st.1, AddExternApiInterfaces st.2 apiSectionPtr)
        else if subsectionName = "file" then
          match ToCompoundItemListPtr subsectionPtr with
          | .error e => .error (e, st)
          | .ok items =>
            items.foldlM
              (fun st itemPtr =>
                match ToTokenListPtr itemPtr with
                | .error e => .error (e, st)
                | .ok fileSpecPtr =>
                  match X.GetRequiredFileOrDir fileSpecPtr with
                  | .error e => .error (e, st)
                  | .ok file =>
                    .ok ({ st.1 with requiredFiles := st.1.requiredFiles ++ [file] }, st.2))
              st
        else if subsectionName = "dir" then
          match ToCompoundItemListPtr subsectionPtr with
          | .error e => .error (e, st)
          | .ok items =>
            items.foldlM
              (fun st itemPtr =>
                match ToTokenListPtr itemPtr with
                | .error e => .error (e, st)
                | .ok dirSpecPtr =>
                  match X.GetRequiredFileOrDir dirSpecPtr with
                  | .error e => .error (e, st)
                  | .ok dir =>
                    .ok ({ st.1 with requiredDirs := st.1.requiredDirs ++ [dir] }, st.2))
              st
        else if subsectionName = "device" then
          match ToCompoundItemListPtr subsectionPtr with
          | .error e => .error (e, st)
          | .ok items =>
            items.foldlM
              (fun st itemPtr =>
                match ToTokenListPtr itemPtr with
                | .error e => .error (e, st)
                | .ok deviceSpecPtr =>
                  match X.GetRequiredDevice deviceSpecPtr with
                  | .error e => .error (e, st)
                  | .ok device =>
                    .ok ({ st.1 with requiredDevices := st.1.requiredDevices ++ [device] },
                      st.2))
              st
        else if subsectionName = "configTree" then
          match ToCompoundItemListPtr subsectionPtr with
          | .error e => .error (e, st)
          | .ok items =>
            items.foldlM
              (fun st itemPtr =>
                match ToTokenListPtr itemPtr with
                | .error e => .error (e, st)
                | .ok configTreeSpecPtr =>
                  match AddConfigTree X st.1 configTreeSpecPtr with
                  | .error (e, app) => .error (e, app, st.2)
                  | .ok app => .ok (app, st.2))
              st
        else
          .error (subsectionPtr.ThrowException
            ("Internal error: Unrecognized section '" ++ subsectionName ++ "'."), st))
      st

/-- One turn of the loop of `AddProcesses`, for one item of the "run" section. -/
def AddProcesses.item (X : Collaborators) (procEnv : ProcessEnv_t) (itemPtr : CompoundItem_t) :
    Except (mk.Exception_t × ProcessEnv_t) ProcessEnv_t :=
  match itemPtr.dynamicCast .RUN_PROCESS with
  | none =>
    .error (itemPtr.ThrowException
      ("Internal error: '" ++ itemPtr.type.TypeName ++ "'' is not a RunProcess_t."),
      procEnv)
  | some processSpecPtr =>
    -- If the first token is an open parenthesis, then no process name was specified
    -- and the first content token is the executable path, which also is used as the
    -- process name.  Otherwise, the first content token is the process name, followed
    -- by the exe path.
    let tokens := processSpecPtr.Contents
    let i := 0
    let name := (tokenAt tokens i).text
    let i := if processSpecPtr.firstTokenPtr.type ≠ .OPEN_PARENTHESIS then i + 1 else i
    let exePath := X.Unquote (tokenAt tokens i).text
    let commandLineArgs := (tokens.drop (i + 1)).map (fun t => X.Unquote t.text)
    .ok { procEnv with
      processes := procEnv.processes ++
        [{ name := name, exePath := exePath, commandLineArgs := commandLineArgs }] }

/-- Adds processes to a process environment, from the contents of a "run" section
(`AddProcesses`). -/
def AddProcesses (X : Collaborators) (procEnv : ProcessEnv_t)
    (sectionContents : List CompoundItem_t) :
    Except (mk.Exception_t × ProcessEnv_t) ProcessEnv_t :=
  -- Each item in this section is a process specification in the form of a TokenList_t.
  sectionContents.foldlM (AddProcesses.item X) procEnv

/-- The handling of one subsection of a "processes" section, on the process
environment of that section (the body of the loop of `AddProcessesSection`). -/
def AddProcessesSection.subsection (X : Collaborators) (env : std.map String)
    (procEnv : ProcessEnv_t) (subsectionPtr : CompoundItem_t) :
    Except (mk.Exception_t × ProcessEnv_t) ProcessEnv_t :=
  let subsectionName := subsectionPtr.firstTokenPtr.text
  let simple (f : TokenList_t → Except mk.Exception_t ProcessEnv_t) :
      Except (mk.Exception_t × ProcessEnv_t) ProcessEnv_t :=
    match ToSimpleSectionPtr subsectionPtr with
    | .error e => .error (e, procEnv)
    | .ok s =>
      match f s with
      | .error e => .error (e, procEnv)
      | .ok procEnv => .ok procEnv
  if subsectionName = "run" then
    match ToCompoundItemListPtr subsectionPtr with
    | .error e => .error (e, procEnv)
    | .ok items => AddProcesses X procEnv items
  else if subsectionName = "envVars" then
    -- Each item in this section is a token list with one content item (the value).
    match ToCompoundItemListPtr subsectionPtr with
    | .error e => .error (e, procEnv)
    | .ok items =>
      items.foldlM
        (fun procEnv itemPtr =>
          match ToTokenListPtr itemPtr with
          | .error e => .error (e, procEnv)
          | .ok envVarPtr =>
            let name := envVarPtr.firstTokenPtr.text
            let value := (tokenAt envVarPtr.Contents 0).text
            match X.DoSubstitution env value with
            | .error e => .error (e, procEnv)
            | .ok substituted =>
              .ok { procEnv with envVars := procEnv.envVars.assign name (X.Unquote substituted) })
        procEnv
  else if subsectionName = "faultAction" then
    simple fun s => .ok { procEnv with faultAction := procEnv.faultAction.set s.Text }
  else if subsectionName = "priority" then
    simple fun s => .ok { procEnv with startPriority := procEnv.startPriority.set s.Text }
  else if subsectionName = "maxCoreDumpFileBytes" then
    simple fun s => do
      let v ← X.GetNonNegativeInt s
      pure { procEnv with maxCoreDumpFileBytes := procEnv.maxCoreDumpFileBytes.set v }
  else if subsectionName = "maxFileBytes" then
    simple fun s => do
      let v ← X.GetNonNegativeInt s
      pure { procEnv with maxFileBytes := procEnv.maxFileBytes.set v }
  else if subsectionName = "maxFileDescriptors" then
    simple fun s => do
      let v ← X.GetPositiveInt s
      pure { procEnv with maxFileDescriptors := procEnv.maxFileDescriptors.set v }
  else if subsectionName = "maxLockedMemoryBytes" then
    simple fun s => do
      let v ← X.GetNonNegativeInt s
      pure { procEnv with maxLockedMemoryBytes := procEnv.maxLockedMemoryBytes.set v }
  else if subsectionName = "watchdogAction" then
    simple fun s => .ok { procEnv with watchdogAction := procEnv.watchdogAction.set s.Text }
  else if subsectionName = "watchdogTimeout" then
    simple fun timeoutSectionPtr => do
      let tokenPtr := tokenAt timeoutSectionPtr.Contents 0
      if tokenPtr.type = .NAME then
        -- Never timeout (watchdog disabled).
        let v ← X.watchdogTimeoutOfName tokenPtr.text
        pure { procEnv with watchdogTimeout := procEnv.watchdogTimeout.set v }
      else
        let v ← X.GetInt timeoutSectionPtr
        pure { procEnv with watchdogTimeout := procEnv.watchdogTimeout.set v }
  else
    .error (subsectionPtr.ThrowException
      ("Internal error: Unrecognized section '" ++ subsectionName ++ "'."), procEnv)

/-- Adds a process environment and its processes to the app, from the contents of a
"processes" section (`AddProcessesSection`).  The new process environment is in the
list of the app from the start, so an exception leaves it there as far as it has
been filled in. -/
def AddProcessesSection (X : Collaborators) (env : std.map String) (app : App_t)
    (sectionContents : List CompoundItem_t) : Except (mk.Exception_t × App_t) App_t :=
  let procEnvPtr := X.newProcessEnv
  -- The processes section contains a list of subsections.
  match sectionContents.foldlM (AddProcessesSection.subsection X env) procEnvPtr with
  | .error (e, procEnv) => .error (e, { app with processEnvs := app.processEnvs ++ [procEnv] })
  | .ok procEnv => .ok { app with processEnvs := app.processEnvs ++ [procEnv] }

/-- Adds process environments and processes to the app, from a list of "processes"
sections (`AddProcessesSections`). -/
def AddProcessesSections (X : Collaborators) (env : std.map String) (app : App_t)
    (processesSections : List CompoundItem_t) : Except (mk.Exception_t × App_t) App_t :=
  processesSections.foldlM
    (fun app sectionPtr =>
      match ToCompoundItemListPtr sectionPtr with
      | .error e => .error (e, app)
      | .ok sectionContents => AddProcessesSection X env app sectionContents)
    app

/-- Ensures that all process environments have a PATH environment variable
(`EnsurePathIsSet`). -/
def EnsurePathIsSet (app : App_t) : App_t :=
  -- The default path depends on whether the application is sandboxed or not.
  let defaultPath := "/usr/local/bin:/usr/bin:/bin"
  let defaultPath :=
    if app.isSandboxed = false then
      "/legato/systems/current/apps/" ++ app.name ++ "/read-only/bin:" ++ defaultPath
    else defaultPath
  -- Check all process environments and add the default PATH to any that don't have a PATH
  -- environment variable set already.
  { app with
    processEnvs := app.processEnvs.map fun procEnvPtr =>
      let pathSpecified := procEnvPtr.envVars.any fun pair => pair.1 = "PATH"
      if !pathSpecified then
        { procEnvPtr with envVars := procEnvPtr.envVars.assign "PATH" defaultPath }
      else procEnvPtr }

/-- The state of `GetApp` during its pass over the sections: its local variables,
which are the app under construction and the lists of things that are modelled near
the end, and the process environment variables as the calls so far have left
them. -/
structure GetApp.Locals where
  app : App_t
  processesSections : List CompoundItem_t
  bindingsSections : List CompoundItem_t
  externApiInterfaces : List (Option TokenList_t)
  env : std.map String

/-- The outcome, in the local variables of `GetApp`, of a handler that works on the
app alone. -/
def GetApp.onApp (locals : GetApp.Locals) :
    Except (mk.Exception_t × App_t) App_t → Except (mk.Exception_t × GetApp.Locals) GetApp.Locals
  | .ok app => .ok { locals with app := app }
  | .error (e, app) => .error (e, { locals with app := app })

/-- The outcome, in the state of `GetApp`, of a handler that works on the app and
calls the component modeller. -/
def GetApp.onAppAndEnv (locals : GetApp.Locals) :
    Except (mk.Exception_t × App_t × std.map String) App_t →
    Except (mk.Exception_t × GetApp.Locals) GetApp.Locals
  | .ok app => .ok { locals with app := app }
  | .error (e, app, env) => .error (e, { locals with app := app, env := env })

/-- The outcome, in the local variables of `GetApp`, of a handler that works on the
app and on the list of extern API interfaces. -/
def GetApp.onAppAndInterfaces (locals : GetApp.Locals) :
    Except (mk.Exception_t × App_t × List (Option TokenList_t))
      (App_t × List (Option TokenList_t)) →
    Except (mk.Exception_t × GetApp.Locals) GetApp.Locals
  | .ok (app, interfaces) => .ok { locals with app := app, externApiInterfaces := interfaces }
  | .error (e, app, interfaces) =>
    .error (e, { locals with app := app, externApiInterfaces := interfaces })

/-- The outcome, in the local variables of `GetApp`, of assigning to a field of the
app the value of a simple section, obtained by the extractor `get`. -/
def GetApp.assign {α : Type} (locals : GetApp.Locals) (sectionPtr : CompoundItem_t)
    (get : TokenList_t → Except mk.Exception_t α) (set : App_t → α → App_t) :
    Except (mk.Exception_t × GetApp.Locals) GetApp.Locals :=
  match ToSimpleSectionPtr sectionPtr with
  | .error e => .error (e, locals)
  | .ok s =>
    match get s with
    | .error e => .error (e, locals)
    | .ok v => .ok { locals with app := set locals.app v }

/-- The body of the loop of `GetApp` over the sections of the definition file: the
handling of one section, chosen by its name.  The handlers read the process
environment variables `env`, which are as `GetApp` has set them as long as no call
has thrown. -/
def GetApp.section (X : Collaborators) (buildParams : mk.BuildParams_t)
    (env : std.map String) (locals : GetApp.Locals) (sectionPtr : CompoundItem_t) :
    Except (mk.Exception_t × GetApp.Locals) GetApp.Locals :=
  let sectionName := sectionPtr.firstTokenPtr.text
  let app := locals.app
  if sectionName = "bindings" then
    -- Remember for later, when we know all interfaces have been instantiated in all
    -- executables.
    .ok { locals with bindingsSections := locals.bindingsSections ++ [sectionPtr] }
  else if sectionName = "bundles" then
    GetApp.onApp locals (AddBundledItems X app sectionPtr)
  else if sectionName = "components" then
    match ToTokenListSectionPtr sectionPtr with
    | .error e => .error (e, locals)
    | .ok s => GetApp.onAppAndEnv locals (AddComponents X env app s buildParams)
  else if sectionName = "cpuShare" then
    GetApp.assign locals sectionPtr X.GetPositiveInt
      fun app v => { app with cpuShare := app.cpuShare.set v }
  else if sectionName = "executables" then
    GetApp.onAppAndEnv locals (AddExecutables X env app sectionPtr buildParams)
  else if sectionName = "extern" then
    match ToComplexSectionPtr sectionPtr with
    | .error e => .error (e, locals)
    | .ok s =>
      .ok { locals with
        externApiInterfaces := AddExternApiInterfaces locals.externApiInterfaces s }
  else if sectionName = "groups" then
    match ToTokenListSectionPtr sectionPtr with
    | .error e => .error (e, locals)
    | .ok s => GetApp.onApp locals (X.AddGroups app s)
  else if sectionName = "maxFileSystemBytes" then
    GetApp.assign locals sectionPtr X.GetNonNegativeInt
      fun app v => { app with maxFileSystemBytes := app.maxFileSystemBytes.set v }
  else if sectionName = "maxMemoryBytes" then
    GetApp.assign locals sectionPtr X.GetPositiveInt
      fun app v => { app with maxMemoryBytes := app.maxMemoryBytes.set v }
  else if sectionName = "maxMQueueBytes" then
    GetApp.assign locals sectionPtr X.GetNonNegativeInt
      fun app v => { app with maxMQueueBytes := app.maxMQueueBytes.set v }
  else if sectionName = "maxQueuedSignals" then
    GetApp.assign locals sectionPtr X.GetNonNegativeInt
      fun app v => { app with maxQueuedSignals := app.maxQueuedSignals.set v }
  else if sectionName = "maxThreads" then
    GetApp.assign locals sectionPtr X.GetPositiveInt
      fun app v => { app with maxThreads := app.maxThreads.set v }
  else if sectionName = "maxSecureStorageBytes" then
    GetApp.assign locals sectionPtr X.GetNonNegativeInt
      fun app v => { app with maxSecureStorageBytes := app.maxSecureStorageBytes.set v }
  else if sectionName = "processes" then
    .ok { locals with processesSections := locals.processesSections ++ [sectionPtr] }
  else if sectionName = "provides" then
    GetApp.onAppAndInterfaces locals
      (AddProvidedItems (app, locals.externApiInterfaces) sectionPtr)
  else if sectionName = "requires" then
    GetApp.onAppAndInterfaces locals
      (AddRequiredItems X (app, locals.externApiInterfaces) sectionPtr)
  else if sectionName = "sandboxed" then
    GetApp.assign locals sectionPtr (fun s => .ok s.Text)
      fun app text => { app with isSandboxed := decide (text ≠ "false") }
  else if sectionName = "start" then
    match ToSimpleSectionPtr sectionPtr with
    | .error e => .error (e, locals)
    | .ok s => GetApp.onApp locals (X.SetStart app s)
  else if sectionName = "version" then
    match ToSimpleSectionPtr sectionPtr with
    | .error e => .error (e, locals)
    | .ok s =>
      -- Get the label
      let app := { app with version := s.Text }
      -- Check whether it could be an environment variable
      if app.version.data.head? = some '$' then
        -- If confirmed, process the label
        match X.DoSubstitution env app.version with
        | .error e => .error (e, { locals with app := app })
        | .ok version => .ok { locals with app := { app with version := version } }
      else .ok { locals with app := app }
  else if sectionName = "watchdogAction" then
    match ToSimpleSectionPtr sectionPtr with
    | .error e => .error (e, locals)
    | .ok s => GetApp.onApp locals (X.SetWatchdogAction app s)
  else if sectionName = "watchdogTimeout" then
    match ToSimpleSectionPtr sectionPtr with
    | .error e => .error (e, locals)
    | .ok s => GetApp.onApp locals (X.SetWatchdogTimeout app s)
  else
    .error (sectionPtr.ThrowException
      ("Internal error: Unrecognized section '" ++ sectionName ++ "'."), locals)

/-- The pass of `GetApp` over the sections of the definition file, from a new app
and empty lists. -/
def GetApp.mainPass (X : Collaborators) (buildParams : mk.BuildParams_t)
    (env : std.map String) (adefFilePtr : AdefFile_t) :
    Except (mk.Exception_t × GetApp.Locals) GetApp.Locals :=
  adefFilePtr.sections.foldlM (GetApp.section X buildParams env)
    { app := X.newApp adefFilePtr, processesSections := [], bindingsSections := [],
      externApiInterfaces := [], env := env }

/-- What `GetApp` does after its pass over the sections: the process environments,
then the extern API interfaces, then the bindings, then the PATH variables. -/
def GetApp.finish (X : Collaborators) (env : std.map String) (locals : GetApp.Locals) :
    Except (mk.Exception_t × App_t) App_t := do
  -- Model all process environments and processes.
  let app ← AddProcessesSections X env locals.app locals.processesSections
  -- Process IPC API externs.  This must be done after all components and executables
  -- have been modelled.
  let app ← MakeInterfacesExternal app locals.externApiInterfaces
  -- Process bindings.  This must be done after all the components and executables have
  -- been modelled and all the external API interfaces have been processed.
  let app ← AddBindings.sections app locals.bindingsSections
  -- Ensure that all processes have a PATH environment variable.
  pure (EnsurePathIsSet app)

/-- Gets the conceptual model of the application whose definition file is at
`adefPath` (`GetApp`).  The result is the app, or the exception thrown, together
with the state of the process as the call leaves it: the process environment
variables, which after a throw from the pass over the sections are as that throw
left them, and the standard error stream.  No statement of `GetApp` writes to the
standard error stream, and none of the routines of the source file that it calls
does: the stream is what it was before the call. -/
def GetApp (X : Collaborators) (adefPath : String) (buildParams : mk.BuildParams_t)
    (env : std.map String) (stderr : List String) :
    Except mk.Exception_t App_t × std.map String × List String :=
  -- Save the old CURDIR environment variable value and set it to the dir containing
  -- this file.
  let oldDir := envVars.Get env "CURDIR"
  let env := envVars.Set env "CURDIR" (X.GetContainingDir adefPath)
  -- Parse the .adef file.
  match X.Parse adefPath buildParams.beVerbose with
  | .error e => (.error e, env, stderr)
  | .ok adefFilePtr =>
    -- Iterate over the .adef file's list of sections, processing content items.
    match GetApp.mainPass X buildParams env adefFilePtr with
    | .error (e, locals) => (.error e, locals.env, stderr)
    | .ok locals =>
      match GetApp.finish X locals.env locals with
      | .error (e, _) => (.error e, locals.env, stderr)
      | .ok app =>
        -- Restore the previous contents of the CURDIR environment variable.
        (.ok app, envVars.Set locals.env "CURDIR" oldDir, stderr)

end modeller

namespace modeller

open parseTree model

/-- The items of a section of extern API interfaces as `AddExternApiInterfaces` puts
them in the queue: each item cast to `ExternApiInterface_t`. -/
def GetApp.candidatesOfItems (sectionContents : List CompoundItem_t) :
    List (Option TokenList_t) :=
  sectionContents.map fun itemPtr => itemPtr.dynamicCast .EXTERN_API_INTERFACE

/-- The extern candidates that one top-level section contributes to the queue: the
items of an "extern" section, and the items of the "api" subsections of a
"provides" or "requires" section; no other section contributes any. -/
def GetApp.candidatesOfSection (sectionPtr : CompoundItem_t) : List (Option TokenList_t) :=
  let sectionName := sectionPtr.firstTokenPtr.text
  if sectionName = "extern" then
    match ToComplexSectionPtr sectionPtr with
    | .ok items => GetApp.candidatesOfItems items
    | .error _ => []
  else if sectionName = "provides" ∨ sectionName = "requires" then
    match ToCompoundItemListPtr sectionPtr with
    | .ok subsections =>
      subsections.flatMap fun subsectionPtr =>
        if subsectionPtr.firstTokenPtr.text = "api" then
          match ToComplexSectionPtr subsectionPtr with
          | .ok items => GetApp.candidatesOfItems items
          | .error _ => []
        else []
    | .error _ => []
  else []

/-- The extern candidates of a definition file: what its sections contribute, in
file order. -/
def GetApp.externCandidates (sections : List CompoundItem_t) : List (Option TokenList_t) :=
  sections.flatMap GetApp.candidatesOfSection

end modeller

/-! ## A small application used to evaluate the model on concrete inputs

Executable `exeA` holds an instance of component `compA`, with the client-side
interface `ifX` (client instance 0), and an instance of component `compB`, with
the server-side interface `ifY` (server instance 0). -/

namespace fixture

open parseTree model

/-- A token of the given kind and text, at line `line` of `app.adef`. -/
def tok (type : Token_t.Type_t) (text : String) (line : Nat) : Token_t :=
  { type := type, text := text, location := "app.adef:" ++ toString line }

/-- A NAME token. -/
def name (text : String) (line : Nat) : Token_t :=
  tok .NAME text line

/-- The client-side interface instance `exeA.compA.ifX`. -/
def ifX : ApiClientInterfaceInstance_t :=
  { name := "exeA.compA.ifX", externMarkPtr := none,
    ifPtr := { internalName := "ifX", apiFilePath := "x.api" }, bindingPtr := none }

/-- The server-side interface instance `exeA.compB.ifY`. -/
def ifY : ApiServerInterfaceInstance_t :=
  { name := "exeA.compB.ifY", externMarkPtr := none,
    ifPtr := { internalName := "ifY", apiFilePath := "y.api" } }

/-- Component `compA`: one client-side interface, `ifX`. -/
def compA : Component_t :=
  { address := 1, name := "compA", dir := "/src/compA", hasCOrCppCode := true,
    hasJavaCode := false,
    clientApis := [ifX.ifPtr], serverApis := [] }

/-- Component `compB`: one server-side interface, `ifY`. -/
def compB : Component_t :=
  { address := 2, name := "compB", dir := "/src/compB", hasCOrCppCode := true,
    hasJavaCode := false,
    clientApis := [], serverApis := [ifY.ifPtr] }

/-- Executable `exeA`, with one instance of `compA` and one of `compB`. -/
def exeA : Exe_t :=
  { name := "exeA", path := "staging/read-only/bin/exeA",
    componentInstances :=
      [{ componentPtr := compA, clientApis := [0], serverApis := [] },
       { componentPtr := compB, clientApis := [], serverApis := [0] }],
    hasCOrCppCode := true, hasJavaCode := false,
    exeDefPtr :=
      { type := .EXECUTABLE, firstTokenPtr := name "exeA" 2,
        contents := [name "compA" 2, name "compB" 2] } }

/-- The app `foo` after the main pass: executable `exeA`, nothing external,
nothing bound. -/
def app : App_t :=
  { name := "foo", dir := "/apps/foo", version := "", isSandboxed := true,
    startTrigger := .AUTO, components := [compA, compB],
    executables := [("exeA", exeA)],
    bundledFiles := [], bundledDirs := [], requiredFiles := [], requiredDirs := [],
    requiredDevices := [], configTrees := [], groups := [],
    cpuShare := { isSet := false, value := 1024 },
    maxFileSystemBytes := { isSet := false, value := 131072 },
    maxMemoryBytes := { isSet := false, value := 40960000 },
    maxMQueueBytes := { isSet := false, value := 512 },
    maxQueuedSignals := { isSet := false, value := 100 },
    maxThreads := { isSet := false, value := 20 },
    maxSecureStorageBytes := { isSet := false, value := 8192 },
    watchdogAction := { isSet := false, value := "" },
    watchdogTimeout := { isSet := false, value := 0 },
    processEnvs := [], wildcardBindings := [],
    externClientInterfaces := [], externServerInterfaces := [],
    clientIfInstances := fun _ => ifX,
    serverIfInstances := fun _ => ifY }

/-- A token list of class `type` with the given content tokens. -/
def tokens (type : Content_t.Type_t) (contents : List Token_t) : TokenList_t :=
  { type := type, firstTokenPtr := tokenAt contents 0, contents := contents }

/-- The binding specification `exeA.compA.ifX -> exeA.compB.ifY`. -/
def bindInternal : TokenList_t :=
  tokens .BINDING
    [name "exeA" 10, name "compA" 10, name "ifX" 10,
     name "exeA" 10, name "compB" 10, name "ifY" 10]

/-- The binding specification `exeA.compA.ifX -> <user1>.ifY`. -/
def bindUser : TokenList_t :=
  tokens .BINDING
    [name "exeA" 11, name "compA" 11, name "ifX" 11, tok .IPC_AGENT "<user1>" 11, name "ifY" 11]

/-- The binding specification `exeA.compA.ifX -> appB.ifY`. -/
def bindApp : TokenList_t :=
  tokens .BINDING
    [name "exeA" 12, name "compA" 12, name "ifX" 12, tok .IPC_AGENT "appB" 12, name "ifY" 12]

/-- The binding specification `exeA.compA.ifX -> exeZ.compB.ifY`, whose server side
names an executable the app does not have. -/
def bindUnresolved : TokenList_t :=
  tokens .BINDING
    [name "exeA" 13, name "compA" 13, name "ifX" 13,
     name "exeZ" 13, name "compB" 13, name "ifY" 13]

/-- The wildcard binding specification `*.ifX -> appB.ifY`. -/
def bindWildcard : TokenList_t :=
  tokens .BINDING [tok .STAR "*" 14, name "ifX" 14, tok .IPC_AGENT "appB" 14, name "ifY" 14]

/-- The wildcard binding specification `*.ifX -> exeZ.compB.ifY`, whose server side
names an executable the app does not have. -/
def bindWildcardUnresolved : TokenList_t :=
  tokens .BINDING
    [tok .STAR "*" 15, name "ifX" 15, name "exeZ" 15, name "compB" 15, name "ifY" 15]

/-- The extern candidate `ifY = exeA.compB.ifY` written without an external name
(three tokens). -/
def externY : TokenList_t :=
  tokens .EXTERN_API_INTERFACE [name "exeA" 20, name "compB" 20, name "ifY" 20]

/-- The extern candidate `pub = exeA.compB.ifY` (four tokens). -/
def externPubY : TokenList_t :=
  tokens .EXTERN_API_INTERFACE [name "pub" 21, name "exeA" 21, name "compB" 21, name "ifY" 21]

/-- The app `foo` with `exeA.compA.ifX` already bound to `appB.ifY`. -/
def appBound : App_t :=
  modeller.stateAfter (modeller.AddBindings.item app bindApp)

/-- The app `foo` with the wildcard binding `*.ifX -> appB.ifY` already
recorded. -/
def appWildcard : App_t :=
  modeller.stateAfter (modeller.AddBindings.item app bindWildcard)

/-- The app `foo` with `exeA.compB.ifY` already made external under its own name
`ifY`. -/
def appExternY : App_t :=
  modeller.stateAfter (modeller.MakeInterfacesExternal.item app (some externY))

end fixture

/-! ## A definition file and collaborators used to evaluate `GetApp` -/

namespace fixture

open parseTree model modeller

/-- The number of client-side interface instances of a list of executables. -/
def clientCount (exes : List Exe_t) : Nat :=
  (exes.map fun e => (e.componentInstances.map fun ci => ci.clientApis.length).sum).sum

/-- The number of server-side interface instances of a list of executables. -/
def serverCount (exes : List Exe_t) : Nat :=
  (exes.map fun e => (e.componentInstances.map fun ci => ci.serverApis.length).sum).sum

/-- A simple `AddComponentInstance`: one new interface instance per interface the
component declares, named `exe.component.interface`, at the next free pointers of
the two stores. -/
def addComponentInstance (app : App_t) (exe : Exe_t) (comp : Component_t) : App_t × Exe_t :=
  let exes := app.executables.map Prod.snd ++ [exe]
  let clientBase := clientCount exes
  let serverBase := serverCount exes
  let clientPtrs := (List.range comp.clientApis.length).map fun i => clientBase + i
  let serverPtrs := (List.range comp.serverApis.length).map fun i => serverBase + i
  let named (decl : ApiInterface_t) : ApiInterfaceInstance_t :=
    { name := exe.name ++ "." ++ comp.name ++ "." ++ decl.internalName, externMarkPtr := none }
  let clients := (comp.clientApis.zip clientPtrs).foldl
    (fun store (d : ApiInterface_t × Nat) =>
      Function.update store d.2
        { toApiInterfaceInstance_t := named d.1, ifPtr := d.1, bindingPtr := none })
    app.clientIfInstances
  let servers := (comp.serverApis.zip serverPtrs).foldl
    (fun store (d : ApiInterface_t × Nat) =>
      Function.update store d.2 { toApiInterfaceInstance_t := named d.1, ifPtr := d.1 })
    app.serverIfInstances
  ({ app with clientIfInstances := clients, serverIfInstances := servers },
   { exe with
     componentInstances := exe.componentInstances ++
       [{ componentPtr := comp, clientApis := clientPtrs, serverApis := serverPtrs }]
     hasCOrCppCode := exe.hasCOrCppCode || comp.hasCOrCppCode
     hasJavaCode := exe.hasJavaCode || comp.hasJavaCode })

/-- The app `foo` as its constructor leaves it: nothing in it yet. -/
def newApp : App_t :=
  { app with
    components := [], executables := []
    clientIfInstances := fun _ =>
      { name := "", externMarkPtr := none, ifPtr := { internalName := "", apiFilePath := "" },
        bindingPtr := none }
    serverIfInstances := fun _ =>
      { name := "", externMarkPtr := none, ifPtr := { internalName := "", apiFilePath := "" } } }

/-- A process environment as its constructor leaves it. -/
def newProcessEnv : ProcessEnv_t :=
  { processes := [], envVars := [],
    faultAction := { isSet := false, value := "ignore" },
    startPriority := { isSet := false, value := "medium" },
    maxCoreDumpFileBytes := { isSet := false, value := 102400 },
    maxFileBytes := { isSet := false, value := 102400 },
    maxFileDescriptors := { isSet := false, value := 256 },
    maxLockedMemoryBytes := { isSet := false, value := 8192 },
    watchdogAction := { isSet := false, value := "" },
    watchdogTimeout := { isSet := false, value := 0 } }

/-- The definition file `foo.adef`: a bindings section
(`exeA.compA.ifX -> exeA.compB.ifY`), then the executables section
(`exeA = ( compA compB )`), then an extern section (`pub = exeA.compB.ifY`). -/
def adef : AdefFile_t :=
  { path := "/apps/foo.adef",
    sections :=
      [.itemList .COMPOUND_ITEM_LIST (name "bindings" 9) [.tokenList bindInternal],
       .itemList .COMPOUND_ITEM_LIST (name "executables" 1)
         [.tokenList
           { type := .EXECUTABLE, firstTokenPtr := name "exeA" 2,
             contents := [name "compA" 2, name "compB" 2] }],
       .itemList .COMPLEX_SECTION (name "extern" 19) [.tokenList externPubY]] }

/-- The definition file `late/foo.adef`: the sections of `foo.adef` with the
bindings section moved to the end. -/
def adefBindingsLast : AdefFile_t :=
  { path := "/apps/late/foo.adef",
    sections :=
      [.itemList .COMPOUND_ITEM_LIST (name "executables" 1)
         [.tokenList
           { type := .EXECUTABLE, firstTokenPtr := name "exeA" 2,
             contents := [name "compA" 2, name "compB" 2] }],
       .itemList .COMPLEX_SECTION (name "extern" 19) [.tokenList externPubY],
       .itemList .COMPOUND_ITEM_LIST (name "bindings" 9) [.tokenList bindInternal]] }

/-- The definition file `odd/foo.adef`: the executables section of `foo.adef`, then
a section of the name `frobnicate`, then the extern section of `foo.adef`. -/
def adefUnknown : AdefFile_t :=
  { path := "/apps/odd/foo.adef",
    sections :=
      [.itemList .COMPOUND_ITEM_LIST (name "executables" 1)
         [.tokenList
           { type := .EXECUTABLE, firstTokenPtr := name "exeA" 2,
             contents := [name "compA" 2, name "compB" 2] }],
       .itemList .COMPLEX_SECTION (name "frobnicate" 5) [],
       .itemList .COMPLEX_SECTION (name "extern" 19) [.tokenList externPubY]] }

/-- A small section of the given name, of the class that the handler of a section of
that name casts it to: a token-list section without tokens, a complex section
without members, or a simple section of value `1`. -/
def sampleSection (sectionName : String) : CompoundItem_t :=
  if sectionName ∈ ["components", "groups"] then
    .tokenList { type := .TOKEN_LIST_SECTION, firstTokenPtr := name sectionName 40, contents := [] }
  else if sectionName
      ∈ ["bindings", "bundles", "executables", "extern", "processes", "provides", "requires"] then
    .itemList .COMPLEX_SECTION (name sectionName 40) []
  else
    .tokenList
      { type := .SIMPLE_SECTION, firstTokenPtr := name sectionName 40, contents := [name "1" 40] }

/-- The definition file `limits/foo.adef`: a maxMemoryBytes section of value 1000,
then a processes section whose only subsection sets maxLockedMemoryBytes to
2000. -/
def adefLimits : AdefFile_t :=
  { path := "/apps/limits/foo.adef",
    sections :=
      [.tokenList
         { type := .SIMPLE_SECTION, firstTokenPtr := name "maxMemoryBytes" 59,
           contents := [name "1000" 59] },
       .itemList .COMPOUND_ITEM_LIST (name "processes" 60)
         [.tokenList
           { type := .SIMPLE_SECTION, firstTokenPtr := name "maxLockedMemoryBytes" 61,
             contents := [name "2000" 61] }]] }

/-- The definition file `sandboxed/foo.adef`: a processes section without
subsections, then a sandboxed section of text `no`, then a sandboxed section of text
`false`. -/
def adefSandboxed : AdefFile_t :=
  { path := "/apps/sandboxed/foo.adef",
    sections :=
      [.itemList .COMPOUND_ITEM_LIST (name "processes" 40) [],
       .tokenList
         { type := .SIMPLE_SECTION, firstTokenPtr := name "sandboxed" 41,
           contents := [name "no" 41] },
       .tokenList
         { type := .SIMPLE_SECTION, firstTokenPtr := name "sandboxed" 42,
           contents := [name "false" 42] }] }

/-- The number that a string of decimal digits denotes. -/
def readNat (digits : String) : Nat :=
  digits.data.foldl (fun n c => 10 * n + (c.toNat - '0'.toNat)) 0

/-- The definition files that the parser of the evaluation knows. -/
def files : List AdefFile_t :=
  [adef, adefBindingsLast, adefUnknown, adefLimits, adefSandboxed]

/-- Simple collaborators: a parser that yields the definition file of the given
path among `files`, a component modeller that knows `compA` and `compB`, a file
system in which every path is a regular file, and extractors that read the first
content token. -/
def collaborators : Collaborators :=
  { Parse := fun path _ =>
      match files.find? fun f => f.path == path with
      | some f => .ok f
      | none => .error { location := path, message := "File not found." }
    newApp := fun _ => newApp
    newExe := fun path _ _ =>
      { name := String.mk (path.data.drop 22), path := path, componentInstances := [],
        hasCOrCppCode := false, hasJavaCode := false, exeDefPtr := tokens .EXECUTABLE [] }
    newProcessEnv := newProcessEnv
    watchdogTimeoutOfName := fun _ => .ok (-1)
    GetContainingDir := fun _ => "/apps"
    IsAbsolute := fun p => p.data.head? = some '/'
    Combine := fun a b => a ++ "/" ++ b
    Unquote := fun s => s
    FileExists := fun _ => true
    DirectoryExists := fun _ => false
    AnythingExists := fun _ => true
    DoSubstitution := fun _ s => .ok s
    GetBundledItem := fun l =>
      .ok { srcPath := l.Text, destPath := l.Text,
            permissions := { readable := true, writeable := false, executable := false } }
    GetRequiredFileOrDir := fun l =>
      .ok { srcPath := l.Text, destPath := l.Text,
            permissions := { readable := true, writeable := false, executable := false } }
    GetRequiredDevice := fun l =>
      .ok { srcPath := l.Text, destPath := l.Text,
            permissions := { readable := true, writeable := false, executable := false } }
    GetPermissions := fun _ => .ok { readable := true, writeable := true, executable := false }
    GetInt := fun l => .ok (Int.ofNat (readNat l.Text))
    GetPositiveInt := fun l => .ok (readNat l.Text)
    GetNonNegativeInt := fun l => .ok (readNat l.Text)
    GetComponent := fun _ tokenPtr _ _ =>
      .ok ([compA, compB].find? fun c => c.name == tokenPtr.text)
    AddComponentInstance := addComponentInstance
    AddGroups := fun app l => .ok { app with groups := app.groups ++ l.contents.map (·.text) }
    SetStart := fun app l =>
      .ok { app with startTrigger := if l.Text = "manual" then .MANUAL else .AUTO }
    SetWatchdogAction := fun app l =>
      .ok { app with watchdogAction := app.watchdogAction.set l.Text }
    SetWatchdogTimeout := fun app l =>
      .ok { app with watchdogTimeout := app.watchdogTimeout.set (Int.ofNat (readNat l.Text)) } }

/-- The build parameters of the evaluation. -/
def buildParams : mk.BuildParams_t :=
  { beVerbose := false, workingDir := "/build" }

/-- Collaborators whose component modeller fails inside a nested build: every call
throws from the definition file of the component, and leaves CURDIR at the directory
of the component, which the nested build has set. -/
def collaboratorsNested : Collaborators :=
  { collaborators with
    GetComponent := fun env tokenPtr _ _ =>
      .error ({ location := "/components/" ++ tokenPtr.text ++ "/Component.cdef:1",
                message := "Unexpected token." },
              envVars.Set env "CURDIR" ("/components/" ++ tokenPtr.text)) }

/-- The app `GetApp` builds from `foo.adef`. -/
def builtApp : App_t :=
  match (GetApp collaborators "/apps/foo.adef" buildParams [] []).1 with
  | .ok a => a
  | .error _ => newApp

/-- The app `GetApp` builds from `limits/foo.adef`. -/
def builtLimits : App_t :=
  match (GetApp collaborators "/apps/limits/foo.adef" buildParams [] []).1 with
  | .ok a => a
  | .error _ => newApp

/-- The app `GetApp` builds from `sandboxed/foo.adef`. -/
def builtSandboxed : App_t :=
  match (GetApp collaborators "/apps/sandboxed/foo.adef" buildParams [] []).1 with
  | .ok a => a
  | .error _ => newApp

/-- The app `foo` with maxMemoryBytes set to 1000 and three process environments:
one with maxLockedMemoryBytes 2000, one with maxLockedMemoryBytes 1000, and one with
maxCoreDumpFileBytes 200000, which is more than its maxFileBytes (102400) and than
the maxFileSystemBytes of the app (131072). -/
def appLimits : App_t :=
  { app with
    maxMemoryBytes := { isSet := true, value := 1000 }
    processEnvs :=
      [{ newProcessEnv with maxLockedMemoryBytes := { isSet := true, value := 2000 } },
       { newProcessEnv with maxLockedMemoryBytes := { isSet := true, value := 1000 } },
       { newProcessEnv with
         maxLockedMemoryBytes := { isSet := true, value := 1000 }
         maxCoreDumpFileBytes := { isSet := true, value := 200000 } }] }

end fixture

/-! ## A definition file with several sources of extern candidates, and an app with
process environments -/

namespace fixture

open parseTree model

/-- An extern candidate `text = exeA.compB.ifY`. -/
def cand (text : String) : TokenList_t :=
  tokens .EXTERN_API_INTERFACE
    [name text 50, name "exeA" 50, name "compB" 50, name "ifY" 50]

/-- A definition file with, in this order: an extern section with the candidate `a`,
a requires section whose api subsection has the candidates `b` and `c`, a cpuShare
section, a provides section whose api subsection has the candidate `d`, and an
extern section with the candidate `e`. -/
def adefExterns : AdefFile_t :=
  { path := "/apps/externs/foo.adef",
    sections :=
      [.itemList .COMPLEX_SECTION (name "extern" 51) [.tokenList (cand "a")],
       .itemList .COMPOUND_ITEM_LIST (name "requires" 52)
         [.itemList .COMPLEX_SECTION (name "api" 53)
           [.tokenList (cand "b"), .tokenList (cand "c")]],
       .tokenList
         { type := .SIMPLE_SECTION, firstTokenPtr := name "cpuShare" 54,
           contents := [name "512" 54] },
       .itemList .COMPOUND_ITEM_LIST (name "provides" 55)
         [.itemList .COMPLEX_SECTION (name "api" 56) [.tokenList (cand "d")]],
       .itemList .COMPLEX_SECTION (name "extern" 57) [.tokenList (cand "e")]] }

/-- A process environment with the variables `PATH` and `HOME`. -/
def procEnvWithPath : ProcessEnv_t :=
  { newProcessEnv with envVars := [("PATH", "/opt/bin"), ("HOME", "/home/foo")] }

/-- The app `foo`, not sandboxed, with two process environments: one without
variables, and one with the variables `PATH` and `HOME`. -/
def appWithEnvs : App_t :=
  { app with
    isSandboxed := false
    processEnvs := [newProcessEnv, procEnvWithPath] }

end fixture

/-! ## Notions used to state the properties of extern resolution -/

namespace model

/-- The interface declaration that the instance `ptr` is an instance of
(`ifPtr`). -/
def App_t.ifDeclaration (app : App_t) : ApiInterfaceInstancePtr → ApiInterface_t
  | .client p => (app.clientIfInstances p).ifPtr
  | .server p => (app.serverIfInstances p).ifPtr

end model

namespace modeller

open parseTree model

/-- The instance `ptr` is the entry under `key` of the map of external interfaces of
its side: the extern-client map for a client-side instance, the extern-server map
for a server-side one. -/
def registeredExternal (app : App_t) (key : String) : ApiInterfaceInstancePtr → Prop
  | .client c => app.externClientInterfaces.find key = some c
  | .server s => app.externServerInterfaces.find key = some s

/-- Every entry of the two maps of external interfaces of `a` is an entry of those
of `b`. -/
def externMapsKeep (a b : App_t) : Prop :=
  ∀ key ptr, registeredExternal a key ptr → registeredExternal b key ptr

end modeller

/-! ## The outcome of a step as `GetApp` acts on it -/

namespace modeller

/-- What `GetApp` sees of a step of its pass that can throw: the value of the step,
or the exception with the process environment variables as the throw leaves them,
without the local variables at the throw. -/
def GetApp.outcome {α : Type} :
    Except (mk.Exception_t × GetApp.Locals) α → Except (mk.Exception_t × std.map String) α
  | .ok v => .ok v
  | .error (e, locals) => .error (e, locals.env)

end modeller

/-! ## The name of the configuration tree of a specification -/

namespace modeller

open parseTree model

/-- The token of a configuration-tree specification that names the tree
(`treeNameTokenPtr` in `AddConfigTree`): the second content token when the first one
gives the permissions, the first content token otherwise. -/
def AddConfigTree.treeNameTokenPtr (specPtr : TokenList_t) : Token_t :=
  if (tokenAt specPtr.Contents 0).type = .FILE_PERMISSIONS then tokenAt specPtr.Contents 1
  else tokenAt specPtr.Contents 0

/-- The name of the configuration tree of a specification (`fileName` in
`AddConfigTree`): the name of the app when the tree is given as a dot, the text of
the naming token otherwise. -/
def AddConfigTree.fileName (app : App_t) (specPtr : TokenList_t) : String :=
  if (AddConfigTree.treeNameTokenPtr specPtr).type = .DOT then app.name
  else (AddConfigTree.treeNameTokenPtr specPtr).text

end modeller

namespace fixture

open parseTree model

/-- The app `foo` with read access to its own configuration tree. -/
def appWithTree : App_t :=
  { app with
    configTrees := [("foo", { readable := true, writeable := false, executable := false })] }

/-- The configuration-tree specification `.` (read access to the tree of the
app). -/
def treeDot : TokenList_t :=
  tokens .REQUIRED_CONFIG_TREE [tok .DOT "." 30]

end fixture

/-! ## Executables used to evaluate `AddExecutable` -/

namespace fixture

open parseTree model

/-- The executable `tool`, freshly created from the specification `tool = ( )`: no
component instance, neither kind of code. -/
def exeEmpty : Exe_t :=
  { name := "tool", path := "staging/read-only/bin/tool", componentInstances := [],
    hasCOrCppCode := false, hasJavaCode := false,
    exeDefPtr := { type := .EXECUTABLE, firstTokenPtr := name "tool" 3, contents := [] } }

/-- The specification `ghostExe = ( ghost )` of an executable, whose only component
is one that the component modeller skips. -/
def ghostExeSpec : TokenList_t :=
  { type := .EXECUTABLE, firstTokenPtr := name "ghostExe" 4, contents := [name "ghost" 4] }

/-- A second component object with the fields of `compA`, at another address. -/
def compATwin : Component_t :=
  { compA with address := 7 }

/-- The executable `twins`, with three component instances: one of `compA`, one of
the component `compATwin`, and a second one of `compA`. -/
def exeTwins : Exe_t :=
  { name := "twins", path := "staging/read-only/bin/twins",
    componentInstances :=
      [{ componentPtr := compA, clientApis := [0], serverApis := [] },
       { componentPtr := compATwin, clientApis := [1], serverApis := [] },
       { componentPtr := compA, clientApis := [2], serverApis := [] }],
    hasCOrCppCode := true, hasJavaCode := false,
    exeDefPtr :=
      { type := .EXECUTABLE, firstTokenPtr := name "twins" 7,
        contents := [name "compA" 7, name "compATwin" 7, name "compA" 7] } }

end fixture

/-! ## Collaborators that leave the map of executables alone -/

namespace modeller

open parseTree model

/-- The app that the constructor yields has no executable, and the collaborators
that work on the app (`AddComponentInstance`, `AddGroups`, `SetStart`,
`SetWatchdogAction`, `SetWatchdogTimeout`) leave its map of executables as it is:
the map of executables is filled by `AddExecutable` alone. -/
def Collaborators.keepExecutables (X : Collaborators) : Prop :=
  (∀ adefFilePtr, (X.newApp adefFilePtr).executables = [])
  ∧ (∀ app exe comp, (X.AddComponentInstance app exe comp).1.executables = app.executables)
  ∧ (∀ app s app1, X.AddGroups app s = .ok app1 → app1.executables = app.executables)
  ∧ (∀ app s app1, X.SetStart app s = .ok app1 → app1.executables = app.executables)
  ∧ (∀ app s app1, X.SetWatchdogAction app s = .ok app1 → app1.executables = app.executables)
  ∧ (∀ app s app1, X.SetWatchdogTimeout app s = .ok app1 → app1.executables = app.executables)

end modeller

/-! ## Bundled items used to evaluate `AddBundledItems` -/

namespace fixture

open parseTree model

/-- The item `data/table.csv` of a "file" or "dir" subsection of a bundles section:
its source path is relative. -/
def bundledItem : CompoundItem_t :=
  .tokenList (tokens .BUNDLED_FILE [name "data/table.csv" 70])

end fixture

/-! ## The extractors of required items, after the spec -/

namespace modeller

open parseTree model

end modeller

namespace fixture

open parseTree model modeller

end fixture

/-! ## The process that a run item asks for -/

namespace modeller

open parseTree model

/-- The process that the claim about `AddProcesses` describes for a run item: for an
item that does not start with an open parenthesis and has the content tokens
`[n, p, a1 .. ak]`, the process named by `n`, of executable `Unquote(p)` and
arguments `Unquote(a1) .. Unquote(ak)`; for an item that starts with an open
parenthesis and has the content tokens `[p, a1 .. ak]`, the process named by the
text of `p`, of executable `Unquote(p)` and the same arguments; none for an item of
another shape. -/
def describedProcess (X : Collaborators) (processSpecPtr : TokenList_t) : Option Process_t :=
  match decide (processSpecPtr.firstTokenPtr.type = .OPEN_PARENTHESIS),
      processSpecPtr.Contents with
  | false, n :: p :: args =>
    some { name := n.text, exePath := X.Unquote p.text,
           commandLineArgs := args.map fun a => X.Unquote a.text }
  | true, p :: args =>
    some { name := p.text, exePath := X.Unquote p.text,
           commandLineArgs := args.map fun a => X.Unquote a.text }
  | _, _ => none

end modeller

namespace fixture

open parseTree model

/-- The run item `web = ( "/bin/httpd" -p 80 )`: it starts with the name. -/
def runNamed : TokenList_t :=
  { type := .RUN_PROCESS, firstTokenPtr := name "web" 90,
    contents := [name "web" 90, name "/bin/httpd" 90, name "-p" 90, name "80" 90] }

/-- The run item `( "/bin/logger" -v )`: it starts with the parenthesis. -/
def runUnnamed : TokenList_t :=
  { type := .RUN_PROCESS, firstTokenPtr := tok .OPEN_PARENTHESIS "(" 91,
    contents := [name "/bin/logger" 91, name "-v" 91] }

end fixture

/-! ## The default platform adaptor of the positioning service -/

namespace pa_gnss

/-- The result codes that `pa_gnss_default.c` names (`le_result_t`).  The type is
declared in a header that is not among the sources; its values are distinct. -/
inductive le_result_t where
  | LE_OK
  | LE_BAD_PARAMETER
  | LE_BUSY
  | LE_FAULT
  | LE_FORMAT_ERROR
  | LE_TIMEOUT
  | LE_UNSUPPORTED
deriving DecidableEq, Repr

/-- Gets the TTFF in milliseconds (`pa_gnss_GetTtff` of the default platform
adaptor).  The state is the word that `ttffPtr` points to and the log, to which
`LE_ERROR` adds a line; the result comes with the state after the call. -/
def pa_gnss_GetTtff (ttff : Nat) (log : List String) : le_result_t × Nat × List String :=
  let log := log ++ ["Unsupported function called"]
  (.LE_FAULT, ttff, log)

end pa_gnss

/-! ## Collaborators that leave the list of process environments alone -/

namespace modeller

open parseTree model

/-- The app that the constructor yields has no process environment, and the
collaborators that work on the app (`AddComponentInstance`, `AddGroups`, `SetStart`,
`SetWatchdogAction`, `SetWatchdogTimeout`) leave its list of process environments
as it is: the list is filled by `AddProcessesSection` alone. -/
def Collaborators.keepProcessEnvs (X : Collaborators) : Prop :=
  (∀ adefFilePtr, (X.newApp adefFilePtr).processEnvs = [])
  ∧ (∀ app exe comp, (X.AddComponentInstance app exe comp).1.processEnvs = app.processEnvs)
  ∧ (∀ app s app1, X.AddGroups app s = .ok app1 → app1.processEnvs = app.processEnvs)
  ∧ (∀ app s app1, X.SetStart app s = .ok app1 → app1.processEnvs = app.processEnvs)
  ∧ (∀ app s app1, X.SetWatchdogAction app s = .ok app1 → app1.processEnvs = app.processEnvs)
  ∧ (∀ app s app1, X.SetWatchdogTimeout app s = .ok app1 → app1.processEnvs = app.processEnvs)

end modeller

/-! ## The vocabulary of section names -/

namespace modeller

/-- The section names that the pass of `GetApp` over the sections compares the name
of a section with, in the order of the comparisons. -/
def GetApp.vocabulary : List String :=
  ["bindings", "bundles", "components", "cpuShare", "executables", "extern", "groups",
   "maxFileSystemBytes", "maxMemoryBytes", "maxMQueueBytes", "maxQueuedSignals",
   "maxThreads", "maxSecureStorageBytes", "processes", "provides", "requires",
   "sandboxed", "start", "version", "watchdogAction", "watchdogTimeout"]

end modeller

/-! ## The check of the limits of an app -/

namespace modeller

open parseTree model

/-- Prints a warning message to the standard error stream for a given app
(`PrintWarning`).  The stream is the list of the lines written to it. -/
def PrintWarning (app : App_t) (warning : String) (stderr : List String) : List String :=
  stderr ++ ["** WARNING: application " ++ app.name ++ ": " ++ warning]

/-- One turn of the loop of `CheckForLimitsConflicts`, for one process environment;
`maxMemoryBytes` and `maxFileSystemBytes` are the two limits of the app, read before
the loop.  The state is the app with the standard error stream. -/
def CheckForLimitsConflicts.procEnv (maxMemoryBytes maxFileSystemBytes : Nat)
    (st : App_t × List String) (procEnvPtr : ProcessEnv_t) :
    Except (mk.Exception_t × App_t × List String) (App_t × List String) := do
  let app := st.1
  let stderr := st.2
  let maxLockedMemoryBytes := procEnvPtr.maxLockedMemoryBytes.Get
  let stderr :=
    if maxLockedMemoryBytes > maxMemoryBytes then
      PrintWarning app
        ("maxLockedMemoryBytes (" ++ toString maxLockedMemoryBytes
          ++ ") will be limited by the maxMemoryBytes limit (" ++ toString maxMemoryBytes
          ++ ").")
        stderr
    else stderr
  let maxFileBytes := procEnvPtr.maxFileBytes.Get
  let maxCoreDumpFileBytes := procEnvPtr.maxCoreDumpFileBytes.Get
  let stderr :=
    if maxCoreDumpFileBytes > maxFileBytes then
      PrintWarning app
        ("maxCoreDumpFileBytes (" ++ toString maxCoreDumpFileBytes
          ++ ") will be limited by the maxFileBytes limit (" ++ toString maxFileBytes ++ ").")
        stderr
    else stderr
  let stderr :=
    if maxCoreDumpFileBytes > maxFileSystemBytes then
      PrintWarning app
        ("maxCoreDumpFileBytes (" ++ toString maxCoreDumpFileBytes
          ++ ") will be limited by the maxFileSystemBytes limit ("
          ++ toString maxFileSystemBytes
          ++ ") if the core file is inside the sandbox temporary file system.")
        stderr
    else stderr
  let stderr :=
    if maxFileBytes > maxFileSystemBytes then
      PrintWarning app
        ("maxFileBytes (" ++ toString maxFileBytes
          ++ ") will be limited by the maxFileSystemBytes limit ("
          ++ toString maxFileSystemBytes
          ++ ") if the file is inside the sandbox temporary file system.")
        stderr
    else stderr
  pure (app, stderr)

/-- Checks all the limits of an app and prints warnings to the standard error
stream when they conflict (`CheckForLimitsConflicts`).  The documentation of the
routine announces an exception for a fatal error, so its outcome is embedded like
that of the routines that throw; the state is the app with the standard error
stream. -/
def CheckForLimitsConflicts (app : App_t) (stderr : List String) :
    Except (mk.Exception_t × App_t × List String) (App_t × List String) :=
  let maxMemoryBytes := app.maxMemoryBytes.Get
  let maxFileSystemBytes := app.maxFileSystemBytes.Get
  app.processEnvs.foldlM (CheckForLimitsConflicts.procEnv maxMemoryBytes maxFileSystemBytes)
    (app, stderr)

/-- The application model that `CheckForLimitsConflicts` leaves behind, whether it
returned or threw. -/
def stateAfterCheck :
    Except (mk.Exception_t × App_t × List String) (App_t × List String) → App_t
  | .ok (app, _) => app
  | .error (_, app, _) => app

/-- The pairs of limits that `CheckForLimitsConflicts` compares for a process
environment, in the order of the comparisons: the value of the narrower limit, the
value of the broader limit, and the three pieces of the warning, which stand before
the first value, between the two values and after the second one. -/
def limitPairs (app : App_t) (procEnv : ProcessEnv_t) :
    List (Nat × Nat × String × String × String) :=
  [(procEnv.maxLockedMemoryBytes.Get, app.maxMemoryBytes.Get,
      "maxLockedMemoryBytes (", ") will be limited by the maxMemoryBytes limit (", ")."),
   (procEnv.maxCoreDumpFileBytes.Get, procEnv.maxFileBytes.Get,
      "maxCoreDumpFileBytes (", ") will be limited by the maxFileBytes limit (", ")."),
   (procEnv.maxCoreDumpFileBytes.Get, app.maxFileSystemBytes.Get,
      "maxCoreDumpFileBytes (", ") will be limited by the maxFileSystemBytes limit (",
      ") if the core file is inside the sandbox temporary file system."),
   (procEnv.maxFileBytes.Get, app.maxFileSystemBytes.Get,
      "maxFileBytes (", ") will be limited by the maxFileSystemBytes limit (",
      ") if the file is inside the sandbox temporary file system.")]

/-- The pairs of limits of a process environment that are in conflict: the narrower
limit is strictly greater than the broader one. -/
def violatedPairs (app : App_t) (procEnv : ProcessEnv_t) :
    List (Nat × Nat × String × String × String) :=
  (limitPairs app procEnv).filter fun pair => decide (pair.1 > pair.2.1)

/-- The warning line for a pair of limits in conflict. -/
def limitWarning (app : App_t) (pair : Nat × Nat × String × String × String) : String :=
  "** WARNING: application " ++ app.name ++ ": "
    ++ (pair.2.2.1 ++ toString pair.1 ++ pair.2.2.2.1 ++ toString pair.2.1 ++ pair.2.2.2.2)

/-- The warnings about the limits of an app: one for each pair of limits in
conflict of each process environment, in the order of the process environments and
of the pairs. -/
def limitWarnings (app : App_t) : List String :=
  app.processEnvs.flatMap fun procEnv => (violatedPairs app procEnv).map (limitWarning app)

end modeller

/-! ## States that differ by the order of the entries of the extern maps -/

namespace modeller

open parseTree model

/-- Two states of the app under construction differ at most by the order in which
the two maps of external interfaces list their entries: every other field is the
same in both (the interface instances among them), each map lists the same entries
in both, and a lookup in it finds the same in both. -/
def sameUpToMapOrder (a b : App_t) : Prop :=
  b = { a with
        externClientInterfaces := b.externClientInterfaces
        externServerInterfaces := b.externServerInterfaces }
    ∧ a.externClientInterfaces.Perm b.externClientInterfaces
    ∧ a.externServerInterfaces.Perm b.externServerInterfaces
    ∧ (∀ key, a.externClientInterfaces.find key = b.externClientInterfaces.find key)
    ∧ (∀ key, a.externServerInterfaces.find key = b.externServerInterfaces.find key)

end modeller

/-! ## The client-side interface instances of an app and the binding
specifications of its sections -/

namespace model

/-- The client-side interface instances of the app: the pointers that the component
instances of its executables hold. -/
def App_t.clientInstances (app : App_t) : List Nat :=
  app.executables.flatMap fun entry =>
    entry.2.componentInstances.flatMap fun componentInstancePtr =>
      componentInstancePtr.clientApis

/-- The client-side interface instances of the app that carry a binding. -/
def App_t.boundClients (app : App_t) : Finset Nat :=
  app.clientInstances.toFinset.filter fun c =>
    ((app.clientIfInstances c).bindingPtr).isSome = true

end model

namespace modeller

open parseTree model

/-- The binding specifications of a list of bindings sections: the items of the
sections, in order. -/
def AddBindings.specifications (bindingsSections : List CompoundItem_t) :
    List CompoundItem_t :=
  bindingsSections.flatMap fun bindingsSectionPtr =>
    match ToCompoundItemListPtr bindingsSectionPtr with
    | .ok sectionContents => sectionContents
    | .error _ => []

end modeller

/-! ## An app with an interface of one name on both sides of a component -/

namespace fixture

open parseTree model

/-- The client-side interface instance `exeC.compC.ifZ`. -/
def ifZClient : ApiClientInterfaceInstance_t :=
  { name := "exeC.compC.ifZ", externMarkPtr := none,
    ifPtr := { internalName := "ifZ", apiFilePath := "z.api" }, bindingPtr := none }

/-- The server-side interface instance `exeC.compC.ifZ`. -/
def ifZServer : ApiServerInterfaceInstance_t :=
  { name := "exeC.compC.ifZ", externMarkPtr := none,
    ifPtr := { internalName := "ifZ", apiFilePath := "z.api" } }

/-- Component `compC`: it requires and provides an interface of the name `ifZ`. -/
def compC : Component_t :=
  { address := 3, name := "compC", dir := "/src/compC", hasCOrCppCode := true,
    hasJavaCode := false,
    clientApis := [ifZClient.ifPtr], serverApis := [ifZServer.ifPtr] }

/-- Executable `exeC`, with one instance of `compC`. -/
def exeC : Exe_t :=
  { name := "exeC", path := "staging/read-only/bin/exeC",
    componentInstances := [{ componentPtr := compC, clientApis := [0], serverApis := [0] }],
    hasCOrCppCode := true, hasJavaCode := false,
    exeDefPtr :=
      { type := .EXECUTABLE, firstTokenPtr := name "exeC" 6, contents := [name "compC" 6] } }

/-- The app `foo` with the executable `exeC` alone: the name `ifZ` is found in the
client-side and in the server-side interface list of its component instance. -/
def appBoth : App_t :=
  { app with
    components := [compC]
    executables := [("exeC", exeC)]
    clientIfInstances := fun _ => ifZClient
    serverIfInstances := fun _ => ifZServer }

/-- The extern candidate `pubZ = exeC.compC.ifZ`. -/
def externPubZ : TokenList_t :=
  tokens .EXTERN_API_INTERFACE [name "pubZ" 23, name "exeC" 23, name "compC" 23, name "ifZ" 23]

/-- The extern candidate `pubX = exeA.compA.ifX` (four tokens). -/
def externPubX : TokenList_t :=
  tokens .EXTERN_API_INTERFACE [name "pubX" 25, name "exeA" 25, name "compA" 25, name "ifX" 25]

/-- The app `appBoth` after the candidate `pubZ = exeC.compC.ifZ`: the client-side
instance is external under the name `pubZ`. -/
def appBothMarked : App_t :=
  modeller.stateAfter (modeller.MakeInterfacesExternal.item appBoth (some externPubZ))

/-- The configuration-tree specification `foo`, which names the tree of the app
`foo` explicitly. -/
def treeFoo : TokenList_t :=
  tokens .REQUIRED_CONFIG_TREE [name "foo" 31]

end fixture

/-! ## Collaborators that leave the sandboxed flag alone -/

namespace modeller

open parseTree model

/-- The collaborators that work on the app (`AddComponentInstance`, `AddGroups`,
`SetStart`, `SetWatchdogAction`, `SetWatchdogTimeout`) leave its sandboxed flag as it
is: after the constructor, the flag is set by the "sandboxed" sections alone. -/
def Collaborators.keepSandboxed (X : Collaborators) : Prop :=
  (∀ app exe comp, (X.AddComponentInstance app exe comp).1.isSandboxed = app.isSandboxed)
  ∧ (∀ app s app1, X.AddGroups app s = .ok app1 → app1.isSandboxed = app.isSandboxed)
  ∧ (∀ app s app1, X.SetStart app s = .ok app1 → app1.isSandboxed = app.isSandboxed)
  ∧ (∀ app s app1, X.SetWatchdogAction app s = .ok app1 → app1.isSandboxed = app.isSandboxed)
  ∧ (∀ app s app1, X.SetWatchdogTimeout app s = .ok app1 → app1.isSandboxed = app.isSandboxed)

end modeller

/-! ## Facts about the embedding of `std::map` -/

namespace std.map

variable {α : Type}

theorem find_nil (k : String) : find ([] : map α) k = none := rfl

theorem find_cons_self (k : String) (v : α) (rest : map α) :
    find ((k, v) :: rest) k = some v := by
  simp [find, List.lookup]

theorem find_cons_of_ne (k0 : String) (v0 : α) (rest : map α) (k : String) (h : k ≠ k0) :
    find ((k0, v0) :: rest) k = find rest k := by
  have hb : (k == k0) = false := by simpa using h
  simp [find, List.lookup, hb]

theorem find_assign (m : map α) (k : String) (v : α) (k' : String) :
    (m.assign k v).find k' = if k' = k then some v else m.find k' := by
  induction m with
  | nil =>
    by_cases h : k' = k
    · subst h; simp [assign, find_cons_self]
    · simp [assign, find_cons_of_ne _ _ _ _ h, h, find_nil]
  | cons kv rest ih =>
    obtain ⟨k0, v0⟩ := kv
    unfold assign
    by_cases hk : k = k0
    · subst hk
      by_cases h : k' = k
      · subst h; simp [find_cons_self]
      · simp [find_cons_of_ne _ _ _ _ h, h]
    · simp only [hk, if_false]
      by_cases h0 : k' = k0
      · subst h0
        have : ¬ k' = k := fun h => hk h.symm
        simp [find_cons_self, this]
      · rw [find_cons_of_ne _ _ _ _ h0, ih, find_cons_of_ne _ _ _ _ h0]

theorem find_assign_self (m : map α) (k : String) (v : α) :
    (m.assign k v).find k = some v := by
  simp [find_assign]

theorem find_assign_of_ne (m : map α) (k : String) (v : α) (k' : String) (h : k' ≠ k) :
    (m.assign k v).find k' = m.find k' := by
  simp [find_assign, h]

theorem find_isSome_iff_mem_keys (m : map α) (k : String) :
    (m.find k).isSome = true ↔ k ∈ m.keys := by
  induction m with
  | nil => simp [find_nil, keys]
  | cons kv rest ih =>
    obtain ⟨k0, v0⟩ := kv
    by_cases h : k = k0
    · subst h
      simp [find_cons_self, keys]
    · rw [find_cons_of_ne _ _ _ _ h, ih]
      simp [keys, h]

theorem mem_keys_assign (m : map α) (k : String) (v : α) (k' : String) :
    k' ∈ (m.assign k v).keys ↔ k' = k ∨ k' ∈ m.keys := by
  rw [← find_isSome_iff_mem_keys, ← find_isSome_iff_mem_keys, find_assign]
  by_cases h : k' = k
  · simp [h]
  · simp [h]

end std.map

/-! ## Binding resolution -/

namespace parseTree

theorem tokenAt_eq_of_getElem? (tokens : List Token_t) (i : Nat) (t : Token_t)
    (h : tokens[i]? = some t) : tokenAt tokens i = t := by
  simp [tokenAt, List.getD, h]

end parseTree

namespace modeller

open parseTree model

theorem RemoveAngleBrackets_bracketed (u : String) :
    RemoveAngleBrackets ("<" ++ u ++ ">") = u := by
  have h : ("<" ++ u ++ ">").data = '<' :: (u.data ++ ['>']) := by
    simp [String.data_append]
  simp [RemoveAngleBrackets, h]

/-- C2: when the first server-side token (at `startIndex`) is an IPC_AGENT token
whose text begins with `<`, `GetBindingServerSide` returns, and the binding it has
populated has server type EXTERNAL_USER, as server agent name that text with its
angle brackets stripped (`<u>` gives `u`, so `<user1>` gives `user1`), and as
server interface name the text of the following token; the client side of the
binding is as it was. -/
theorem GetBindingServerSide_external_user (bindingPtr : Binding_t) (tokens : List Token_t)
    (startIndex : Nat) (app : App_t) (agent interface : Token_t)
    (hagent : tokens[startIndex]? = some agent)
    (hinterface : tokens[startIndex + 1]? = some interface)
    (htype : agent.type = .IPC_AGENT)
    (hmark : agent.text.data.head? = some '<') :
    ∃ b, GetBindingServerSide bindingPtr tokens startIndex app = .ok b
      ∧ b.serverType = .EXTERNAL_USER
      ∧ b.serverAgentName = RemoveAngleBrackets agent.text
      ∧ (∀ u : String, agent.text = "<" ++ u ++ ">" → b.serverAgentName = u)
      ∧ b.serverIfName = interface.text
      ∧ b.clientType = bindingPtr.clientType
      ∧ b.clientAgentName = bindingPtr.clientAgentName
      ∧ b.clientIfName = bindingPtr.clientIfName := by
  have h0 := tokenAt_eq_of_getElem? _ _ _ hagent
  have h1 := tokenAt_eq_of_getElem? _ _ _ hinterface
  refine ⟨{ bindingPtr with
      serverIfName := interface.text
      serverType := .EXTERNAL_USER
      serverAgentName := RemoveAngleBrackets agent.text }, ?_, rfl, rfl, ?_, rfl, rfl, rfl, rfl⟩
  · simp [GetBindingServerSide, h0, h1, htype, hmark]
  · intro u hu
    show RemoveAngleBrackets agent.text = u
    rw [hu, RemoveAngleBrackets_bracketed]

theorem GetBindingServerSide_external_user_witness :
    ∃ b, GetBindingServerSide (Binding_t.new fixture.bindUser) fixture.bindUser.contents 3
        fixture.app = .ok b
      ∧ b.serverType = .EXTERNAL_USER
      ∧ b.serverAgentName = "user1"
      ∧ b.serverIfName = "ifY" :=
  match GetBindingServerSide_external_user (Binding_t.new fixture.bindUser)
    fixture.bindUser.contents 3 fixture.app (fixture.tok .IPC_AGENT "<user1>" 11)
    (fixture.name "ifY" 11) (by decide) (by decide) (by decide) (by decide) with
  | ⟨b, hok, htype, _, hstrip, hif, _⟩ => ⟨b, hok, htype, hstrip "user1" (by decide), hif⟩

end modeller

namespace modeller

open parseTree model

/-- C3: when the first server-side token (at `startIndex`) is an IPC_AGENT token,
`GetBindingServerSide` returns, the server type of the binding it has populated is
EXTERNAL_USER if and only if the text of that token begins with `<`, and when the
text does not begin with `<` the server type is EXTERNAL_APP, the server agent
name is the text verbatim and the server interface name is the text of the
following token. -/
theorem GetBindingServerSide_external_app (bindingPtr : Binding_t) (tokens : List Token_t)
    (startIndex : Nat) (app : App_t) (agent interface : Token_t)
    (hagent : tokens[startIndex]? = some agent)
    (hinterface : tokens[startIndex + 1]? = some interface)
    (htype : agent.type = .IPC_AGENT) :
    ∃ b, GetBindingServerSide bindingPtr tokens startIndex app = .ok b
      ∧ (b.serverType = .EXTERNAL_USER ↔ agent.text.data.head? = some '<')
      ∧ (agent.text.data.head? ≠ some '<' →
          b.serverType = .EXTERNAL_APP
          ∧ b.serverAgentName = agent.text
          ∧ b.serverIfName = interface.text) := by
  have h0 := tokenAt_eq_of_getElem? _ _ _ hagent
  have h1 := tokenAt_eq_of_getElem? _ _ _ hinterface
  by_cases hmark : agent.text.data.head? = some '<'
  · refine ⟨{ bindingPtr with
        serverIfName := interface.text
        serverType := .EXTERNAL_USER
        serverAgentName := RemoveAngleBrackets agent.text }, ?_, ?_, ?_⟩
    · simp [GetBindingServerSide, h0, h1, htype, hmark]
    · simp [hmark]
    · intro h; exact absurd hmark h
  · refine ⟨{ bindingPtr with
        serverIfName := interface.text
        serverType := .EXTERNAL_APP
        serverAgentName := agent.text }, ?_, ?_, ?_⟩
    · simp [GetBindingServerSide, h0, h1, htype, hmark]
    · simp [hmark]
    · intro _; exact ⟨rfl, rfl, rfl⟩

theorem GetBindingServerSide_external_app_witness :
    ∃ b, GetBindingServerSide (Binding_t.new fixture.bindApp) fixture.bindApp.contents 3
        fixture.app = .ok b
      ∧ (b.serverType = .EXTERNAL_USER ↔ "appB".data.head? = some '<')
      ∧ ("appB".data.head? ≠ some '<' →
          b.serverType = .EXTERNAL_APP ∧ b.serverAgentName = "appB" ∧ b.serverIfName = "ifY") :=
  GetBindingServerSide_external_app (Binding_t.new fixture.bindApp)
    fixture.bindApp.contents 3 fixture.app (fixture.tok .IPC_AGENT "appB" 12)
    (fixture.name "ifY" 12) (by decide) (by decide) (by decide)

/-- The client side of a binding is as it was after `GetBindingServerSide`. -/
theorem GetBindingServerSide_client (bindingPtr b : Binding_t) (tokens : List Token_t)
    (startIndex : Nat) (app : App_t)
    (h : GetBindingServerSide bindingPtr tokens startIndex app = .ok b) :
    b.clientType = bindingPtr.clientType ∧ b.clientAgentName = bindingPtr.clientAgentName
      ∧ b.clientIfName = bindingPtr.clientIfName ∧ b.parseTreePtr = bindingPtr.parseTreePtr := by
  unfold GetBindingServerSide at h
  split at h
  · dsimp only at h
    split at h
    · cases h; exact ⟨rfl, rfl, rfl, rfl⟩
    · cases h; exact ⟨rfl, rfl, rfl, rfl⟩
  · split at h
    · cases h
    · cases h; exact ⟨rfl, rfl, rfl, rfl⟩

/-- A server side that is complete and resolves makes `GetBindingServerSide`
return. -/
theorem GetBindingServerSide_ok_of_resolves (bindingPtr : Binding_t) (tokens : List Token_t)
    (startIndex : Nat) (app : App_t) (h : serverSideResolves app tokens startIndex) :
    ∃ b, GetBindingServerSide bindingPtr tokens startIndex app = .ok b := by
  rcases h with ⟨hty, _⟩ | ⟨hty, _, s, hs⟩
  · unfold GetBindingServerSide
    simp only [hty, if_true]
    split <;> exact ⟨_, rfl⟩
  · unfold GetBindingServerSide
    simp only [hty, if_false, hs]
    exact ⟨_, rfl⟩

/-- An internal server side that resolves to the server-side instance `s` yields an
INTERNAL binding to this app, under the current name of `s`. -/
theorem GetBindingServerSide_internal (bindingPtr : Binding_t) (tokens : List Token_t)
    (startIndex : Nat) (app : App_t) (s : Nat)
    (hty : (tokenAt tokens startIndex).type ≠ .IPC_AGENT)
    (hs : app.FindServerInterface (tokenAt tokens startIndex)
        (tokenAt tokens (startIndex + 1)) (tokenAt tokens (startIndex + 2)) = .ok s) :
    GetBindingServerSide bindingPtr tokens startIndex app =
      .ok { bindingPtr with
        serverType := .INTERNAL
        serverAgentName := app.name
        serverIfName := (app.serverIfInstances s).name } := by
  unfold GetBindingServerSide
  simp only [hty, if_false, hs]

/-- `AddBindings` on a section whose first item is the binding specification
`bindingSpecPtr` begins with one turn of its loop for that specification; when that
turn throws, so does `AddBindings`, with the same exception and state. -/
theorem AddBindings_cons_error (app : App_t) (type : Content_t.Type_t) (first : Token_t)
    (bindingSpecPtr : TokenList_t) (rest : List CompoundItem_t) (e : mk.Exception_t × App_t)
    (hclass : bindingSpecPtr.type = .BINDING)
    (h : AddBindings.item app bindingSpecPtr = .error e) :
    AddBindings app (.itemList type first (.tokenList bindingSpecPtr :: rest)) = .error e := by
  simp [AddBindings, ToCompoundItemListPtr, CompoundItem_t.dynamicCast, hclass, h,
    List.foldlM_cons]
  rfl

/-- `AddBindings` on a section holding the single binding specification
`bindingSpecPtr` is one turn of its loop. -/
theorem AddBindings_singleton (app : App_t) (type : Content_t.Type_t) (first : Token_t)
    (bindingSpecPtr : TokenList_t) (hclass : bindingSpecPtr.type = .BINDING) :
    AddBindings app (.itemList type first [.tokenList bindingSpecPtr])
      = AddBindings.item app bindingSpecPtr := by
  simp [AddBindings, ToCompoundItemListPtr, CompoundItem_t.dynamicCast, hclass,
    List.foldlM_cons]

end modeller

namespace modeller

open parseTree model

/-- C1 (as stated, refuted): in the app `foo` whose client-side interface
`exeA.compA.ifX` is already bound to `appB.ifY`, the specification
`exeA.compA.ifX -> exeA.compB.ifY` has six NAME tokens that all resolve, yet
`AddBindings` throws `Client interface bound more than once.` and the binding
attached to the instance is still the EXTERNAL_APP one, not an INTERNAL one. -/
theorem AddBindings_specific_internal_when_bound :
    fixture.bindInternal.contents.map (fun t => t.type) = List.replicate 6 .NAME
    ∧ fixture.appBound.FindClientInterface (fixture.name "exeA" 10) (fixture.name "compA" 10)
        (fixture.name "ifX" 10) = .ok 0
    ∧ fixture.appBound.FindServerInterface (fixture.name "exeA" 10) (fixture.name "compB" 10)
        (fixture.name "ifY" 10) = .ok 0
    ∧ AddBindings.item fixture.appBound fixture.bindInternal
        = .error ({ location := "app.adef:10",
                    message := "Client interface bound more than once." }, fixture.appBound)
    ∧ AddBindings fixture.appBound
        (.itemList .COMPOUND_ITEM_LIST (fixture.name "bindings" 9)
          [.tokenList fixture.bindInternal])
        = .error ({ location := "app.adef:10",
                    message := "Client interface bound more than once." }, fixture.appBound)
    ∧ ((fixture.appBound.clientIfInstances 0).bindingPtr.map (fun b => b.serverType))
        = some .EXTERNAL_APP := by
  refine ⟨by decide, rfl, rfl, rfl, rfl, by decide⟩

/-- C1 (amended): for a specific binding specification whose six content tokens
`[e1, c1, i1, e2, c2, i2]` are all NAME tokens that resolve, with the client-side
interface instance found by `(e1, c1, i1)` not yet carrying a binding, `AddBindings`
returns and has attached to that instance (changing nothing else) a binding with
client type INTERNAL, server type INTERNAL, client agent name and server agent
name both the name of the app, and server interface name the name of the
server-side interface instance found by `(e2, c2, i2)`. -/
theorem AddBindings_specific_internal (app : App_t) (bindingSpecPtr : TokenList_t)
    (e1 c1 i1 e2 c2 i2 : Token_t) (c s : Nat)
    (htokens : bindingSpecPtr.contents = [e1, c1, i1, e2, c2, i2])
    (hnames : e1.type = .NAME ∧ c1.type = .NAME ∧ i1.type = .NAME
      ∧ e2.type = .NAME ∧ c2.type = .NAME ∧ i2.type = .NAME)
    (hclient : app.FindClientInterface e1 c1 i1 = .ok c)
    (hserver : app.FindServerInterface e2 c2 i2 = .ok s)
    (hunbound : (app.clientIfInstances c).bindingPtr = none) :
    ∃ b, AddBindings.item app bindingSpecPtr = .ok (app.setBinding c b)
      ∧ (∀ type first, bindingSpecPtr.type = .BINDING →
          AddBindings app (.itemList type first [.tokenList bindingSpecPtr])
            = .ok (app.setBinding c b))
      ∧ ((app.setBinding c b).clientIfInstances c).bindingPtr = some b
      ∧ b.clientType = .INTERNAL
      ∧ b.serverType = .INTERNAL
      ∧ b.clientAgentName = app.name
      ∧ b.serverAgentName = app.name
      ∧ b.serverIfName = (app.serverIfInstances s).name := by
  obtain ⟨h1, _, _, h4, _, _⟩ := hnames
  have hitem : AddBindings.item app bindingSpecPtr = .ok (app.setBinding c
      { clientType := .INTERNAL, clientAgentName := app.name,
        clientIfName := (app.clientIfInstances c).name,
        serverType := .INTERNAL, serverAgentName := app.name,
        serverIfName := (app.serverIfInstances s).name,
        parseTreePtr := bindingSpecPtr }) := by
    simp [AddBindings.item, TokenList_t.Contents, htokens, tokenAt, h1, hclient,
      GetBindingServerSide, h4, hserver, hunbound, Binding_t.new]
  refine ⟨_, hitem, ?_, ?_, rfl, rfl, rfl, rfl, rfl⟩
  · intro type first hclass
    rw [AddBindings_singleton _ _ _ _ hclass, hitem]
  · simp [App_t.setBinding]

theorem AddBindings_specific_internal_witness :
    ∃ b, AddBindings.item fixture.app fixture.bindInternal = .ok (fixture.app.setBinding 0 b)
      ∧ (∀ type first, fixture.bindInternal.type = .BINDING →
          AddBindings fixture.app (.itemList type first [.tokenList fixture.bindInternal])
            = .ok (fixture.app.setBinding 0 b))
      ∧ ((fixture.app.setBinding 0 b).clientIfInstances 0).bindingPtr = some b
      ∧ b.clientType = .INTERNAL
      ∧ b.serverType = .INTERNAL
      ∧ b.clientAgentName = fixture.app.name
      ∧ b.serverAgentName = fixture.app.name
      ∧ b.serverIfName = (fixture.app.serverIfInstances 0).name :=
  AddBindings_specific_internal fixture.app fixture.bindInternal
    (fixture.name "exeA" 10) (fixture.name "compA" 10) (fixture.name "ifX" 10)
    (fixture.name "exeA" 10) (fixture.name "compB" 10) (fixture.name "ifY" 10) 0 0
    rfl (by decide) rfl rfl (by decide)

end modeller

namespace modeller

open parseTree model

/-- C5 (as stated, refuted): in the app `foo` whose client-side interface
`exeA.compA.ifX` already carries a binding, the specification
`exeA.compA.ifX -> exeZ.compB.ifY` resolves to that same client-side instance,
yet `AddBindings` does not throw `Client interface bound more than once.`: the
lookup of the server side is done first and throws its own exception. -/
theorem AddBindings_rebind_unresolved_server :
    fixture.appBound.FindClientInterface (fixture.name "exeA" 13) (fixture.name "compA" 13)
        (fixture.name "ifX" 13) = .ok 0
    ∧ ((fixture.appBound.clientIfInstances 0).bindingPtr).isSome = true
    ∧ AddBindings.item fixture.appBound fixture.bindUnresolved
        = .error ({ location := "app.adef:13",
                    message := "Executable 'exeZ' not defined in application." },
                  fixture.appBound)
    ∧ AddBindings fixture.appBound
        (.itemList .COMPOUND_ITEM_LIST (fixture.name "bindings" 9)
          [.tokenList fixture.bindUnresolved])
        = .error ({ location := "app.adef:13",
                    message := "Executable 'exeZ' not defined in application." },
                  fixture.appBound)
    ∧ "Executable 'exeZ' not defined in application." ≠ "Client interface bound more than once." := by
  refine ⟨rfl, by decide, rfl, rfl, by decide⟩

/-- C5 (amended): when the client-side interface instance that a specific binding
specification resolves to already carries a binding, and the server side of the
specification is agent-addressed or resolves, `AddBindings` throws
`Client interface bound more than once.` from the first token of the
specification, with the app as it was: the binding originally attached to that
client-side instance is still the one attached. -/
theorem AddBindings_rebind (app : App_t) (bindingSpecPtr : TokenList_t) (c : Nat)
    (b : Binding_t)
    (hspecific : (tokenAt bindingSpecPtr.contents 0).type ≠ .STAR)
    (hclient : app.FindClientInterface (tokenAt bindingSpecPtr.contents 0)
        (tokenAt bindingSpecPtr.contents 1) (tokenAt bindingSpecPtr.contents 2) = .ok c)
    (hbound : (app.clientIfInstances c).bindingPtr = some b)
    (hserver : serverSideResolves app bindingSpecPtr.contents 3) :
    AddBindings.item app bindingSpecPtr
        = .error ((tokenAt bindingSpecPtr.contents 0).ThrowException
            "Client interface bound more than once.", app)
      ∧ (∀ type first rest, bindingSpecPtr.type = .BINDING →
          AddBindings app (.itemList type first (.tokenList bindingSpecPtr :: rest))
            = .error ((tokenAt bindingSpecPtr.contents 0).ThrowException
                "Client interface bound more than once.", app))
      ∧ ((stateAfter (AddBindings.item app bindingSpecPtr)).clientIfInstances c).bindingPtr
          = some b := by
  have hitem : AddBindings.item app bindingSpecPtr
      = .error ((tokenAt bindingSpecPtr.contents 0).ThrowException
          "Client interface bound more than once.", app) := by
    obtain ⟨b', hb'⟩ := GetBindingServerSide_ok_of_resolves
      { clientType := .INTERNAL, clientAgentName := app.name,
        clientIfName := (app.clientIfInstances c).name,
        serverType := .INTERNAL, serverAgentName := "", serverIfName := "",
        parseTreePtr := bindingSpecPtr } _ _ _ hserver
    simp [AddBindings.item, TokenList_t.Contents, hspecific, hclient, Binding_t.new, hb',
      hbound]
  refine ⟨hitem, ?_, ?_⟩
  · intro type first rest hclass
    exact AddBindings_cons_error _ _ _ _ _ _ hclass hitem
  · rw [hitem]
    exact hbound

theorem AddBindings_rebind_witness :
    AddBindings.item fixture.appBound fixture.bindUser
        = .error ((tokenAt fixture.bindUser.contents 0).ThrowException
            "Client interface bound more than once.", fixture.appBound)
      ∧ (∀ type first rest, fixture.bindUser.type = .BINDING →
          AddBindings fixture.appBound (.itemList type first (.tokenList fixture.bindUser :: rest))
            = .error ((tokenAt fixture.bindUser.contents 0).ThrowException
                "Client interface bound more than once.", fixture.appBound))
      ∧ ((stateAfter (AddBindings.item fixture.appBound fixture.bindUser)).clientIfInstances
            0).bindingPtr
          = (fixture.appBound.clientIfInstances 0).bindingPtr :=
  AddBindings_rebind fixture.appBound fixture.bindUser 0 _ (by decide) rfl rfl
    (Or.inl ⟨by decide, by decide⟩)

/-- C6 (as stated, refuted): in the app `foo` whose wildcard-binding map already
has the key `ifX`, the wildcard specification `*.ifX -> exeZ.compB.ifY` does not
make `AddBindings` throw `Duplicate wildcard binding.`: the lookup of the server
side is done first and throws its own exception (and with the same specification
in the app without that key, the map does not gain an entry). -/
theorem AddBindings_wildcard_unresolved_server :
    (fixture.appWildcard.wildcardBindings.find "ifX").isSome = true
    ∧ AddBindings.item fixture.appWildcard fixture.bindWildcardUnresolved
        = .error ({ location := "app.adef:15",
                    message := "Executable 'exeZ' not defined in application." },
                  fixture.appWildcard)
    ∧ "Executable 'exeZ' not defined in application." ≠ "Duplicate wildcard binding."
    ∧ (fixture.app.wildcardBindings.find "ifX").isSome = false
    ∧ AddBindings.item fixture.app fixture.bindWildcardUnresolved
        = .error ({ location := "app.adef:15",
                    message := "Executable 'exeZ' not defined in application." },
                  fixture.app) := by
  refine ⟨by decide, rfl, by decide, by decide, rfl⟩

/-- C6 (amended): for a wildcard binding specification for the interface name
`X` (the text of its second token) whose server side is agent-addressed or
resolves: when `X` is already a key of the wildcard-binding map, `AddBindings`
throws `Duplicate wildcard binding.` from that token with the app, and so the
entry for `X`, as it was; when `X` is not yet a key, `AddBindings` returns, only
the wildcard-binding map has changed, its entry for `X` is the new binding (client
INTERNAL, this app, interface `X`) and every other entry is as it was. -/
theorem AddBindings_wildcard (app : App_t) (bindingSpecPtr : TokenList_t)
    (hwildcard : (tokenAt bindingSpecPtr.contents 0).type = .STAR)
    (hserver : serverSideResolves app bindingSpecPtr.contents 2) :
    ((app.wildcardBindings.find (tokenAt bindingSpecPtr.contents 1).text).isSome = true →
        AddBindings.item app bindingSpecPtr
          = .error ((tokenAt bindingSpecPtr.contents 1).ThrowException
              "Duplicate wildcard binding.", app))
    ∧ ((app.wildcardBindings.find (tokenAt bindingSpecPtr.contents 1).text).isSome = false →
        ∃ b, AddBindings.item app bindingSpecPtr
            = .ok { app with
                wildcardBindings :=
                  app.wildcardBindings.assign (tokenAt bindingSpecPtr.contents 1).text b }
          ∧ GetBindingServerSide
              { clientType := .INTERNAL, clientAgentName := app.name,
                clientIfName := (tokenAt bindingSpecPtr.contents 1).text,
                serverType := .INTERNAL, serverAgentName := "", serverIfName := "",
                parseTreePtr := bindingSpecPtr } bindingSpecPtr.contents 2 app = .ok b
          ∧ b.clientType = .INTERNAL ∧ b.clientAgentName = app.name
          ∧ b.clientIfName = (tokenAt bindingSpecPtr.contents 1).text
          ∧ (app.wildcardBindings.assign (tokenAt bindingSpecPtr.contents 1).text b).find
              (tokenAt bindingSpecPtr.contents 1).text = some b
          ∧ ∀ k, k ≠ (tokenAt bindingSpecPtr.contents 1).text →
              (app.wildcardBindings.assign (tokenAt bindingSpecPtr.contents 1).text b).find k
                = app.wildcardBindings.find k) := by
  obtain ⟨b, hb⟩ := GetBindingServerSide_ok_of_resolves
    { clientType := .INTERNAL, clientAgentName := app.name,
      clientIfName := (tokenAt bindingSpecPtr.contents 1).text,
      serverType := .INTERNAL, serverAgentName := "", serverIfName := "",
      parseTreePtr := bindingSpecPtr } _ _ _ hserver
  obtain ⟨hc1, hc2, hc3, _⟩ := GetBindingServerSide_client _ _ _ _ _ hb
  dsimp only at hc1 hc2 hc3
  constructor
  · intro hkey
    simp [AddBindings.item, TokenList_t.Contents, hwildcard, Binding_t.new, hb, hc3, hkey]
  · intro hkey
    refine ⟨b, ?_, hb, hc1, hc2, hc3, std.map.find_assign_self _ _ _, ?_⟩
    · simp [AddBindings.item, TokenList_t.Contents, hwildcard, Binding_t.new, hb, hc3, hkey]
    · intro k hk
      exact std.map.find_assign_of_ne _ _ _ _ hk

theorem AddBindings_wildcard_witness :
    AddBindings.item fixture.appWildcard fixture.bindWildcard
        = .error ((tokenAt fixture.bindWildcard.contents 1).ThrowException
            "Duplicate wildcard binding.", fixture.appWildcard)
    ∧ ∃ b, AddBindings.item fixture.app fixture.bindWildcard
          = .ok { fixture.app with
              wildcardBindings :=
                fixture.app.wildcardBindings.assign (tokenAt fixture.bindWildcard.contents 1).text b }
        ∧ b.clientIfName = (tokenAt fixture.bindWildcard.contents 1).text :=
  ⟨(AddBindings_wildcard fixture.appWildcard fixture.bindWildcard (by decide)
      (Or.inl ⟨by decide, by decide⟩)).1 (by decide),
    match (AddBindings_wildcard fixture.app fixture.bindWildcard (by decide)
      (Or.inl ⟨by decide, by decide⟩)).2 (by decide) with
    | ⟨b, h, _, _, _, hname, _, _⟩ => ⟨b, h, hname⟩⟩

end modeller

/-! ## What the lookups depend on -/

namespace model

open parseTree

theorem ComponentInstance_t.FindClientInterface_ci_congr (ci : ComponentInstance_t) (a b : App_t)
    (h : ∀ p, (a.clientIfInstances p).ifPtr = (b.clientIfInstances p).ifPtr) (name : String) :
    ci.FindClientInterface a name = ci.FindClientInterface b name := by
  unfold ComponentInstance_t.FindClientInterface
  congr 1
  funext p
  rw [h p]

theorem ComponentInstance_t.FindServerInterface_ci_congr (ci : ComponentInstance_t) (a b : App_t)
    (h : ∀ p, (a.serverIfInstances p).ifPtr = (b.serverIfInstances p).ifPtr) (name : String) :
    ci.FindServerInterface a name = ci.FindServerInterface b name := by
  unfold ComponentInstance_t.FindServerInterface
  congr 1
  funext p
  rw [h p]

theorem App_t.FindComponentInstance_congr (a b : App_t) (h : a.executables = b.executables)
    (x y : Token_t) : a.FindComponentInstance x y = b.FindComponentInstance x y := by
  unfold App_t.FindComponentInstance
  rw [h]

theorem App_t.FindClientInterface_congr (a b : App_t) (he : a.executables = b.executables)
    (h : ∀ p, (a.clientIfInstances p).ifPtr = (b.clientIfInstances p).ifPtr)
    (x y z : Token_t) : a.FindClientInterface x y z = b.FindClientInterface x y z := by
  unfold App_t.FindClientInterface
  rw [App_t.FindComponentInstance_congr a b he]
  cases b.FindComponentInstance x y with
  | error e => rfl
  | ok ci =>
    simp only
    rw [ComponentInstance_t.FindClientInterface_ci_congr ci a b h]

theorem App_t.FindServerInterface_congr (a b : App_t) (he : a.executables = b.executables)
    (h : ∀ p, (a.serverIfInstances p).ifPtr = (b.serverIfInstances p).ifPtr)
    (x y z : Token_t) : a.FindServerInterface x y z = b.FindServerInterface x y z := by
  unfold App_t.FindServerInterface
  rw [App_t.FindComponentInstance_congr a b he]
  cases b.FindComponentInstance x y with
  | error e => rfl
  | ok ci =>
    simp only
    rw [ComponentInstance_t.FindServerInterface_ci_congr ci a b h]

end model

namespace modeller

open parseTree model

theorem GetBindingServerSide_congr (a b : App_t) (hn : a.name = b.name)
    (he : a.executables = b.executables) (hs : a.serverIfInstances = b.serverIfInstances)
    (bindingPtr : Binding_t) (tokens : List Token_t) (startIndex : Nat) :
    GetBindingServerSide bindingPtr tokens startIndex a
      = GetBindingServerSide bindingPtr tokens startIndex b := by
  unfold GetBindingServerSide
  rw [App_t.FindServerInterface_congr a b he (fun p => by rw [hs]), hn, hs]

/-- What a successful turn of the loop of `AddBindings` has done for a wildcard
specification. -/
theorem AddBindings_item_wildcard_ok (app a1 : App_t) (w : TokenList_t)
    (hw : (tokenAt w.contents 0).type = .STAR) (h : AddBindings.item app w = .ok a1) :
    ∃ b, GetBindingServerSide
          { clientType := .INTERNAL, clientAgentName := app.name,
            clientIfName := (tokenAt w.contents 1).text,
            serverType := .INTERNAL, serverAgentName := "", serverIfName := "",
            parseTreePtr := w } w.contents 2 app = .ok b
      ∧ (app.wildcardBindings.find b.clientIfName).isSome = false
      ∧ a1 = { app with wildcardBindings := app.wildcardBindings.assign b.clientIfName b } := by
  simp only [AddBindings.item, TokenList_t.Contents, hw, if_true, Binding_t.new] at h
  split at h
  · cases h
  · rename_i b hb
    split at h
    · cases h
    · rename_i hkey
      cases h
      exact ⟨b, hb, by simpa using hkey, rfl⟩

/-- What a successful turn of the loop of `AddBindings` has done for a specific
specification. -/
theorem AddBindings_item_specific_ok (app a2 : App_t) (s : TokenList_t)
    (hs : (tokenAt s.contents 0).type ≠ .STAR) (h : AddBindings.item app s = .ok a2) :
    ∃ c b, app.FindClientInterface (tokenAt s.contents 0) (tokenAt s.contents 1)
          (tokenAt s.contents 2) = .ok c
      ∧ GetBindingServerSide
          { clientType := .INTERNAL, clientAgentName := app.name,
            clientIfName := (app.clientIfInstances c).name,
            serverType := .INTERNAL, serverAgentName := "", serverIfName := "",
            parseTreePtr := s } s.contents 3 app = .ok b
      ∧ (app.clientIfInstances c).bindingPtr = none
      ∧ a2 = app.setBinding c b := by
  simp only [AddBindings.item, TokenList_t.Contents, hs, if_false, Binding_t.new] at h
  split at h
  · cases h
  · rename_i c hc
    split at h
    · cases h
    · rename_i b hb
      split at h
      · cases h
      · rename_i hbound
        cases h
        exact ⟨c, b, hc, hb, by simpa using hbound, rfl⟩

/-- A turn of the loop of `AddBindings` for a wildcard specification leaves every
interface instance as it was, whether it returns or throws. -/
theorem AddBindings_item_wildcard_frame (app : App_t) (w : TokenList_t)
    (hw : (tokenAt w.contents 0).type = .STAR) :
    (stateAfter (AddBindings.item app w)).clientIfInstances = app.clientIfInstances := by
  cases h : AddBindings.item app w with
  | error e =>
    simp only [AddBindings.item, TokenList_t.Contents, hw, if_true, Binding_t.new] at h
    split at h
    · cases h; rfl
    · split at h
      · cases h; rfl
      · cases h
  | ok a1 =>
    obtain ⟨b, _, _, rfl⟩ := AddBindings_item_wildcard_ok app a1 w hw h
    rfl

/-- A turn of the loop of `AddBindings` for a specific specification leaves the
wildcard-binding map as it was, whether it returns or throws. -/
theorem AddBindings_item_specific_frame (app : App_t) (s : TokenList_t)
    (hs : (tokenAt s.contents 0).type ≠ .STAR) :
    (stateAfter (AddBindings.item app s)).wildcardBindings = app.wildcardBindings := by
  cases h : AddBindings.item app s with
  | error e =>
    simp only [AddBindings.item, TokenList_t.Contents, hs, if_false, Binding_t.new] at h
    split at h
    · cases h; rfl
    · split at h
      · cases h; rfl
      · split at h
        · cases h; rfl
        · cases h
  | ok a2 =>
    obtain ⟨c, b, _, _, _, rfl⟩ := AddBindings_item_specific_ok app a2 s hs h
    rfl

end modeller

namespace modeller

open parseTree model

/-- C7: wildcard and specific bindings are independent.  A turn of `AddBindings`
for a wildcard specification `w` leaves the attached binding of every client-side
interface instance as it was, and a turn for a specific specification `s` leaves
the wildcard-binding map as it was (whether the turn returns or throws); so when
each of `w` and `s` succeeds on the app, both succeed one after the other, in
either order, with the same resulting app. -/
theorem AddBindings_wildcard_specific_independent (app : App_t) (w s : TokenList_t)
    (hw : (tokenAt w.contents 0).type = .STAR)
    (hs : (tokenAt s.contents 0).type ≠ .STAR) :
    (∀ p, ((stateAfter (AddBindings.item app w)).clientIfInstances p).bindingPtr
        = (app.clientIfInstances p).bindingPtr)
    ∧ (stateAfter (AddBindings.item app s)).wildcardBindings = app.wildcardBindings
    ∧ (∀ a1 a2, AddBindings.item app w = .ok a1 → AddBindings.item app s = .ok a2 →
        ∃ a, AddBindings.item a1 s = .ok a ∧ AddBindings.item a2 w = .ok a
          ∧ ∀ type first, w.type = .BINDING → s.type = .BINDING →
              AddBindings app (.itemList type first [.tokenList w, .tokenList s]) = .ok a
              ∧ AddBindings app (.itemList type first [.tokenList s, .tokenList w]) = .ok a) := by
  refine ⟨fun p => by rw [AddBindings_item_wildcard_frame app w hw],
    AddBindings_item_specific_frame app s hs, ?_⟩
  intro a1 a2 h1 h2
  obtain ⟨bw, hbw, hkey, rfl⟩ := AddBindings_item_wildcard_ok app a1 w hw h1
  obtain ⟨c, bs, hc, hbs, hunbound, rfl⟩ := AddBindings_item_specific_ok app a2 s hs h2
  have hws : AddBindings.item
      { app with wildcardBindings := app.wildcardBindings.assign bw.clientIfName bw } s
      = .ok { app.setBinding c bs with
          wildcardBindings := app.wildcardBindings.assign bw.clientIfName bw } := by
    have e1 := App_t.FindClientInterface_congr
      { app with wildcardBindings := app.wildcardBindings.assign bw.clientIfName bw } app rfl
      (fun _ => rfl) (tokenAt s.contents 0) (tokenAt s.contents 1) (tokenAt s.contents 2)
    have e2 := GetBindingServerSide_congr
      { app with wildcardBindings := app.wildcardBindings.assign bw.clientIfName bw } app rfl
      rfl rfl
      { clientType := .INTERNAL, clientAgentName := app.name,
        clientIfName := (app.clientIfInstances c).name,
        serverType := .INTERNAL, serverAgentName := "", serverIfName := "",
        parseTreePtr := s } s.contents 3
    simp only [AddBindings.item, TokenList_t.Contents, hs, if_false, Binding_t.new, e1, hc,
      e2, hbs, hunbound]
    rfl
  have hsw : AddBindings.item (app.setBinding c bs) w
      = .ok { app.setBinding c bs with
          wildcardBindings := app.wildcardBindings.assign bw.clientIfName bw } := by
    have e2 := GetBindingServerSide_congr (app.setBinding c bs) app rfl rfl rfl
      { clientType := .INTERNAL, clientAgentName := app.name,
        clientIfName := (tokenAt w.contents 1).text,
        serverType := .INTERNAL, serverAgentName := "", serverIfName := "",
        parseTreePtr := w } w.contents 2
    have hk : ((app.setBinding c bs).wildcardBindings.find bw.clientIfName).isSome = false :=
      hkey
    have hn : (app.setBinding c bs).name = app.name := rfl
    simp only [AddBindings.item, TokenList_t.Contents, hw, if_true, Binding_t.new, hn, e2, hbw,
      hk]
    rfl
  refine ⟨_, hws, hsw, ?_⟩
  intro type first hcw hcs
  constructor
  · simp only [AddBindings, ToCompoundItemListPtr, List.foldlM_cons, List.foldlM_nil,
      CompoundItem_t.dynamicCast, hcw, hcs, if_true, h1]
    show (AddBindings.item _ s >>= pure) = _
    rw [hws]; rfl
  · simp only [AddBindings, ToCompoundItemListPtr, List.foldlM_cons, List.foldlM_nil,
      CompoundItem_t.dynamicCast, hcw, hcs, if_true, h2]
    show (AddBindings.item _ w >>= pure) = _
    rw [hsw]; rfl

theorem AddBindings_wildcard_specific_independent_witness :
    ∃ a, AddBindings.item (stateAfter (AddBindings.item fixture.app fixture.bindWildcard))
          fixture.bindUser = .ok a
      ∧ AddBindings.item (stateAfter (AddBindings.item fixture.app fixture.bindUser))
          fixture.bindWildcard = .ok a
      ∧ ∀ type first, fixture.bindWildcard.type = .BINDING → fixture.bindUser.type = .BINDING →
          AddBindings fixture.app
              (.itemList type first [.tokenList fixture.bindWildcard, .tokenList fixture.bindUser])
            = .ok a
          ∧ AddBindings fixture.app
              (.itemList type first [.tokenList fixture.bindUser, .tokenList fixture.bindWildcard])
            = .ok a :=
  (AddBindings_wildcard_specific_independent fixture.app fixture.bindWildcard fixture.bindUser
    (by decide) (by decide)).2.2 _ _ rfl rfl

end modeller

/-! ## Extern resolution -/

namespace modeller

open parseTree model

/-- `MarkInterfaceExternal` on an instance that is already marked throws, naming
the location of the first marking, and changes nothing. -/
theorem MarkInterfaceExternal_marked (app : App_t) (ptr : ApiInterfaceInstancePtr)
    (nameTokenPtr mark : Token_t) (hmark : (app.ifInstance ptr).externMarkPtr = some mark) :
    MarkInterfaceExternal app ptr nameTokenPtr
      = .error (nameTokenPtr.ThrowException
          ("Same interface marked 'extern' more than once.\n"
            ++ mark.location ++ ": note: Previously done here."), app) := by
  simp [MarkInterfaceExternal, hmark, Token_t.GetLocation]

/-- `MakeInterfaceExternal` first refuses a name that is already a key of one of the
two maps of external interfaces. -/
theorem MakeInterfaceExternal_duplicate_name (app : App_t)
    (nameTokenPtr exeTokenPtr componentTokenPtr interfaceTokenPtr : Token_t)
    (hkey : (app.externClientInterfaces.find nameTokenPtr.text).isSome = true
      ∨ (app.externServerInterfaces.find nameTokenPtr.text).isSome = true) :
    MakeInterfaceExternal app nameTokenPtr exeTokenPtr componentTokenPtr interfaceTokenPtr
      = .error (nameTokenPtr.ThrowException
          ("Duplicate external interface name: '" ++ nameTokenPtr.text ++ "'."), app) := by
  unfold MakeInterfaceExternal
  have : ((app.externServerInterfaces.find nameTokenPtr.text).isSome
      || (app.externClientInterfaces.find nameTokenPtr.text).isSome) = true := by
    rcases hkey with h | h <;> simp [h]
  simp only [this, if_true]

/-- With a fresh name, `MakeInterfaceExternal` goes on to mark the instance the
candidate resolves to and to record it, under that name, in the map of its
side. -/
theorem MakeInterfaceExternal_fresh_name (app : App_t)
    (nameTokenPtr exeTokenPtr componentTokenPtr interfaceTokenPtr : Token_t)
    (ptr : ApiInterfaceInstancePtr)
    (hc : (app.externClientInterfaces.find nameTokenPtr.text).isSome = false)
    (hs : (app.externServerInterfaces.find nameTokenPtr.text).isSome = false)
    (htarget : externTarget app exeTokenPtr componentTokenPtr interfaceTokenPtr = some ptr) :
    MakeInterfaceExternal app nameTokenPtr exeTokenPtr componentTokenPtr interfaceTokenPtr
      = match MarkInterfaceExternal app ptr nameTokenPtr with
        | .error e => .error e
        | .ok app1 => .ok (recordExternal app1 nameTokenPtr.text ptr) := by
  unfold MakeInterfaceExternal
  unfold externTarget at htarget
  simp only [hc, hs, Bool.or_self, Bool.false_eq_true, if_false]
  cases hci : app.FindComponentInstance exeTokenPtr componentTokenPtr with
  | error e => rw [hci] at htarget; cases htarget
  | ok ci =>
    rw [hci] at htarget
    simp only at htarget ⊢
    cases hcl : ci.FindClientInterface app interfaceTokenPtr.text with
    | some c =>
      rw [hcl] at htarget
      simp only [Option.some.injEq] at htarget
      subst htarget
      cases ci.FindServerInterface app interfaceTokenPtr.text <;> dsimp only <;>
        cases MarkInterfaceExternal app (.client c) nameTokenPtr <;> rfl
    | none =>
      rw [hcl] at htarget
      cases hsv : ci.FindServerInterface app interfaceTokenPtr.text with
      | some s =>
        rw [hsv] at htarget
        simp only [Option.some.injEq] at htarget
        subst htarget
        dsimp only
        cases MarkInterfaceExternal app (.server s) nameTokenPtr <;> rfl
      | none =>
        rw [hsv] at htarget
        cases htarget

/-- C8 (as stated, refuted): in the app `foo` whose server-side interface
`exeA.compB.ifY` is already marked external (under the name `ifY`), the candidate
`exeA.compB.ifY` given again under the same name resolves to that same instance,
yet `MakeInterfacesExternal` does not throw the duplicate-extern error: the check
of the name is done first and throws `Duplicate external interface name`. -/
theorem MakeInterfaceExternal_same_name_again :
    externTarget fixture.appExternY (fixture.name "exeA" 20) (fixture.name "compB" 20)
        (fixture.name "ifY" 20) = some (.server 0)
    ∧ (fixture.appExternY.ifInstance (.server 0)).externMarkPtr = some (fixture.name "ifY" 20)
    ∧ MakeInterfaceExternal fixture.appExternY (fixture.name "ifY" 20) (fixture.name "exeA" 20)
        (fixture.name "compB" 20) (fixture.name "ifY" 20)
        = .error ({ location := "app.adef:20",
                    message := "Duplicate external interface name: 'ifY'." },
                  fixture.appExternY)
    ∧ MakeInterfacesExternal fixture.app [some fixture.externY, some fixture.externY]
        = .error ({ location := "app.adef:20",
                    message := "Duplicate external interface name: 'ifY'." },
                  fixture.appExternY) := by
  refine ⟨rfl, by decide, rfl, rfl⟩

/-- C8 (amended): when the interface instance that an extern candidate resolves to
is already marked external, `MakeInterfaceExternal` throws from the name token of
the candidate, changing nothing: when the external name of the candidate is not a
key of either map of external interfaces, the exception is the duplicate-extern
error `Same interface marked 'extern' more than once.`, whose message holds the
location of the first marking; when the name is already a key (as it is when the
same name is given again), the exception is `Duplicate external interface name`. -/
theorem MakeInterfaceExternal_already_marked (app : App_t)
    (nameTokenPtr exeTokenPtr componentTokenPtr interfaceTokenPtr mark : Token_t)
    (ptr : ApiInterfaceInstancePtr)
    (htarget : externTarget app exeTokenPtr componentTokenPtr interfaceTokenPtr = some ptr)
    (hmark : (app.ifInstance ptr).externMarkPtr = some mark) :
    (((app.externClientInterfaces.find nameTokenPtr.text).isSome = false
        ∧ (app.externServerInterfaces.find nameTokenPtr.text).isSome = false) →
      MakeInterfaceExternal app nameTokenPtr exeTokenPtr componentTokenPtr interfaceTokenPtr
        = .error ({ location := nameTokenPtr.location,
                    message := "Same interface marked 'extern' more than once.\n"
                      ++ mark.location ++ ": note: Previously done here." }, app))
    ∧ (((app.externClientInterfaces.find nameTokenPtr.text).isSome = true
        ∨ (app.externServerInterfaces.find nameTokenPtr.text).isSome = true) →
      MakeInterfaceExternal app nameTokenPtr exeTokenPtr componentTokenPtr interfaceTokenPtr
        = .error ({ location := nameTokenPtr.location,
                    message := "Duplicate external interface name: '"
                      ++ nameTokenPtr.text ++ "'." }, app)) := by
  constructor
  · rintro ⟨hc, hs⟩
    rw [MakeInterfaceExternal_fresh_name app _ _ _ _ ptr hc hs htarget,
      MarkInterfaceExternal_marked app ptr nameTokenPtr mark hmark]
    rfl
  · intro hkey
    rw [MakeInterfaceExternal_duplicate_name app _ _ _ _ hkey]
    rfl

theorem MakeInterfaceExternal_already_marked_witness :
    MakeInterfaceExternal fixture.appExternY (fixture.name "pub" 21) (fixture.name "exeA" 21)
        (fixture.name "compB" 21) (fixture.name "ifY" 21)
      = .error ({ location := "app.adef:21",
                  message := "Same interface marked 'extern' more than once.\n"
                    ++ "app.adef:20" ++ ": note: Previously done here." }, fixture.appExternY)
    ∧ MakeInterfaceExternal fixture.appExternY (fixture.name "ifY" 20) (fixture.name "exeA" 20)
        (fixture.name "compB" 20) (fixture.name "ifY" 20)
      = .error ({ location := "app.adef:20",
                  message := "Duplicate external interface name: '" ++ "ifY" ++ "'." },
                fixture.appExternY) :=
  ⟨(MakeInterfaceExternal_already_marked fixture.appExternY (fixture.name "pub" 21)
      (fixture.name "exeA" 21) (fixture.name "compB" 21) (fixture.name "ifY" 21)
      (fixture.name "ifY" 20) (.server 0) rfl (by decide)).1 ⟨by decide, by decide⟩,
   (MakeInterfaceExternal_already_marked fixture.appExternY (fixture.name "ifY" 20)
      (fixture.name "exeA" 20) (fixture.name "compB" 20) (fixture.name "ifY" 20)
      (fixture.name "ifY" 20) (.server 0) rfl (by decide)).2 (Or.inr (by decide))⟩

end modeller

namespace modeller

open parseTree model

/-- With a fresh name and a candidate that does not resolve, `MakeInterfaceExternal`
throws and changes nothing. -/
theorem MakeInterfaceExternal_unresolved (app : App_t)
    (nameTokenPtr exeTokenPtr componentTokenPtr interfaceTokenPtr : Token_t)
    (hc : (app.externClientInterfaces.find nameTokenPtr.text).isSome = false)
    (hs : (app.externServerInterfaces.find nameTokenPtr.text).isSome = false)
    (htarget : externTarget app exeTokenPtr componentTokenPtr interfaceTokenPtr = none) :
    ∃ e, MakeInterfaceExternal app nameTokenPtr exeTokenPtr componentTokenPtr interfaceTokenPtr
      = .error (e, app) := by
  unfold MakeInterfaceExternal
  unfold externTarget at htarget
  simp only [hc, hs, Bool.or_self, Bool.false_eq_true, if_false]
  cases hci : app.FindComponentInstance exeTokenPtr componentTokenPtr with
  | error e => exact ⟨e, rfl⟩
  | ok ci =>
    rw [hci] at htarget
    simp only at htarget ⊢
    cases hcl : ci.FindClientInterface app interfaceTokenPtr.text with
    | some c =>
      rw [hcl] at htarget
      cases ci.FindServerInterface app interfaceTokenPtr.text <;> cases htarget
    | none =>
      rw [hcl] at htarget
      cases hsv : ci.FindServerInterface app interfaceTokenPtr.text with
      | some s => rw [hsv] at htarget; cases htarget
      | none => exact ⟨_, rfl⟩

/-- A call of `MakeInterfaceExternal` that throws has changed nothing. -/
theorem MakeInterfaceExternal_error_state (app app1 : App_t)
    (nameTokenPtr exeTokenPtr componentTokenPtr interfaceTokenPtr : Token_t)
    (e : mk.Exception_t)
    (h : MakeInterfaceExternal app nameTokenPtr exeTokenPtr componentTokenPtr interfaceTokenPtr
      = .error (e, app1)) : app1 = app := by
  by_cases hkey : (app.externClientInterfaces.find nameTokenPtr.text).isSome = true
      ∨ (app.externServerInterfaces.find nameTokenPtr.text).isSome = true
  · rw [MakeInterfaceExternal_duplicate_name app _ _ _ _ hkey] at h
    cases h; rfl
  · have hc : (app.externClientInterfaces.find nameTokenPtr.text).isSome = false := by
      cases hh : (app.externClientInterfaces.find nameTokenPtr.text).isSome
      · rfl
      · exact absurd (Or.inl hh) hkey
    have hs : (app.externServerInterfaces.find nameTokenPtr.text).isSome = false := by
      cases hh : (app.externServerInterfaces.find nameTokenPtr.text).isSome
      · rfl
      · exact absurd (Or.inr hh) hkey
    cases ht : externTarget app exeTokenPtr componentTokenPtr interfaceTokenPtr with
    | none =>
      obtain ⟨e1, he1⟩ := MakeInterfaceExternal_unresolved app nameTokenPtr _ _ _ hc hs ht
      rw [he1] at h
      cases h; rfl
    | some ptr =>
      rw [MakeInterfaceExternal_fresh_name app _ _ _ _ ptr hc hs ht] at h
      unfold MarkInterfaceExternal at h
      cases hm : (app.ifInstance ptr).externMarkPtr with
      | some mark => rw [hm] at h; cases h; rfl
      | none => rw [hm] at h; cases h

/-- What a call of `MakeInterfaceExternal` that returns has done: the name was a
key of neither map, the candidate resolved to an instance that was not marked, and
that instance is now marked by the name token, named by its text, and recorded
under that text in the map of its side. -/
theorem MakeInterfaceExternal_ok (app app1 : App_t)
    (nameTokenPtr exeTokenPtr componentTokenPtr interfaceTokenPtr : Token_t)
    (h : MakeInterfaceExternal app nameTokenPtr exeTokenPtr componentTokenPtr interfaceTokenPtr
      = .ok app1) :
    ∃ ptr, (app.externClientInterfaces.find nameTokenPtr.text).isSome = false
      ∧ (app.externServerInterfaces.find nameTokenPtr.text).isSome = false
      ∧ externTarget app exeTokenPtr componentTokenPtr interfaceTokenPtr = some ptr
      ∧ (app.ifInstance ptr).externMarkPtr = none
      ∧ app1 = recordExternal
          (app.setIfInstance ptr { name := nameTokenPtr.text, externMarkPtr := some nameTokenPtr })
          nameTokenPtr.text ptr := by
  by_cases hkey : (app.externClientInterfaces.find nameTokenPtr.text).isSome = true
      ∨ (app.externServerInterfaces.find nameTokenPtr.text).isSome = true
  · rw [MakeInterfaceExternal_duplicate_name app _ _ _ _ hkey] at h
    cases h
  · have hc : (app.externClientInterfaces.find nameTokenPtr.text).isSome = false := by
      cases hh : (app.externClientInterfaces.find nameTokenPtr.text).isSome
      · rfl
      · exact absurd (Or.inl hh) hkey
    have hs : (app.externServerInterfaces.find nameTokenPtr.text).isSome = false := by
      cases hh : (app.externServerInterfaces.find nameTokenPtr.text).isSome
      · rfl
      · exact absurd (Or.inr hh) hkey
    cases ht : externTarget app exeTokenPtr componentTokenPtr interfaceTokenPtr with
    | none =>
      obtain ⟨e1, he1⟩ := MakeInterfaceExternal_unresolved app nameTokenPtr _ _ _ hc hs ht
      rw [he1] at h
      cases h
    | some ptr =>
      rw [MakeInterfaceExternal_fresh_name app _ _ _ _ ptr hc hs ht] at h
      unfold MarkInterfaceExternal at h
      cases hm : (app.ifInstance ptr).externMarkPtr with
      | some mark => rw [hm] at h; cases h
      | none =>
        rw [hm] at h
        cases h
        exact ⟨ptr, hc, hs, rfl, hm, rfl⟩

/-- C9: when an extern candidate resolves to an interface instance that is already
marked external, `MarkInterfaceExternal` and `MakeInterfaceExternal` throw with the
app exactly as it was before the attempt: the extern mark of the instance is still
the first marking token, its name is still the first external name, and both maps
of external interfaces are as they were. -/
theorem MakeInterfaceExternal_rejected_unchanged (app : App_t)
    (nameTokenPtr exeTokenPtr componentTokenPtr interfaceTokenPtr mark : Token_t)
    (ptr : ApiInterfaceInstancePtr)
    (htarget : externTarget app exeTokenPtr componentTokenPtr interfaceTokenPtr = some ptr)
    (hmark : (app.ifInstance ptr).externMarkPtr = some mark) :
    (∃ e, MarkInterfaceExternal app ptr nameTokenPtr = .error (e, app))
    ∧ (∃ e, MakeInterfaceExternal app nameTokenPtr exeTokenPtr componentTokenPtr
        interfaceTokenPtr = .error (e, app))
    ∧ ((stateAfter (MakeInterfaceExternal app nameTokenPtr exeTokenPtr componentTokenPtr
          interfaceTokenPtr)).ifInstance ptr).externMarkPtr = some mark
    ∧ ((stateAfter (MakeInterfaceExternal app nameTokenPtr exeTokenPtr componentTokenPtr
          interfaceTokenPtr)).ifInstance ptr).name = (app.ifInstance ptr).name
    ∧ (stateAfter (MakeInterfaceExternal app nameTokenPtr exeTokenPtr componentTokenPtr
          interfaceTokenPtr)).externClientInterfaces = app.externClientInterfaces
    ∧ (stateAfter (MakeInterfaceExternal app nameTokenPtr exeTokenPtr componentTokenPtr
          interfaceTokenPtr)).externServerInterfaces = app.externServerInterfaces := by
  have hmk := MarkInterfaceExternal_marked app ptr nameTokenPtr mark hmark
  have hfail : ∃ e, MakeInterfaceExternal app nameTokenPtr exeTokenPtr componentTokenPtr
      interfaceTokenPtr = .error (e, app) := by
    by_cases hkey : (app.externClientInterfaces.find nameTokenPtr.text).isSome = true
        ∨ (app.externServerInterfaces.find nameTokenPtr.text).isSome = true
    · exact ⟨_, MakeInterfaceExternal_duplicate_name app _ _ _ _ hkey⟩
    · have hc : (app.externClientInterfaces.find nameTokenPtr.text).isSome = false := by
        cases hh : (app.externClientInterfaces.find nameTokenPtr.text).isSome
        · rfl
        · exact absurd (Or.inl hh) hkey
      have hs : (app.externServerInterfaces.find nameTokenPtr.text).isSome = false := by
        cases hh : (app.externServerInterfaces.find nameTokenPtr.text).isSome
        · rfl
        · exact absurd (Or.inr hh) hkey
      rw [MakeInterfaceExternal_fresh_name app _ _ _ _ ptr hc hs htarget, hmk]
      exact ⟨_, rfl⟩
  obtain ⟨e, he⟩ := hfail
  refine ⟨⟨_, hmk⟩, ⟨e, he⟩, ?_, ?_, ?_, ?_⟩ <;> rw [he] <;> simp [stateAfter, hmark]

theorem MakeInterfaceExternal_rejected_unchanged_witness :
    (∃ e, MarkInterfaceExternal fixture.appExternY (.server 0) (fixture.name "pub" 21)
        = .error (e, fixture.appExternY))
    ∧ (∃ e, MakeInterfaceExternal fixture.appExternY (fixture.name "pub" 21)
        (fixture.name "exeA" 21) (fixture.name "compB" 21) (fixture.name "ifY" 21)
        = .error (e, fixture.appExternY))
    ∧ ((stateAfter (MakeInterfaceExternal fixture.appExternY (fixture.name "pub" 21)
          (fixture.name "exeA" 21) (fixture.name "compB" 21)
          (fixture.name "ifY" 21))).ifInstance (.server 0)).externMarkPtr
        = some (fixture.name "ifY" 20)
    ∧ ((stateAfter (MakeInterfaceExternal fixture.appExternY (fixture.name "pub" 21)
          (fixture.name "exeA" 21) (fixture.name "compB" 21)
          (fixture.name "ifY" 21))).ifInstance (.server 0)).name
        = (fixture.appExternY.ifInstance (.server 0)).name
    ∧ (stateAfter (MakeInterfaceExternal fixture.appExternY (fixture.name "pub" 21)
          (fixture.name "exeA" 21) (fixture.name "compB" 21)
          (fixture.name "ifY" 21))).externClientInterfaces
        = fixture.appExternY.externClientInterfaces
    ∧ (stateAfter (MakeInterfaceExternal fixture.appExternY (fixture.name "pub" 21)
          (fixture.name "exeA" 21) (fixture.name "compB" 21)
          (fixture.name "ifY" 21))).externServerInterfaces
        = fixture.appExternY.externServerInterfaces :=
  MakeInterfaceExternal_rejected_unchanged fixture.appExternY (fixture.name "pub" 21)
    (fixture.name "exeA" 21) (fixture.name "compB" 21) (fixture.name "ifY" 21)
    (fixture.name "ifY" 20) (.server 0) rfl (by decide)

end modeller

namespace modeller

open parseTree model

/-- What a turn of the loop of `MakeInterfacesExternal` that returns has done. -/
theorem MakeInterfacesExternal_item_ok (app app1 : App_t) (ifPtr : Option TokenList_t)
    (h : MakeInterfacesExternal.item app ifPtr = .ok app1) :
    ∃ (nameTokenPtr : Token_t) (ptr : ApiInterfaceInstancePtr),
      (app.externClientInterfaces.find nameTokenPtr.text).isSome = false
      ∧ (app.externServerInterfaces.find nameTokenPtr.text).isSome = false
      ∧ (app.ifInstance ptr).externMarkPtr = none
      ∧ app1 = recordExternal
          (app.setIfInstance ptr { name := nameTokenPtr.text, externMarkPtr := some nameTokenPtr })
          nameTokenPtr.text ptr := by
  cases ifPtr with
  | none => cases h
  | some l =>
    simp only [MakeInterfacesExternal.item] at h
    split at h
    · obtain ⟨ptr, hc, hs, _, hm, rfl⟩ := MakeInterfaceExternal_ok _ _ _ _ _ _ h
      exact ⟨_, ptr, hc, hs, hm, rfl⟩
    · obtain ⟨ptr, hc, hs, _, hm, rfl⟩ := MakeInterfaceExternal_ok _ _ _ _ _ _ h
      exact ⟨_, ptr, hc, hs, hm, rfl⟩

theorem externClientInterfaces_setIfInstance (app : App_t) (ptr : ApiInterfaceInstancePtr)
    (v : ApiInterfaceInstance_t) :
    (app.setIfInstance ptr v).externClientInterfaces = app.externClientInterfaces := by
  cases ptr <;> rfl

theorem externServerInterfaces_setIfInstance (app : App_t) (ptr : ApiInterfaceInstancePtr)
    (v : ApiInterfaceInstance_t) :
    (app.setIfInstance ptr v).externServerInterfaces = app.externServerInterfaces := by
  cases ptr <;> rfl

/-- A turn of the loop of `MakeInterfacesExternal` that returns keeps the key sets
of the two maps of external interfaces disjoint. -/
theorem MakeInterfacesExternal_item_disjoint (app app1 : App_t) (ifPtr : Option TokenList_t)
    (h : MakeInterfacesExternal.item app ifPtr = .ok app1)
    (hd : List.Disjoint app.externClientInterfaces.keys app.externServerInterfaces.keys) :
    List.Disjoint app1.externClientInterfaces.keys app1.externServerInterfaces.keys := by
  obtain ⟨n, ptr, hc, hs, _, rfl⟩ := MakeInterfacesExternal_item_ok app app1 ifPtr h
  have hc' : n.text ∉ app.externClientInterfaces.keys := by
    rw [← std.map.find_isSome_iff_mem_keys, hc]; simp
  have hs' : n.text ∉ app.externServerInterfaces.keys := by
    rw [← std.map.find_isSome_iff_mem_keys, hs]; simp
  intro k hk1 hk2
  cases ptr with
  | client c =>
    simp only [recordExternal, App_t.setIfInstance] at hk1 hk2
    rw [std.map.mem_keys_assign] at hk1
    rcases hk1 with rfl | hk1
    · exact hs' hk2
    · exact hd hk1 hk2
  | server s =>
    simp only [recordExternal, App_t.setIfInstance] at hk1 hk2
    rw [std.map.mem_keys_assign] at hk2
    rcases hk2 with rfl | hk2
    · exact hc' hk1
    · exact hd hk1 hk2

/-- A run of `MakeInterfacesExternal` that returns keeps the key sets of the two maps
of external interfaces disjoint. -/
theorem MakeInterfacesExternal_disjoint (interfaces : List (Option TokenList_t))
    (app app1 : App_t) (h : MakeInterfacesExternal app interfaces = .ok app1)
    (hd : List.Disjoint app.externClientInterfaces.keys app.externServerInterfaces.keys) :
    List.Disjoint app1.externClientInterfaces.keys app1.externServerInterfaces.keys := by
  induction interfaces generalizing app with
  | nil =>
    simp only [MakeInterfacesExternal, List.foldlM_nil] at h
    cases h
    exact hd
  | cons ifPtr rest ih =>
    simp only [MakeInterfacesExternal, List.foldlM_cons] at h
    cases hitem : MakeInterfacesExternal.item app ifPtr with
    | error e => rw [hitem] at h; cases h
    | ok app2 =>
      rw [hitem] at h
      exact ih app2 h (MakeInterfacesExternal_item_disjoint app app2 ifPtr hitem hd)

/-- C10: external names are unique across the client and server namespaces
combined.  `MakeInterfaceExternal` throws `Duplicate external interface name`,
changing nothing, whenever the requested external name is already a key of the
extern-client map or of the extern-server map; and after any run of
`MakeInterfacesExternal` that returns, started with both maps empty, the key sets
of the two maps are disjoint. -/
theorem external_names_unique :
    (∀ (app : App_t) (nameTokenPtr exeTokenPtr componentTokenPtr interfaceTokenPtr : Token_t),
      ((app.externClientInterfaces.find nameTokenPtr.text).isSome = true
        ∨ (app.externServerInterfaces.find nameTokenPtr.text).isSome = true) →
      MakeInterfaceExternal app nameTokenPtr exeTokenPtr componentTokenPtr interfaceTokenPtr
        = .error ({ location := nameTokenPtr.location,
                    message := "Duplicate external interface name: '"
                      ++ nameTokenPtr.text ++ "'." }, app))
    ∧ (∀ (app app1 : App_t) (interfaces : List (Option TokenList_t)),
      app.externClientInterfaces = [] → app.externServerInterfaces = [] →
      MakeInterfacesExternal app interfaces = .ok app1 →
      List.Disjoint app1.externClientInterfaces.keys app1.externServerInterfaces.keys) := by
  constructor
  · intro app n x c i hkey
    rw [MakeInterfaceExternal_duplicate_name app _ _ _ _ hkey]
    rfl
  · intro app app1 interfaces hc hs h
    apply MakeInterfacesExternal_disjoint interfaces app app1 h
    rw [hc]
    intro k hk
    simp [std.map.keys] at hk

theorem external_names_unique_witness :
    MakeInterfaceExternal fixture.appExternY (fixture.name "ifY" 22) (fixture.name "exeA" 22)
        (fixture.name "compA" 22) (fixture.name "ifX" 22)
      = .error ({ location := "app.adef:22",
                  message := "Duplicate external interface name: '" ++ "ifY" ++ "'." },
                fixture.appExternY)
    ∧ List.Disjoint
        (stateAfter (MakeInterfacesExternal fixture.app
          [some fixture.externY])).externClientInterfaces.keys
        (stateAfter (MakeInterfacesExternal fixture.app
          [some fixture.externY])).externServerInterfaces.keys :=
  ⟨external_names_unique.1 fixture.appExternY (fixture.name "ifY" 22) (fixture.name "exeA" 22)
      (fixture.name "compA" 22) (fixture.name "ifX" 22) (Or.inr (by decide)),
   external_names_unique.2 fixture.app _ [some fixture.externY] rfl rfl rfl⟩

end modeller

/-! ## Loops that stop at the first exception -/

namespace modeller

open parseTree model

/-- A loop whose every returning turn relates the state before to the state after
by a reflexive and transitive relation relates, when it returns, its initial state
to its final state. -/
theorem foldlM_rel {σ β ε : Type} (R : σ → σ → Prop) (hrefl : ∀ a, R a a)
    (htrans : ∀ a b c, R a b → R b c → R a c) (f : σ → β → Except ε σ)
    (hstep : ∀ a x a1, f a x = .ok a1 → R a a1) (l : List β) (a a1 : σ)
    (h : l.foldlM f a = .ok a1) : R a a1 := by
  induction l generalizing a with
  | nil =>
    simp only [List.foldlM_nil] at h
    cases h
    exact hrefl _
  | cons x rest ih =>
    simp only [List.foldlM_cons] at h
    cases hx : f a x with
    | error e => rw [hx] at h; cases h
    | ok a2 =>
      rw [hx] at h
      exact htrans _ _ _ (hstep a x a2 hx) (ih a2 h)

/-- In a loop that returns, the turn for a member of the list has returned, from a
state related to the initial one, to a state related to the final one. -/
theorem foldlM_mem_rel {σ β ε : Type} (R : σ → σ → Prop) (hrefl : ∀ a, R a a)
    (htrans : ∀ a b c, R a b → R b c → R a c) (f : σ → β → Except ε σ)
    (hstep : ∀ a x a1, f a x = .ok a1 → R a a1) (l : List β) (a a1 : σ) (x : β)
    (hx : x ∈ l) (h : l.foldlM f a = .ok a1) :
    ∃ b b1, R a b ∧ f b x = .ok b1 ∧ R b1 a1 := by
  induction l generalizing a with
  | nil => cases hx
  | cons y rest ih =>
    simp only [List.foldlM_cons] at h
    cases hy : f a y with
    | error e => rw [hy] at h; cases h
    | ok a2 =>
      rw [hy] at h
      rcases List.mem_cons.mp hx with rfl | hmem
      · exact ⟨a, a2, hrefl a, hy, foldlM_rel R hrefl htrans f hstep rest a2 a1 h⟩
      · obtain ⟨b, b1, h1, h2, h3⟩ := ih a2 hmem h
        exact ⟨b, b1, htrans _ _ _ (hstep a y a2 hy) h1, h2, h3⟩

end modeller


namespace modeller

open parseTree model

/-- A loop whose every returning turn appends to a list held in the state what the
item of the turn contributes has, when it returns, appended the contributions of
all the items, in order. -/
theorem foldlM_append {σ β ε γ : Type} (proj : σ → List γ) (g : β → List γ)
    (f : σ → β → Except ε σ) (hstep : ∀ a x a1, f a x = .ok a1 → proj a1 = proj a ++ g x)
    (l : List β) (a a1 : σ) (h : l.foldlM f a = .ok a1) :
    proj a1 = proj a ++ l.flatMap g := by
  induction l generalizing a with
  | nil =>
    simp only [List.foldlM_nil] at h
    cases h
    simp
  | cons x rest ih =>
    simp only [List.foldlM_cons] at h
    cases hx : f a x with
    | error e => rw [hx] at h; cases h
    | ok a2 =>
      rw [hx] at h
      rw [ih a2 h, hstep a x a2 hx, List.flatMap_cons, List.append_assoc]

theorem AddExternApiInterfaces_eq (interfaces : List (Option TokenList_t))
    (sectionContents : List CompoundItem_t) :
    AddExternApiInterfaces interfaces sectionContents
      = interfaces ++ GetApp.candidatesOfItems sectionContents := by
  unfold AddExternApiInterfaces GetApp.candidatesOfItems
  induction sectionContents generalizing interfaces with
  | nil => simp
  | cons x rest ih => simp [List.foldl_cons, ih]

/-- What one subsection of a "provides" or "requires" section contributes to the
queue of extern API interfaces. -/
theorem AddProvidedItems_queue (st st1 : App_t × List (Option TokenList_t))
    (sectionPtr : CompoundItem_t) (h : AddProvidedItems st sectionPtr = .ok st1)
    (hname : sectionPtr.firstTokenPtr.text = "provides") :
    st1.2 = st.2 ++ GetApp.candidatesOfSection sectionPtr := by
  unfold AddProvidedItems at h
  unfold GetApp.candidatesOfSection
  simp only [hname]
  cases hcast : ToCompoundItemListPtr sectionPtr with
  | error e => rw [hcast] at h; cases h
  | ok subsections =>
    rw [hcast] at h
    simp only [show ¬ ("provides" = "extern") by decide, if_false, true_or, if_true]
    refine foldlM_append (fun st : App_t × List (Option TokenList_t) => st.2) _ _ ?_ _ _ _ h
    intro a x a1 hx
    dsimp only at hx
    by_cases hapi : x.firstTokenPtr.text = "api"
    · simp only [hapi, if_true] at hx ⊢
      cases hc : ToComplexSectionPtr x with
      | error e => rw [hc] at hx; cases hx
      | ok items =>
        rw [hc] at hx
        cases hx
        exact AddExternApiInterfaces_eq _ _
    · simp only [hapi, if_false] at hx
      cases hx

/-- A loop over the items of a "file", "dir", "device" or "configTree" subsection
whose turns leave the queue of extern API interfaces alone leaves it alone. -/
theorem foldlM_queue_kept {β : Type}
    (f : App_t × List (Option TokenList_t) → β →
      Except (mk.Exception_t × App_t × List (Option TokenList_t))
        (App_t × List (Option TokenList_t)))
    (hstep : ∀ a x a1, f a x = .ok a1 → a1.2 = a.2) (l : List β)
    (a a1 : App_t × List (Option TokenList_t)) (h : l.foldlM f a = .ok a1) : a1.2 = a.2 := by
  have := foldlM_rel (fun (a b : App_t × List (Option TokenList_t)) => b.2 = a.2)
    (fun _ => rfl) (fun _ _ _ h1 h2 => h2.trans h1) f hstep l a a1 h
  exact this

/-- What a "requires" section contributes to the queue of extern API interfaces. -/
theorem AddRequiredItems_queue (X : Collaborators) (st st1 : App_t × List (Option TokenList_t))
    (sectionPtr : CompoundItem_t) (h : AddRequiredItems X st sectionPtr = .ok st1)
    (hname : sectionPtr.firstTokenPtr.text = "requires") :
    st1.2 = st.2 ++ GetApp.candidatesOfSection sectionPtr := by
  unfold AddRequiredItems at h
  unfold GetApp.candidatesOfSection
  simp only [hname]
  cases hcast : ToCompoundItemListPtr sectionPtr with
  | error e => rw [hcast] at h; cases h
  | ok subsections =>
    rw [hcast] at h
    simp only [show ¬ ("requires" = "extern") by decide, if_false, or_true, if_true]
    refine foldlM_append (fun st : App_t × List (Option TokenList_t) => st.2) _ _ ?_ _ _ _ h
    intro a x a1 hx
    dsimp only at hx
    by_cases hapi : x.firstTokenPtr.text = "api"
    · simp only [hapi, if_true] at hx ⊢
      cases hc : ToComplexSectionPtr x with
      | error e => rw [hc] at hx; cases hx
      | ok items =>
        rw [hc] at hx
        cases hx
        exact AddExternApiInterfaces_eq _ _
    · simp only [hapi, if_false, List.append_nil] at hx ⊢
      by_cases hfile : x.firstTokenPtr.text = "file"
      · rw [if_pos hfile] at hx
        split at hx
        · cases hx
        · refine foldlM_queue_kept _ (fun a y a1 hy => ?_) _ _ _ hx
          split at hy
          · cases hy
          · split at hy
            · cases hy
            · cases hy; rfl
      rw [if_neg hfile] at hx
      by_cases hdir : x.firstTokenPtr.text = "dir"
      · rw [if_pos hdir] at hx
        split at hx
        · cases hx
        · refine foldlM_queue_kept _ (fun a y a1 hy => ?_) _ _ _ hx
          split at hy
          · cases hy
          · split at hy
            · cases hy
            · cases hy; rfl
      rw [if_neg hdir] at hx
      by_cases hdev : x.firstTokenPtr.text = "device"
      · rw [if_pos hdev] at hx
        split at hx
        · cases hx
        · refine foldlM_queue_kept _ (fun a y a1 hy => ?_) _ _ _ hx
          split at hy
          · cases hy
          · split at hy
            · cases hy
            · cases hy; rfl
      rw [if_neg hdev] at hx
      by_cases hcfg : x.firstTokenPtr.text = "configTree"
      · rw [if_pos hcfg] at hx
        split at hx
        · cases hx
        · refine foldlM_queue_kept _ (fun a y a1 hy => ?_) _ _ _ hx
          split at hy
          · cases hy
          · split at hy
            · cases hy
            · cases hy; rfl
      rw [if_neg hcfg] at hx
      cases hx

end modeller

/-! ## The pass over the sections -/

namespace modeller

open parseTree model

/-- A step returns with the process environment variables attached to its
exception exactly when it returns. -/
theorem withEnv_eq_ok {σ α : Type} (env : std.map String)
    (r : Except (mk.Exception_t × σ) α) (v : α) : withEnv env r = .ok v ↔ r = .ok v := by
  cases r with
  | ok w => constructor <;> intro h <;> cases h <;> rfl
  | error e => constructor <;> intro h <;> cases h

/-- The state at a throw of a step that leaves the process environment variables
alone: the state at the throw of the step, with the variables as they were. -/
theorem withEnv_eq_error {σ α : Type} (env : std.map String)
    (r : Except (mk.Exception_t × σ) α) (e : mk.Exception_t) (st : σ) (env1 : std.map String)
    (h : withEnv env r = .error (e, st, env1)) : r = .error (e, st) ∧ env1 = env := by
  cases r with
  | ok w => cases h
  | error e => cases h; exact ⟨rfl, rfl⟩

/-- A call of the component modeller returns, as the handlers see it, exactly when it
returns. -/
theorem liftNested_eq_ok {α : Type} (app : App_t)
    (r : Except (mk.Exception_t × std.map String) α) (v : α) :
    liftNested app r = .ok v ↔ r = .ok v := by
  cases r with
  | ok w => constructor <;> intro h <;> cases h <;> rfl
  | error e => constructor <;> intro h <;> cases h

theorem GetApp_onApp_ok (locals locals1 : GetApp.Locals)
    (r : Except (mk.Exception_t × App_t) App_t) (h : GetApp.onApp locals r = .ok locals1) :
    locals1.bindingsSections = locals.bindingsSections
      ∧ locals1.processesSections = locals.processesSections
      ∧ locals1.externApiInterfaces = locals.externApiInterfaces := by
  cases r with
  | ok app => cases h; exact ⟨rfl, rfl, rfl⟩
  | error e => cases h

theorem GetApp_onAppAndEnv_ok (locals locals1 : GetApp.Locals)
    (r : Except (mk.Exception_t × App_t × std.map String) App_t)
    (h : GetApp.onAppAndEnv locals r = .ok locals1) :
    locals1.bindingsSections = locals.bindingsSections
      ∧ locals1.processesSections = locals.processesSections
      ∧ locals1.externApiInterfaces = locals.externApiInterfaces := by
  cases r with
  | ok app => cases h; exact ⟨rfl, rfl, rfl⟩
  | error e => cases h

theorem GetApp_onAppAndInterfaces_ok (locals locals1 : GetApp.Locals)
    (r : Except (mk.Exception_t × App_t × List (Option TokenList_t))
      (App_t × List (Option TokenList_t)))
    (h : GetApp.onAppAndInterfaces locals r = .ok locals1) :
    ∃ st1, r = .ok st1
      ∧ locals1.bindingsSections = locals.bindingsSections
      ∧ locals1.processesSections = locals.processesSections
      ∧ locals1.externApiInterfaces = st1.2 := by
  cases r with
  | ok v => cases h; exact ⟨v, rfl, rfl, rfl, rfl⟩
  | error e => cases h

theorem GetApp_assign_ok {α : Type} (locals locals1 : GetApp.Locals) (sectionPtr : CompoundItem_t)
    (get : TokenList_t → Except mk.Exception_t α) (set : App_t → α → App_t)
    (h : GetApp.assign locals sectionPtr get set = .ok locals1) :
    locals1.bindingsSections = locals.bindingsSections
      ∧ locals1.processesSections = locals.processesSections
      ∧ locals1.externApiInterfaces = locals.externApiInterfaces := by
  unfold GetApp.assign at h
  split at h
  · cases h
  · split at h
    · cases h
    · cases h; exact ⟨rfl, rfl, rfl⟩

/-- The handling of one section adds the section to the list of bindings sections
when its name is "bindings", to the list of processes sections when its name is
"processes", leaves these two lists alone otherwise, and adds to the queue of
extern API interfaces the candidates that the section contributes. -/
theorem GetApp_section_deferred (X : Collaborators) (buildParams : mk.BuildParams_t)
    (env : std.map String) (locals locals1 : GetApp.Locals) (sectionPtr : CompoundItem_t)
    (h : GetApp.section X buildParams env locals sectionPtr = .ok locals1) :
    locals1.bindingsSections
        = (if sectionPtr.firstTokenPtr.text = "bindings" then
            locals.bindingsSections ++ [sectionPtr]
          else locals.bindingsSections)
      ∧ locals1.processesSections
        = (if sectionPtr.firstTokenPtr.text = "processes" then
            locals.processesSections ++ [sectionPtr]
          else locals.processesSections)
      ∧ locals1.externApiInterfaces
        = locals.externApiInterfaces ++ GetApp.candidatesOfSection sectionPtr := by
  unfold GetApp.section at h
  dsimp only at h
  by_cases hn : sectionPtr.firstTokenPtr.text = "bindings"
  · rw [if_pos hn] at h
    cases h
    simp [hn, GetApp.candidatesOfSection]
  rw [if_neg hn] at h
  clear hn
  by_cases hn : sectionPtr.firstTokenPtr.text = "bundles"
  · rw [if_pos hn] at h
    have hh := GetApp_onApp_ok _ _ _ h
    simp [hh.1, hh.2.1, hh.2.2, hn, GetApp.candidatesOfSection]
  rw [if_neg hn] at h
  clear hn
  by_cases hn : sectionPtr.firstTokenPtr.text = "components"
  · rw [if_pos hn] at h
    split at h
    · cases h
    · have hh := GetApp_onAppAndEnv_ok _ _ _ h
      simp [hh.1, hh.2.1, hh.2.2, hn, GetApp.candidatesOfSection]
  rw [if_neg hn] at h
  clear hn
  by_cases hn : sectionPtr.firstTokenPtr.text = "cpuShare"
  · rw [if_pos hn] at h
    have hh := GetApp_assign_ok _ _ _ _ _ h
    simp [hh.1, hh.2.1, hh.2.2, hn, GetApp.candidatesOfSection]
  rw [if_neg hn] at h
  clear hn
  by_cases hn : sectionPtr.firstTokenPtr.text = "executables"
  · rw [if_pos hn] at h
    have hh := GetApp_onAppAndEnv_ok _ _ _ h
    simp [hh.1, hh.2.1, hh.2.2, hn, GetApp.candidatesOfSection]
  rw [if_neg hn] at h
  clear hn
  by_cases hn : sectionPtr.firstTokenPtr.text = "extern"
  · rw [if_pos hn] at h
    split at h
    · cases h
    · rename_i s hs
      cases h
      simp [hn, GetApp.candidatesOfSection, hs, AddExternApiInterfaces_eq]
  rw [if_neg hn] at h
  clear hn
  by_cases hn : sectionPtr.firstTokenPtr.text = "groups"
  · rw [if_pos hn] at h
    split at h
    · cases h
    · have hh := GetApp_onApp_ok _ _ _ h
      simp [hh.1, hh.2.1, hh.2.2, hn, GetApp.candidatesOfSection]
  rw [if_neg hn] at h
  clear hn
  by_cases hn : sectionPtr.firstTokenPtr.text = "maxFileSystemBytes"
  · rw [if_pos hn] at h
    have hh := GetApp_assign_ok _ _ _ _ _ h
    simp [hh.1, hh.2.1, hh.2.2, hn, GetApp.candidatesOfSection]
  rw [if_neg hn] at h
  clear hn
  by_cases hn : sectionPtr.firstTokenPtr.text = "maxMemoryBytes"
  · rw [if_pos hn] at h
    have hh := GetApp_assign_ok _ _ _ _ _ h
    simp [hh.1, hh.2.1, hh.2.2, hn, GetApp.candidatesOfSection]
  rw [if_neg hn] at h
  clear hn
  by_cases hn : sectionPtr.firstTokenPtr.text = "maxMQueueBytes"
  · rw [if_pos hn] at h
    have hh := GetApp_assign_ok _ _ _ _ _ h
    simp [hh.1, hh.2.1, hh.2.2, hn, GetApp.candidatesOfSection]
  rw [if_neg hn] at h
  clear hn
  by_cases hn : sectionPtr.firstTokenPtr.text = "maxQueuedSignals"
  · rw [if_pos hn] at h
    have hh := GetApp_assign_ok _ _ _ _ _ h
    simp [hh.1, hh.2.1, hh.2.2, hn, GetApp.candidatesOfSection]
  rw [if_neg hn] at h
  clear hn
  by_cases hn : sectionPtr.firstTokenPtr.text = "maxThreads"
  · rw [if_pos hn] at h
    have hh := GetApp_assign_ok _ _ _ _ _ h
    simp [hh.1, hh.2.1, hh.2.2, hn, GetApp.candidatesOfSection]
  rw [if_neg hn] at h
  clear hn
  by_cases hn : sectionPtr.firstTokenPtr.text = "maxSecureStorageBytes"
  · rw [if_pos hn] at h
    have hh := GetApp_assign_ok _ _ _ _ _ h
    simp [hh.1, hh.2.1, hh.2.2, hn, GetApp.candidatesOfSection]
  rw [if_neg hn] at h
  clear hn
  by_cases hn : sectionPtr.firstTokenPtr.text = "processes"
  · rw [if_pos hn] at h
    cases h
    simp [hn, GetApp.candidatesOfSection]
  rw [if_neg hn] at h
  clear hn
  by_cases hn : sectionPtr.firstTokenPtr.text = "provides"
  · rw [if_pos hn] at h
    obtain ⟨st1, hr, h1, h2, h3⟩ := GetApp_onAppAndInterfaces_ok _ _ _ h
    have hq := AddProvidedItems_queue _ _ _ hr hn
    simp [h1, h2, h3, hq, hn]
  rw [if_neg hn] at h
  clear hn
  by_cases hn : sectionPtr.firstTokenPtr.text = "requires"
  · rw [if_pos hn] at h
    obtain ⟨st1, hr, h1, h2, h3⟩ := GetApp_onAppAndInterfaces_ok _ _ _ h
    have hq := AddRequiredItems_queue _ _ _ _ hr hn
    simp [h1, h2, h3, hq, hn]
  rw [if_neg hn] at h
  clear hn
  by_cases hn : sectionPtr.firstTokenPtr.text = "sandboxed"
  · rw [if_pos hn] at h
    have hh := GetApp_assign_ok _ _ _ _ _ h
    simp [hh.1, hh.2.1, hh.2.2, hn, GetApp.candidatesOfSection]
  rw [if_neg hn] at h
  clear hn
  by_cases hn : sectionPtr.firstTokenPtr.text = "start"
  · rw [if_pos hn] at h
    split at h
    · cases h
    · have hh := GetApp_onApp_ok _ _ _ h
      simp [hh.1, hh.2.1, hh.2.2, hn, GetApp.candidatesOfSection]
  rw [if_neg hn] at h
  clear hn
  by_cases hn : sectionPtr.firstTokenPtr.text = "version"
  · rw [if_pos hn] at h
    split at h
    · cases h
    · split at h
      · split at h
        · cases h
        · cases h
          simp [hn, GetApp.candidatesOfSection]
      · cases h
        simp [hn, GetApp.candidatesOfSection]
  rw [if_neg hn] at h
  clear hn
  by_cases hn : sectionPtr.firstTokenPtr.text = "watchdogAction"
  · rw [if_pos hn] at h
    split at h
    · cases h
    · have hh := GetApp_onApp_ok _ _ _ h
      simp [hh.1, hh.2.1, hh.2.2, hn, GetApp.candidatesOfSection]
  rw [if_neg hn] at h
  clear hn
  by_cases hn : sectionPtr.firstTokenPtr.text = "watchdogTimeout"
  · rw [if_pos hn] at h
    split at h
    · cases h
    · have hh := GetApp_onApp_ok _ _ _ h
      simp [hh.1, hh.2.1, hh.2.2, hn, GetApp.candidatesOfSection]
  rw [if_neg hn] at h
  clear hn
  cases h

/-- A pass over a list of sections that returns has put the "bindings" sections, in
file order, at the end of the list of bindings sections, the "processes" sections
at the end of the list of processes sections, and the extern candidates of the
sections, in file order, at the end of the queue of extern API interfaces. -/
theorem GetApp_sections_deferred (X : Collaborators) (buildParams : mk.BuildParams_t)
    (env : std.map String) (sections : List CompoundItem_t) (locals locals1 : GetApp.Locals)
    (h : sections.foldlM (GetApp.section X buildParams env) locals = .ok locals1) :
    locals1.bindingsSections
        = locals.bindingsSections
          ++ sections.filter (fun s => decide (s.firstTokenPtr.text = "bindings"))
      ∧ locals1.processesSections
        = locals.processesSections
          ++ sections.filter (fun s => decide (s.firstTokenPtr.text = "processes"))
      ∧ locals1.externApiInterfaces
        = locals.externApiInterfaces ++ GetApp.externCandidates sections := by
  induction sections generalizing locals with
  | nil =>
    simp only [List.foldlM_nil] at h
    cases h
    simp [GetApp.externCandidates]
  | cons s rest ih =>
    simp only [List.foldlM_cons] at h
    cases hs : GetApp.section X buildParams env locals s with
    | error e => rw [hs] at h; cases h
    | ok locals2 =>
      rw [hs] at h
      obtain ⟨h1, h2, h3⟩ := ih locals2 h
      obtain ⟨g1, g2, g3⟩ := GetApp_section_deferred X buildParams env locals locals2 s hs
      rw [h1, h2, h3, g1, g2, g3]
      refine ⟨?_, ?_, ?_⟩
      · by_cases hb : s.firstTokenPtr.text = "bindings"
        · simp [hb, List.filter_cons]
        · simp [hb, List.filter_cons]
      · by_cases hb : s.firstTokenPtr.text = "processes"
        · simp [hb, List.filter_cons]
        · simp [hb, List.filter_cons]
      · simp [GetApp.externCandidates, List.flatMap_cons]

/-- The list of bindings sections after the pass of `GetApp` is the list of the
"bindings" sections of the file, in file order, wherever they stand among the other
sections. -/
theorem GetApp_mainPass_bindingsSections (X : Collaborators) (buildParams : mk.BuildParams_t)
    (env : std.map String) (adefFilePtr : AdefFile_t) (locals : GetApp.Locals)
    (h : GetApp.mainPass X buildParams env adefFilePtr = .ok locals) :
    locals.bindingsSections
      = adefFilePtr.sections.filter (fun s => decide (s.firstTokenPtr.text = "bindings")) := by
  have := (GetApp_sections_deferred X buildParams env _ _ _ h).1
  simpa using this

/-- The queue of extern API interfaces after the pass of `GetApp` holds the extern
candidates of the file (the items of its extern sections and of the api subsections
of its provides and requires sections), in file order. -/
theorem GetApp_mainPass_externApiInterfaces (X : Collaborators)
    (buildParams : mk.BuildParams_t) (env : std.map String) (adefFilePtr : AdefFile_t)
    (locals : GetApp.Locals) (h : GetApp.mainPass X buildParams env adefFilePtr = .ok locals) :
    locals.externApiInterfaces = GetApp.externCandidates adefFilePtr.sections := by
  have := (GetApp_sections_deferred X buildParams env _ _ _ h).2.2
  simpa using this

/-- The handling of one section that returns leaves the process environment
variables of the state as they are. -/
theorem GetApp_section_env (X : Collaborators) (buildParams : mk.BuildParams_t)
    (env : std.map String) (locals locals1 : GetApp.Locals) (sectionPtr : CompoundItem_t)
    (h : GetApp.section X buildParams env locals sectionPtr = .ok locals1) :
    locals1.env = locals.env := by
  have honApp : ∀ (r : Except (mk.Exception_t × App_t) App_t) (l1 : GetApp.Locals),
      GetApp.onApp locals r = .ok l1 → l1.env = locals.env := by
    intro r l1 hr
    cases r with
    | ok app => cases hr; rfl
    | error e => cases hr
  have honEnv : ∀ (r : Except (mk.Exception_t × App_t × std.map String) App_t)
      (l1 : GetApp.Locals), GetApp.onAppAndEnv locals r = .ok l1 → l1.env = locals.env := by
    intro r l1 hr
    cases r with
    | ok app => cases hr; rfl
    | error e => cases hr
  have honInterfaces : ∀ (r : Except (mk.Exception_t × App_t × List (Option TokenList_t))
      (App_t × List (Option TokenList_t))) (l1 : GetApp.Locals),
      GetApp.onAppAndInterfaces locals r = .ok l1 → l1.env = locals.env := by
    intro r l1 hr
    cases r with
    | ok app => cases hr; rfl
    | error e => cases hr
  have hassign : ∀ (α : Type) (get : TokenList_t → Except mk.Exception_t α)
      (set : App_t → α → App_t) (l1 : GetApp.Locals),
      GetApp.assign locals sectionPtr get set = .ok l1 → l1.env = locals.env := by
    intro α get set l1 hr
    unfold GetApp.assign at hr
    split at hr
    · cases hr
    · split at hr
      · cases hr
      · cases hr; rfl
  unfold GetApp.section at h
  dsimp only at h
  by_cases hn : sectionPtr.firstTokenPtr.text = "bindings"
  · rw [if_pos hn] at h
    cases h; rfl
  rw [if_neg hn] at h
  clear hn
  by_cases hn : sectionPtr.firstTokenPtr.text = "bundles"
  · rw [if_pos hn] at h
    exact honApp _ _ h
  rw [if_neg hn] at h
  clear hn
  by_cases hn : sectionPtr.firstTokenPtr.text = "components"
  · rw [if_pos hn] at h
    split at h
    · cases h
    · exact honEnv _ _ h
  rw [if_neg hn] at h
  clear hn
  by_cases hn : sectionPtr.firstTokenPtr.text = "cpuShare"
  · rw [if_pos hn] at h
    exact hassign _ _ _ _ h
  rw [if_neg hn] at h
  clear hn
  by_cases hn : sectionPtr.firstTokenPtr.text = "executables"
  · rw [if_pos hn] at h
    exact honEnv _ _ h
  rw [if_neg hn] at h
  clear hn
  by_cases hn : sectionPtr.firstTokenPtr.text = "extern"
  · rw [if_pos hn] at h
    split at h
    · cases h
    · cases h; rfl
  rw [if_neg hn] at h
  clear hn
  by_cases hn : sectionPtr.firstTokenPtr.text = "groups"
  · rw [if_pos hn] at h
    split at h
    · cases h
    · exact honApp _ _ h
  rw [if_neg hn] at h
  clear hn
  by_cases hn : sectionPtr.firstTokenPtr.text = "maxFileSystemBytes"
  · rw [if_pos hn] at h
    exact hassign _ _ _ _ h
  rw [if_neg hn] at h
  clear hn
  by_cases hn : sectionPtr.firstTokenPtr.text = "maxMemoryBytes"
  · rw [if_pos hn] at h
    exact hassign _ _ _ _ h
  rw [if_neg hn] at h
  clear hn
  by_cases hn : sectionPtr.firstTokenPtr.text = "maxMQueueBytes"
  · rw [if_pos hn] at h
    exact hassign _ _ _ _ h
  rw [if_neg hn] at h
  clear hn
  by_cases hn : sectionPtr.firstTokenPtr.text = "maxQueuedSignals"
  · rw [if_pos hn] at h
    exact hassign _ _ _ _ h
  rw [if_neg hn] at h
  clear hn
  by_cases hn : sectionPtr.firstTokenPtr.text = "maxThreads"
  · rw [if_pos hn] at h
    exact hassign _ _ _ _ h
  rw [if_neg hn] at h
  clear hn
  by_cases hn : sectionPtr.firstTokenPtr.text = "maxSecureStorageBytes"
  · rw [if_pos hn] at h
    exact hassign _ _ _ _ h
  rw [if_neg hn] at h
  clear hn
  by_cases hn : sectionPtr.firstTokenPtr.text = "processes"
  · rw [if_pos hn] at h
    cases h; rfl
  rw [if_neg hn] at h
  clear hn
  by_cases hn : sectionPtr.firstTokenPtr.text = "provides"
  · rw [if_pos hn] at h
    exact honInterfaces _ _ h
  rw [if_neg hn] at h
  clear hn
  by_cases hn : sectionPtr.firstTokenPtr.text = "requires"
  · rw [if_pos hn] at h
    exact honInterfaces _ _ h
  rw [if_neg hn] at h
  clear hn
  by_cases hn : sectionPtr.firstTokenPtr.text = "sandboxed"
  · rw [if_pos hn] at h
    exact hassign _ _ _ _ h
  rw [if_neg hn] at h
  clear hn
  by_cases hn : sectionPtr.firstTokenPtr.text = "start"
  · rw [if_pos hn] at h
    split at h
    · cases h
    · exact honApp _ _ h
  rw [if_neg hn] at h
  clear hn
  by_cases hn : sectionPtr.firstTokenPtr.text = "version"
  · rw [if_pos hn] at h
    split at h
    · cases h
    · split at h
      · split at h
        · cases h
        · cases h; rfl
      · cases h; rfl
  rw [if_neg hn] at h
  clear hn
  by_cases hn : sectionPtr.firstTokenPtr.text = "watchdogAction"
  · rw [if_pos hn] at h
    split at h
    · cases h
    · exact honApp _ _ h
  rw [if_neg hn] at h
  clear hn
  by_cases hn : sectionPtr.firstTokenPtr.text = "watchdogTimeout"
  · rw [if_pos hn] at h
    split at h
    · cases h
    · exact honApp _ _ h
  rw [if_neg hn] at h
  clear hn
  cases h

/-- The pass over the sections, when it returns, leaves the process environment
variables as they were. -/
theorem GetApp_mainPass_env (X : Collaborators) (buildParams : mk.BuildParams_t)
    (env : std.map String) (adefFilePtr : AdefFile_t) (locals : GetApp.Locals)
    (h : GetApp.mainPass X buildParams env adefFilePtr = .ok locals) :
    locals.env = env := by
  unfold GetApp.mainPass at h
  exact foldlM_rel (fun (a b : GetApp.Locals) => b.env = a.env) (fun _ => rfl)
    (fun _ _ _ h1 h2 => h2.trans h1) _
    (fun a x a1 hx => GetApp_section_env X buildParams env a a1 x hx) _ _ _ h

/-- A call of `GetApp` that returns the app has gone through its four final steps in
order: the process environments, the extern API interfaces, the bindings (on the app
as the extern resolution left it), and the PATH variables. -/
theorem GetApp_ok (X : Collaborators) (adefPath : String) (buildParams : mk.BuildParams_t)
    (env : std.map String) (stderr : List String)
    (rest : std.map String × List String) (app : App_t)
    (h : GetApp X adefPath buildParams env stderr = (.ok app, rest)) :
    ∃ adefFilePtr locals app1 app2 app3,
      X.Parse adefPath buildParams.beVerbose = .ok adefFilePtr
      ∧ GetApp.mainPass X buildParams
          (envVars.Set env "CURDIR" (X.GetContainingDir adefPath)) adefFilePtr = .ok locals
      ∧ AddProcessesSections X (envVars.Set env "CURDIR" (X.GetContainingDir adefPath))
          locals.app locals.processesSections = .ok app1
      ∧ MakeInterfacesExternal app1 locals.externApiInterfaces = .ok app2
      ∧ AddBindings.sections app2 locals.bindingsSections = .ok app3
      ∧ app = EnsurePathIsSet app3 := by
  unfold GetApp at h
  dsimp only at h
  cases hp : X.Parse adefPath buildParams.beVerbose with
  | error e => rw [hp] at h; cases h
  | ok adefFilePtr =>
    rw [hp] at h
    dsimp only at h
    cases hm : GetApp.mainPass X buildParams
        (envVars.Set env "CURDIR" (X.GetContainingDir adefPath)) adefFilePtr with
    | error e => rw [hm] at h; cases h
    | ok locals =>
      rw [hm] at h
      dsimp only at h
      rw [GetApp_mainPass_env X buildParams _ adefFilePtr locals hm] at h
      cases hf : GetApp.finish X (envVars.Set env "CURDIR" (X.GetContainingDir adefPath))
          locals with
      | error e => rw [hf] at h; cases h
      | ok app0 =>
        rw [hf] at h
        simp only [Prod.mk.injEq, Except.ok.injEq] at h
        obtain ⟨rfl, _⟩ := h
        unfold GetApp.finish at hf
        cases h1 : AddProcessesSections X
            (envVars.Set env "CURDIR" (X.GetContainingDir adefPath)) locals.app
            locals.processesSections with
        | error e => rw [h1] at hf; cases hf
        | ok app1 =>
          rw [h1] at hf
          cases h2 : MakeInterfacesExternal app1 locals.externApiInterfaces with
          | error e =>
            simp only [bind, Except.bind, h2] at hf
            cases hf
          | ok app2 =>
            cases h3 : AddBindings.sections app2 locals.bindingsSections with
            | error e =>
              simp only [bind, Except.bind, h2, h3] at hf
              cases hf
            | ok app3 =>
              simp only [bind, Except.bind, h2, h3, pure, Except.pure] at hf
              cases hf
              exact ⟨adefFilePtr, locals, app1, app2, app3, rfl, hm, h1, h2, h3, rfl⟩

end modeller

/-! ## The graph of the app is the same after the main pass -/

namespace modeller

open parseTree model

theorem sameGraph_refl (a : App_t) : sameGraph a a :=
  ⟨rfl, rfl, fun _ => rfl, fun _ => rfl⟩

theorem sameGraph_symm (a b : App_t) (h : sameGraph a b) : sameGraph b a :=
  ⟨h.1.symm, h.2.1.symm, fun p => (h.2.2.1 p).symm, fun p => (h.2.2.2 p).symm⟩

theorem sameGraph_trans (a b c : App_t) (h1 : sameGraph a b) (h2 : sameGraph b c) :
    sameGraph a c :=
  ⟨h1.1.trans h2.1, h1.2.1.trans h2.2.1, fun p => (h1.2.2.1 p).trans (h2.2.2.1 p),
    fun p => (h1.2.2.2 p).trans (h2.2.2.2 p)⟩

theorem FindClientInterface_sameGraph (a b : App_t) (h : sameGraph a b) (x y z : Token_t) :
    a.FindClientInterface x y z = b.FindClientInterface x y z :=
  App_t.FindClientInterface_congr a b h.2.1 h.2.2.1 x y z

theorem FindServerInterface_sameGraph (a b : App_t) (h : sameGraph a b) (x y z : Token_t) :
    a.FindServerInterface x y z = b.FindServerInterface x y z :=
  App_t.FindServerInterface_congr a b h.2.1 h.2.2.2 x y z

theorem externTarget_sameGraph (a b : App_t) (h : sameGraph a b) (x y z : Token_t) :
    externTarget a x y z = externTarget b x y z := by
  unfold externTarget
  rw [App_t.FindComponentInstance_congr a b h.2.1]
  cases b.FindComponentInstance x y with
  | error e => rfl
  | ok ci =>
    simp only
    rw [ComponentInstance_t.FindClientInterface_ci_congr ci a b h.2.2.1,
      ComponentInstance_t.FindServerInterface_ci_congr ci a b h.2.2.2]

theorem ifInstance_setIfInstance_self (app : App_t) (ptr : ApiInterfaceInstancePtr)
    (v : ApiInterfaceInstance_t) : (app.setIfInstance ptr v).ifInstance ptr = v := by
  cases ptr <;> simp [App_t.setIfInstance, App_t.ifInstance]

theorem ifInstance_setIfInstance_of_ne (app : App_t) (ptr q : ApiInterfaceInstancePtr)
    (v : ApiInterfaceInstance_t) (h : q ≠ ptr) :
    (app.setIfInstance ptr v).ifInstance q = app.ifInstance q := by
  cases ptr <;> cases q <;> simp [App_t.setIfInstance, App_t.ifInstance]
  all_goals
    rename_i p1 p2
    have hne : p2 ≠ p1 := fun e => h (by rw [e])
    simp [Function.update_noteq hne]

theorem ifInstance_recordExternal (app : App_t) (name : String)
    (ptr q : ApiInterfaceInstancePtr) :
    (recordExternal app name ptr).ifInstance q = app.ifInstance q := by
  cases ptr <;> cases q <;> rfl

theorem sameGraph_setIfInstance (app : App_t) (ptr : ApiInterfaceInstancePtr)
    (v : ApiInterfaceInstance_t) : sameGraph app (app.setIfInstance ptr v) := by
  cases ptr with
  | client c =>
    refine ⟨rfl, rfl, fun p => ?_, fun _ => rfl⟩
    by_cases hp : p = c
    · subst hp; simp [App_t.setIfInstance]
    · simp [App_t.setIfInstance, Function.update_noteq hp]
  | server s =>
    refine ⟨rfl, rfl, fun _ => rfl, fun p => ?_⟩
    by_cases hp : p = s
    · subst hp; simp [App_t.setIfInstance]
    · simp [App_t.setIfInstance, Function.update_noteq hp]

theorem sameGraph_recordExternal (app : App_t) (name : String) (ptr : ApiInterfaceInstancePtr) :
    sameGraph app (recordExternal app name ptr) := by
  cases ptr <;> exact ⟨rfl, rfl, fun _ => rfl, fun _ => rfl⟩

theorem sameGraph_setBinding (app : App_t) (c : Nat) (b : Binding_t) :
    sameGraph app (app.setBinding c b) := by
  refine ⟨rfl, rfl, fun p => ?_, fun _ => rfl⟩
  by_cases hp : p = c
  · subst hp; simp [App_t.setBinding]
  · simp [App_t.setBinding, Function.update_noteq hp]

theorem sameGraph_EnsurePathIsSet (app : App_t) : sameGraph app (EnsurePathIsSet app) :=
  ⟨rfl, rfl, fun _ => rfl, fun _ => rfl⟩

end modeller

/-! ## Extern resolution, then binding resolution -/

namespace modeller

open parseTree model

/-- A turn of the loop of `MakeInterfacesExternal` for a candidate is a call of
`MakeInterfaceExternal` with its name, exe, component and interface tokens. -/
theorem MakeInterfacesExternal_item_some (app : App_t) (cand : TokenList_t) :
    MakeInterfacesExternal.item app (some cand)
      = MakeInterfaceExternal app (externNameToken cand.contents)
          (externExeToken cand.contents) (externComponentToken cand.contents)
          (externInterfaceToken cand.contents) := by
  unfold MakeInterfacesExternal.item externNameToken externExeToken externComponentToken
    externInterfaceToken
  by_cases h : cand.contents.length = 4 <;> simp [TokenList_t.Contents, h]

theorem externKeeps_refl (a : App_t) : externKeeps a a :=
  ⟨sameGraph_refl a, fun _ _ _ => rfl⟩

theorem externKeeps_trans (a b c : App_t) (h1 : externKeeps a b) (h2 : externKeeps b c) :
    externKeeps a c := by
  refine ⟨sameGraph_trans _ _ _ h1.1 h2.1, fun q m hm => ?_⟩
  have hb := h1.2 q m hm
  rw [h2.2 q m (by rw [hb]; exact hm), hb]

theorem MakeInterfacesExternal_item_keeps (app app1 : App_t) (ifPtr : Option TokenList_t)
    (h : MakeInterfacesExternal.item app ifPtr = .ok app1) : externKeeps app app1 := by
  obtain ⟨n, ptr, _, _, hunmarked, rfl⟩ := MakeInterfacesExternal_item_ok app app1 ifPtr h
  refine ⟨sameGraph_trans _ _ _ (sameGraph_setIfInstance app ptr _)
    (sameGraph_recordExternal _ _ _), fun q m hm => ?_⟩
  have hne : q ≠ ptr := by
    rintro rfl
    rw [hunmarked] at hm
    cases hm
  rw [ifInstance_recordExternal, ifInstance_setIfInstance_of_ne _ _ _ _ hne]

/-- After a run of `MakeInterfacesExternal` that returns, the interface instance that
a candidate of the queue resolves to is marked by the name token of the candidate and
named by its text. -/
theorem MakeInterfacesExternal_names (interfaces : List (Option TokenList_t))
    (app app1 : App_t) (h : MakeInterfacesExternal app interfaces = .ok app1)
    (cand : TokenList_t) (hmem : some cand ∈ interfaces) (ptr : ApiInterfaceInstancePtr)
    (htarget : externTarget app1 (externExeToken cand.contents)
      (externComponentToken cand.contents) (externInterfaceToken cand.contents) = some ptr) :
    app1.ifInstance ptr
      = { name := (externNameToken cand.contents).text,
          externMarkPtr := some (externNameToken cand.contents) } := by
  obtain ⟨b, b1, hb, hitem, hb1⟩ := foldlM_mem_rel externKeeps externKeeps_refl
    externKeeps_trans MakeInterfacesExternal.item
    (fun a x a1 hx => MakeInterfacesExternal_item_keeps a a1 x hx)
    interfaces app app1 (some cand) hmem h
  have hstep := MakeInterfacesExternal_item_keeps b b1 (some cand) hitem
  rw [MakeInterfacesExternal_item_some] at hitem
  obtain ⟨ptr0, _, _, ht0, _, rfl⟩ := MakeInterfaceExternal_ok _ _ _ _ _ _ hitem
  have hsame : sameGraph b app1 := sameGraph_trans _ _ _ hstep.1 hb1.1
  rw [← externTarget_sameGraph b app1 hsame, ht0] at htarget
  cases htarget
  have hv : (recordExternal
      (b.setIfInstance ptr
        { name := (externNameToken cand.contents).text,
          externMarkPtr := some (externNameToken cand.contents) })
      (externNameToken cand.contents).text ptr).ifInstance ptr
      = { name := (externNameToken cand.contents).text,
          externMarkPtr := some (externNameToken cand.contents) } := by
    rw [ifInstance_recordExternal, ifInstance_setIfInstance_self]
  rw [hb1.2 ptr (externNameToken cand.contents) (by rw [hv]), hv]

theorem bindingKeeps_refl (a : App_t) : bindingKeeps a a :=
  ⟨sameGraph_refl a, rfl, fun _ _ h => h, fun _ _ h => h⟩

theorem bindingKeeps_trans (a b c : App_t) (h1 : bindingKeeps a b) (h2 : bindingKeeps b c) :
    bindingKeeps a c :=
  ⟨sameGraph_trans _ _ _ h1.1 h2.1, h1.2.1.trans h2.2.1,
    fun p bd h => h2.2.2.1 p bd (h1.2.2.1 p bd h),
    fun k bd h => h2.2.2.2 k bd (h1.2.2.2 k bd h)⟩

theorem AddBindings_item_keeps (app app1 : App_t) (bindingSpecPtr : TokenList_t)
    (h : AddBindings.item app bindingSpecPtr = .ok app1) : bindingKeeps app app1 := by
  by_cases hstar : (tokenAt bindingSpecPtr.contents 0).type = .STAR
  · obtain ⟨b, _, hkey, rfl⟩ := AddBindings_item_wildcard_ok app app1 _ hstar h
    refine ⟨⟨rfl, rfl, fun _ => rfl, fun _ => rfl⟩, rfl, fun _ _ hb => hb, fun k bd hk => ?_⟩
    have hne : k ≠ b.clientIfName := by
      rintro rfl
      rw [hk] at hkey
      cases hkey
    show (app.wildcardBindings.assign b.clientIfName b).find k = some bd
    rw [std.map.find_assign_of_ne _ _ _ _ hne, hk]
  · obtain ⟨c, b, _, _, hunbound, rfl⟩ := AddBindings_item_specific_ok app app1 _ hstar h
    refine ⟨sameGraph_setBinding app c b, rfl, fun p bd hp => ?_, fun _ _ hk => hk⟩
    have hne : p ≠ c := by
      rintro rfl
      rw [hunbound] at hp
      cases hp
    simp [App_t.setBinding, Function.update_noteq hne, hp]

/-- The body of the loop of `AddBindings` over the items of a bindings section. -/
theorem AddBindings_body_ok (app app1 : App_t) (itemPtr : CompoundItem_t)
    (h : (match itemPtr.dynamicCast .BINDING with
          | none => Except.error (nullPointer itemPtr.firstTokenPtr.GetLocation, app)
          | some bindingSpecPtr => AddBindings.item app bindingSpecPtr) = .ok app1) :
    ∃ bindingSpecPtr, itemPtr = .tokenList bindingSpecPtr
      ∧ bindingSpecPtr.type = .BINDING ∧ AddBindings.item app bindingSpecPtr = .ok app1 := by
  cases itemPtr with
  | itemList ty first contents => simp [CompoundItem_t.dynamicCast] at h
  | tokenList l =>
    by_cases hty : l.type = .BINDING
    · simp only [CompoundItem_t.dynamicCast, hty, if_true] at h
      exact ⟨l, rfl, hty, h⟩
    · simp [CompoundItem_t.dynamicCast, hty] at h

theorem AddBindings_keeps (app app1 : App_t) (bindingsSectionPtr : CompoundItem_t)
    (h : AddBindings app bindingsSectionPtr = .ok app1) : bindingKeeps app app1 := by
  unfold AddBindings at h
  split at h
  · cases h
  · exact foldlM_rel bindingKeeps bindingKeeps_refl bindingKeeps_trans _
      (fun a x a1 hx => by
        obtain ⟨spec, _, _, hitem⟩ := AddBindings_body_ok a a1 x hx
        exact AddBindings_item_keeps a a1 spec hitem) _ _ _ h

/-- In a run of `AddBindings` over a list of bindings sections that returns, the turn
for a binding specification of one of the sections has returned, from a state that
binding resolution kept from the initial one, to a state that it keeps to the final
one. -/
theorem AddBindings_sections_mem (bindingsSections : List CompoundItem_t) (app app1 : App_t)
    (h : AddBindings.sections app bindingsSections = .ok app1)
    (bindingsSectionPtr : CompoundItem_t) (hsec : bindingsSectionPtr ∈ bindingsSections)
    (items : List CompoundItem_t) (hitems : ToCompoundItemListPtr bindingsSectionPtr = .ok items)
    (bindingSpecPtr : TokenList_t) (hspec : CompoundItem_t.tokenList bindingSpecPtr ∈ items) :
    ∃ b b1, bindingKeeps app b ∧ AddBindings.item b bindingSpecPtr = .ok b1
      ∧ bindingKeeps b1 app1 := by
  obtain ⟨a, a1, ha, hsecrun, ha1⟩ := foldlM_mem_rel bindingKeeps bindingKeeps_refl
    bindingKeeps_trans AddBindings (fun a x a1 hx => AddBindings_keeps a a1 x hx)
    bindingsSections app app1 bindingsSectionPtr hsec h
  unfold AddBindings at hsecrun
  rw [hitems] at hsecrun
  obtain ⟨b, b1, hb, hbody, hb1⟩ := foldlM_mem_rel bindingKeeps bindingKeeps_refl
    bindingKeeps_trans _
    (fun a x a1 hx => by
      obtain ⟨spec, _, _, hitem⟩ := AddBindings_body_ok a a1 x hx
      exact AddBindings_item_keeps a a1 spec hitem)
    items a a1 (.tokenList bindingSpecPtr) hspec hsecrun
  obtain ⟨spec, hspec_eq, _, hitem⟩ := AddBindings_body_ok b b1 _ hbody
  cases hspec_eq
  exact ⟨b, b1, bindingKeeps_trans _ _ _ ha hb, hitem, bindingKeeps_trans _ _ _ hb1 ha1⟩

/-- The binding that a returning turn of the loop of `AddBindings` records for a
specification with an internal server side: it is recorded in the wildcard-binding
map under the interface name of a wildcard specification, or attached to the
client-side interface instance a specific specification resolves to, and its server
interface name is the current name of the server-side interface instance that the
server side resolves to. -/
theorem AddBindings_item_internal (app app1 : App_t) (bindingSpecPtr : TokenList_t) (s : Nat)
    (h : AddBindings.item app bindingSpecPtr = .ok app1)
    (hinternal : (tokenAt bindingSpecPtr.contents
      (serverSideStart bindingSpecPtr.contents)).type ≠ .IPC_AGENT)
    (hs : app.FindServerInterface
      (tokenAt bindingSpecPtr.contents (serverSideStart bindingSpecPtr.contents))
      (tokenAt bindingSpecPtr.contents (serverSideStart bindingSpecPtr.contents + 1))
      (tokenAt bindingSpecPtr.contents (serverSideStart bindingSpecPtr.contents + 2)) = .ok s) :
    ∃ b : Binding_t, b.parseTreePtr = bindingSpecPtr
      ∧ b.clientType = .INTERNAL ∧ b.clientAgentName = app.name
      ∧ b.serverType = .INTERNAL ∧ b.serverAgentName = app.name
      ∧ b.serverIfName = (app.serverIfInstances s).name
      ∧ (if (tokenAt bindingSpecPtr.contents 0).type = .STAR then
          app1.wildcardBindings.find (tokenAt bindingSpecPtr.contents 1).text = some b
        else
          ∃ c, app.FindClientInterface (tokenAt bindingSpecPtr.contents 0)
              (tokenAt bindingSpecPtr.contents 1) (tokenAt bindingSpecPtr.contents 2) = .ok c
            ∧ (app1.clientIfInstances c).bindingPtr = some b) := by
  by_cases hstar : (tokenAt bindingSpecPtr.contents 0).type = .STAR
  · simp only [serverSideStart, hstar, if_true] at hinternal hs
    obtain ⟨b, hb, _, rfl⟩ := AddBindings_item_wildcard_ok app app1 _ hstar h
    rw [GetBindingServerSide_internal _ _ _ _ s hinternal hs] at hb
    cases hb
    refine ⟨
      { clientType := .INTERNAL, clientAgentName := app.name,
        clientIfName := (tokenAt bindingSpecPtr.contents 1).text,
        serverType := .INTERNAL, serverAgentName := app.name,
        serverIfName := (app.serverIfInstances s).name,
        parseTreePtr := bindingSpecPtr }, rfl, rfl, rfl, rfl, rfl, rfl, ?_⟩
    simp only [hstar, if_true]
    exact std.map.find_assign_self _ _ _
  · simp only [serverSideStart, hstar, if_false] at hinternal hs
    obtain ⟨c, b, hc, hb, _, rfl⟩ := AddBindings_item_specific_ok app app1 _ hstar h
    rw [GetBindingServerSide_internal _ _ _ _ s hinternal hs] at hb
    cases hb
    refine ⟨
      { clientType := .INTERNAL, clientAgentName := app.name,
        clientIfName := (app.clientIfInstances c).name,
        serverType := .INTERNAL, serverAgentName := app.name,
        serverIfName := (app.serverIfInstances s).name,
        parseTreePtr := bindingSpecPtr }, rfl, rfl, rfl, rfl, rfl, rfl, ?_⟩
    simp only [hstar, if_false]
    exact ⟨c, hc, by simp [App_t.setBinding]⟩

end modeller

namespace modeller

open parseTree model

/-- C4: in every app that `GetApp` builds from a definition file, when a
server-side interface instance `S` is made external under the name `N` by an extern
candidate of the file (an item of an extern section, or of an api subsection of a
provides or requires section), every internal binding of a bindings section of the
file whose server side resolves to `S` records `N` as its server interface name,
wherever the bindings section and the section of the candidate stand among the
sections of the file: `GetApp` resolves the externs before the bindings.  The
binding is the one recorded for the specification: in the wildcard-binding map
under its interface name, or attached to the client-side interface instance it
resolves to. -/
theorem GetApp_binding_records_external_name (X : Collaborators) (adefPath : String)
    (buildParams : mk.BuildParams_t) (env : std.map String) (stderr : List String)
    (adefFilePtr : AdefFile_t)
    (app : App_t)
    (hparse : X.Parse adefPath buildParams.beVerbose = .ok adefFilePtr)
    (hok : (GetApp X adefPath buildParams env stderr).1 = .ok app)
    (cand : TokenList_t)
    (hcand : some cand ∈ GetApp.externCandidates adefFilePtr.sections) (S : Nat)
    (hS : externTarget app (externExeToken cand.contents) (externComponentToken cand.contents)
      (externInterfaceToken cand.contents) = some (.server S))
    (bindingsSectionPtr : CompoundItem_t) (hsec : bindingsSectionPtr ∈ adefFilePtr.sections)
    (hname : bindingsSectionPtr.firstTokenPtr.text = "bindings")
    (items : List CompoundItem_t) (hitems : ToCompoundItemListPtr bindingsSectionPtr = .ok items)
    (bindingSpecPtr : TokenList_t) (hspec : CompoundItem_t.tokenList bindingSpecPtr ∈ items)
    (hinternal : (tokenAt bindingSpecPtr.contents
      (serverSideStart bindingSpecPtr.contents)).type ≠ .IPC_AGENT)
    (hres : app.FindServerInterface
      (tokenAt bindingSpecPtr.contents (serverSideStart bindingSpecPtr.contents))
      (tokenAt bindingSpecPtr.contents (serverSideStart bindingSpecPtr.contents + 1))
      (tokenAt bindingSpecPtr.contents (serverSideStart bindingSpecPtr.contents + 2)) = .ok S) :
    (app.serverIfInstances S).name = (externNameToken cand.contents).text
    ∧ ∃ b : Binding_t, b.parseTreePtr = bindingSpecPtr
      ∧ b.clientType = .INTERNAL ∧ b.clientAgentName = app.name
      ∧ b.serverType = .INTERNAL ∧ b.serverAgentName = app.name
      ∧ b.serverIfName = (externNameToken cand.contents).text
      ∧ (if (tokenAt bindingSpecPtr.contents 0).type = .STAR then
          app.wildcardBindings.find (tokenAt bindingSpecPtr.contents 1).text = some b
        else
          ∃ c, app.FindClientInterface (tokenAt bindingSpecPtr.contents 0)
              (tokenAt bindingSpecPtr.contents 1) (tokenAt bindingSpecPtr.contents 2) = .ok c
            ∧ (app.clientIfInstances c).bindingPtr = some b) := by
  have hfull : GetApp X adefPath buildParams env stderr
      = (.ok app, (GetApp X adefPath buildParams env stderr).2) := by
    rw [← hok]
  obtain ⟨file1, locals, app1, app2, app3, hp1, hmain, _, hext, hbind, rfl⟩ :=
    GetApp_ok X adefPath buildParams env stderr _ app hfull
  rw [hparse] at hp1
  cases hp1
  -- the candidate is in the queue, wherever its section stands in the file
  rw [← GetApp_mainPass_externApiInterfaces X buildParams _ adefFilePtr locals hmain] at hcand
  -- the bindings section is in the deferred list, wherever it stands in the file
  have hdeferred : bindingsSectionPtr ∈ locals.bindingsSections := by
    rw [GetApp_mainPass_bindingsSections X buildParams _ adefFilePtr locals hmain]
    exact List.mem_filter.mpr ⟨hsec, by simpa using hname⟩
  obtain ⟨b, b1, hb, hitem, hb1⟩ := AddBindings_sections_mem locals.bindingsSections app2 app3
    hbind bindingsSectionPtr hdeferred items hitems bindingSpecPtr hspec
  have hstep := AddBindings_item_keeps b b1 bindingSpecPtr hitem
  have hfinal : sameGraph app3 (EnsurePathIsSet app3) := sameGraph_EnsurePathIsSet app3
  have hb_final : sameGraph b (EnsurePathIsSet app3) :=
    sameGraph_trans _ _ _ hstep.1 (sameGraph_trans _ _ _ hb1.1 hfinal)
  have h2_final : sameGraph app2 (EnsurePathIsSet app3) := sameGraph_trans _ _ _ hb.1 hb_final
  -- the extern resolution has named `S`
  rw [← externTarget_sameGraph app2 _ h2_final] at hS
  have hnamed := MakeInterfacesExternal_names locals.externApiInterfaces app1 app2 hext cand
    hcand (.server S) hS
  have hname2 : (app2.serverIfInstances S).name = (externNameToken cand.contents).text := by
    have := congrArg ApiInterfaceInstance_t.name hnamed
    simpa [App_t.ifInstance] using this
  have hserver3 : (EnsurePathIsSet app3).serverIfInstances = app2.serverIfInstances := by
    show app3.serverIfInstances = app2.serverIfInstances
    rw [← hb1.2.1, ← hstep.2.1, ← hb.2.1]
  -- the binding resolution has read that name
  rw [← FindServerInterface_sameGraph b _ hb_final] at hres
  obtain ⟨bd, hbd1, hbd2, hbd3, hbd4, hbd5, hbd6, hbd7⟩ :=
    AddBindings_item_internal b b1 bindingSpecPtr S hitem hinternal hres
  have hbname : b.name = (EnsurePathIsSet app3).name := hb_final.1
  refine ⟨by rw [hserver3, hname2], bd, hbd1, hbd2, by rw [hbd3, hbname], hbd4,
    by rw [hbd5, hbname], by rw [hbd6, ← hb.2.1, hname2], ?_⟩
  by_cases hstar : (tokenAt bindingSpecPtr.contents 0).type = .STAR
  · simp only [hstar, if_true] at hbd7 ⊢
    exact hb1.2.2.2 _ _ hbd7
  · simp only [hstar, if_false] at hbd7 ⊢
    obtain ⟨c, hc, hcb⟩ := hbd7
    refine ⟨c, ?_, hb1.2.2.1 _ _ hcb⟩
    rw [← FindClientInterface_sameGraph b _ hb_final]
    exact hc

end modeller

namespace modeller

open parseTree model

theorem GetApp_binding_records_external_name_witness :
    (fixture.builtApp.serverIfInstances 0).name = "pub"
    ∧ ∃ b : Binding_t, b.parseTreePtr = fixture.bindInternal
      ∧ b.clientType = .INTERNAL ∧ b.clientAgentName = fixture.builtApp.name
      ∧ b.serverType = .INTERNAL ∧ b.serverAgentName = fixture.builtApp.name
      ∧ b.serverIfName = "pub"
      ∧ (if (tokenAt fixture.bindInternal.contents 0).type = .STAR then
          fixture.builtApp.wildcardBindings.find (tokenAt fixture.bindInternal.contents 1).text
            = some b
        else
          ∃ c, fixture.builtApp.FindClientInterface (tokenAt fixture.bindInternal.contents 0)
              (tokenAt fixture.bindInternal.contents 1)
              (tokenAt fixture.bindInternal.contents 2) = .ok c
            ∧ (fixture.builtApp.clientIfInstances c).bindingPtr = some b) :=
  GetApp_binding_records_external_name fixture.collaborators "/apps/foo.adef"
    fixture.buildParams [] [] fixture.adef fixture.builtApp rfl rfl
    fixture.externPubY (by decide) 0 rfl
    (.itemList .COMPOUND_ITEM_LIST (fixture.name "bindings" 9) [.tokenList fixture.bindInternal])
    (List.mem_cons_self _ _) rfl [.tokenList fixture.bindInternal] rfl fixture.bindInternal
    (List.mem_cons_self _ _) (by decide) rfl

end modeller

/-! ## What a resolved extern candidate leaves behind -/

namespace modeller

open parseTree model

theorem externMapsKeep_refl (a : App_t) : externMapsKeep a a :=
  fun _ _ h => h

theorem externMapsKeep_trans (a b c : App_t) (h1 : externMapsKeep a b)
    (h2 : externMapsKeep b c) : externMapsKeep a c :=
  fun key ptr h => h2 key ptr (h1 key ptr h)

theorem registeredExternal_recordExternal_self (app : App_t) (key : String)
    (ptr : ApiInterfaceInstancePtr) : registeredExternal (recordExternal app key ptr) key ptr := by
  cases ptr <;> exact std.map.find_assign_self _ _ _

theorem MakeInterfacesExternal_item_mapsKeep (app app1 : App_t) (ifPtr : Option TokenList_t)
    (h : MakeInterfacesExternal.item app ifPtr = .ok app1) : externMapsKeep app app1 := by
  obtain ⟨n, ptr, hc, hs, _, rfl⟩ := MakeInterfacesExternal_item_ok app app1 ifPtr h
  intro key q hq
  cases q with
  | client c =>
    have hq1 : app.externClientInterfaces.find key = some c := hq
    have hne : key ≠ n.text := by
      rintro rfl
      rw [hq1] at hc
      cases hc
    cases ptr with
    | client c0 =>
      show (app.externClientInterfaces.assign n.text c0).find key = some c
      rw [std.map.find_assign_of_ne _ _ _ _ hne, hq1]
    | server s0 => exact hq1
  | server s =>
    have hq1 : app.externServerInterfaces.find key = some s := hq
    have hne : key ≠ n.text := by
      rintro rfl
      rw [hq1] at hs
      cases hs
    cases ptr with
    | client c0 => exact hq1
    | server s0 =>
      show (app.externServerInterfaces.assign n.text s0).find key = some s
      rw [std.map.find_assign_of_ne _ _ _ _ hne, hq1]

/-- The interface instance an extern candidate resolves to is an instance of the
interface declared under the name that the interface token gives. -/
theorem externTarget_internalName (app : App_t) (x y z : Token_t)
    (ptr : ApiInterfaceInstancePtr) (h : externTarget app x y z = some ptr) :
    (app.ifDeclaration ptr).internalName = z.text := by
  unfold externTarget at h
  cases hci : app.FindComponentInstance x y with
  | error e => rw [hci] at h; cases h
  | ok ci =>
    rw [hci] at h
    simp only at h
    cases hcl : ci.FindClientInterface app z.text with
    | some c =>
      rw [hcl] at h
      cases hsv : ci.FindServerInterface app z.text <;> rw [hsv] at h <;> cases h <;>
        simpa [App_t.ifDeclaration] using List.find?_some hcl
    | none =>
      rw [hcl] at h
      cases hsv : ci.FindServerInterface app z.text with
      | some s =>
        rw [hsv] at h
        cases h
        simpa [App_t.ifDeclaration] using List.find?_some hsv
      | none => rw [hsv] at h; cases h

theorem ifDeclaration_sameGraph (a b : App_t) (h : sameGraph a b)
    (ptr : ApiInterfaceInstancePtr) : a.ifDeclaration ptr = b.ifDeclaration ptr := by
  cases ptr with
  | client p => exact h.2.2.1 p
  | server p => exact h.2.2.2 p

/-- After a run of `MakeInterfacesExternal` that returns, a candidate of the queue
with name token `n`, exe token `e`, component token `c` and interface token `i` has
left the interface instance found by `(e, c, i)` named by the text of `n`, marked by
`n`, and recorded under that text in the map of its side. -/
theorem MakeInterfacesExternal_candidate (interfaces : List (Option TokenList_t))
    (app app1 : App_t) (h : MakeInterfacesExternal app interfaces = .ok app1)
    (cand : TokenList_t) (hmem : some cand ∈ interfaces) :
    ∃ ptr, externTarget app (externExeToken cand.contents) (externComponentToken cand.contents)
          (externInterfaceToken cand.contents) = some ptr
      ∧ app1.ifInstance ptr
          = { name := (externNameToken cand.contents).text,
              externMarkPtr := some (externNameToken cand.contents) }
      ∧ registeredExternal app1 (externNameToken cand.contents).text ptr
      ∧ (app1.ifDeclaration ptr).internalName = (externInterfaceToken cand.contents).text := by
  obtain ⟨b, b1, hb, hitem, hb1⟩ := foldlM_mem_rel
    (fun a b => externKeeps a b ∧ externMapsKeep a b)
    (fun a => ⟨externKeeps_refl a, externMapsKeep_refl a⟩)
    (fun a b c h1 h2 => ⟨externKeeps_trans _ _ _ h1.1 h2.1, externMapsKeep_trans _ _ _ h1.2 h2.2⟩)
    MakeInterfacesExternal.item
    (fun a x a1 hx => ⟨MakeInterfacesExternal_item_keeps a a1 x hx,
      MakeInterfacesExternal_item_mapsKeep a a1 x hx⟩)
    interfaces app app1 (some cand) hmem h
  have hstep := MakeInterfacesExternal_item_keeps b b1 (some cand) hitem
  rw [MakeInterfacesExternal_item_some] at hitem
  obtain ⟨ptr, _, _, ht, _, rfl⟩ := MakeInterfaceExternal_ok _ _ _ _ _ _ hitem
  have hv : (recordExternal
      (b.setIfInstance ptr
        { name := (externNameToken cand.contents).text,
          externMarkPtr := some (externNameToken cand.contents) })
      (externNameToken cand.contents).text ptr).ifInstance ptr
      = { name := (externNameToken cand.contents).text,
          externMarkPtr := some (externNameToken cand.contents) } := by
    rw [ifInstance_recordExternal, ifInstance_setIfInstance_self]
  have hsame : sameGraph app app1 :=
    sameGraph_trans _ _ _ hb.1.1 (sameGraph_trans _ _ _ hstep.1 hb1.1.1)
  refine ⟨ptr, ?_, ?_, ?_, ?_⟩
  · rw [externTarget_sameGraph app b hb.1.1]
    exact ht
  · rw [hb1.1.2 ptr (externNameToken cand.contents) (by rw [hv]), hv]
  · exact hb1.2 _ _ (registeredExternal_recordExternal_self _ _ _)
  · rw [← ifDeclaration_sameGraph b _ (sameGraph_trans _ _ _ hstep.1 hb1.1.1)]
    exact externTarget_internalName b _ _ _ ptr ht

/-- C11: after a run of `MakeInterfacesExternal` that returns (every candidate of
the queue has resolved successfully), a four-token candidate `[n, e, c, i]` of the
queue has left the interface instance found by `(e, c, i)` named `n` and recorded
under the key `n` in the extern-client or extern-server map (the one of its side);
a three-token candidate `[e, c, i]` has left that instance named `i`, which is its
declared internal name, and recorded under the key `i`. -/
theorem MakeInterfacesExternal_names_and_registers (interfaces : List (Option TokenList_t))
    (app app1 : App_t) (h : MakeInterfacesExternal app interfaces = .ok app1)
    (cand : TokenList_t) (hmem : some cand ∈ interfaces) :
    (∀ n e c i, cand.contents = [n, e, c, i] →
      ∃ ptr, externTarget app e c i = some ptr
        ∧ (app1.ifInstance ptr).name = n.text
        ∧ registeredExternal app1 n.text ptr)
    ∧ (∀ e c i, cand.contents = [e, c, i] →
      ∃ ptr, externTarget app e c i = some ptr
        ∧ (app1.ifInstance ptr).name = i.text
        ∧ (app1.ifDeclaration ptr).internalName = i.text
        ∧ registeredExternal app1 i.text ptr) := by
  obtain ⟨ptr, ht, hv, hreg, hdecl⟩ := MakeInterfacesExternal_candidate interfaces app app1 h
    cand hmem
  constructor
  · intro n e c i htok
    simp only [externNameToken, externExeToken, externComponentToken, externInterfaceToken,
      htok, tokenAt, List.length_cons, List.length_nil, List.getD_cons_zero,
      List.getD_cons_succ] at ht hv hreg
    simp only [Nat.reduceAdd, if_true] at ht hv hreg
    exact ⟨ptr, ht, by rw [hv], hreg⟩
  · intro e c i htok
    simp only [externNameToken, externExeToken, externComponentToken, externInterfaceToken,
      htok, tokenAt, List.length_cons, List.length_nil, List.getD_cons_zero,
      List.getD_cons_succ] at ht hv hreg hdecl
    simp only [Nat.reduceAdd, Nat.reduceEqDiff, if_false] at ht hv hreg hdecl
    exact ⟨ptr, ht, by rw [hv], hdecl, hreg⟩

theorem MakeInterfacesExternal_names_and_registers_witness :
    (∃ ptr, externTarget fixture.app (fixture.name "exeA" 21) (fixture.name "compB" 21)
          (fixture.name "ifY" 21) = some ptr
        ∧ ((stateAfter (MakeInterfacesExternal fixture.app
            [some fixture.externPubY])).ifInstance ptr).name = "pub"
        ∧ registeredExternal (stateAfter (MakeInterfacesExternal fixture.app
            [some fixture.externPubY])) "pub" ptr)
    ∧ (∃ ptr, externTarget fixture.app (fixture.name "exeA" 20) (fixture.name "compB" 20)
          (fixture.name "ifY" 20) = some ptr
        ∧ ((stateAfter (MakeInterfacesExternal fixture.app
            [some fixture.externY])).ifInstance ptr).name = "ifY"
        ∧ ((stateAfter (MakeInterfacesExternal fixture.app
            [some fixture.externY])).ifDeclaration ptr).internalName = "ifY"
        ∧ registeredExternal (stateAfter (MakeInterfacesExternal fixture.app
            [some fixture.externY])) "ifY" ptr) :=
  ⟨(MakeInterfacesExternal_names_and_registers [some fixture.externPubY] fixture.app _ rfl
      fixture.externPubY (List.mem_cons_self _ _)).1 _ _ _ _ rfl,
   (MakeInterfacesExternal_names_and_registers [some fixture.externY] fixture.app _ rfl
      fixture.externY (List.mem_cons_self _ _)).2 _ _ _ rfl⟩

end modeller

/-! ## An extern candidate whose interface the component does not have -/

namespace modeller

open parseTree model

/-- C12 as stated fails when the external name is taken: in the app where `ifY` is
already the external name of a server-side interface, the candidate
`ifY = exeA.compB.nope` has an exe and a component that resolve and an interface
name that neither list of the component instance has, and `MakeInterfaceExternal`
fails with the duplicate-name error, not with the 'not found' error. -/
theorem MakeInterfaceExternal_missing_under_taken_name :
    (∃ ci, fixture.appExternY.FindComponentInstance (fixture.name "exeA" 23)
          (fixture.name "compB" 23) = .ok ci
        ∧ ci.FindClientInterface fixture.appExternY "nope" = none
        ∧ ci.FindServerInterface fixture.appExternY "nope" = none)
    ∧ MakeInterfaceExternal fixture.appExternY (fixture.name "ifY" 23) (fixture.name "exeA" 23)
          (fixture.name "compB" 23) (fixture.name "nope" 23)
        = .error ((fixture.name "ifY" 23).ThrowException
            "Duplicate external interface name: 'ifY'.", fixture.appExternY)
    ∧ (fixture.name "ifY" 23).ThrowException "Duplicate external interface name: 'ifY'."
        ≠ (fixture.name "ifY" 23).ThrowException
            "Interface 'nope' not found in component 'compB' in executable 'exeA'." :=
  ⟨⟨_, rfl, rfl, rfl⟩, rfl, by decide⟩

/-- C12, amended: for every extern candidate whose external name is not yet a key
of either extern map, whose exe and component resolve to a component instance, and
whose interface name is found in neither the client nor the server interface list
of that instance, `MakeInterfaceExternal` fails with the 'Interface not found'
error thrown from the name token, and the app at the throw is the app of before:
no interface instance and neither extern map has changed. -/
theorem MakeInterfaceExternal_interface_not_found (app : App_t)
    (nameTokenPtr exeTokenPtr componentTokenPtr interfaceTokenPtr : Token_t)
    (ci : ComponentInstance_t)
    (hclientName : app.externClientInterfaces.find nameTokenPtr.text = none)
    (hserverName : app.externServerInterfaces.find nameTokenPtr.text = none)
    (hci : app.FindComponentInstance exeTokenPtr componentTokenPtr = .ok ci)
    (hclient : ci.FindClientInterface app interfaceTokenPtr.text = none)
    (hserver : ci.FindServerInterface app interfaceTokenPtr.text = none) :
    MakeInterfaceExternal app nameTokenPtr exeTokenPtr componentTokenPtr interfaceTokenPtr
      = .error (nameTokenPtr.ThrowException
          ("Interface '" ++ interfaceTokenPtr.text ++ "' not found in component '"
            ++ componentTokenPtr.text ++ "' in executable '" ++ exeTokenPtr.text ++ "'."),
          app) := by
  unfold MakeInterfaceExternal
  simp [hclientName, hserverName, hci, hclient, hserver]

theorem MakeInterfaceExternal_interface_not_found_witness :
    MakeInterfaceExternal fixture.app (fixture.name "nope" 24) (fixture.name "exeA" 24)
        (fixture.name "compB" 24) (fixture.name "nope" 24)
      = .error ((fixture.name "nope" 24).ThrowException
          ("Interface '" ++ (fixture.name "nope" 24).text ++ "' not found in component '"
            ++ (fixture.name "compB" 24).text ++ "' in executable '"
            ++ (fixture.name "exeA" 24).text ++ "'."),
          fixture.app) :=
  MakeInterfaceExternal_interface_not_found fixture.app _ _ _ _ _ rfl rfl rfl rfl rfl

end modeller

/-! ## Adding an executable -/

namespace modeller

open parseTree model

/-- Adding the components of the instances of an executable changes the set of
components of the app and nothing else. -/
theorem foldl_insertComponent_frame (l : List ComponentInstance_t) (app : App_t) :
    ∃ components,
      l.foldl
        (fun (app : App_t) (componentInstancePtr : ComponentInstance_t) =>
          { app with
            components := insertComponent app.components componentInstancePtr.componentPtr })
        app
      = { app with components := components } := by
  induction l generalizing app with
  | nil => exact ⟨app.components, rfl⟩
  | cons x rest ih =>
    obtain ⟨components, h⟩ := ih
      { app with components := insertComponent app.components x.componentPtr }
    exact ⟨components, by rw [List.foldl_cons, h]⟩

/-- An executable whose name is a key of the map of executables is refused, and the
app is left as it was. -/
theorem AddExecutable_duplicate (app : App_t) (exePtr old : Exe_t)
    (h : app.executables.find exePtr.name = some old) :
    AddExecutable app exePtr
      = .error (exePtr.exeDefPtr.ThrowException
          ("Duplicate executable found: " ++ exePtr.name ++ "."), app) := by
  unfold AddExecutable
  simp [std.map.insert, h]

/-- What `AddExecutable` does with an executable whose name is not yet a key of the
map of executables. -/
theorem AddExecutable_fresh (app : App_t) (exePtr : Exe_t)
    (h : app.executables.find exePtr.name = none) :
    ∃ components,
      AddExecutable app exePtr
        = if exePtr.hasCOrCppCode = false && exePtr.hasJavaCode = false then
            .error (exePtr.exeDefPtr.ThrowException
              "Executable doesn't contain any components that have source code files.",
              { app with
                executables := app.executables ++ [(exePtr.name, exePtr)]
                components := components })
          else
            .ok { app with
                  executables := app.executables ++ [(exePtr.name, exePtr)]
                  components := components } := by
  obtain ⟨components, hc⟩ := foldl_insertComponent_frame exePtr.componentInstances
    { app with executables := app.executables ++ [(exePtr.name, exePtr)] }
  refine ⟨components, ?_⟩
  unfold AddExecutable
  simp only [std.map.insert, h]
  rw [hc]
  rfl

/-- What a call of `AddExecutable` that returns has found and done. -/
theorem AddExecutable_ok (app app1 : App_t) (exePtr : Exe_t)
    (h : AddExecutable app exePtr = .ok app1) :
    app.executables.find exePtr.name = none
    ∧ (exePtr.hasCOrCppCode = true ∨ exePtr.hasJavaCode = true)
    ∧ ∃ components,
        app1 = { app with
                 executables := app.executables ++ [(exePtr.name, exePtr)]
                 components := components } := by
  cases hf : app.executables.find exePtr.name with
  | some old =>
    rw [AddExecutable_duplicate app exePtr old hf] at h
    cases h
  | none =>
    obtain ⟨components, hfresh⟩ := AddExecutable_fresh app exePtr hf
    rw [hfresh] at h
    by_cases hflags : (exePtr.hasCOrCppCode = false && exePtr.hasJavaCode = false) = true
    · rw [if_pos hflags] at h
      cases h
    · rw [if_neg hflags] at h
      cases h
      refine ⟨rfl, ?_, components, rfl⟩
      cases hc : exePtr.hasCOrCppCode <;> cases hj : exePtr.hasJavaCode <;>
        simp [hc, hj] at hflags ⊢

end modeller

/-! ## The choice of the handler of a section by its name -/

namespace modeller

open parseTree model

/-- A section named `bindings` gets the handling of the `bindings` branch. -/
theorem GetApp_section_bindings_eq (X : Collaborators) (buildParams : mk.BuildParams_t)
    (env : std.map String) (locals : GetApp.Locals) (sectionPtr : CompoundItem_t)
    (hn : sectionPtr.firstTokenPtr.text = "bindings") :
    GetApp.section X buildParams env locals sectionPtr
      = .ok { locals with bindingsSections := locals.bindingsSections ++ [sectionPtr] } := by
  unfold GetApp.section
  dsimp only

  rw [if_pos hn]

/-- A section named `bundles` gets the handling of the `bundles` branch. -/
theorem GetApp_section_bundles_eq (X : Collaborators) (buildParams : mk.BuildParams_t)
    (env : std.map String) (locals : GetApp.Locals) (sectionPtr : CompoundItem_t)
    (hn : sectionPtr.firstTokenPtr.text = "bundles") :
    GetApp.section X buildParams env locals sectionPtr
      = GetApp.onApp locals (AddBundledItems X locals.app sectionPtr) := by
  unfold GetApp.section
  dsimp only
  rw [if_neg (show ¬ (sectionPtr.firstTokenPtr.text = "bindings") by rw [hn]; decide)]
  rw [if_pos hn]

/-- A section named `components` gets the handling of the `components` branch. -/
theorem GetApp_section_components_eq (X : Collaborators) (buildParams : mk.BuildParams_t)
    (env : std.map String) (locals : GetApp.Locals) (sectionPtr : CompoundItem_t)
    (hn : sectionPtr.firstTokenPtr.text = "components") :
    GetApp.section X buildParams env locals sectionPtr
      = match ToTokenListSectionPtr sectionPtr with
        | .error e => .error (e, locals)
        | .ok s => GetApp.onAppAndEnv locals (AddComponents X env locals.app s buildParams) := by
  unfold GetApp.section
  dsimp only
  rw [if_neg (show ¬ (sectionPtr.firstTokenPtr.text = "bindings") by rw [hn]; decide)]
  rw [if_neg (show ¬ (sectionPtr.firstTokenPtr.text = "bundles") by rw [hn]; decide)]
  rw [if_pos hn]

/-- A section named `cpuShare` gets the handling of the `cpuShare` branch. -/
theorem GetApp_section_cpuShare_eq (X : Collaborators) (buildParams : mk.BuildParams_t)
    (env : std.map String) (locals : GetApp.Locals) (sectionPtr : CompoundItem_t)
    (hn : sectionPtr.firstTokenPtr.text = "cpuShare") :
    GetApp.section X buildParams env locals sectionPtr
      = GetApp.assign locals sectionPtr X.GetPositiveInt
          fun app v => { app with cpuShare := app.cpuShare.set v } := by
  unfold GetApp.section
  dsimp only
  rw [if_neg (show ¬ (sectionPtr.firstTokenPtr.text = "bindings") by rw [hn]; decide)]
  rw [if_neg (show ¬ (sectionPtr.firstTokenPtr.text = "bundles") by rw [hn]; decide)]
  rw [if_neg (show ¬ (sectionPtr.firstTokenPtr.text = "components") by rw [hn]; decide)]
  rw [if_pos hn]

/-- A section named `executables` gets the handling of the `executables` branch. -/
theorem GetApp_section_executables_eq (X : Collaborators) (buildParams : mk.BuildParams_t)
    (env : std.map String) (locals : GetApp.Locals) (sectionPtr : CompoundItem_t)
    (hn : sectionPtr.firstTokenPtr.text = "executables") :
    GetApp.section X buildParams env locals sectionPtr
      = GetApp.onAppAndEnv locals (AddExecutables X env locals.app sectionPtr buildParams) := by
  unfold GetApp.section
  dsimp only
  rw [if_neg (show ¬ (sectionPtr.firstTokenPtr.text = "bindings") by rw [hn]; decide)]
  rw [if_neg (show ¬ (sectionPtr.firstTokenPtr.text = "bundles") by rw [hn]; decide)]
  rw [if_neg (show ¬ (sectionPtr.firstTokenPtr.text = "components") by rw [hn]; decide)]
  rw [if_neg (show ¬ (sectionPtr.firstTokenPtr.text = "cpuShare") by rw [hn]; decide)]
  rw [if_pos hn]

/-- A section named `extern` gets the handling of the `extern` branch. -/
theorem GetApp_section_extern_eq (X : Collaborators) (buildParams : mk.BuildParams_t)
    (env : std.map String) (locals : GetApp.Locals) (sectionPtr : CompoundItem_t)
    (hn : sectionPtr.firstTokenPtr.text = "extern") :
    GetApp.section X buildParams env locals sectionPtr
      = match ToComplexSectionPtr sectionPtr with
        | .error e => .error (e, locals)
        | .ok s =>
          .ok { locals with
            externApiInterfaces := AddExternApiInterfaces locals.externApiInterfaces s } := by
  unfold GetApp.section
  dsimp only
  rw [if_neg (show ¬ (sectionPtr.firstTokenPtr.text = "bindings") by rw [hn]; decide)]
  rw [if_neg (show ¬ (sectionPtr.firstTokenPtr.text = "bundles") by rw [hn]; decide)]
  rw [if_neg (show ¬ (sectionPtr.firstTokenPtr.text = "components") by rw [hn]; decide)]
  rw [if_neg (show ¬ (sectionPtr.firstTokenPtr.text = "cpuShare") by rw [hn]; decide)]
  rw [if_neg (show ¬ (sectionPtr.firstTokenPtr.text = "executables") by rw [hn]; decide)]
  rw [if_pos hn]

/-- A section named `groups` gets the handling of the `groups` branch. -/
theorem GetApp_section_groups_eq (X : Collaborators) (buildParams : mk.BuildParams_t)
    (env : std.map String) (locals : GetApp.Locals) (sectionPtr : CompoundItem_t)
    (hn : sectionPtr.firstTokenPtr.text = "groups") :
    GetApp.section X buildParams env locals sectionPtr
      = match ToTokenListSectionPtr sectionPtr with
        | .error e => .error (e, locals)
        | .ok s => GetApp.onApp locals (X.AddGroups locals.app s) := by
  unfold GetApp.section
  dsimp only
  rw [if_neg (show ¬ (sectionPtr.firstTokenPtr.text = "bindings") by rw [hn]; decide)]
  rw [if_neg (show ¬ (sectionPtr.firstTokenPtr.text = "bundles") by rw [hn]; decide)]
  rw [if_neg (show ¬ (sectionPtr.firstTokenPtr.text = "components") by rw [hn]; decide)]
  rw [if_neg (show ¬ (sectionPtr.firstTokenPtr.text = "cpuShare") by rw [hn]; decide)]
  rw [if_neg (show ¬ (sectionPtr.firstTokenPtr.text = "executables") by rw [hn]; decide)]
  rw [if_neg (show ¬ (sectionPtr.firstTokenPtr.text = "extern") by rw [hn]; decide)]
  rw [if_pos hn]

/-- A section named `maxFileSystemBytes` gets the handling of the `maxFileSystemBytes` branch. -/
theorem GetApp_section_maxFileSystemBytes_eq (X : Collaborators) (buildParams : mk.BuildParams_t)
    (env : std.map String) (locals : GetApp.Locals) (sectionPtr : CompoundItem_t)
    (hn : sectionPtr.firstTokenPtr.text = "maxFileSystemBytes") :
    GetApp.section X buildParams env locals sectionPtr
      = GetApp.assign locals sectionPtr X.GetNonNegativeInt
          fun app v => { app with maxFileSystemBytes := app.maxFileSystemBytes.set v } := by
  unfold GetApp.section
  dsimp only
  rw [if_neg (show ¬ (sectionPtr.firstTokenPtr.text = "bindings") by rw [hn]; decide)]
  rw [if_neg (show ¬ (sectionPtr.firstTokenPtr.text = "bundles") by rw [hn]; decide)]
  rw [if_neg (show ¬ (sectionPtr.firstTokenPtr.text = "components") by rw [hn]; decide)]
  rw [if_neg (show ¬ (sectionPtr.firstTokenPtr.text = "cpuShare") by rw [hn]; decide)]
  rw [if_neg (show ¬ (sectionPtr.firstTokenPtr.text = "executables") by rw [hn]; decide)]
  rw [if_neg (show ¬ (sectionPtr.firstTokenPtr.text = "extern") by rw [hn]; decide)]
  rw [if_neg (show ¬ (sectionPtr.firstTokenPtr.text = "groups") by rw [hn]; decide)]
  rw [if_pos hn]

/-- A section named `maxMemoryBytes` gets the handling of the `maxMemoryBytes` branch. -/
theorem GetApp_section_maxMemoryBytes_eq (X : Collaborators) (buildParams : mk.BuildParams_t)
    (env : std.map String) (locals : GetApp.Locals) (sectionPtr : CompoundItem_t)
    (hn : sectionPtr.firstTokenPtr.text = "maxMemoryBytes") :
    GetApp.section X buildParams env locals sectionPtr
      = GetApp.assign locals sectionPtr X.GetPositiveInt
          fun app v => { app with maxMemoryBytes := app.maxMemoryBytes.set v } := by
  unfold GetApp.section
  dsimp only
  rw [if_neg (show ¬ (sectionPtr.firstTokenPtr.text = "bindings") by rw [hn]; decide)]
  rw [if_neg (show ¬ (sectionPtr.firstTokenPtr.text = "bundles") by rw [hn]; decide)]
  rw [if_neg (show ¬ (sectionPtr.firstTokenPtr.text = "components") by rw [hn]; decide)]
  rw [if_neg (show ¬ (sectionPtr.firstTokenPtr.text = "cpuShare") by rw [hn]; decide)]
  rw [if_neg (show ¬ (sectionPtr.firstTokenPtr.text = "executables") by rw [hn]; decide)]
  rw [if_neg (show ¬ (sectionPtr.firstTokenPtr.text = "extern") by rw [hn]; decide)]
  rw [if_neg (show ¬ (sectionPtr.firstTokenPtr.text = "groups") by rw [hn]; decide)]
  rw [if_neg (show ¬ (sectionPtr.firstTokenPtr.text = "maxFileSystemBytes") by rw [hn]; decide)]
  rw [if_pos hn]

/-- A section named `maxMQueueBytes` gets the handling of the `maxMQueueBytes` branch. -/
theorem GetApp_section_maxMQueueBytes_eq (X : Collaborators) (buildParams : mk.BuildParams_t)
    (env : std.map String) (locals : GetApp.Locals) (sectionPtr : CompoundItem_t)
    (hn : sectionPtr.firstTokenPtr.text = "maxMQueueBytes") :
    GetApp.section X buildParams env locals sectionPtr
      = GetApp.assign locals sectionPtr X.GetNonNegativeInt
          fun app v => { app with maxMQueueBytes := app.maxMQueueBytes.set v } := by
  unfold GetApp.section
  dsimp only
  rw [if_neg (show ¬ (sectionPtr.firstTokenPtr.text = "bindings") by rw [hn]; decide)]
  rw [if_neg (show ¬ (sectionPtr.firstTokenPtr.text = "bundles") by rw [hn]; decide)]
  rw [if_neg (show ¬ (sectionPtr.firstTokenPtr.text = "components") by rw [hn]; decide)]
  rw [if_neg (show ¬ (sectionPtr.firstTokenPtr.text = "cpuShare") by rw [hn]; decide)]
  rw [if_neg (show ¬ (sectionPtr.firstTokenPtr.text = "executables") by rw [hn]; decide)]
  rw [if_neg (show ¬ (sectionPtr.firstTokenPtr.text = "extern") by rw [hn]; decide)]
  rw [if_neg (show ¬ (sectionPtr.firstTokenPtr.text = "groups") by rw [hn]; decide)]
  rw [if_neg (show ¬ (sectionPtr.firstTokenPtr.text = "maxFileSystemBytes") by rw [hn]; decide)]
  rw [if_neg (show ¬ (sectionPtr.firstTokenPtr.text = "maxMemoryBytes") by rw [hn]; decide)]
  rw [if_pos hn]

/-- A section named `maxQueuedSignals` gets the handling of the `maxQueuedSignals` branch. -/
theorem GetApp_section_maxQueuedSignals_eq (X : Collaborators) (buildParams : mk.BuildParams_t)
    (env : std.map String) (locals : GetApp.Locals) (sectionPtr : CompoundItem_t)
    (hn : sectionPtr.firstTokenPtr.text = "maxQueuedSignals") :
    GetApp.section X buildParams env locals sectionPtr
      = GetApp.assign locals sectionPtr X.GetNonNegativeInt
          fun app v => { app with maxQueuedSignals := app.maxQueuedSignals.set v } := by
  unfold GetApp.section
  dsimp only
  rw [if_neg (show ¬ (sectionPtr.firstTokenPtr.text = "bindings") by rw [hn]; decide)]
  rw [if_neg (show ¬ (sectionPtr.firstTokenPtr.text = "bundles") by rw [hn]; decide)]
  rw [if_neg (show ¬ (sectionPtr.firstTokenPtr.text = "components") by rw [hn]; decide)]
  rw [if_neg (show ¬ (sectionPtr.firstTokenPtr.text = "cpuShare") by rw [hn]; decide)]
  rw [if_neg (show ¬ (sectionPtr.firstTokenPtr.text = "executables") by rw [hn]; decide)]
  rw [if_neg (show ¬ (sectionPtr.firstTokenPtr.text = "extern") by rw [hn]; decide)]
  rw [if_neg (show ¬ (sectionPtr.firstTokenPtr.text = "groups") by rw [hn]; decide)]
  rw [if_neg (show ¬ (sectionPtr.firstTokenPtr.text = "maxFileSystemBytes") by rw [hn]; decide)]
  rw [if_neg (show ¬ (sectionPtr.firstTokenPtr.text = "maxMemoryBytes") by rw [hn]; decide)]
  rw [if_neg (show ¬ (sectionPtr.firstTokenPtr.text = "maxMQueueBytes") by rw [hn]; decide)]
  rw [if_pos hn]

/-- A section named `maxThreads` gets the handling of the `maxThreads` branch. -/
theorem GetApp_section_maxThreads_eq (X : Collaborators) (buildParams : mk.BuildParams_t)
    (env : std.map String) (locals : GetApp.Locals) (sectionPtr : CompoundItem_t)
    (hn : sectionPtr.firstTokenPtr.text = "maxThreads") :
    GetApp.section X buildParams env locals sectionPtr
      = GetApp.assign locals sectionPtr X.GetPositiveInt
          fun app v => { app with maxThreads := app.maxThreads.set v } := by
  unfold GetApp.section
  dsimp only
  rw [if_neg (show ¬ (sectionPtr.firstTokenPtr.text = "bindings") by rw [hn]; decide)]
  rw [if_neg (show ¬ (sectionPtr.firstTokenPtr.text = "bundles") by rw [hn]; decide)]
  rw [if_neg (show ¬ (sectionPtr.firstTokenPtr.text = "components") by rw [hn]; decide)]
  rw [if_neg (show ¬ (sectionPtr.firstTokenPtr.text = "cpuShare") by rw [hn]; decide)]
  rw [if_neg (show ¬ (sectionPtr.firstTokenPtr.text = "executables") by rw [hn]; decide)]
  rw [if_neg (show ¬ (sectionPtr.firstTokenPtr.text = "extern") by rw [hn]; decide)]
  rw [if_neg (show ¬ (sectionPtr.firstTokenPtr.text = "groups") by rw [hn]; decide)]
  rw [if_neg (show ¬ (sectionPtr.firstTokenPtr.text = "maxFileSystemBytes") by rw [hn]; decide)]
  rw [if_neg (show ¬ (sectionPtr.firstTokenPtr.text = "maxMemoryBytes") by rw [hn]; decide)]
  rw [if_neg (show ¬ (sectionPtr.firstTokenPtr.text = "maxMQueueBytes") by rw [hn]; decide)]
  rw [if_neg (show ¬ (sectionPtr.firstTokenPtr.text = "maxQueuedSignals") by rw [hn]; decide)]
  rw [if_pos hn]

/-- A section named `maxSecureStorageBytes` gets the handling of the `maxSecureStorageBytes` branch. -/
theorem GetApp_section_maxSecureStorageBytes_eq (X : Collaborators) (buildParams : mk.BuildParams_t)
    (env : std.map String) (locals : GetApp.Locals) (sectionPtr : CompoundItem_t)
    (hn : sectionPtr.firstTokenPtr.text = "maxSecureStorageBytes") :
    GetApp.section X buildParams env locals sectionPtr
      = GetApp.assign locals sectionPtr X.GetNonNegativeInt
          fun app v => { app with maxSecureStorageBytes := app.maxSecureStorageBytes.set v } := by
  unfold GetApp.section
  dsimp only
  rw [if_neg (show ¬ (sectionPtr.firstTokenPtr.text = "bindings") by rw [hn]; decide)]
  rw [if_neg (show ¬ (sectionPtr.firstTokenPtr.text = "bundles") by rw [hn]; decide)]
  rw [if_neg (show ¬ (sectionPtr.firstTokenPtr.text = "components") by rw [hn]; decide)]
  rw [if_neg (show ¬ (sectionPtr.firstTokenPtr.text = "cpuShare") by rw [hn]; decide)]
  rw [if_neg (show ¬ (sectionPtr.firstTokenPtr.text = "executables") by rw [hn]; decide)]
  rw [if_neg (show ¬ (sectionPtr.firstTokenPtr.text = "extern") by rw [hn]; decide)]
  rw [if_neg (show ¬ (sectionPtr.firstTokenPtr.text = "groups") by rw [hn]; decide)]
  rw [if_neg (show ¬ (sectionPtr.firstTokenPtr.text = "maxFileSystemBytes") by rw [hn]; decide)]
  rw [if_neg (show ¬ (sectionPtr.firstTokenPtr.text = "maxMemoryBytes") by rw [hn]; decide)]
  rw [if_neg (show ¬ (sectionPtr.firstTokenPtr.text = "maxMQueueBytes") by rw [hn]; decide)]
  rw [if_neg (show ¬ (sectionPtr.firstTokenPtr.text = "maxQueuedSignals") by rw [hn]; decide)]
  rw [if_neg (show ¬ (sectionPtr.firstTokenPtr.text = "maxThreads") by rw [hn]; decide)]
  rw [if_pos hn]

/-- A section named `processes` gets the handling of the `processes` branch. -/
theorem GetApp_section_processes_eq (X : Collaborators) (buildParams : mk.BuildParams_t)
    (env : std.map String) (locals : GetApp.Locals) (sectionPtr : CompoundItem_t)
    (hn : sectionPtr.firstTokenPtr.text = "processes") :
    GetApp.section X buildParams env locals sectionPtr
      = .ok { locals with processesSections := locals.processesSections ++ [sectionPtr] } := by
  unfold GetApp.section
  dsimp only
  rw [if_neg (show ¬ (sectionPtr.firstTokenPtr.text = "bindings") by rw [hn]; decide)]
  rw [if_neg (show ¬ (sectionPtr.firstTokenPtr.text = "bundles") by rw [hn]; decide)]
  rw [if_neg (show ¬ (sectionPtr.firstTokenPtr.text = "components") by rw [hn]; decide)]
  rw [if_neg (show ¬ (sectionPtr.firstTokenPtr.text = "cpuShare") by rw [hn]; decide)]
  rw [if_neg (show ¬ (sectionPtr.firstTokenPtr.text = "executables") by rw [hn]; decide)]
  rw [if_neg (show ¬ (sectionPtr.firstTokenPtr.text = "extern") by rw [hn]; decide)]
  rw [if_neg (show ¬ (sectionPtr.firstTokenPtr.text = "groups") by rw [hn]; decide)]
  rw [if_neg (show ¬ (sectionPtr.firstTokenPtr.text = "maxFileSystemBytes") by rw [hn]; decide)]
  rw [if_neg (show ¬ (sectionPtr.firstTokenPtr.text = "maxMemoryBytes") by rw [hn]; decide)]
  rw [if_neg (show ¬ (sectionPtr.firstTokenPtr.text = "maxMQueueBytes") by rw [hn]; decide)]
  rw [if_neg (show ¬ (sectionPtr.firstTokenPtr.text = "maxQueuedSignals") by rw [hn]; decide)]
  rw [if_neg (show ¬ (sectionPtr.firstTokenPtr.text = "maxThreads") by rw [hn]; decide)]
  rw [if_neg (show ¬ (sectionPtr.firstTokenPtr.text = "maxSecureStorageBytes") by rw [hn]; decide)]
  rw [if_pos hn]

/-- A section named `provides` gets the handling of the `provides` branch. -/
theorem GetApp_section_provides_eq (X : Collaborators) (buildParams : mk.BuildParams_t)
    (env : std.map String) (locals : GetApp.Locals) (sectionPtr : CompoundItem_t)
    (hn : sectionPtr.firstTokenPtr.text = "provides") :
    GetApp.section X buildParams env locals sectionPtr
      = GetApp.onAppAndInterfaces locals
          (AddProvidedItems (locals.app, locals.externApiInterfaces) sectionPtr) := by
  unfold GetApp.section
  dsimp only
  rw [if_neg (show ¬ (sectionPtr.firstTokenPtr.text = "bindings") by rw [hn]; decide)]
  rw [if_neg (show ¬ (sectionPtr.firstTokenPtr.text = "bundles") by rw [hn]; decide)]
  rw [if_neg (show ¬ (sectionPtr.firstTokenPtr.text = "components") by rw [hn]; decide)]
  rw [if_neg (show ¬ (sectionPtr.firstTokenPtr.text = "cpuShare") by rw [hn]; decide)]
  rw [if_neg (show ¬ (sectionPtr.firstTokenPtr.text = "executables") by rw [hn]; decide)]
  rw [if_neg (show ¬ (sectionPtr.firstTokenPtr.text = "extern") by rw [hn]; decide)]
  rw [if_neg (show ¬ (sectionPtr.firstTokenPtr.text = "groups") by rw [hn]; decide)]
  rw [if_neg (show ¬ (sectionPtr.firstTokenPtr.text = "maxFileSystemBytes") by rw [hn]; decide)]
  rw [if_neg (show ¬ (sectionPtr.firstTokenPtr.text = "maxMemoryBytes") by rw [hn]; decide)]
  rw [if_neg (show ¬ (sectionPtr.firstTokenPtr.text = "maxMQueueBytes") by rw [hn]; decide)]
  rw [if_neg (show ¬ (sectionPtr.firstTokenPtr.text = "maxQueuedSignals") by rw [hn]; decide)]
  rw [if_neg (show ¬ (sectionPtr.firstTokenPtr.text = "maxThreads") by rw [hn]; decide)]
  rw [if_neg (show ¬ (sectionPtr.firstTokenPtr.text = "maxSecureStorageBytes") by rw [hn]; decide)]
  rw [if_neg (show ¬ (sectionPtr.firstTokenPtr.text = "processes") by rw [hn]; decide)]
  rw [if_pos hn]

/-- A section named `requires` gets the handling of the `requires` branch. -/
theorem GetApp_section_requires_eq (X : Collaborators) (buildParams : mk.BuildParams_t)
    (env : std.map String) (locals : GetApp.Locals) (sectionPtr : CompoundItem_t)
    (hn : sectionPtr.firstTokenPtr.text = "requires") :
    GetApp.section X buildParams env locals sectionPtr
      = GetApp.onAppAndInterfaces locals
          (AddRequiredItems X (locals.app, locals.externApiInterfaces) sectionPtr) := by
  unfold GetApp.section
  dsimp only
  rw [if_neg (show ¬ (sectionPtr.firstTokenPtr.text = "bindings") by rw [hn]; decide)]
  rw [if_neg (show ¬ (sectionPtr.firstTokenPtr.text = "bundles") by rw [hn]; decide)]
  rw [if_neg (show ¬ (sectionPtr.firstTokenPtr.text = "components") by rw [hn]; decide)]
  rw [if_neg (show ¬ (sectionPtr.firstTokenPtr.text = "cpuShare") by rw [hn]; decide)]
  rw [if_neg (show ¬ (sectionPtr.firstTokenPtr.text = "executables") by rw [hn]; decide)]
  rw [if_neg (show ¬ (sectionPtr.firstTokenPtr.text = "extern") by rw [hn]; decide)]
  rw [if_neg (show ¬ (sectionPtr.firstTokenPtr.text = "groups") by rw [hn]; decide)]
  rw [if_neg (show ¬ (sectionPtr.firstTokenPtr.text = "maxFileSystemBytes") by rw [hn]; decide)]
  rw [if_neg (show ¬ (sectionPtr.firstTokenPtr.text = "maxMemoryBytes") by rw [hn]; decide)]
  rw [if_neg (show ¬ (sectionPtr.firstTokenPtr.text = "maxMQueueBytes") by rw [hn]; decide)]
  rw [if_neg (show ¬ (sectionPtr.firstTokenPtr.text = "maxQueuedSignals") by rw [hn]; decide)]
  rw [if_neg (show ¬ (sectionPtr.firstTokenPtr.text = "maxThreads") by rw [hn]; decide)]
  rw [if_neg (show ¬ (sectionPtr.firstTokenPtr.text = "maxSecureStorageBytes") by rw [hn]; decide)]
  rw [if_neg (show ¬ (sectionPtr.firstTokenPtr.text = "processes") by rw [hn]; decide)]
  rw [if_neg (show ¬ (sectionPtr.firstTokenPtr.text = "provides") by rw [hn]; decide)]
  rw [if_pos hn]

/-- A section named `sandboxed` gets the handling of the `sandboxed` branch. -/
theorem GetApp_section_sandboxed_eq (X : Collaborators) (buildParams : mk.BuildParams_t)
    (env : std.map String) (locals : GetApp.Locals) (sectionPtr : CompoundItem_t)
    (hn : sectionPtr.firstTokenPtr.text = "sandboxed") :
    GetApp.section X buildParams env locals sectionPtr
      = GetApp.assign locals sectionPtr (fun s => .ok s.Text)
          fun app text => { app with isSandboxed := decide (text ≠ "false") } := by
  unfold GetApp.section
  dsimp only
  rw [if_neg (show ¬ (sectionPtr.firstTokenPtr.text = "bindings") by rw [hn]; decide)]
  rw [if_neg (show ¬ (sectionPtr.firstTokenPtr.text = "bundles") by rw [hn]; decide)]
  rw [if_neg (show ¬ (sectionPtr.firstTokenPtr.text = "components") by rw [hn]; decide)]
  rw [if_neg (show ¬ (sectionPtr.firstTokenPtr.text = "cpuShare") by rw [hn]; decide)]
  rw [if_neg (show ¬ (sectionPtr.firstTokenPtr.text = "executables") by rw [hn]; decide)]
  rw [if_neg (show ¬ (sectionPtr.firstTokenPtr.text = "extern") by rw [hn]; decide)]
  rw [if_neg (show ¬ (sectionPtr.firstTokenPtr.text = "groups") by rw [hn]; decide)]
  rw [if_neg (show ¬ (sectionPtr.firstTokenPtr.text = "maxFileSystemBytes") by rw [hn]; decide)]
  rw [if_neg (show ¬ (sectionPtr.firstTokenPtr.text = "maxMemoryBytes") by rw [hn]; decide)]
  rw [if_neg (show ¬ (sectionPtr.firstTokenPtr.text = "maxMQueueBytes") by rw [hn]; decide)]
  rw [if_neg (show ¬ (sectionPtr.firstTokenPtr.text = "maxQueuedSignals") by rw [hn]; decide)]
  rw [if_neg (show ¬ (sectionPtr.firstTokenPtr.text = "maxThreads") by rw [hn]; decide)]
  rw [if_neg (show ¬ (sectionPtr.firstTokenPtr.text = "maxSecureStorageBytes") by rw [hn]; decide)]
  rw [if_neg (show ¬ (sectionPtr.firstTokenPtr.text = "processes") by rw [hn]; decide)]
  rw [if_neg (show ¬ (sectionPtr.firstTokenPtr.text = "provides") by rw [hn]; decide)]
  rw [if_neg (show ¬ (sectionPtr.firstTokenPtr.text = "requires") by rw [hn]; decide)]
  rw [if_pos hn]

/-- A section named `start` gets the handling of the `start` branch. -/
theorem GetApp_section_start_eq (X : Collaborators) (buildParams : mk.BuildParams_t)
    (env : std.map String) (locals : GetApp.Locals) (sectionPtr : CompoundItem_t)
    (hn : sectionPtr.firstTokenPtr.text = "start") :
    GetApp.section X buildParams env locals sectionPtr
      = match ToSimpleSectionPtr sectionPtr with
        | .error e => .error (e, locals)
        | .ok s => GetApp.onApp locals (X.SetStart locals.app s) := by
  unfold GetApp.section
  dsimp only
  rw [if_neg (show ¬ (sectionPtr.firstTokenPtr.text = "bindings") by rw [hn]; decide)]
  rw [if_neg (show ¬ (sectionPtr.firstTokenPtr.text = "bundles") by rw [hn]; decide)]
  rw [if_neg (show ¬ (sectionPtr.firstTokenPtr.text = "components") by rw [hn]; decide)]
  rw [if_neg (show ¬ (sectionPtr.firstTokenPtr.text = "cpuShare") by rw [hn]; decide)]
  rw [if_neg (show ¬ (sectionPtr.firstTokenPtr.text = "executables") by rw [hn]; decide)]
  rw [if_neg (show ¬ (sectionPtr.firstTokenPtr.text = "extern") by rw [hn]; decide)]
  rw [if_neg (show ¬ (sectionPtr.firstTokenPtr.text = "groups") by rw [hn]; decide)]
  rw [if_neg (show ¬ (sectionPtr.firstTokenPtr.text = "maxFileSystemBytes") by rw [hn]; decide)]
  rw [if_neg (show ¬ (sectionPtr.firstTokenPtr.text = "maxMemoryBytes") by rw [hn]; decide)]
  rw [if_neg (show ¬ (sectionPtr.firstTokenPtr.text = "maxMQueueBytes") by rw [hn]; decide)]
  rw [if_neg (show ¬ (sectionPtr.firstTokenPtr.text = "maxQueuedSignals") by rw [hn]; decide)]
  rw [if_neg (show ¬ (sectionPtr.firstTokenPtr.text = "maxThreads") by rw [hn]; decide)]
  rw [if_neg (show ¬ (sectionPtr.firstTokenPtr.text = "maxSecureStorageBytes") by rw [hn]; decide)]
  rw [if_neg (show ¬ (sectionPtr.firstTokenPtr.text = "processes") by rw [hn]; decide)]
  rw [if_neg (show ¬ (sectionPtr.firstTokenPtr.text = "provides") by rw [hn]; decide)]
  rw [if_neg (show ¬ (sectionPtr.firstTokenPtr.text = "requires") by rw [hn]; decide)]
  rw [if_neg (show ¬ (sectionPtr.firstTokenPtr.text = "sandboxed") by rw [hn]; decide)]
  rw [if_pos hn]

/-- A section named `version` gets the handling of the `version` branch. -/
theorem GetApp_section_version_eq (X : Collaborators) (buildParams : mk.BuildParams_t)
    (env : std.map String) (locals : GetApp.Locals) (sectionPtr : CompoundItem_t)
    (hn : sectionPtr.firstTokenPtr.text = "version") :
    GetApp.section X buildParams env locals sectionPtr
      = match ToSimpleSectionPtr sectionPtr with
        | .error e => .error (e, locals)
        | .ok s =>
          if s.Text.data.head? = some '$' then
            match X.DoSubstitution env s.Text with
            | .error e => .error (e, { locals with app := { locals.app with version := s.Text } })
            | .ok version => .ok { locals with app := { locals.app with version := version } }
          else .ok { locals with app := { locals.app with version := s.Text } } := by
  unfold GetApp.section
  dsimp only
  rw [if_neg (show ¬ (sectionPtr.firstTokenPtr.text = "bindings") by rw [hn]; decide)]
  rw [if_neg (show ¬ (sectionPtr.firstTokenPtr.text = "bundles") by rw [hn]; decide)]
  rw [if_neg (show ¬ (sectionPtr.firstTokenPtr.text = "components") by rw [hn]; decide)]
  rw [if_neg (show ¬ (sectionPtr.firstTokenPtr.text = "cpuShare") by rw [hn]; decide)]
  rw [if_neg (show ¬ (sectionPtr.firstTokenPtr.text = "executables") by rw [hn]; decide)]
  rw [if_neg (show ¬ (sectionPtr.firstTokenPtr.text = "extern") by rw [hn]; decide)]
  rw [if_neg (show ¬ (sectionPtr.firstTokenPtr.text = "groups") by rw [hn]; decide)]
  rw [if_neg (show ¬ (sectionPtr.firstTokenPtr.text = "maxFileSystemBytes") by rw [hn]; decide)]
  rw [if_neg (show ¬ (sectionPtr.firstTokenPtr.text = "maxMemoryBytes") by rw [hn]; decide)]
  rw [if_neg (show ¬ (sectionPtr.firstTokenPtr.text = "maxMQueueBytes") by rw [hn]; decide)]
  rw [if_neg (show ¬ (sectionPtr.firstTokenPtr.text = "maxQueuedSignals") by rw [hn]; decide)]
  rw [if_neg (show ¬ (sectionPtr.firstTokenPtr.text = "maxThreads") by rw [hn]; decide)]
  rw [if_neg (show ¬ (sectionPtr.firstTokenPtr.text = "maxSecureStorageBytes") by rw [hn]; decide)]
  rw [if_neg (show ¬ (sectionPtr.firstTokenPtr.text = "processes") by rw [hn]; decide)]
  rw [if_neg (show ¬ (sectionPtr.firstTokenPtr.text = "provides") by rw [hn]; decide)]
  rw [if_neg (show ¬ (sectionPtr.firstTokenPtr.text = "requires") by rw [hn]; decide)]
  rw [if_neg (show ¬ (sectionPtr.firstTokenPtr.text = "sandboxed") by rw [hn]; decide)]
  rw [if_neg (show ¬ (sectionPtr.firstTokenPtr.text = "start") by rw [hn]; decide)]
  rw [if_pos hn]

/-- A section named `watchdogAction` gets the handling of the `watchdogAction` branch. -/
theorem GetApp_section_watchdogAction_eq (X : Collaborators) (buildParams : mk.BuildParams_t)
    (env : std.map String) (locals : GetApp.Locals) (sectionPtr : CompoundItem_t)
    (hn : sectionPtr.firstTokenPtr.text = "watchdogAction") :
    GetApp.section X buildParams env locals sectionPtr
      = match ToSimpleSectionPtr sectionPtr with
        | .error e => .error (e, locals)
        | .ok s => GetApp.onApp locals (X.SetWatchdogAction locals.app s) := by
  unfold GetApp.section
  dsimp only
  rw [if_neg (show ¬ (sectionPtr.firstTokenPtr.text = "bindings") by rw [hn]; decide)]
  rw [if_neg (show ¬ (sectionPtr.firstTokenPtr.text = "bundles") by rw [hn]; decide)]
  rw [if_neg (show ¬ (sectionPtr.firstTokenPtr.text = "components") by rw [hn]; decide)]
  rw [if_neg (show ¬ (sectionPtr.firstTokenPtr.text = "cpuShare") by rw [hn]; decide)]
  rw [if_neg (show ¬ (sectionPtr.firstTokenPtr.text = "executables") by rw [hn]; decide)]
  rw [if_neg (show ¬ (sectionPtr.firstTokenPtr.text = "extern") by rw [hn]; decide)]
  rw [if_neg (show ¬ (sectionPtr.firstTokenPtr.text = "groups") by rw [hn]; decide)]
  rw [if_neg (show ¬ (sectionPtr.firstTokenPtr.text = "maxFileSystemBytes") by rw [hn]; decide)]
  rw [if_neg (show ¬ (sectionPtr.firstTokenPtr.text = "maxMemoryBytes") by rw [hn]; decide)]
  rw [if_neg (show ¬ (sectionPtr.firstTokenPtr.text = "maxMQueueBytes") by rw [hn]; decide)]
  rw [if_neg (show ¬ (sectionPtr.firstTokenPtr.text = "maxQueuedSignals") by rw [hn]; decide)]
  rw [if_neg (show ¬ (sectionPtr.firstTokenPtr.text = "maxThreads") by rw [hn]; decide)]
  rw [if_neg (show ¬ (sectionPtr.firstTokenPtr.text = "maxSecureStorageBytes") by rw [hn]; decide)]
  rw [if_neg (show ¬ (sectionPtr.firstTokenPtr.text = "processes") by rw [hn]; decide)]
  rw [if_neg (show ¬ (sectionPtr.firstTokenPtr.text = "provides") by rw [hn]; decide)]
  rw [if_neg (show ¬ (sectionPtr.firstTokenPtr.text = "requires") by rw [hn]; decide)]
  rw [if_neg (show ¬ (sectionPtr.firstTokenPtr.text = "sandboxed") by rw [hn]; decide)]
  rw [if_neg (show ¬ (sectionPtr.firstTokenPtr.text = "start") by rw [hn]; decide)]
  rw [if_neg (show ¬ (sectionPtr.firstTokenPtr.text = "version") by rw [hn]; decide)]
  rw [if_pos hn]

/-- A section named `watchdogTimeout` gets the handling of the `watchdogTimeout` branch. -/
theorem GetApp_section_watchdogTimeout_eq (X : Collaborators) (buildParams : mk.BuildParams_t)
    (env : std.map String) (locals : GetApp.Locals) (sectionPtr : CompoundItem_t)
    (hn : sectionPtr.firstTokenPtr.text = "watchdogTimeout") :
    GetApp.section X buildParams env locals sectionPtr
      = match ToSimpleSectionPtr sectionPtr with
        | .error e => .error (e, locals)
        | .ok s => GetApp.onApp locals (X.SetWatchdogTimeout locals.app s) := by
  unfold GetApp.section
  dsimp only
  rw [if_neg (show ¬ (sectionPtr.firstTokenPtr.text = "bindings") by rw [hn]; decide)]
  rw [if_neg (show ¬ (sectionPtr.firstTokenPtr.text = "bundles") by rw [hn]; decide)]
  rw [if_neg (show ¬ (sectionPtr.firstTokenPtr.text = "components") by rw [hn]; decide)]
  rw [if_neg (show ¬ (sectionPtr.firstTokenPtr.text = "cpuShare") by rw [hn]; decide)]
  rw [if_neg (show ¬ (sectionPtr.firstTokenPtr.text = "executables") by rw [hn]; decide)]
  rw [if_neg (show ¬ (sectionPtr.firstTokenPtr.text = "extern") by rw [hn]; decide)]
  rw [if_neg (show ¬ (sectionPtr.firstTokenPtr.text = "groups") by rw [hn]; decide)]
  rw [if_neg (show ¬ (sectionPtr.firstTokenPtr.text = "maxFileSystemBytes") by rw [hn]; decide)]
  rw [if_neg (show ¬ (sectionPtr.firstTokenPtr.text = "maxMemoryBytes") by rw [hn]; decide)]
  rw [if_neg (show ¬ (sectionPtr.firstTokenPtr.text = "maxMQueueBytes") by rw [hn]; decide)]
  rw [if_neg (show ¬ (sectionPtr.firstTokenPtr.text = "maxQueuedSignals") by rw [hn]; decide)]
  rw [if_neg (show ¬ (sectionPtr.firstTokenPtr.text = "maxThreads") by rw [hn]; decide)]
  rw [if_neg (show ¬ (sectionPtr.firstTokenPtr.text = "maxSecureStorageBytes") by rw [hn]; decide)]
  rw [if_neg (show ¬ (sectionPtr.firstTokenPtr.text = "processes") by rw [hn]; decide)]
  rw [if_neg (show ¬ (sectionPtr.firstTokenPtr.text = "provides") by rw [hn]; decide)]
  rw [if_neg (show ¬ (sectionPtr.firstTokenPtr.text = "requires") by rw [hn]; decide)]
  rw [if_neg (show ¬ (sectionPtr.firstTokenPtr.text = "sandboxed") by rw [hn]; decide)]
  rw [if_neg (show ¬ (sectionPtr.firstTokenPtr.text = "start") by rw [hn]; decide)]
  rw [if_neg (show ¬ (sectionPtr.firstTokenPtr.text = "version") by rw [hn]; decide)]
  rw [if_neg (show ¬ (sectionPtr.firstTokenPtr.text = "watchdogAction") by rw [hn]; decide)]
  rw [if_pos hn]

/-- A section whose name is not in the vocabulary is refused. -/
theorem GetApp_section_unrecognized (X : Collaborators) (buildParams : mk.BuildParams_t)
    (env : std.map String) (locals : GetApp.Locals) (sectionPtr : CompoundItem_t)
    (hn : sectionPtr.firstTokenPtr.text ∉ GetApp.vocabulary) :
    GetApp.section X buildParams env locals sectionPtr
      = .error (sectionPtr.ThrowException
          ("Internal error: Unrecognized section '" ++ sectionPtr.firstTokenPtr.text ++ "'."),
          locals) := by
  unfold GetApp.section
  dsimp only
  rw [if_neg (fun e => hn (by rw [e]; decide))]
  rw [if_neg (fun e => hn (by rw [e]; decide))]
  rw [if_neg (fun e => hn (by rw [e]; decide))]
  rw [if_neg (fun e => hn (by rw [e]; decide))]
  rw [if_neg (fun e => hn (by rw [e]; decide))]
  rw [if_neg (fun e => hn (by rw [e]; decide))]
  rw [if_neg (fun e => hn (by rw [e]; decide))]
  rw [if_neg (fun e => hn (by rw [e]; decide))]
  rw [if_neg (fun e => hn (by rw [e]; decide))]
  rw [if_neg (fun e => hn (by rw [e]; decide))]
  rw [if_neg (fun e => hn (by rw [e]; decide))]
  rw [if_neg (fun e => hn (by rw [e]; decide))]
  rw [if_neg (fun e => hn (by rw [e]; decide))]
  rw [if_neg (fun e => hn (by rw [e]; decide))]
  rw [if_neg (fun e => hn (by rw [e]; decide))]
  rw [if_neg (fun e => hn (by rw [e]; decide))]
  rw [if_neg (fun e => hn (by rw [e]; decide))]
  rw [if_neg (fun e => hn (by rw [e]; decide))]
  rw [if_neg (fun e => hn (by rw [e]; decide))]
  rw [if_neg (fun e => hn (by rw [e]; decide))]
  rw [if_neg (fun e => hn (by rw [e]; decide))]

end modeller

/-! ## What the handlers of the sections change in the app -/

namespace modeller

open parseTree model

/-- A "bundles" section changes the lists of bundled files and directories of the
app and nothing else. -/
theorem AddBundledItems_frame (X : Collaborators) (app app1 : App_t)
    (sectionPtr : CompoundItem_t) (h : AddBundledItems X app sectionPtr = .ok app1) :
    ∃ files dirs, app1 = { app with bundledFiles := files, bundledDirs := dirs } := by
  have hrefl : ∀ a : App_t,
      ∃ files dirs, a = { a with bundledFiles := files, bundledDirs := dirs } :=
    fun a => ⟨a.bundledFiles, a.bundledDirs, rfl⟩
  have htrans : ∀ a b c : App_t,
      (∃ files dirs, b = { a with bundledFiles := files, bundledDirs := dirs }) →
      (∃ files dirs, c = { b with bundledFiles := files, bundledDirs := dirs }) →
      ∃ files dirs, c = { a with bundledFiles := files, bundledDirs := dirs } := by
    rintro a b c ⟨f1, d1, rfl⟩ ⟨f2, d2, rfl⟩
    exact ⟨f2, d2, rfl⟩
  unfold AddBundledItems at h
  simp only [liftExcept, bind, Except.bind, pure, Except.pure, throw, throwThe,
    MonadExceptOf.throw] at h
  split at h
  · cases h
  rename_i members hcast
  refine foldlM_rel
    (fun a b : App_t => ∃ files dirs, b = { a with bundledFiles := files, bundledDirs := dirs })
    hrefl htrans _ (fun a x a1 hx => ?_) members app app1 h
  repeat' (first | cases hx | split at hx)
  all_goals
    refine foldlM_rel _ hrefl htrans _ (fun a y a1 hy => ?_) _ _ _ hx
    simp only [AddBundledItems.file, AddBundledItems.dir, liftExcept, bind, Except.bind, pure,
      Except.pure, throw, throwThe, MonadExceptOf.throw] at hy
    repeat' (first | (cases hy; done) | split at hy)
    all_goals
      cases hy
      exact ⟨_, _, rfl⟩

/-- A "components" section changes the set of components of the app and nothing
else. -/
theorem AddComponents_frame (X : Collaborators) (env : std.map String) (app app1 : App_t)
    (sectionPtr : TokenList_t) (buildParams : mk.BuildParams_t)
    (h : AddComponents X env app sectionPtr buildParams = .ok app1) :
    ∃ components, app1 = { app with components := components } := by
  unfold AddComponents at h
  refine foldlM_rel (fun a b : App_t => ∃ components, b = { a with components := components })
    (fun a => ⟨a.components, rfl⟩)
    (by rintro a b c ⟨c1, rfl⟩ ⟨c2, rfl⟩; exact ⟨c2, rfl⟩)
    _ (fun a x a1 hx => ?_) _ app app1 h
  cases hc : X.GetComponent env x buildParams [a.dir] with
  | error e => simp [hc, liftNested, bind, Except.bind] at hx
  | ok c =>
    simp only [hc, liftNested, bind, Except.bind, pure, Except.pure] at hx
    cases c with
    | none => cases hx; exact ⟨_, rfl⟩
    | some c => cases hx; exact ⟨_, rfl⟩

end modeller

/-! ## The map of executables through the sections -/

namespace modeller

open parseTree model

/-- A "provides" section leaves the app as it is. -/
theorem AddProvidedItems_frame (st st1 : App_t × List (Option TokenList_t))
    (sectionPtr : CompoundItem_t) (h : AddProvidedItems st sectionPtr = .ok st1) :
    st1.1 = st.1 := by
  unfold AddProvidedItems at h
  split at h
  · cases h
  refine foldlM_rel (fun a b : App_t × List (Option TokenList_t) => b.1 = a.1)
    (fun _ => rfl) (fun _ _ _ h1 h2 => h2.trans h1) _ (fun a x a1 hx => ?_) _ _ _ h
  try dsimp only at hx
  repeat' (first | (cases hx; done) | split at hx)
  all_goals
    cases hx
    rfl

/-- A call of `AddConfigTree` that returns has changed the map of configuration
trees of the app and nothing else. -/
theorem AddConfigTree_frame (X : Collaborators) (app app1 : App_t) (specPtr : TokenList_t)
    (h : AddConfigTree X app specPtr = .ok app1) :
    ∃ trees, app1 = { app with configTrees := trees } := by
  unfold AddConfigTree at h
  dsimp only at h
  repeat' (first | (cases h; done) | split at h)
  all_goals
    cases h
    exact ⟨_, rfl⟩

/-- A "requires" section changes the lists of required files, directories and
devices and the map of configuration trees of the app, and nothing else in it. -/
theorem AddRequiredItems_frame (X : Collaborators) (st st1 : App_t × List (Option TokenList_t))
    (sectionPtr : CompoundItem_t) (h : AddRequiredItems X st sectionPtr = .ok st1) :
    ∃ files dirs devices trees,
      st1.1 = { st.1 with
                requiredFiles := files, requiredDirs := dirs, requiredDevices := devices
                configTrees := trees } := by
  have hrefl : ∀ a : App_t × List (Option TokenList_t),
      ∃ files dirs devices trees,
        a.1 = { a.1 with
                requiredFiles := files, requiredDirs := dirs, requiredDevices := devices
                configTrees := trees } :=
    fun a => ⟨a.1.requiredFiles, a.1.requiredDirs, a.1.requiredDevices, a.1.configTrees, rfl⟩
  have htrans : ∀ a b c : App_t × List (Option TokenList_t),
      (∃ files dirs devices trees,
        b.1 = { a.1 with
                requiredFiles := files, requiredDirs := dirs, requiredDevices := devices
                configTrees := trees }) →
      (∃ files dirs devices trees,
        c.1 = { b.1 with
                requiredFiles := files, requiredDirs := dirs, requiredDevices := devices
                configTrees := trees }) →
      ∃ files dirs devices trees,
        c.1 = { a.1 with
                requiredFiles := files, requiredDirs := dirs, requiredDevices := devices
                configTrees := trees } := by
    rintro a b c ⟨f1, d1, v1, t1, h1⟩ ⟨f2, d2, v2, t2, h2⟩
    exact ⟨f2, d2, v2, t2, by rw [h2, h1]⟩
  unfold AddRequiredItems at h
  split at h
  · cases h
  refine foldlM_rel _ hrefl htrans _ (fun a x a1 hx => ?_) _ _ _ h
  try dsimp only at hx
  repeat' (first | (cases hx; done) | split at hx)
  all_goals
    first
    | (cases hx; exact ⟨_, _, _, _, rfl⟩)
    | (refine foldlM_rel _ hrefl htrans _ (fun a y a1 hy => ?_) _ _ _ hx
       try dsimp only at hy
       repeat' (first | (cases hy; done) | split at hy)
       all_goals
         first
         | (cases hy; exact ⟨_, _, _, _, rfl⟩)
         | (rename_i happ
            obtain ⟨trees, htrees⟩ := AddConfigTree_frame _ _ _ _ happ
            cases hy
            exact ⟨_, _, _, trees, htrees⟩))

/-- A call of the local function `addExe` that returns has called `AddExecutable`,
on an app with the map of executables it was given when `AddComponentInstance`
leaves that map alone, and that call has returned. -/
theorem AddExecutables_addExe_ok (X : Collaborators)
    (hX : ∀ app exe comp, (X.AddComponentInstance app exe comp).1.executables = app.executables)
    (env : std.map String) (buildParams : mk.BuildParams_t) (app app1 : App_t)
    (itemPtr : TokenList_t) (h : AddExecutables.addExe X env buildParams app itemPtr = .ok app1) :
    ∃ app0 exePtr, app0.executables = app.executables ∧ AddExecutable app0 exePtr = .ok app1 := by
  unfold AddExecutables.addExe at h
  simp only [bind, Except.bind] at h
  split at h
  · cases h
  rename_i st hfold
  have hexe : st.1.executables = app.executables := by
    refine foldlM_rel (fun a b : App_t × Exe_t => b.1.executables = a.1.executables)
      (fun _ => rfl) (fun _ _ _ h1 h2 => h2.trans h1) _ (fun a x a1 hx => ?_) _ _ _ hfold
    unfold AddExecutables.addExe.component at hx
    simp only [bind, Except.bind, liftNested, pure, Except.pure] at hx
    repeat' (first | (cases hx; done) | split at hx)
    all_goals
      cases hx
      first | rfl | exact hX _ _ _
  exact ⟨st.1, _, hexe, (withEnv_eq_ok _ _ _).mp h⟩

/-- A property of the map of executables that every returning call of
`AddExecutable` keeps is kept by an "executables" section, when
`AddComponentInstance` leaves the map alone. -/
theorem AddExecutables_invariant (P : std.map Exe_t → Prop)
    (hP : ∀ app exePtr app1, P app.executables → AddExecutable app exePtr = .ok app1 →
      P app1.executables)
    (X : Collaborators)
    (hX : ∀ app exe comp, (X.AddComponentInstance app exe comp).1.executables = app.executables)
    (env : std.map String) (buildParams : mk.BuildParams_t) (app app1 : App_t)
    (sectionPtr : CompoundItem_t)
    (h : AddExecutables X env app sectionPtr buildParams = .ok app1) (hp : P app.executables) :
    P app1.executables := by
  unfold AddExecutables at h
  simp only [bind, Except.bind, liftExcept, withEnv] at h
  split at h
  · cases h
  refine foldlM_rel (fun a b : App_t => P a.executables → P b.executables)
    (fun _ h => h) (fun _ _ _ h1 h2 h => h2 (h1 h)) _ (fun a x a1 hx => ?_) _ _ _ h hp
  split at hx
  · cases hx
  intro hpa
  obtain ⟨app0, exePtr, h0, hadd⟩ := AddExecutables_addExe_ok X hX _ _ _ _ _ hx
  exact hP app0 exePtr a1 (by rw [h0]; exact hpa) hadd

end modeller

/-! ## The map of executables of a built app -/

namespace modeller

open parseTree model

theorem GetApp_onAppAndEnv_app (locals locals1 : GetApp.Locals)
    (r : Except (mk.Exception_t × App_t × std.map String) App_t)
    (h : GetApp.onAppAndEnv locals r = .ok locals1) :
    r = .ok locals1.app := by
  cases r with
  | ok app => cases h; rfl
  | error e => cases h

theorem GetApp_onApp_app (locals locals1 : GetApp.Locals)
    (r : Except (mk.Exception_t × App_t) App_t) (h : GetApp.onApp locals r = .ok locals1) :
    r = .ok locals1.app := by
  cases r with
  | ok app => cases h; rfl
  | error e => cases h

theorem GetApp_onAppAndInterfaces_app (locals locals1 : GetApp.Locals)
    (r : Except (mk.Exception_t × App_t × List (Option TokenList_t))
      (App_t × List (Option TokenList_t)))
    (h : GetApp.onAppAndInterfaces locals r = .ok locals1) :
    r = .ok (locals1.app, locals1.externApiInterfaces) := by
  cases r with
  | ok v => cases h; rfl
  | error e => cases h

theorem GetApp_assign_app {α : Type} (locals locals1 : GetApp.Locals)
    (sectionPtr : CompoundItem_t) (get : TokenList_t → Except mk.Exception_t α)
    (set : App_t → α → App_t) (h : GetApp.assign locals sectionPtr get set = .ok locals1) :
    ∃ v, locals1.app = set locals.app v := by
  unfold GetApp.assign at h
  split at h
  · cases h
  · split at h
    · cases h
    · cases h; exact ⟨_, rfl⟩

/-- A name is in the vocabulary when it is one of the twenty-one names. -/
theorem GetApp_vocabulary_mem (name : String) (h : name ∈ GetApp.vocabulary) :
    name = "bindings" ∨ name = "bundles" ∨ name = "components" ∨ name = "cpuShare" ∨ name = "executables"
      ∨ name = "extern" ∨ name = "groups" ∨ name = "maxFileSystemBytes" ∨ name = "maxMemoryBytes"
      ∨ name = "maxMQueueBytes" ∨ name = "maxQueuedSignals" ∨ name = "maxThreads" ∨ name = "maxSecureStorageBytes"
      ∨ name = "processes" ∨ name = "provides" ∨ name = "requires" ∨ name = "sandboxed"
      ∨ name = "start" ∨ name = "version" ∨ name = "watchdogAction" ∨ name = "watchdogTimeout" := by
  simpa [GetApp.vocabulary] using h

/-- A property of the map of executables that every returning call of
`AddExecutable` keeps is kept by the handling of a section, when the collaborators
leave the map alone. -/
theorem GetApp_section_keeps_executables (P : std.map Exe_t → Prop)
    (hP : ∀ app exePtr app1, P app.executables → AddExecutable app exePtr = .ok app1 →
      P app1.executables)
    (X : Collaborators) (hX : X.keepExecutables) (buildParams : mk.BuildParams_t)
    (env : std.map String) (locals locals1 : GetApp.Locals) (sectionPtr : CompoundItem_t)
    (h : GetApp.section X buildParams env locals sectionPtr = .ok locals1)
    (hp : P locals.app.executables) : P locals1.app.executables := by
  by_cases hv : sectionPtr.firstTokenPtr.text ∈ GetApp.vocabulary
  swap
  · rw [GetApp_section_unrecognized _ _ _ _ _ hv] at h
    cases h
  rcases GetApp_vocabulary_mem _ hv with
    hn | hn | hn | hn | hn | hn | hn | hn | hn | hn | hn | hn | hn | hn | hn | hn | hn | hn | hn | hn | hn
  · rw [GetApp_section_bindings_eq _ _ _ _ _ hn] at h
    cases h
    exact hp
  · rw [GetApp_section_bundles_eq _ _ _ _ _ hn] at h
    obtain ⟨_, _, h1⟩ := AddBundledItems_frame _ _ _ _ (GetApp_onApp_app _ _ _ h)
    rw [h1]
    exact hp
  · rw [GetApp_section_components_eq _ _ _ _ _ hn] at h
    split at h
    · cases h
    obtain ⟨_, h1⟩ := AddComponents_frame _ _ _ _ _ _ (GetApp_onAppAndEnv_app _ _ _ h)
    rw [h1]
    exact hp
  · rw [GetApp_section_cpuShare_eq _ _ _ _ _ hn] at h
    obtain ⟨v, h1⟩ := GetApp_assign_app _ _ _ _ _ h
    rw [h1]
    exact hp
  · rw [GetApp_section_executables_eq _ _ _ _ _ hn] at h
    exact AddExecutables_invariant P hP X hX.2.1 _ _ _ _ _ (GetApp_onAppAndEnv_app _ _ _ h) hp
  · rw [GetApp_section_extern_eq _ _ _ _ _ hn] at h
    split at h
    · cases h
    cases h
    exact hp
  · rw [GetApp_section_groups_eq _ _ _ _ _ hn] at h
    split at h
    · cases h
    rw [hX.2.2.1 _ _ _ (GetApp_onApp_app _ _ _ h)]
    exact hp
  · rw [GetApp_section_maxFileSystemBytes_eq _ _ _ _ _ hn] at h
    obtain ⟨v, h1⟩ := GetApp_assign_app _ _ _ _ _ h
    rw [h1]
    exact hp
  · rw [GetApp_section_maxMemoryBytes_eq _ _ _ _ _ hn] at h
    obtain ⟨v, h1⟩ := GetApp_assign_app _ _ _ _ _ h
    rw [h1]
    exact hp
  · rw [GetApp_section_maxMQueueBytes_eq _ _ _ _ _ hn] at h
    obtain ⟨v, h1⟩ := GetApp_assign_app _ _ _ _ _ h
    rw [h1]
    exact hp
  · rw [GetApp_section_maxQueuedSignals_eq _ _ _ _ _ hn] at h
    obtain ⟨v, h1⟩ := GetApp_assign_app _ _ _ _ _ h
    rw [h1]
    exact hp
  · rw [GetApp_section_maxThreads_eq _ _ _ _ _ hn] at h
    obtain ⟨v, h1⟩ := GetApp_assign_app _ _ _ _ _ h
    rw [h1]
    exact hp
  · rw [GetApp_section_maxSecureStorageBytes_eq _ _ _ _ _ hn] at h
    obtain ⟨v, h1⟩ := GetApp_assign_app _ _ _ _ _ h
    rw [h1]
    exact hp
  · rw [GetApp_section_processes_eq _ _ _ _ _ hn] at h
    cases h
    exact hp
  · rw [GetApp_section_provides_eq _ _ _ _ _ hn] at h
    have h1 := AddProvidedItems_frame _ _ _ (GetApp_onAppAndInterfaces_app _ _ _ h)
    dsimp only at h1
    rw [h1]
    exact hp
  · rw [GetApp_section_requires_eq _ _ _ _ _ hn] at h
    obtain ⟨_, _, _, _, h1⟩ := AddRequiredItems_frame _ _ _ _ (GetApp_onAppAndInterfaces_app _ _ _ h)
    dsimp only at h1
    rw [h1]
    exact hp
  · rw [GetApp_section_sandboxed_eq _ _ _ _ _ hn] at h
    obtain ⟨v, h1⟩ := GetApp_assign_app _ _ _ _ _ h
    rw [h1]
    exact hp
  · rw [GetApp_section_start_eq _ _ _ _ _ hn] at h
    split at h
    · cases h
    rw [hX.2.2.2.1 _ _ _ (GetApp_onApp_app _ _ _ h)]
    exact hp
  · rw [GetApp_section_version_eq _ _ _ _ _ hn] at h
    repeat' (first | (cases h; done) | split at h)
    all_goals
      cases h
      exact hp
  · rw [GetApp_section_watchdogAction_eq _ _ _ _ _ hn] at h
    split at h
    · cases h
    rw [hX.2.2.2.2.1 _ _ _ (GetApp_onApp_app _ _ _ h)]
    exact hp
  · rw [GetApp_section_watchdogTimeout_eq _ _ _ _ _ hn] at h
    split at h
    · cases h
    rw [hX.2.2.2.2.2 _ _ _ (GetApp_onApp_app _ _ _ h)]
    exact hp

end modeller

/-! ## Executables: no duplicate name, and code in each -/

namespace modeller

open parseTree model

/-- The "processes" sections change the list of process environments of the app and
nothing else. -/
theorem AddProcessesSections_frame (X : Collaborators) (env : std.map String)
    (app app1 : App_t) (processesSections : List CompoundItem_t)
    (h : AddProcessesSections X env app processesSections = .ok app1) :
    ∃ envs, app1 = { app with processEnvs := envs } := by
  unfold AddProcessesSections at h
  refine foldlM_rel (fun a b : App_t => ∃ envs, b = { a with processEnvs := envs })
    (fun a => ⟨a.processEnvs, rfl⟩)
    (by rintro a b c ⟨e1, rfl⟩ ⟨e2, rfl⟩; exact ⟨e2, rfl⟩)
    _ (fun a x a1 hx => ?_) _ app app1 h
  split at hx
  · cases hx
  unfold AddProcessesSection at hx
  dsimp only at hx
  split at hx
  · cases hx
  · cases hx
    exact ⟨_, rfl⟩

/-- A property of the map of executables that holds of the empty map and that every
returning call of `AddExecutable` keeps holds of the map of executables of every
app that `GetApp` returns, when the collaborators leave the map alone. -/
theorem GetApp_executables_invariant (P : std.map Exe_t → Prop) (h0 : P [])
    (hP : ∀ app exePtr app1, P app.executables → AddExecutable app exePtr = .ok app1 →
      P app1.executables)
    (X : Collaborators) (hX : X.keepExecutables) (adefPath : String)
    (buildParams : mk.BuildParams_t) (env : std.map String) (stderr : List String)
    (app : App_t)
    (h : (GetApp X adefPath buildParams env stderr).1 = .ok app) : P app.executables := by
  obtain ⟨adefFilePtr, locals, app1, app2, app3, _, hmain, hproc, hext, hbind, rfl⟩ :=
    GetApp_ok X adefPath buildParams env stderr (GetApp X adefPath buildParams env stderr).2 app
      (Prod.ext h rfl)
  have hlocals : P locals.app.executables := by
    unfold GetApp.mainPass at hmain
    refine foldlM_rel (fun a b : GetApp.Locals => P a.app.executables → P b.app.executables)
      (fun _ h => h) (fun _ _ _ h1 h2 h => h2 (h1 h)) _
      (fun a x a1 hx => GetApp_section_keeps_executables P hP X hX _ _ _ _ _ hx)
      _ _ _ hmain ?_
    show P (X.newApp adefFilePtr).executables
    rw [hX.1]
    exact h0
  obtain ⟨envs, rfl⟩ := AddProcessesSections_frame _ _ _ _ _ hproc
  have h2 : sameGraph _ app2 :=
    (foldlM_rel externKeeps externKeeps_refl externKeeps_trans MakeInterfacesExternal.item
      (fun a x a1 hx => MakeInterfacesExternal_item_keeps a a1 x hx) _ _ _ hext).1
  have h3 : sameGraph app2 app3 :=
    (foldlM_rel bindingKeeps bindingKeeps_refl bindingKeeps_trans AddBindings
      (fun a x a1 hx => AddBindings_keeps a a1 x hx) _ _ _ hbind).1
  show P app3.executables
  rw [← h3.2.1, ← h2.2.1]
  exact hlocals

/-- The loop of `addExe` over the contents of a specification all of whose
components are skipped leaves the app and the executable as they are. -/
theorem AddExecutables_addExe_component_skip (X : Collaborators) (env : std.map String)
    (buildParams : mk.BuildParams_t) (st : App_t × Exe_t) (tokens : List Token_t)
    (hskip : ∀ tok ∈ tokens, X.GetComponent env tok buildParams [st.1.dir] = .ok none) :
    tokens.foldlM (AddExecutables.addExe.component X env buildParams) st = .ok st := by
  induction tokens with
  | nil => rfl
  | cons tok rest ih =>
    have htok : AddExecutables.addExe.component X env buildParams st tok = .ok st := by
      unfold AddExecutables.addExe.component
      rw [hskip tok (List.mem_cons_self _ _)]
      rfl
    rw [List.foldlM_cons, htok]
    exact ih (fun t ht => hskip t (List.mem_cons_of_mem _ ht))

end modeller

namespace fixture

open parseTree model modeller

/-- The collaborators of the evaluation leave the map of executables alone. -/
theorem collaborators_keepExecutables : collaborators.keepExecutables :=
  ⟨fun _ => rfl, fun _ _ _ => rfl, fun _ _ _ h => by cases h; rfl,
    fun _ _ _ h => by cases h; rfl, fun _ _ _ h => by cases h; rfl,
    fun _ _ _ h => by cases h; rfl⟩

end fixture

namespace modeller

open parseTree model

/-- C13: for every app and every executable whose name is already a key of the map
of executables of the app, `AddExecutable` fails with the 'Duplicate executable
found' error, thrown from the specification of the executable, and leaves the app
as it was, so the executable registered before stays registered under that name;
and, the collaborators leaving the map of executables alone, no app that `GetApp`
returns has two executables with the same name. -/
theorem AddExecutable_duplicate_name (app : App_t) (exePtr old : Exe_t)
    (hdup : app.executables.find exePtr.name = some old)
    (X : Collaborators) (hX : X.keepExecutables) (adefPath : String)
    (buildParams : mk.BuildParams_t) (env : std.map String) (stderr : List String)
    (built : App_t)
    (hbuilt : (GetApp X adefPath buildParams env stderr).1 = .ok built) :
    AddExecutable app exePtr
        = .error (exePtr.exeDefPtr.ThrowException
            ("Duplicate executable found: " ++ exePtr.name ++ "."), app)
      ∧ (stateAfter (AddExecutable app exePtr)).executables.find exePtr.name = some old
      ∧ built.executables.keys.Nodup := by
  have h1 := AddExecutable_duplicate app exePtr old hdup
  refine ⟨h1, by rw [h1]; exact hdup, ?_⟩
  refine GetApp_executables_invariant (fun m => m.keys.Nodup) List.nodup_nil ?_ X hX
    adefPath buildParams env stderr built hbuilt
  intro a e a1 hp hadd
  obtain ⟨hfresh, _, components, rfl⟩ := AddExecutable_ok a a1 e hadd
  show (a.executables ++ [(e.name, e)]).keys.Nodup
  have hnot : e.name ∉ a.executables.keys := by
    rw [← std.map.find_isSome_iff_mem_keys, hfresh]
    simp
  simp only [std.map.keys, List.map_append, List.map_cons, List.map_nil] at hp hnot ⊢
  exact List.Nodup.append hp (List.nodup_singleton _) (by simpa using hnot)

theorem AddExecutable_duplicate_name_witness :
    AddExecutable fixture.app fixture.exeA
        = .error (fixture.exeA.exeDefPtr.ThrowException
            ("Duplicate executable found: " ++ fixture.exeA.name ++ "."), fixture.app)
      ∧ (stateAfter (AddExecutable fixture.app fixture.exeA)).executables.find
          fixture.exeA.name = some fixture.exeA
      ∧ fixture.builtApp.executables.keys.Nodup :=
  AddExecutable_duplicate_name fixture.app fixture.exeA fixture.exeA rfl
    fixture.collaborators fixture.collaborators_keepExecutables "/apps/foo.adef"
    fixture.buildParams [] [] fixture.builtApp rfl

end modeller

namespace modeller

open parseTree model

/-- C14: for every executable with a fresh name, `AddExecutable` fails with the
'Executable doesn't contain any components that have source code files' error if
and only if the executable has neither C/C++ code nor Java code; hence, the
collaborators leaving the map of executables alone, every executable of an app that
`GetApp` returns has at least one of the two flags set; and, an executable being
created with both flags unset, a specification whose components are all skipped
(none at all, in particular) is always refused by `addExe`: with the duplicate-name
error or with the no-source-code error. -/
theorem AddExecutable_no_source_code (app : App_t) (exePtr : Exe_t)
    (hfresh : app.executables.find exePtr.name = none)
    (X : Collaborators) (hX : X.keepExecutables) (adefPath : String)
    (buildParams : mk.BuildParams_t) (env : std.map String) (stderr : List String)
    (built : App_t)
    (hbuilt : (GetApp X adefPath buildParams env stderr).1 = .ok built)
    (Y : Collaborators) (env2 : std.map String) (buildParams2 : mk.BuildParams_t)
    (app2 : App_t) (itemPtr : TokenList_t)
    (hnew : ∀ path a workingDir,
      (Y.newExe path a workingDir).hasCOrCppCode = false
      ∧ (Y.newExe path a workingDir).hasJavaCode = false)
    (hskip : ∀ tok ∈ itemPtr.Contents,
      Y.GetComponent env2 tok buildParams2 [app2.dir] = .ok none) :
    ((∃ app1, AddExecutable app exePtr
          = .error (exePtr.exeDefPtr.ThrowException
              "Executable doesn't contain any components that have source code files.", app1))
        ↔ (exePtr.hasCOrCppCode = false ∧ exePtr.hasJavaCode = false))
      ∧ (∀ entry ∈ built.executables,
          entry.2.hasCOrCppCode = true ∨ entry.2.hasJavaCode = true)
      ∧ ((∃ name app1, AddExecutables.addExe Y env2 buildParams2 app2 itemPtr
            = .error (itemPtr.ThrowException
                ("Duplicate executable found: " ++ name ++ "."), app1, env2))
          ∨ (∃ app1, AddExecutables.addExe Y env2 buildParams2 app2 itemPtr
            = .error (itemPtr.ThrowException
                "Executable doesn't contain any components that have source code files.",
                app1, env2))) := by
  refine ⟨?_, ?_, ?_⟩
  · obtain ⟨components, hadd⟩ := AddExecutable_fresh app exePtr hfresh
    rw [hadd]
    constructor
    · rintro ⟨app1, h⟩
      by_cases hflags : (exePtr.hasCOrCppCode = false && exePtr.hasJavaCode = false) = true
      · simpa using hflags
      · rw [if_neg hflags] at h
        cases h
    · rintro ⟨hc, hj⟩
      rw [if_pos (by simp [hc, hj])]
      exact ⟨_, rfl⟩
  · refine GetApp_executables_invariant
      (fun m => ∀ entry ∈ m, entry.2.hasCOrCppCode = true ∨ entry.2.hasJavaCode = true)
      (fun _ h => nomatch h) ?_ X hX adefPath buildParams env stderr built hbuilt
    intro a e a1 hp hadd
    obtain ⟨_, hflags, components, rfl⟩ := AddExecutable_ok a a1 e hadd
    intro entry hentry
    have hentry1 : entry ∈ a.executables ++ [(e.name, e)] := hentry
    rcases List.mem_append.mp hentry1 with hmem | hmem
    · exact hp entry hmem
    · rw [List.mem_singleton.mp hmem]
      exact hflags
  · have hrun : AddExecutables.addExe Y env2 buildParams2 app2 itemPtr
        = withEnv env2 (AddExecutable app2
            { Y.newExe ("staging/read-only/bin/" ++ itemPtr.firstTokenPtr.text) app2
                buildParams2.workingDir with exeDefPtr := itemPtr }) := by
      unfold AddExecutables.addExe
      simp only [bind, Except.bind]
      rw [AddExecutables_addExe_component_skip Y env2 buildParams2 _ _ hskip]
      simp only [(hnew _ _ _).2]
      rfl
    rw [hrun]
    cases hfind : app2.executables.find
        (Y.newExe ("staging/read-only/bin/" ++ itemPtr.firstTokenPtr.text) app2
          buildParams2.workingDir).name with
    | some old =>
      left
      exact ⟨(Y.newExe ("staging/read-only/bin/" ++ itemPtr.firstTokenPtr.text) app2
          buildParams2.workingDir).name, app2,
        congrArg (withEnv env2) (AddExecutable_duplicate app2
          { Y.newExe ("staging/read-only/bin/" ++ itemPtr.firstTokenPtr.text) app2
              buildParams2.workingDir with exeDefPtr := itemPtr } old hfind)⟩
    | none =>
      right
      obtain ⟨components, hadd⟩ := AddExecutable_fresh app2
        { Y.newExe ("staging/read-only/bin/" ++ itemPtr.firstTokenPtr.text) app2
            buildParams2.workingDir with exeDefPtr := itemPtr } hfind
      rw [hadd, if_pos (by simp [(hnew _ _ _).1, (hnew _ _ _).2])]
      exact ⟨_, rfl⟩

theorem AddExecutable_no_source_code_witness :
    ((∃ app1, AddExecutable fixture.app fixture.exeEmpty
          = .error (fixture.exeEmpty.exeDefPtr.ThrowException
              "Executable doesn't contain any components that have source code files.", app1))
        ↔ (fixture.exeEmpty.hasCOrCppCode = false ∧ fixture.exeEmpty.hasJavaCode = false))
      ∧ (∀ entry ∈ fixture.builtApp.executables,
          entry.2.hasCOrCppCode = true ∨ entry.2.hasJavaCode = true)
      ∧ ((∃ name app1, AddExecutables.addExe fixture.collaborators [] fixture.buildParams
            fixture.app fixture.ghostExeSpec
            = .error (fixture.ghostExeSpec.ThrowException
                ("Duplicate executable found: " ++ name ++ "."), app1, []))
          ∨ (∃ app1, AddExecutables.addExe fixture.collaborators [] fixture.buildParams
            fixture.app fixture.ghostExeSpec
            = .error (fixture.ghostExeSpec.ThrowException
                "Executable doesn't contain any components that have source code files.",
                app1, []))) :=
  AddExecutable_no_source_code fixture.app fixture.exeEmpty rfl
    fixture.collaborators fixture.collaborators_keepExecutables "/apps/foo.adef"
    fixture.buildParams [] [] fixture.builtApp rfl
    fixture.collaborators [] fixture.buildParams fixture.app fixture.ghostExeSpec
    (fun _ _ _ => ⟨rfl, rfl⟩)
    (fun tok h => by rw [List.mem_singleton.mp h]; rfl)

end modeller

/-! ## Configuration trees -/

namespace std

namespace map

variable {α : Type}

/-- Assigning to a key that the map does not have adds one entry at the end and
leaves the entries of the map as they are. -/
theorem assign_of_find_none (m : map α) (k : String) (v : α) (h : m.find k = none) :
    m.assign k v = m ++ [(k, v)] := by
  induction m with
  | nil => rfl
  | cons kv rest ih =>
    obtain ⟨k0, v0⟩ := kv
    by_cases hk : k = k0
    · subst hk
      rw [find_cons_self] at h
      cases h
    · rw [find_cons_of_ne _ _ _ _ hk] at h
      simp [assign, hk, ih h]

end map

end std

namespace modeller

open parseTree model

/-- C15: the permissions `permissions` of the specification being those that the
extractor returns for the permissions token, or read-only when there is no such
token, `AddConfigTree` fails with the 'Configuration tree ... appears in application
more than once' error if and only if the name of the tree is already a key of the
map of configuration trees of the app; it then leaves the app, and so the map, as
it was; otherwise it returns, and the map has gained exactly one entry, for that
name with these permissions, after the entries it had, which are unchanged. -/
theorem AddConfigTree_duplicate_iff (X : Collaborators) (app : App_t) (specPtr : TokenList_t)
    (permissions : Permissions_t)
    (hperm : (tokenAt specPtr.Contents 0).type = .FILE_PERMISSIONS →
      X.GetPermissions (tokenAt specPtr.Contents 0) = .ok permissions)
    (hdefault : (tokenAt specPtr.Contents 0).type ≠ .FILE_PERMISSIONS →
      permissions = { readable := true, writeable := false, executable := false }) :
    ((∃ app1, AddConfigTree X app specPtr
          = .error ((AddConfigTree.treeNameTokenPtr specPtr).ThrowException
              ("Configuration tree '" ++ AddConfigTree.fileName app specPtr
                ++ "' appears in application more than once."), app1))
        ↔ AddConfigTree.fileName app specPtr ∈ app.configTrees.keys)
      ∧ (AddConfigTree.fileName app specPtr ∈ app.configTrees.keys →
          AddConfigTree X app specPtr
            = .error ((AddConfigTree.treeNameTokenPtr specPtr).ThrowException
                ("Configuration tree '" ++ AddConfigTree.fileName app specPtr
                  ++ "' appears in application more than once."), app))
      ∧ (AddConfigTree.fileName app specPtr ∉ app.configTrees.keys →
          AddConfigTree X app specPtr
            = .ok { app with
                    configTrees := app.configTrees
                      ++ [(AddConfigTree.fileName app specPtr, permissions)] }) := by
  have hrun : AddConfigTree X app specPtr
      = if (app.configTrees.find (AddConfigTree.fileName app specPtr)).isSome then
          .error ((AddConfigTree.treeNameTokenPtr specPtr).ThrowException
            ("Configuration tree '" ++ AddConfigTree.fileName app specPtr
              ++ "' appears in application more than once."), app)
        else
          .ok { app with
                configTrees := app.configTrees.assign (AddConfigTree.fileName app specPtr)
                  permissions } := by
    unfold AddConfigTree AddConfigTree.fileName AddConfigTree.treeNameTokenPtr
    by_cases ht : (tokenAt specPtr.Contents 0).type = .FILE_PERMISSIONS
    · simp only [ht, if_true, hperm ht]
    · simp only [ht, if_false, hdefault ht]
  have hdup : AddConfigTree.fileName app specPtr ∈ app.configTrees.keys →
      AddConfigTree X app specPtr
        = .error ((AddConfigTree.treeNameTokenPtr specPtr).ThrowException
            ("Configuration tree '" ++ AddConfigTree.fileName app specPtr
              ++ "' appears in application more than once."), app) := by
    intro hkey
    rw [hrun, if_pos ((std.map.find_isSome_iff_mem_keys _ _).mpr hkey)]
  have hnew : AddConfigTree.fileName app specPtr ∉ app.configTrees.keys →
      AddConfigTree X app specPtr
        = .ok { app with
                configTrees := app.configTrees
                  ++ [(AddConfigTree.fileName app specPtr, permissions)] } := by
    intro hkey
    have hnone : app.configTrees.find (AddConfigTree.fileName app specPtr) = none := by
      cases hf : app.configTrees.find (AddConfigTree.fileName app specPtr) with
      | none => rfl
      | some v =>
        exact absurd ((std.map.find_isSome_iff_mem_keys _ _).mp (by rw [hf]; rfl)) hkey
    rw [hrun, hnone, std.map.assign_of_find_none _ _ _ hnone]
    rfl
  refine ⟨⟨?_, fun hkey => ⟨app, hdup hkey⟩⟩, hdup, hnew⟩
  rintro ⟨app1, h⟩
  by_contra hkey
  rw [hnew hkey] at h
  cases h

theorem AddConfigTree_duplicate_iff_witness :
    ((∃ app1, AddConfigTree fixture.collaborators fixture.appWithTree fixture.treeDot
          = .error ((AddConfigTree.treeNameTokenPtr fixture.treeDot).ThrowException
              ("Configuration tree '" ++ AddConfigTree.fileName fixture.appWithTree fixture.treeDot
                ++ "' appears in application more than once."), app1))
        ↔ AddConfigTree.fileName fixture.appWithTree fixture.treeDot
            ∈ fixture.appWithTree.configTrees.keys)
      ∧ (AddConfigTree.fileName fixture.appWithTree fixture.treeDot
            ∈ fixture.appWithTree.configTrees.keys →
          AddConfigTree fixture.collaborators fixture.appWithTree fixture.treeDot
            = .error ((AddConfigTree.treeNameTokenPtr fixture.treeDot).ThrowException
                ("Configuration tree '"
                  ++ AddConfigTree.fileName fixture.appWithTree fixture.treeDot
                  ++ "' appears in application more than once."), fixture.appWithTree))
      ∧ (AddConfigTree.fileName fixture.appWithTree fixture.treeDot
            ∉ fixture.appWithTree.configTrees.keys →
          AddConfigTree fixture.collaborators fixture.appWithTree fixture.treeDot
            = .ok { fixture.appWithTree with
                    configTrees := fixture.appWithTree.configTrees
                      ++ [(AddConfigTree.fileName fixture.appWithTree fixture.treeDot,
                            { readable := true, writeable := false, executable := false })] }) :=
  AddConfigTree_duplicate_iff fixture.collaborators fixture.appWithTree fixture.treeDot
    { readable := true, writeable := false, executable := false }
    (fun h => absurd h (by decide)) (fun _ => rfl)

end modeller

/-! ## The place of the bindings and processes sections among the sections -/

namespace modeller

open parseTree model

theorem GetApp_outcome_ok {α : Type} (r : Except (mk.Exception_t × GetApp.Locals) α) (v : α)
    (h : GetApp.outcome r = .ok v) : r = .ok v := by
  rcases r with ⟨e, st⟩ | w
  · cases h
  · cases h; rfl

theorem GetApp_outcome_error {α : Type} (r : Except (mk.Exception_t × GetApp.Locals) α)
    (e : mk.Exception_t) (env : std.map String) (h : GetApp.outcome r = .error (e, env)) :
    ∃ st, r = .error (e, st) ∧ st.env = env := by
  rcases r with ⟨e1, st⟩ | w
  · cases h; exact ⟨st, rfl, rfl⟩
  · cases h

theorem GetApp_assign_outcome {α : Type} (locals : GetApp.Locals)
    (bindingsSections processesSections : List CompoundItem_t) (sectionPtr : CompoundItem_t)
    (get : TokenList_t → Except mk.Exception_t α) (set : App_t → α → App_t) :
    GetApp.outcome
        (GetApp.assign
          { locals with
            bindingsSections := bindingsSections, processesSections := processesSections }
          sectionPtr get set)
      = (GetApp.outcome (GetApp.assign locals sectionPtr get set)).map fun locals1 =>
          { locals1 with
            bindingsSections := bindingsSections, processesSections := processesSections } := by
  unfold GetApp.assign
  cases ToSimpleSectionPtr sectionPtr with
  | error e => rfl
  | ok s =>
    dsimp only
    cases get s <;> rfl

/-- The handling of a section that is neither a bindings section nor a processes
section does not look at the two lists of deferred sections: with other lists in
their place it has the same outcome, but for these lists. -/
theorem GetApp_section_outcome (X : Collaborators) (buildParams : mk.BuildParams_t)
    (env : std.map String) (locals : GetApp.Locals)
    (bindingsSections processesSections : List CompoundItem_t) (sectionPtr : CompoundItem_t)
    (hb : sectionPtr.firstTokenPtr.text ≠ "bindings")
    (hp : sectionPtr.firstTokenPtr.text ≠ "processes") :
    GetApp.outcome
        (GetApp.section X buildParams env
          { locals with
            bindingsSections := bindingsSections, processesSections := processesSections }
          sectionPtr)
      = (GetApp.outcome (GetApp.section X buildParams env locals sectionPtr)).map
          fun locals1 =>
            { locals1 with
              bindingsSections := bindingsSections, processesSections := processesSections } := by
  by_cases hv : sectionPtr.firstTokenPtr.text ∈ GetApp.vocabulary
  swap
  · rw [GetApp_section_unrecognized _ _ _ _ _ hv, GetApp_section_unrecognized _ _ _ _ _ hv]
    rfl
  rcases GetApp_vocabulary_mem _ hv with
    hn | hn | hn | hn | hn | hn | hn | hn | hn | hn | hn | hn | hn | hn | hn | hn | hn | hn | hn | hn | hn
  · -- bindings
    exact absurd hn hb
  · -- bundles
    rw [GetApp_section_bundles_eq _ _ _ _ _ hn, GetApp_section_bundles_eq _ _ _ _ _ hn]
    dsimp only
    rcases AddBundledItems X locals.app sectionPtr with ⟨e, a⟩ | a <;> rfl
  · -- components
    rw [GetApp_section_components_eq _ _ _ _ _ hn, GetApp_section_components_eq _ _ _ _ _ hn]
    dsimp only
    cases ToTokenListSectionPtr sectionPtr with
    | error e => rfl
    | ok s =>
      dsimp only
      rcases AddComponents X env locals.app s buildParams with ⟨e, a⟩ | a <;> rfl
  · -- cpuShare
    rw [GetApp_section_cpuShare_eq _ _ _ _ _ hn, GetApp_section_cpuShare_eq _ _ _ _ _ hn]
    exact GetApp_assign_outcome _ _ _ _ _ _
  · -- executables
    rw [GetApp_section_executables_eq _ _ _ _ _ hn, GetApp_section_executables_eq _ _ _ _ _ hn]
    dsimp only
    rcases AddExecutables X env locals.app sectionPtr buildParams with ⟨e, a⟩ | a <;> rfl
  · -- extern
    rw [GetApp_section_extern_eq _ _ _ _ _ hn, GetApp_section_extern_eq _ _ _ _ _ hn]
    dsimp only
    cases ToComplexSectionPtr sectionPtr <;> rfl
  · -- groups
    rw [GetApp_section_groups_eq _ _ _ _ _ hn, GetApp_section_groups_eq _ _ _ _ _ hn]
    dsimp only
    cases ToTokenListSectionPtr sectionPtr with
    | error e => rfl
    | ok s =>
      dsimp only
      rcases X.AddGroups locals.app s with ⟨e, a⟩ | a <;> rfl
  · -- maxFileSystemBytes
    rw [GetApp_section_maxFileSystemBytes_eq _ _ _ _ _ hn, GetApp_section_maxFileSystemBytes_eq _ _ _ _ _ hn]
    exact GetApp_assign_outcome _ _ _ _ _ _
  · -- maxMemoryBytes
    rw [GetApp_section_maxMemoryBytes_eq _ _ _ _ _ hn, GetApp_section_maxMemoryBytes_eq _ _ _ _ _ hn]
    exact GetApp_assign_outcome _ _ _ _ _ _
  · -- maxMQueueBytes
    rw [GetApp_section_maxMQueueBytes_eq _ _ _ _ _ hn, GetApp_section_maxMQueueBytes_eq _ _ _ _ _ hn]
    exact GetApp_assign_outcome _ _ _ _ _ _
  · -- maxQueuedSignals
    rw [GetApp_section_maxQueuedSignals_eq _ _ _ _ _ hn, GetApp_section_maxQueuedSignals_eq _ _ _ _ _ hn]
    exact GetApp_assign_outcome _ _ _ _ _ _
  · -- maxThreads
    rw [GetApp_section_maxThreads_eq _ _ _ _ _ hn, GetApp_section_maxThreads_eq _ _ _ _ _ hn]
    exact GetApp_assign_outcome _ _ _ _ _ _
  · -- maxSecureStorageBytes
    rw [GetApp_section_maxSecureStorageBytes_eq _ _ _ _ _ hn, GetApp_section_maxSecureStorageBytes_eq _ _ _ _ _ hn]
    exact GetApp_assign_outcome _ _ _ _ _ _
  · -- processes
    exact absurd hn hp
  · -- provides
    rw [GetApp_section_provides_eq _ _ _ _ _ hn, GetApp_section_provides_eq _ _ _ _ _ hn]
    dsimp only
    rcases AddProvidedItems (locals.app, locals.externApiInterfaces) sectionPtr with ⟨e, a, q⟩ | ⟨a, q⟩ <;> rfl
  · -- requires
    rw [GetApp_section_requires_eq _ _ _ _ _ hn, GetApp_section_requires_eq _ _ _ _ _ hn]
    dsimp only
    rcases AddRequiredItems X (locals.app, locals.externApiInterfaces) sectionPtr with ⟨e, a, q⟩ | ⟨a, q⟩ <;> rfl
  · -- sandboxed
    rw [GetApp_section_sandboxed_eq _ _ _ _ _ hn, GetApp_section_sandboxed_eq _ _ _ _ _ hn]
    exact GetApp_assign_outcome _ _ _ _ _ _
  · -- start
    rw [GetApp_section_start_eq _ _ _ _ _ hn, GetApp_section_start_eq _ _ _ _ _ hn]
    dsimp only
    cases ToSimpleSectionPtr sectionPtr with
    | error e => rfl
    | ok s =>
      dsimp only
      rcases X.SetStart locals.app s with ⟨e, a⟩ | a <;> rfl
  · -- version
    rw [GetApp_section_version_eq _ _ _ _ _ hn, GetApp_section_version_eq _ _ _ _ _ hn]
    dsimp only
    cases ToSimpleSectionPtr sectionPtr with
    | error e => rfl
    | ok s =>
      dsimp only
      by_cases hd : s.Text.data.head? = some '$'
      · rw [if_pos hd, if_pos hd]
        cases X.DoSubstitution env s.Text <;> rfl
      · rw [if_neg hd, if_neg hd]
        rfl
  · -- watchdogAction
    rw [GetApp_section_watchdogAction_eq _ _ _ _ _ hn, GetApp_section_watchdogAction_eq _ _ _ _ _ hn]
    dsimp only
    cases ToSimpleSectionPtr sectionPtr with
    | error e => rfl
    | ok s =>
      dsimp only
      rcases X.SetWatchdogAction locals.app s with ⟨e, a⟩ | a <;> rfl
  · -- watchdogTimeout
    rw [GetApp_section_watchdogTimeout_eq _ _ _ _ _ hn, GetApp_section_watchdogTimeout_eq _ _ _ _ _ hn]
    dsimp only
    cases ToSimpleSectionPtr sectionPtr with
    | error e => rfl
    | ok s =>
      dsimp only
      rcases X.SetWatchdogTimeout locals.app s with ⟨e, a⟩ | a <;> rfl

end modeller

namespace modeller

open parseTree model

/-- A pass over sections none of which is a bindings or a processes section does
not look at the two lists of deferred sections. -/
theorem GetApp_sections_outcome (X : Collaborators) (buildParams : mk.BuildParams_t)
    (env : std.map String) (sections : List CompoundItem_t)
    (hsections : ∀ s ∈ sections,
      s.firstTokenPtr.text ≠ "bindings" ∧ s.firstTokenPtr.text ≠ "processes")
    (locals : GetApp.Locals) (bindingsSections processesSections : List CompoundItem_t) :
    GetApp.outcome
        (sections.foldlM (GetApp.section X buildParams env)
          { locals with
            bindingsSections := bindingsSections, processesSections := processesSections })
      = (GetApp.outcome (sections.foldlM (GetApp.section X buildParams env) locals)).map
          fun locals1 =>
            { locals1 with
              bindingsSections := bindingsSections, processesSections := processesSections } := by
  induction sections generalizing locals with
  | nil => rfl
  | cons s rest ih =>
    have hs := GetApp_section_outcome X buildParams env locals bindingsSections
      processesSections s (hsections s (List.mem_cons_self _ _)).1
      (hsections s (List.mem_cons_self _ _)).2
    have hrest := fun t ht => hsections t (List.mem_cons_of_mem _ ht)
    rw [List.foldlM_cons, List.foldlM_cons]
    rcases hsec : GetApp.section X buildParams env locals s with ⟨e, st⟩ | locals1
    · rw [hsec] at hs
      obtain ⟨st1, h1, henv⟩ := GetApp_outcome_error _ e st.env hs
      rw [h1]
      exact congrArg (fun env1 => Except.error (e, env1)) henv
    · rw [hsec] at hs
      rw [GetApp_outcome_ok _ _ hs]
      exact ih hrest locals1

/-- The outcome of a pass over a list of sections is the outcome of the pass over
its sections other than the bindings and processes sections, with the bindings
sections of the list, in order, added to the list of bindings sections, and the
processes sections of the list, in order, added to the list of processes
sections. -/
theorem GetApp_sections_split (X : Collaborators) (buildParams : mk.BuildParams_t)
    (env : std.map String) (sections : List CompoundItem_t) (locals : GetApp.Locals) :
    GetApp.outcome (sections.foldlM (GetApp.section X buildParams env) locals)
      = (GetApp.outcome
          ((sections.filter fun s =>
              decide (s.firstTokenPtr.text ≠ "bindings" ∧ s.firstTokenPtr.text ≠ "processes")).foldlM
            (GetApp.section X buildParams env) locals)).map
          fun locals1 =>
            { locals1 with
              bindingsSections := locals.bindingsSections
                ++ sections.filter (fun s => decide (s.firstTokenPtr.text = "bindings"))
              processesSections := locals.processesSections
                ++ sections.filter (fun s => decide (s.firstTokenPtr.text = "processes")) } := by
  induction sections generalizing locals with
  | nil =>
    simp only [List.filter_nil, List.foldlM_nil, List.append_nil]
    rfl
  | cons s rest ih =>
    have hothers : ∀ t ∈ rest.filter fun s =>
        decide (s.firstTokenPtr.text ≠ "bindings" ∧ s.firstTokenPtr.text ≠ "processes"),
        t.firstTokenPtr.text ≠ "bindings" ∧ t.firstTokenPtr.text ≠ "processes" := by
      intro t ht
      simpa using (List.mem_filter.mp ht).2
    by_cases hb : s.firstTokenPtr.text = "bindings"
    · have hnp : ¬ s.firstTokenPtr.text = "processes" := by rw [hb]; decide
      have hf1 : (s :: rest).filter (fun s =>
          decide (s.firstTokenPtr.text ≠ "bindings" ∧ s.firstTokenPtr.text ≠ "processes"))
          = rest.filter (fun s =>
          decide (s.firstTokenPtr.text ≠ "bindings" ∧ s.firstTokenPtr.text ≠ "processes")) := by
        simp [List.filter_cons, hb]
      have hf2 : (s :: rest).filter (fun s => decide (s.firstTokenPtr.text = "bindings"))
          = s :: rest.filter (fun s => decide (s.firstTokenPtr.text = "bindings")) := by
        simp [List.filter_cons, hb]
      have hf3 : (s :: rest).filter (fun s => decide (s.firstTokenPtr.text = "processes"))
          = rest.filter (fun s => decide (s.firstTokenPtr.text = "processes")) := by
        simp [List.filter_cons, hnp]
      rw [List.foldlM_cons, GetApp_section_bindings_eq _ _ _ _ _ hb, hf1, hf2, hf3]
      have h1 := ih { locals with bindingsSections := locals.bindingsSections ++ [s] }
      have h2 := GetApp_sections_outcome X buildParams env _ hothers locals
        (locals.bindingsSections ++ [s]) locals.processesSections
      refine h1.trans ?_
      rw [h2]
      rcases GetApp.outcome (List.foldlM (GetApp.section X buildParams env) locals
        (rest.filter fun s =>
          decide (s.firstTokenPtr.text ≠ "bindings" ∧ s.firstTokenPtr.text ≠ "processes")))
        with e | locals1
      · rfl
      · simp [Except.map, List.append_assoc]
    by_cases hp : s.firstTokenPtr.text = "processes"
    · have hf1 : (s :: rest).filter (fun s =>
          decide (s.firstTokenPtr.text ≠ "bindings" ∧ s.firstTokenPtr.text ≠ "processes"))
          = rest.filter (fun s =>
          decide (s.firstTokenPtr.text ≠ "bindings" ∧ s.firstTokenPtr.text ≠ "processes")) := by
        simp [List.filter_cons, hp]
      have hf2 : (s :: rest).filter (fun s => decide (s.firstTokenPtr.text = "bindings"))
          = rest.filter (fun s => decide (s.firstTokenPtr.text = "bindings")) := by
        simp [List.filter_cons, hb]
      have hf3 : (s :: rest).filter (fun s => decide (s.firstTokenPtr.text = "processes"))
          = s :: rest.filter (fun s => decide (s.firstTokenPtr.text = "processes")) := by
        simp [List.filter_cons, hp]
      rw [List.foldlM_cons, GetApp_section_processes_eq _ _ _ _ _ hp, hf1, hf2, hf3]
      have h1 := ih { locals with processesSections := locals.processesSections ++ [s] }
      have h2 := GetApp_sections_outcome X buildParams env _ hothers locals
        locals.bindingsSections (locals.processesSections ++ [s])
      refine h1.trans ?_
      rw [h2]
      rcases GetApp.outcome (List.foldlM (GetApp.section X buildParams env) locals
        (rest.filter fun s =>
          decide (s.firstTokenPtr.text ≠ "bindings" ∧ s.firstTokenPtr.text ≠ "processes")))
        with e | locals1
      · rfl
      · simp [Except.map, List.append_assoc]
    · have hf1 : (s :: rest).filter (fun s =>
          decide (s.firstTokenPtr.text ≠ "bindings" ∧ s.firstTokenPtr.text ≠ "processes"))
          = s :: rest.filter (fun s =>
          decide (s.firstTokenPtr.text ≠ "bindings" ∧ s.firstTokenPtr.text ≠ "processes")) := by
        simp [List.filter_cons, hb, hp]
      have hf2 : (s :: rest).filter (fun s => decide (s.firstTokenPtr.text = "bindings"))
          = rest.filter (fun s => decide (s.firstTokenPtr.text = "bindings")) := by
        simp [List.filter_cons, hb]
      have hf3 : (s :: rest).filter (fun s => decide (s.firstTokenPtr.text = "processes"))
          = rest.filter (fun s => decide (s.firstTokenPtr.text = "processes")) := by
        simp [List.filter_cons, hp]
      rw [hf1, hf2, hf3, List.foldlM_cons, List.foldlM_cons]
      rcases hsec : GetApp.section X buildParams env locals s with ⟨e, st⟩ | locals1
      · rfl
      · have hd := GetApp_section_deferred X buildParams env locals locals1 s hsec
        rw [if_neg hb, if_neg hp] at hd
        have h1 := ih locals1
        rw [hd.1, hd.2.1] at h1
        exact h1

end modeller

namespace modeller

open parseTree model

/-- C16: the outcome of `GetApp` (the app it returns or the first exception, and
the environment variables it leaves) is the same for two definition files of the
same directory, with the same new app, whose lists of sections differ only in where
the bindings and the processes sections stand: the other sections are the same in
the same order, the bindings sections are the same in the same order, and the
processes sections are the same in the same order.  So a bindings section that
stands before the executables section it refers to is resolved as if it stood
last. -/
theorem GetApp_deferred_sections_placement (X : Collaborators) (adefPath1 adefPath2 : String)
    (buildParams : mk.BuildParams_t) (env : std.map String) (stderr : List String)
    (file1 file2 : AdefFile_t)
    (hparse1 : X.Parse adefPath1 buildParams.beVerbose = .ok file1)
    (hparse2 : X.Parse adefPath2 buildParams.beVerbose = .ok file2)
    (hdir : X.GetContainingDir adefPath1 = X.GetContainingDir adefPath2)
    (hnew : X.newApp file1 = X.newApp file2)
    (hothers :
      file1.sections.filter (fun s =>
          decide (s.firstTokenPtr.text ≠ "bindings" ∧ s.firstTokenPtr.text ≠ "processes"))
        = file2.sections.filter (fun s =>
          decide (s.firstTokenPtr.text ≠ "bindings" ∧ s.firstTokenPtr.text ≠ "processes")))
    (hbindings :
      file1.sections.filter (fun s => decide (s.firstTokenPtr.text = "bindings"))
        = file2.sections.filter (fun s => decide (s.firstTokenPtr.text = "bindings")))
    (hprocesses :
      file1.sections.filter (fun s => decide (s.firstTokenPtr.text = "processes"))
        = file2.sections.filter (fun s => decide (s.firstTokenPtr.text = "processes"))) :
    GetApp X adefPath1 buildParams env stderr = GetApp X adefPath2 buildParams env stderr := by
  have hout : ∀ env1, GetApp.outcome (GetApp.mainPass X buildParams env1 file1)
      = GetApp.outcome (GetApp.mainPass X buildParams env1 file2) := by
    intro env1
    unfold GetApp.mainPass
    rw [GetApp_sections_split X buildParams env1 file1.sections,
      GetApp_sections_split X buildParams env1 file2.sections, hothers, hbindings, hprocesses,
      hnew]
  unfold GetApp
  dsimp only
  rw [hparse1, hparse2, hdir]
  dsimp only
  have h := hout (envVars.Set env "CURDIR" (X.GetContainingDir adefPath2))
  rcases h1 : GetApp.mainPass X buildParams
      (envVars.Set env "CURDIR" (X.GetContainingDir adefPath2)) file1 with ⟨e1, st1⟩ | l1 <;>
    rcases h2 : GetApp.mainPass X buildParams
      (envVars.Set env "CURDIR" (X.GetContainingDir adefPath2)) file2 with ⟨e2, st2⟩ | l2 <;>
    rw [h1, h2] at h
  · simp only [GetApp.outcome, Except.error.injEq, Prod.mk.injEq] at h
    dsimp only
    rw [h.1, h.2]
  · cases h
  · cases h
  · cases h
    rfl

theorem GetApp_deferred_sections_placement_witness :
    GetApp fixture.collaborators "/apps/foo.adef" fixture.buildParams [] []
      = GetApp fixture.collaborators "/apps/late/foo.adef" fixture.buildParams [] [] :=
  GetApp_deferred_sections_placement fixture.collaborators "/apps/foo.adef"
    "/apps/late/foo.adef" fixture.buildParams [] [] fixture.adef fixture.adefBindingsLast
    rfl rfl rfl rfl rfl rfl rfl

end modeller

/-! ## The section names that the pass accepts -/

namespace modeller

open parseTree model

/-- C17: the pass of `GetApp` over the sections accepts exactly the 21 names of the
vocabulary.  A section of any other name is refused by `GetApp.section` with the
'Internal error: Unrecognized section' error, thrown from the section, and when the
sections before it in the file have passed, `GetApp` fails with that error; a name is
the name of some section that `GetApp.section` lets pass exactly when it is in the
vocabulary; and no name of the vocabulary is ever refused as unrecognized: every
section of such a name, in every state, gets the handling of its name, so that it
returns or throws as the handler of that name does. -/
theorem GetApp_section_vocabulary (X : Collaborators) (adefPath : String)
    (buildParams : mk.BuildParams_t) (env : std.map String) (stderr : List String)
    (adefFilePtr : AdefFile_t)
    (before after : List CompoundItem_t) (sectionPtr : CompoundItem_t)
    (locals : GetApp.Locals)
    (hparse : X.Parse adefPath buildParams.beVerbose = .ok adefFilePtr)
    (hsections : adefFilePtr.sections = before ++ sectionPtr :: after)
    (hbefore : before.foldlM
        (GetApp.section X buildParams (envVars.Set env "CURDIR" (X.GetContainingDir adefPath)))
        { app := X.newApp adefFilePtr, processesSections := [], bindingsSections := [],
          externApiInterfaces := [],
          env := envVars.Set env "CURDIR" (X.GetContainingDir adefPath) }
      = .ok locals)
    (hname : sectionPtr.firstTokenPtr.text ∉ GetApp.vocabulary) :
    GetApp.section X buildParams (envVars.Set env "CURDIR" (X.GetContainingDir adefPath))
        locals sectionPtr
        = .error (sectionPtr.ThrowException
            ("Internal error: Unrecognized section '" ++ sectionPtr.firstTokenPtr.text ++ "'."),
            locals)
      ∧ GetApp X adefPath buildParams env stderr
        = (.error (sectionPtr.ThrowException
            ("Internal error: Unrecognized section '" ++ sectionPtr.firstTokenPtr.text ++ "'.")),
           envVars.Set env "CURDIR" (X.GetContainingDir adefPath), stderr)
      ∧ (∀ sectionName : String,
          (∃ (Y : Collaborators) (buildParams1 : mk.BuildParams_t) (env1 : std.map String)
              (locals1 locals2 : GetApp.Locals) (s : CompoundItem_t),
            s.firstTokenPtr.text = sectionName
              ∧ GetApp.section Y buildParams1 env1 locals1 s = .ok locals2)
            ↔ sectionName ∈ GetApp.vocabulary)
      ∧ ∀ (Y : Collaborators) (buildParams1 : mk.BuildParams_t) (env1 : std.map String)
          (locals1 : GetApp.Locals) (sec : CompoundItem_t),
          (sec.firstTokenPtr.text = "bindings" →
              GetApp.section Y buildParams1 env1 locals1 sec
                = (.ok { locals1 with bindingsSections := locals1.bindingsSections ++ [sec] }))
            ∧ (sec.firstTokenPtr.text = "bundles" →
              GetApp.section Y buildParams1 env1 locals1 sec
                = (GetApp.onApp locals1 (AddBundledItems Y locals1.app sec)))
            ∧ (sec.firstTokenPtr.text = "components" →
              GetApp.section Y buildParams1 env1 locals1 sec
                = (match ToTokenListSectionPtr sec with
                | .error e => .error (e, locals1)
                | .ok s => GetApp.onAppAndEnv locals1 (AddComponents Y env1 locals1.app s buildParams1)))
            ∧ (sec.firstTokenPtr.text = "cpuShare" →
              GetApp.section Y buildParams1 env1 locals1 sec
                = (GetApp.assign locals1 sec Y.GetPositiveInt
                  fun app v => { app with cpuShare := app.cpuShare.set v }))
            ∧ (sec.firstTokenPtr.text = "executables" →
              GetApp.section Y buildParams1 env1 locals1 sec
                = (GetApp.onAppAndEnv locals1 (AddExecutables Y env1 locals1.app sec buildParams1)))
            ∧ (sec.firstTokenPtr.text = "extern" →
              GetApp.section Y buildParams1 env1 locals1 sec
                = (match ToComplexSectionPtr sec with
                | .error e => .error (e, locals1)
                | .ok s =>
                  .ok { locals1 with
                    externApiInterfaces := AddExternApiInterfaces locals1.externApiInterfaces s }))
            ∧ (sec.firstTokenPtr.text = "groups" →
              GetApp.section Y buildParams1 env1 locals1 sec
                = (match ToTokenListSectionPtr sec with
                | .error e => .error (e, locals1)
                | .ok s => GetApp.onApp locals1 (Y.AddGroups locals1.app s)))
            ∧ (sec.firstTokenPtr.text = "maxFileSystemBytes" →
              GetApp.section Y buildParams1 env1 locals1 sec
                = (GetApp.assign locals1 sec Y.GetNonNegativeInt
                  fun app v => { app with maxFileSystemBytes := app.maxFileSystemBytes.set v }))
            ∧ (sec.firstTokenPtr.text = "maxMemoryBytes" →
              GetApp.section Y buildParams1 env1 locals1 sec
                = (GetApp.assign locals1 sec Y.GetPositiveInt
                  fun app v => { app with maxMemoryBytes := app.maxMemoryBytes.set v }))
            ∧ (sec.firstTokenPtr.text = "maxMQueueBytes" →
              GetApp.section Y buildParams1 env1 locals1 sec
                = (GetApp.assign locals1 sec Y.GetNonNegativeInt
                  fun app v => { app with maxMQueueBytes := app.maxMQueueBytes.set v }))
            ∧ (sec.firstTokenPtr.text = "maxQueuedSignals" →
              GetApp.section Y buildParams1 env1 locals1 sec
                = (GetApp.assign locals1 sec Y.GetNonNegativeInt
                  fun app v => { app with maxQueuedSignals := app.maxQueuedSignals.set v }))
            ∧ (sec.firstTokenPtr.text = "maxThreads" →
              GetApp.section Y buildParams1 env1 locals1 sec
                = (GetApp.assign locals1 sec Y.GetPositiveInt
                  fun app v => { app with maxThreads := app.maxThreads.set v }))
            ∧ (sec.firstTokenPtr.text = "maxSecureStorageBytes" →
              GetApp.section Y buildParams1 env1 locals1 sec
                = (GetApp.assign locals1 sec Y.GetNonNegativeInt
                  fun app v => { app with maxSecureStorageBytes := app.maxSecureStorageBytes.set v }))
            ∧ (sec.firstTokenPtr.text = "processes" →
              GetApp.section Y buildParams1 env1 locals1 sec
                = (.ok { locals1 with processesSections := locals1.processesSections ++ [sec] }))
            ∧ (sec.firstTokenPtr.text = "provides" →
              GetApp.section Y buildParams1 env1 locals1 sec
                = (GetApp.onAppAndInterfaces locals1
                  (AddProvidedItems (locals1.app, locals1.externApiInterfaces) sec)))
            ∧ (sec.firstTokenPtr.text = "requires" →
              GetApp.section Y buildParams1 env1 locals1 sec
                = (GetApp.onAppAndInterfaces locals1
                  (AddRequiredItems Y (locals1.app, locals1.externApiInterfaces) sec)))
            ∧ (sec.firstTokenPtr.text = "sandboxed" →
              GetApp.section Y buildParams1 env1 locals1 sec
                = (GetApp.assign locals1 sec (fun s => .ok s.Text)
                  fun app text => { app with isSandboxed := decide (text ≠ "false") }))
            ∧ (sec.firstTokenPtr.text = "start" →
              GetApp.section Y buildParams1 env1 locals1 sec
                = (match ToSimpleSectionPtr sec with
                | .error e => .error (e, locals1)
                | .ok s => GetApp.onApp locals1 (Y.SetStart locals1.app s)))
            ∧ (sec.firstTokenPtr.text = "version" →
              GetApp.section Y buildParams1 env1 locals1 sec
                = (match ToSimpleSectionPtr sec with
                | .error e => .error (e, locals1)
                | .ok s =>
                  if s.Text.data.head? = some '$' then
                    match Y.DoSubstitution env1 s.Text with
                    | .error e => .error (e, { locals1 with app := { locals1.app with version := s.Text } })
                    | .ok version => .ok { locals1 with app := { locals1.app with version := version } }
                  else .ok { locals1 with app := { locals1.app with version := s.Text } }))
            ∧ (sec.firstTokenPtr.text = "watchdogAction" →
              GetApp.section Y buildParams1 env1 locals1 sec
                = (match ToSimpleSectionPtr sec with
                | .error e => .error (e, locals1)
                | .ok s => GetApp.onApp locals1 (Y.SetWatchdogAction locals1.app s)))
            ∧ (sec.firstTokenPtr.text = "watchdogTimeout" →
              GetApp.section Y buildParams1 env1 locals1 sec
                = (match ToSimpleSectionPtr sec with
                | .error e => .error (e, locals1)
                | .ok s => GetApp.onApp locals1 (Y.SetWatchdogTimeout locals1.app s))) := by
  have hsec := GetApp_section_unrecognized X buildParams
    (envVars.Set env "CURDIR" (X.GetContainingDir adefPath)) locals sectionPtr hname
  have henv : locals.env = envVars.Set env "CURDIR" (X.GetContainingDir adefPath) :=
    foldlM_rel (fun (a b : GetApp.Locals) => b.env = a.env) (fun _ => rfl)
      (fun _ _ _ h1 h2 => h2.trans h1) _
      (fun a x a1 hx => GetApp_section_env X buildParams _ a a1 x hx) _ _ _ hbefore
  refine ⟨hsec, ?_, ?_, ?_⟩
  · unfold GetApp
    dsimp only
    rw [hparse]
    dsimp only
    have hmain : GetApp.mainPass X buildParams
        (envVars.Set env "CURDIR" (X.GetContainingDir adefPath)) adefFilePtr
        = .error (sectionPtr.ThrowException
            ("Internal error: Unrecognized section '" ++ sectionPtr.firstTokenPtr.text ++ "'."),
            locals) := by
      unfold GetApp.mainPass
      rw [hsections, List.foldlM_append, hbefore]
      exact (by rw [List.foldlM_cons, hsec] :
        List.foldlM
          (GetApp.section X buildParams (envVars.Set env "CURDIR" (X.GetContainingDir adefPath)))
          locals (sectionPtr :: after) = _)
    rw [hmain]
    dsimp only
    rw [henv]
  · intro sectionName
    constructor
    · rintro ⟨Y, buildParams1, env1, locals1, locals2, s, hs, hok⟩
      by_contra hnot
      rw [← hs] at hnot
      rw [GetApp_section_unrecognized _ _ _ _ _ hnot] at hok
      cases hok
    · intro hv
      rcases GetApp_vocabulary_mem _ hv with
        hn | hn | hn | hn | hn | hn | hn | hn | hn | hn | hn | hn | hn | hn | hn | hn | hn | hn | hn | hn | hn
      · subst hn
        exact ⟨fixture.collaborators, fixture.buildParams, [],
          { app := fixture.newApp, processesSections := [], bindingsSections := [],
            externApiInterfaces := [], env := [] }, _, fixture.sampleSection "bindings", rfl, rfl⟩
      · subst hn
        exact ⟨fixture.collaborators, fixture.buildParams, [],
          { app := fixture.newApp, processesSections := [], bindingsSections := [],
            externApiInterfaces := [], env := [] }, _, fixture.sampleSection "bundles", rfl, rfl⟩
      · subst hn
        exact ⟨fixture.collaborators, fixture.buildParams, [],
          { app := fixture.newApp, processesSections := [], bindingsSections := [],
            externApiInterfaces := [], env := [] }, _, fixture.sampleSection "components", rfl, rfl⟩
      · subst hn
        exact ⟨fixture.collaborators, fixture.buildParams, [],
          { app := fixture.newApp, processesSections := [], bindingsSections := [],
            externApiInterfaces := [], env := [] }, _, fixture.sampleSection "cpuShare", rfl, rfl⟩
      · subst hn
        exact ⟨fixture.collaborators, fixture.buildParams, [],
          { app := fixture.newApp, processesSections := [], bindingsSections := [],
            externApiInterfaces := [], env := [] }, _, fixture.sampleSection "executables", rfl, rfl⟩
      · subst hn
        exact ⟨fixture.collaborators, fixture.buildParams, [],
          { app := fixture.newApp, processesSections := [], bindingsSections := [],
            externApiInterfaces := [], env := [] }, _, fixture.sampleSection "extern", rfl, rfl⟩
      · subst hn
        exact ⟨fixture.collaborators, fixture.buildParams, [],
          { app := fixture.newApp, processesSections := [], bindingsSections := [],
            externApiInterfaces := [], env := [] }, _, fixture.sampleSection "groups", rfl, rfl⟩
      · subst hn
        exact ⟨fixture.collaborators, fixture.buildParams, [],
          { app := fixture.newApp, processesSections := [], bindingsSections := [],
            externApiInterfaces := [], env := [] }, _, fixture.sampleSection "maxFileSystemBytes", rfl, rfl⟩
      · subst hn
        exact ⟨fixture.collaborators, fixture.buildParams, [],
          { app := fixture.newApp, processesSections := [], bindingsSections := [],
            externApiInterfaces := [], env := [] }, _, fixture.sampleSection "maxMemoryBytes", rfl, rfl⟩
      · subst hn
        exact ⟨fixture.collaborators, fixture.buildParams, [],
          { app := fixture.newApp, processesSections := [], bindingsSections := [],
            externApiInterfaces := [], env := [] }, _, fixture.sampleSection "maxMQueueBytes", rfl, rfl⟩
      · subst hn
        exact ⟨fixture.collaborators, fixture.buildParams, [],
          { app := fixture.newApp, processesSections := [], bindingsSections := [],
            externApiInterfaces := [], env := [] }, _, fixture.sampleSection "maxQueuedSignals", rfl, rfl⟩
      · subst hn
        exact ⟨fixture.collaborators, fixture.buildParams, [],
          { app := fixture.newApp, processesSections := [], bindingsSections := [],
            externApiInterfaces := [], env := [] }, _, fixture.sampleSection "maxThreads", rfl, rfl⟩
      · subst hn
        exact ⟨fixture.collaborators, fixture.buildParams, [],
          { app := fixture.newApp, processesSections := [], bindingsSections := [],
            externApiInterfaces := [], env := [] }, _, fixture.sampleSection "maxSecureStorageBytes", rfl, rfl⟩
      · subst hn
        exact ⟨fixture.collaborators, fixture.buildParams, [],
          { app := fixture.newApp, processesSections := [], bindingsSections := [],
            externApiInterfaces := [], env := [] }, _, fixture.sampleSection "processes", rfl, rfl⟩
      · subst hn
        exact ⟨fixture.collaborators, fixture.buildParams, [],
          { app := fixture.newApp, processesSections := [], bindingsSections := [],
            externApiInterfaces := [], env := [] }, _, fixture.sampleSection "provides", rfl, rfl⟩
      · subst hn
        exact ⟨fixture.collaborators, fixture.buildParams, [],
          { app := fixture.newApp, processesSections := [], bindingsSections := [],
            externApiInterfaces := [], env := [] }, _, fixture.sampleSection "requires", rfl, rfl⟩
      · subst hn
        exact ⟨fixture.collaborators, fixture.buildParams, [],
          { app := fixture.newApp, processesSections := [], bindingsSections := [],
            externApiInterfaces := [], env := [] }, _, fixture.sampleSection "sandboxed", rfl, rfl⟩
      · subst hn
        exact ⟨fixture.collaborators, fixture.buildParams, [],
          { app := fixture.newApp, processesSections := [], bindingsSections := [],
            externApiInterfaces := [], env := [] }, _, fixture.sampleSection "start", rfl, rfl⟩
      · subst hn
        exact ⟨fixture.collaborators, fixture.buildParams, [],
          { app := fixture.newApp, processesSections := [], bindingsSections := [],
            externApiInterfaces := [], env := [] }, _, fixture.sampleSection "version", rfl, rfl⟩
      · subst hn
        exact ⟨fixture.collaborators, fixture.buildParams, [],
          { app := fixture.newApp, processesSections := [], bindingsSections := [],
            externApiInterfaces := [], env := [] }, _, fixture.sampleSection "watchdogAction", rfl, rfl⟩
      · subst hn
        exact ⟨fixture.collaborators, fixture.buildParams, [],
          { app := fixture.newApp, processesSections := [], bindingsSections := [],
            externApiInterfaces := [], env := [] }, _, fixture.sampleSection "watchdogTimeout", rfl, rfl⟩
  · intro Y buildParams1 env1 locals1 sec
    exact ⟨
      GetApp_section_bindings_eq Y buildParams1 env1 locals1 sec,
      GetApp_section_bundles_eq Y buildParams1 env1 locals1 sec,
      GetApp_section_components_eq Y buildParams1 env1 locals1 sec,
      GetApp_section_cpuShare_eq Y buildParams1 env1 locals1 sec,
      GetApp_section_executables_eq Y buildParams1 env1 locals1 sec,
      GetApp_section_extern_eq Y buildParams1 env1 locals1 sec,
      GetApp_section_groups_eq Y buildParams1 env1 locals1 sec,
      GetApp_section_maxFileSystemBytes_eq Y buildParams1 env1 locals1 sec,
      GetApp_section_maxMemoryBytes_eq Y buildParams1 env1 locals1 sec,
      GetApp_section_maxMQueueBytes_eq Y buildParams1 env1 locals1 sec,
      GetApp_section_maxQueuedSignals_eq Y buildParams1 env1 locals1 sec,
      GetApp_section_maxThreads_eq Y buildParams1 env1 locals1 sec,
      GetApp_section_maxSecureStorageBytes_eq Y buildParams1 env1 locals1 sec,
      GetApp_section_processes_eq Y buildParams1 env1 locals1 sec,
      GetApp_section_provides_eq Y buildParams1 env1 locals1 sec,
      GetApp_section_requires_eq Y buildParams1 env1 locals1 sec,
      GetApp_section_sandboxed_eq Y buildParams1 env1 locals1 sec,
      GetApp_section_start_eq Y buildParams1 env1 locals1 sec,
      GetApp_section_version_eq Y buildParams1 env1 locals1 sec,
      GetApp_section_watchdogAction_eq Y buildParams1 env1 locals1 sec,
      GetApp_section_watchdogTimeout_eq Y buildParams1 env1 locals1 sec⟩

theorem GetApp_section_vocabulary_witness :
    GetApp fixture.collaborators "/apps/odd/foo.adef" fixture.buildParams [] []
      = (.error ((fixture.name "frobnicate" 5).ThrowException
          "Internal error: Unrecognized section 'frobnicate'."),
         [("CURDIR", "/apps")], []) :=
  (GetApp_section_vocabulary fixture.collaborators "/apps/odd/foo.adef" fixture.buildParams []
    [] fixture.adefUnknown
    [.itemList .COMPOUND_ITEM_LIST (fixture.name "executables" 1)
      [.tokenList
        { type := .EXECUTABLE, firstTokenPtr := fixture.name "exeA" 2,
          contents := [fixture.name "compA" 2, fixture.name "compB" 2] }]]
    [.itemList .COMPLEX_SECTION (fixture.name "extern" 19) [.tokenList fixture.externPubY]]
    (.itemList .COMPLEX_SECTION (fixture.name "frobnicate" 5) [])
    _ rfl rfl rfl (by decide)).2.1

end modeller

/-! ## The queue of extern candidates after the pass -/

namespace modeller

open parseTree model

/-- C18: after the pass of `GetApp` over the sections, the queue of extern
candidates is the concatenation, in file order of the sections, of what each
section contributes: the items of an extern section, and the items of the api
subsections of a provides or requires section, each list in its own order; so no
candidate is dropped, duplicated or moved. -/
theorem GetApp_mainPass_extern_queue (X : Collaborators) (buildParams : mk.BuildParams_t)
    (env : std.map String) (adefFilePtr : AdefFile_t) (locals : GetApp.Locals)
    (h : GetApp.mainPass X buildParams env adefFilePtr = .ok locals) :
    locals.externApiInterfaces = adefFilePtr.sections.flatMap GetApp.candidatesOfSection := by
  have := (GetApp_sections_deferred X buildParams env _ _ _ h).2.2
  simpa [GetApp.externCandidates] using this

theorem GetApp_mainPass_extern_queue_witness :
    ∃ locals, GetApp.mainPass fixture.collaborators fixture.buildParams [] fixture.adefExterns
        = .ok locals
      ∧ locals.externApiInterfaces
        = [some (fixture.cand "a"), some (fixture.cand "b"), some (fixture.cand "c"),
           some (fixture.cand "d"), some (fixture.cand "e")] :=
  ⟨_, rfl,
    (GetApp_mainPass_extern_queue fixture.collaborators fixture.buildParams []
      fixture.adefExterns _ rfl).trans rfl⟩

end modeller

/-! ## The PATH variable of the process environments -/

namespace modeller

open parseTree model

/-- The test of `EnsurePathIsSet` for a PATH variable finds one exactly when `PATH`
is a key of the map of variables. -/
theorem pathSpecified_iff (envVars : std.map String) :
    (envVars.any fun pair => decide (pair.1 = "PATH")) = true ↔ "PATH" ∈ envVars.keys := by
  simp [std.map.keys, List.any_eq_true]

/-- What `EnsurePathIsSet` makes of the process environment at a position of the
list. -/
theorem EnsurePathIsSet_getElem? (app : App_t) (i : Nat) (procEnv : ProcessEnv_t)
    (hi : app.processEnvs[i]? = some procEnv) :
    (EnsurePathIsSet app).processEnvs[i]?
      = some (if "PATH" ∈ procEnv.envVars.keys then procEnv
          else
            { procEnv with
              envVars := procEnv.envVars.assign "PATH"
                (if app.isSandboxed = false then
                  "/legato/systems/current/apps/" ++ app.name ++ "/read-only/bin:"
                    ++ "/usr/local/bin:/usr/bin:/bin"
                else "/usr/local/bin:/usr/bin:/bin") }) := by
  unfold EnsurePathIsSet
  simp only [List.getElem?_map, hi, Option.map_some']
  by_cases hp : "PATH" ∈ procEnv.envVars.keys
  · simp [(pathSpecified_iff _).mpr hp, hp]
  · have hq : ¬ ((procEnv.envVars.any fun pair => decide (pair.1 = "PATH")) = true) :=
      fun h => hp ((pathSpecified_iff _).mp h)
    simp [hq, hp]

/-- C19: for every app, of name `n`, `EnsurePathIsSet` gives a process environment
that has no PATH variable the value `/usr/local/bin:/usr/bin:/bin` of PATH when the
app is sandboxed, and the value
`/legato/systems/current/apps/n/read-only/bin:/usr/local/bin:/usr/bin:/bin` when
it is not. -/
theorem EnsurePathIsSet_default_path (app : App_t) (i : Nat) (procEnv : ProcessEnv_t)
    (hi : app.processEnvs[i]? = some procEnv) (hnone : "PATH" ∉ procEnv.envVars.keys) :
    ∃ procEnv1, (EnsurePathIsSet app).processEnvs[i]? = some procEnv1
      ∧ procEnv1.envVars.find "PATH"
        = some (if app.isSandboxed = true then "/usr/local/bin:/usr/bin:/bin"
            else "/legato/systems/current/apps/" ++ app.name
              ++ "/read-only/bin:/usr/local/bin:/usr/bin:/bin") := by
  refine ⟨_, EnsurePathIsSet_getElem? app i procEnv hi, ?_⟩
  rw [if_neg hnone]
  show (procEnv.envVars.assign "PATH" _).find "PATH" = _
  rw [std.map.find_assign_self]
  cases app.isSandboxed <;> simp [String.append_assoc]

theorem EnsurePathIsSet_default_path_witness :
    ∃ procEnv1, (EnsurePathIsSet fixture.appWithEnvs).processEnvs[0]? = some procEnv1
      ∧ procEnv1.envVars.find "PATH"
        = some (if fixture.appWithEnvs.isSandboxed = true then "/usr/local/bin:/usr/bin:/bin"
            else "/legato/systems/current/apps/" ++ "foo"
              ++ "/read-only/bin:/usr/local/bin:/usr/bin:/bin") :=
  EnsurePathIsSet_default_path fixture.appWithEnvs 0 fixture.newProcessEnv rfl (by decide)

/-- C20: `EnsurePathIsSet` never overwrites: a process environment that has a PATH
variable is left as it is, with its whole map of variables; in a process environment
without PATH every variable other than PATH keeps its value, and nothing but the map
of variables changes; the list of process environments keeps its length, and
nothing else in the app is modified. -/
theorem EnsurePathIsSet_never_overwrites (app : App_t) (i : Nat) (procEnv : ProcessEnv_t)
    (hi : app.processEnvs[i]? = some procEnv) :
    (∃ procEnv1, (EnsurePathIsSet app).processEnvs[i]? = some procEnv1
        ∧ ("PATH" ∈ procEnv.envVars.keys → procEnv1 = procEnv)
        ∧ ("PATH" ∉ procEnv.envVars.keys →
            (∀ key, key ≠ "PATH" →
              procEnv1.envVars.find key = procEnv.envVars.find key)
            ∧ procEnv1 = { procEnv with envVars := procEnv1.envVars }))
      ∧ (EnsurePathIsSet app).processEnvs.length = app.processEnvs.length
      ∧ EnsurePathIsSet app = { app with processEnvs := (EnsurePathIsSet app).processEnvs } := by
  refine ⟨⟨_, EnsurePathIsSet_getElem? app i procEnv hi, ?_, ?_⟩, ?_, rfl⟩
  · intro hp
    rw [if_pos hp]
  · intro hp
    rw [if_neg hp]
    exact ⟨fun key hv => std.map.find_assign_of_ne _ _ _ _ hv, rfl⟩
  · simp [EnsurePathIsSet]

theorem EnsurePathIsSet_never_overwrites_witness :
    (∃ procEnv1, (EnsurePathIsSet fixture.appWithEnvs).processEnvs[1]? = some procEnv1
        ∧ ("PATH" ∈ fixture.procEnvWithPath.envVars.keys → procEnv1 = fixture.procEnvWithPath)
        ∧ ("PATH" ∉ fixture.procEnvWithPath.envVars.keys →
            (∀ key, key ≠ "PATH" →
              procEnv1.envVars.find key = fixture.procEnvWithPath.envVars.find key)
            ∧ procEnv1 = { fixture.procEnvWithPath with envVars := procEnv1.envVars }))
      ∧ (EnsurePathIsSet fixture.appWithEnvs).processEnvs.length
          = fixture.appWithEnvs.processEnvs.length
      ∧ EnsurePathIsSet fixture.appWithEnvs
          = { fixture.appWithEnvs with
              processEnvs := (EnsurePathIsSet fixture.appWithEnvs).processEnvs } :=
  EnsurePathIsSet_never_overwrites fixture.appWithEnvs 1 fixture.procEnvWithPath rfl

end modeller

/-! ## The warnings about the limits -/

namespace modeller

open parseTree model

/-- A turn of the loop of `CheckForLimitsConflicts` returns, leaves the app as it
is, and adds to the standard error stream the warnings for the pairs of limits of
the process environment that are in conflict. -/
theorem CheckForLimitsConflicts_procEnv_eq (app : App_t) (stderr : List String)
    (procEnv : ProcessEnv_t) :
    CheckForLimitsConflicts.procEnv app.maxMemoryBytes.Get app.maxFileSystemBytes.Get
        (app, stderr) procEnv
      = .ok (app, stderr ++ (violatedPairs app procEnv).map (limitWarning app)) := by
  unfold CheckForLimitsConflicts.procEnv violatedPairs limitPairs
  simp only [pure, Except.pure, bind, Except.bind, PrintWarning, limitWarning,
    List.filter_cons, List.filter_nil, gt_iff_lt, decide_eq_true_eq]
  by_cases h1 : app.maxMemoryBytes.Get < procEnv.maxLockedMemoryBytes.Get <;>
    by_cases h2 : procEnv.maxFileBytes.Get < procEnv.maxCoreDumpFileBytes.Get <;>
    by_cases h3 : app.maxFileSystemBytes.Get < procEnv.maxCoreDumpFileBytes.Get <;>
    by_cases h4 : app.maxFileSystemBytes.Get < procEnv.maxFileBytes.Get <;>
    simp [h1, h2, h3, h4, limitWarning, String.append_assoc]

/-- The loop of `CheckForLimitsConflicts` over a list of process environments. -/
theorem CheckForLimitsConflicts_loop (app : App_t) (procEnvs : List ProcessEnv_t)
    (stderr : List String) :
    procEnvs.foldlM
        (CheckForLimitsConflicts.procEnv app.maxMemoryBytes.Get app.maxFileSystemBytes.Get)
        (app, stderr)
      = .ok (app, stderr
          ++ procEnvs.flatMap fun procEnv => (violatedPairs app procEnv).map (limitWarning app)) := by
  induction procEnvs generalizing stderr with
  | nil => simp [pure, Except.pure]
  | cons procEnv rest ih =>
    rw [List.foldlM_cons, CheckForLimitsConflicts_procEnv_eq]
    have := ih (stderr ++ (violatedPairs app procEnv).map (limitWarning app))
    simp only [bind, Except.bind] at this ⊢
    rw [this]
    simp [List.flatMap_cons, List.append_assoc]

/-- The outcome of `CheckForLimitsConflicts`. -/
theorem CheckForLimitsConflicts_eq (app : App_t) (stderr : List String) :
    CheckForLimitsConflicts app stderr = .ok (app, stderr ++ limitWarnings app) := by
  unfold CheckForLimitsConflicts limitWarnings
  exact CheckForLimitsConflicts_loop app app.processEnvs stderr

end modeller

namespace modeller

open parseTree model

/-- C22: `CheckForLimitsConflicts` adds to the standard error stream, for each
process environment in the order of the list and for each of the four pairs of
limits in their fixed order, one warning exactly when the narrower limit is strictly
greater than the broader one; so the number of warnings is the number of pairs in
conflict over all process environments, and when in every process environment no
narrower limit is greater than its broader limit (equal values included, and an app
without process environment in particular) there is no warning. -/
theorem CheckForLimitsConflicts_warnings (app : App_t) (stderr : List String) :
    CheckForLimitsConflicts app stderr
        = .ok (app, stderr
            ++ app.processEnvs.flatMap fun procEnv =>
                ((limitPairs app procEnv).filter fun pair => decide (pair.2.1 < pair.1)).map
                  (limitWarning app))
      ∧ (limitWarnings app).length
        = (app.processEnvs.map fun procEnv =>
            ((limitPairs app procEnv).filter fun pair => decide (pair.2.1 < pair.1)).length).sum
      ∧ ((∀ procEnv ∈ app.processEnvs, ∀ pair ∈ limitPairs app procEnv, pair.1 ≤ pair.2.1) →
          CheckForLimitsConflicts app stderr = .ok (app, stderr)) := by
  refine ⟨CheckForLimitsConflicts_eq app stderr, ?_, ?_⟩
  · simp only [limitWarnings, violatedPairs, gt_iff_lt, List.length_flatMap, List.length_map,
      Function.comp_def]
  · intro hle
    have hempty : limitWarnings app = [] := by
      unfold limitWarnings
      rw [List.flatMap_eq_nil_iff]
      intro procEnv hmem
      have hfilter : violatedPairs app procEnv = [] := by
        unfold violatedPairs
        rw [List.filter_eq_nil_iff]
        intro pair hpair
        have := hle procEnv hmem pair hpair
        simp only [gt_iff_lt, decide_eq_true_eq]
        omega
      rw [hfilter]
      rfl
    rw [CheckForLimitsConflicts_eq, hempty, List.append_nil]

theorem CheckForLimitsConflicts_warnings_witness :
    CheckForLimitsConflicts fixture.appLimits []
        = .ok (fixture.appLimits,
            ["** WARNING: application foo: maxLockedMemoryBytes (2000) will be limited by the maxMemoryBytes limit (1000).",
             "** WARNING: application foo: maxCoreDumpFileBytes (200000) will be limited by the maxFileBytes limit (102400).",
             "** WARNING: application foo: maxCoreDumpFileBytes (200000) will be limited by the maxFileSystemBytes limit (131072) if the core file is inside the sandbox temporary file system."])
      ∧ (limitWarnings fixture.appLimits).length = 3
      ∧ CheckForLimitsConflicts fixture.app ["earlier line"]
          = .ok (fixture.app, ["earlier line"]) :=
  ⟨(CheckForLimitsConflicts_warnings fixture.appLimits []).1.trans rfl,
   (CheckForLimitsConflicts_warnings fixture.appLimits []).2.1.trans rfl,
   (CheckForLimitsConflicts_warnings fixture.app ["earlier line"]).2.2
     (fun _ h => nomatch h)⟩

/-- C24: for every app, `CheckForLimitsConflicts` returns (it raises no exception),
and the app after the call is the app of before, with every field of it and of its
process environments; the call only adds lines to the standard error stream,
however many conflicts there are. -/
theorem CheckForLimitsConflicts_frame (app : App_t) (stderr : List String) :
    ∃ warnings, CheckForLimitsConflicts app stderr = .ok (app, stderr ++ warnings)
      ∧ warnings.length
        = (app.processEnvs.map fun procEnv => (violatedPairs app procEnv).length).sum :=
  ⟨limitWarnings app, CheckForLimitsConflicts_eq app stderr, by
    simp only [limitWarnings, List.length_flatMap, List.length_map, Function.comp_def]⟩

end modeller

namespace modeller

open parseTree model

/-- A call of `GetApp` adds no line to the standard error stream, whether it returns
or throws. -/
theorem GetApp_stderr (X : Collaborators) (adefPath : String) (buildParams : mk.BuildParams_t)
    (env : std.map String) (stderr : List String) :
    (GetApp X adefPath buildParams env stderr).2.2 = stderr := by
  unfold GetApp
  dsimp only
  repeat' split
  all_goals rfl

/-- The warning of `CheckForLimitsConflicts` for an app with maxMemoryBytes 1000 and
one process environment, with maxLockedMemoryBytes 2000 and its other limits not in
conflict: exactly one line, which names both values. -/
theorem CheckForLimitsConflicts_one_conflict (app : App_t) (procEnv : ProcessEnv_t)
    (stderr : List String)
    (henvs : app.processEnvs = [procEnv])
    (hmemory : app.maxMemoryBytes.Get = 1000)
    (hlocked : procEnv.maxLockedMemoryBytes.Get = 2000)
    (hcore : procEnv.maxCoreDumpFileBytes.Get ≤ procEnv.maxFileBytes.Get)
    (hcoreSystem : procEnv.maxCoreDumpFileBytes.Get ≤ app.maxFileSystemBytes.Get)
    (hfile : procEnv.maxFileBytes.Get ≤ app.maxFileSystemBytes.Get) :
    CheckForLimitsConflicts app stderr
      = .ok (app, stderr
          ++ ["** WARNING: application " ++ app.name
              ++ ": "
              ++ "maxLockedMemoryBytes (2000) will be limited by the maxMemoryBytes limit (1000)."])
    := by
  rw [CheckForLimitsConflicts_eq]
  have hw : limitWarnings app
      = ["** WARNING: application " ++ app.name
          ++ ": "
              ++ "maxLockedMemoryBytes (2000) will be limited by the maxMemoryBytes limit (1000)."] := by
    have h1 : ¬ (procEnv.maxFileBytes.Get < procEnv.maxCoreDumpFileBytes.Get) := by omega
    have h2 : ¬ (app.maxFileSystemBytes.Get < procEnv.maxCoreDumpFileBytes.Get) := by omega
    have h3 : ¬ (app.maxFileSystemBytes.Get < procEnv.maxFileBytes.Get) := by omega
    simp only [limitWarnings, henvs, List.flatMap_cons, List.flatMap_nil, List.append_nil,
      violatedPairs, limitPairs, List.filter_cons, List.filter_nil, gt_iff_lt,
      decide_eq_true_eq, hmemory, hlocked, h1, h2, h3, if_false, List.map_cons,
      List.map_nil]
    simp only [show (1000 < 2000) = True from by decide, if_true, List.map_cons,
      List.map_nil]
    rfl
  rw [hw]

/-- C23 as stated fails: `GetApp` builds the app of a definition with maxMemoryBytes
1000 and one process environment with maxLockedMemoryBytes 2000, the other limits at
their defaults; the call returns the app and leaves the standard error stream empty
as it was: the build itself produces no warning, not one. -/
theorem GetApp_prints_no_limit_warning :
    (GetApp fixture.collaborators "/apps/limits/foo.adef" fixture.buildParams [] []).1
        = .ok fixture.builtLimits
      ∧ fixture.builtLimits.maxMemoryBytes.Get = 1000
      ∧ (fixture.builtLimits.processEnvs.map fun procEnv => procEnv.maxLockedMemoryBytes.Get)
          = [2000]
      ∧ (GetApp fixture.collaborators "/apps/limits/foo.adef" fixture.buildParams [] []).2.2
          = []
      ∧ (GetApp fixture.collaborators "/apps/limits/foo.adef" fixture.buildParams []
          []).2.2.length ≠ 1 :=
  ⟨rfl, rfl, rfl, rfl, by decide⟩

/-- C23, amended.  For a definition file with a maxMemoryBytes section of value 1000
and a processes section whose only subsection sets maxLockedMemoryBytes to 2000, the
other limits being left at defaults that are not in conflict: `GetApp` returns the
app, with maxMemoryBytes 1000 and one process environment, of maxLockedMemoryBytes
2000, and adds no line to the standard error stream; and `CheckForLimitsConflicts`,
run on the returned app, returns, adds to the stream exactly one warning, which names
both 2000 and 1000, and leaves the app as it is, with maxLockedMemoryBytes still
2000. -/
theorem CheckForLimitsConflicts_locked_memory (X : Collaborators) (adefPath : String)
    (buildParams : mk.BuildParams_t) (env : std.map String) (stderr : List String)
    (adefFilePtr : AdefFile_t) (memorySection lockedSection : TokenList_t)
    (processes : Token_t) (type : Content_t.Type_t)
    (hparse : X.Parse adefPath buildParams.beVerbose = .ok adefFilePtr)
    (hsections : adefFilePtr.sections
      = [.tokenList memorySection, .itemList type processes [.tokenList lockedSection]])
    (hmemory : memorySection.type = .SIMPLE_SECTION
      ∧ memorySection.firstTokenPtr.text = "maxMemoryBytes"
      ∧ X.GetPositiveInt memorySection = .ok 1000)
    (hprocesses : processes.text = "processes")
    (hlocked : lockedSection.type = .SIMPLE_SECTION
      ∧ lockedSection.firstTokenPtr.text = "maxLockedMemoryBytes"
      ∧ X.GetNonNegativeInt lockedSection = .ok 2000)
    (hnew : (X.newApp adefFilePtr).processEnvs = [])
    (hdefaults : X.newProcessEnv.maxCoreDumpFileBytes.Get ≤ X.newProcessEnv.maxFileBytes.Get
      ∧ X.newProcessEnv.maxCoreDumpFileBytes.Get ≤ (X.newApp adefFilePtr).maxFileSystemBytes.Get
      ∧ X.newProcessEnv.maxFileBytes.Get ≤ (X.newApp adefFilePtr).maxFileSystemBytes.Get) :
    ∃ app env1,
      GetApp X adefPath buildParams env stderr = (.ok app, env1, stderr)
      ∧ app.maxMemoryBytes.Get = 1000
      ∧ (app.processEnvs.map fun procEnv => procEnv.maxLockedMemoryBytes.Get) = [2000]
      ∧ CheckForLimitsConflicts app stderr
        = .ok (app, stderr
            ++ ["** WARNING: application " ++ app.name
                ++ ": "
                ++ "maxLockedMemoryBytes (2000) will be limited by the maxMemoryBytes limit (1000)."])
      ∧ ((stateAfterCheck (CheckForLimitsConflicts app stderr)).processEnvs.map
          fun procEnv => procEnv.maxLockedMemoryBytes.Get) = [2000] := by
  obtain ⟨hmtype, hmname, hmvalue⟩ := hmemory
  obtain ⟨hltype, hlname, hlvalue⟩ := hlocked
  -- the pass over the two sections
  have hpass1 : ∀ locals : GetApp.Locals,
      GetApp.section X buildParams (envVars.Set env "CURDIR" (X.GetContainingDir adefPath))
          locals (.tokenList memorySection)
        = .ok { locals with
                app := { locals.app with maxMemoryBytes := locals.app.maxMemoryBytes.set 1000 } }
      := by
    intro locals
    rw [GetApp_section_maxMemoryBytes_eq X buildParams _ locals (.tokenList memorySection) hmname]
    simp [GetApp.assign, ToSimpleSectionPtr, CompoundItem_t.dynamicCast, hmtype, hmvalue]
  have hpass2 : ∀ locals : GetApp.Locals,
      GetApp.section X buildParams (envVars.Set env "CURDIR" (X.GetContainingDir adefPath))
          locals (.itemList type processes [.tokenList lockedSection])
        = .ok { locals with
                processesSections := locals.processesSections
                  ++ [.itemList type processes [.tokenList lockedSection]] } := by
    intro locals
    exact GetApp_section_processes_eq X buildParams _ locals
      (.itemList type processes [.tokenList lockedSection]) hprocesses
  have hmain : GetApp.mainPass X buildParams
      (envVars.Set env "CURDIR" (X.GetContainingDir adefPath)) adefFilePtr
      = .ok { app := { X.newApp adefFilePtr with
                       maxMemoryBytes := (X.newApp adefFilePtr).maxMemoryBytes.set 1000 },
              processesSections := [.itemList type processes [.tokenList lockedSection]],
              bindingsSections := [], externApiInterfaces := [],
              env := envVars.Set env "CURDIR" (X.GetContainingDir adefPath) } := by
    unfold GetApp.mainPass
    rw [hsections, List.foldlM_cons, hpass1]
    simp only [bind, Except.bind]
    rw [List.foldlM_cons, hpass2]
    rfl
  -- the process environment of the processes section
  have hsub : AddProcessesSection.subsection X
      (envVars.Set env "CURDIR" (X.GetContainingDir adefPath)) X.newProcessEnv
      (.tokenList lockedSection)
      = .ok { X.newProcessEnv with
              maxLockedMemoryBytes := X.newProcessEnv.maxLockedMemoryBytes.set 2000 } := by
    unfold AddProcessesSection.subsection
    simp [CompoundItem_t.firstTokenPtr, hlname, ToSimpleSectionPtr, CompoundItem_t.dynamicCast,
      hltype, hlvalue, bind, Except.bind, pure, Except.pure]
  have hfinish : GetApp.finish X (envVars.Set env "CURDIR" (X.GetContainingDir adefPath))
      { app := { X.newApp adefFilePtr with
                 maxMemoryBytes := (X.newApp adefFilePtr).maxMemoryBytes.set 1000 },
        processesSections := [.itemList type processes [.tokenList lockedSection]],
        bindingsSections := [], externApiInterfaces := [],
        env := envVars.Set env "CURDIR" (X.GetContainingDir adefPath) }
      = .ok (EnsurePathIsSet
          { X.newApp adefFilePtr with
            maxMemoryBytes := (X.newApp adefFilePtr).maxMemoryBytes.set 1000
            processEnvs :=
              [{ X.newProcessEnv with
                 maxLockedMemoryBytes := X.newProcessEnv.maxLockedMemoryBytes.set 2000 }] }) := by
    unfold GetApp.finish AddProcessesSections AddProcessesSection
    simp [List.foldlM_cons, ToCompoundItemListPtr, hsub, hnew, bind, Except.bind, pure,
      Except.pure, MakeInterfacesExternal, AddBindings.sections]
  have hrun : GetApp X adefPath buildParams env stderr
      = (.ok (EnsurePathIsSet
          { X.newApp adefFilePtr with
            maxMemoryBytes := (X.newApp adefFilePtr).maxMemoryBytes.set 1000
            processEnvs :=
              [{ X.newProcessEnv with
                 maxLockedMemoryBytes := X.newProcessEnv.maxLockedMemoryBytes.set 2000 }] }),
         envVars.Set (envVars.Set env "CURDIR" (X.GetContainingDir adefPath)) "CURDIR"
           (envVars.Get env "CURDIR"), stderr) := by
    unfold GetApp
    simp only [hparse, hmain, hfinish]
  -- the limits of the app that is returned
  have hlimits : ∀ procEnv ∈ (EnsurePathIsSet
      { X.newApp adefFilePtr with
        maxMemoryBytes := (X.newApp adefFilePtr).maxMemoryBytes.set 1000
        processEnvs :=
          [{ X.newProcessEnv with
             maxLockedMemoryBytes := X.newProcessEnv.maxLockedMemoryBytes.set 2000 }] }).processEnvs,
      procEnv.maxLockedMemoryBytes.Get = 2000
        ∧ procEnv.maxCoreDumpFileBytes.Get = X.newProcessEnv.maxCoreDumpFileBytes.Get
        ∧ procEnv.maxFileBytes.Get = X.newProcessEnv.maxFileBytes.Get := by
    intro procEnv hmem
    simp only [EnsurePathIsSet, List.map_cons, List.map_nil, List.mem_singleton] at hmem
    subst hmem
    split <;> exact ⟨rfl, rfl, rfl⟩
  obtain ⟨procEnv, henvs⟩ : ∃ procEnv, (EnsurePathIsSet
      { X.newApp adefFilePtr with
        maxMemoryBytes := (X.newApp adefFilePtr).maxMemoryBytes.set 1000
        processEnvs :=
          [{ X.newProcessEnv with
             maxLockedMemoryBytes := X.newProcessEnv.maxLockedMemoryBytes.set 2000 }] }).processEnvs
      = [procEnv] := ⟨_, rfl⟩
  obtain ⟨hl, hc, hf⟩ := hlimits procEnv (by rw [henvs]; exact List.mem_singleton.mpr rfl)
  have hcheck := CheckForLimitsConflicts_one_conflict _ procEnv stderr henvs rfl hl
    (by rw [hc, hf]; exact hdefaults.1) (by rw [hc]; exact hdefaults.2.1)
    (by rw [hf]; exact hdefaults.2.2)
  refine ⟨_, _, hrun, rfl, ?_, hcheck, ?_⟩
  · rw [henvs]
    simp [hl]
  · rw [hcheck]
    simp [stateAfterCheck, henvs, hl]

theorem CheckForLimitsConflicts_locked_memory_witness :
    ∃ app env1,
      GetApp fixture.collaborators "/apps/limits/foo.adef" fixture.buildParams [] []
        = (.ok app, env1, [])
      ∧ app.maxMemoryBytes.Get = 1000
      ∧ (app.processEnvs.map fun procEnv => procEnv.maxLockedMemoryBytes.Get) = [2000]
      ∧ CheckForLimitsConflicts app []
        = .ok (app, []
            ++ ["** WARNING: application " ++ app.name
                ++ ": "
                ++ "maxLockedMemoryBytes (2000) will be limited by the maxMemoryBytes limit (1000)."])
      ∧ ((stateAfterCheck (CheckForLimitsConflicts app [])).processEnvs.map
          fun procEnv => procEnv.maxLockedMemoryBytes.Get) = [2000] :=
  CheckForLimitsConflicts_locked_memory fixture.collaborators "/apps/limits/foo.adef"
    fixture.buildParams [] [] fixture.adefLimits
    { type := .SIMPLE_SECTION, firstTokenPtr := fixture.name "maxMemoryBytes" 59,
      contents := [fixture.name "1000" 59] }
    { type := .SIMPLE_SECTION, firstTokenPtr := fixture.name "maxLockedMemoryBytes" 61,
      contents := [fixture.name "2000" 61] }
    (fixture.name "processes" 60) .COMPOUND_ITEM_LIST rfl rfl ⟨rfl, rfl, rfl⟩ rfl
    ⟨rfl, rfl, rfl⟩ rfl
    ⟨Nat.le_of_ble_eq_true rfl, Nat.le_of_ble_eq_true rfl, Nat.le_of_ble_eq_true rfl⟩

end modeller

/-! ## The process environments of a built app -/

namespace modeller

open parseTree model

/-- An "executables" section leaves the list of process environments alone when
`AddComponentInstance` does. -/
theorem AddExecutables_processEnvs (X : Collaborators)
    (hX : ∀ app exe comp, (X.AddComponentInstance app exe comp).1.processEnvs = app.processEnvs)
    (env : std.map String) (buildParams : mk.BuildParams_t) (app app1 : App_t)
    (sectionPtr : CompoundItem_t)
    (h : AddExecutables X env app sectionPtr buildParams = .ok app1) :
    app1.processEnvs = app.processEnvs := by
  unfold AddExecutables at h
  simp only [bind, Except.bind, liftExcept, withEnv] at h
  split at h
  · cases h
  refine foldlM_rel (fun a b : App_t => b.processEnvs = a.processEnvs)
    (fun _ => rfl) (fun _ _ _ h1 h2 => h2.trans h1) _ (fun a x a1 hx => ?_) _ _ _ h
  split at hx
  · cases hx
  unfold AddExecutables.addExe at hx
  simp only [bind, Except.bind] at hx
  split at hx
  · cases hx
  rename_i st hfold
  have hst : st.1.processEnvs = a.processEnvs := by
    refine foldlM_rel (fun a b : App_t × Exe_t => b.1.processEnvs = a.1.processEnvs)
      (fun _ => rfl) (fun _ _ _ h1 h2 => h2.trans h1) _ (fun a x a1 hx => ?_) _ _ _ hfold
    unfold AddExecutables.addExe.component at hx
    simp only [bind, Except.bind, liftNested, pure, Except.pure] at hx
    repeat' (first | (cases hx; done) | split at hx)
    all_goals
      cases hx
      first | rfl | exact hX _ _ _
  obtain ⟨_, _, components, h1⟩ := AddExecutable_ok _ _ _ ((withEnv_eq_ok _ _ _).mp hx)
  rw [h1]
  exact hst

/-- The handling of a section leaves the list of process environments of the app
alone, when the collaborators do. -/
theorem GetApp_section_processEnvs (X : Collaborators) (hX : X.keepProcessEnvs)
    (buildParams : mk.BuildParams_t) (env : std.map String)
    (locals locals1 : GetApp.Locals) (sectionPtr : CompoundItem_t)
    (h : GetApp.section X buildParams env locals sectionPtr = .ok locals1) :
    locals1.app.processEnvs = locals.app.processEnvs := by
  by_cases hv : sectionPtr.firstTokenPtr.text ∈ GetApp.vocabulary
  swap
  · rw [GetApp_section_unrecognized _ _ _ _ _ hv] at h
    cases h
  rcases GetApp_vocabulary_mem _ hv with
    hn | hn | hn | hn | hn | hn | hn | hn | hn | hn | hn | hn | hn | hn | hn | hn | hn | hn | hn | hn | hn
  · rw [GetApp_section_bindings_eq _ _ _ _ _ hn] at h
    cases h
    rfl
  · rw [GetApp_section_bundles_eq _ _ _ _ _ hn] at h
    obtain ⟨_, _, h1⟩ := AddBundledItems_frame _ _ _ _ (GetApp_onApp_app _ _ _ h)
    rw [h1]
  · rw [GetApp_section_components_eq _ _ _ _ _ hn] at h
    split at h
    · cases h
    obtain ⟨_, h1⟩ := AddComponents_frame _ _ _ _ _ _ (GetApp_onAppAndEnv_app _ _ _ h)
    rw [h1]
  · rw [GetApp_section_cpuShare_eq _ _ _ _ _ hn] at h
    obtain ⟨v, h1⟩ := GetApp_assign_app _ _ _ _ _ h
    rw [h1]
  · rw [GetApp_section_executables_eq _ _ _ _ _ hn] at h
    exact AddExecutables_processEnvs X hX.2.1 _ _ _ _ _ (GetApp_onAppAndEnv_app _ _ _ h)
  · rw [GetApp_section_extern_eq _ _ _ _ _ hn] at h
    split at h
    · cases h
    cases h
    rfl
  · rw [GetApp_section_groups_eq _ _ _ _ _ hn] at h
    split at h
    · cases h
    exact hX.2.2.1 _ _ _ (GetApp_onApp_app _ _ _ h)
  · rw [GetApp_section_maxFileSystemBytes_eq _ _ _ _ _ hn] at h
    obtain ⟨v, h1⟩ := GetApp_assign_app _ _ _ _ _ h
    rw [h1]
  · rw [GetApp_section_maxMemoryBytes_eq _ _ _ _ _ hn] at h
    obtain ⟨v, h1⟩ := GetApp_assign_app _ _ _ _ _ h
    rw [h1]
  · rw [GetApp_section_maxMQueueBytes_eq _ _ _ _ _ hn] at h
    obtain ⟨v, h1⟩ := GetApp_assign_app _ _ _ _ _ h
    rw [h1]
  · rw [GetApp_section_maxQueuedSignals_eq _ _ _ _ _ hn] at h
    obtain ⟨v, h1⟩ := GetApp_assign_app _ _ _ _ _ h
    rw [h1]
  · rw [GetApp_section_maxThreads_eq _ _ _ _ _ hn] at h
    obtain ⟨v, h1⟩ := GetApp_assign_app _ _ _ _ _ h
    rw [h1]
  · rw [GetApp_section_maxSecureStorageBytes_eq _ _ _ _ _ hn] at h
    obtain ⟨v, h1⟩ := GetApp_assign_app _ _ _ _ _ h
    rw [h1]
  · rw [GetApp_section_processes_eq _ _ _ _ _ hn] at h
    cases h
    rfl
  · rw [GetApp_section_provides_eq _ _ _ _ _ hn] at h
    have h1 := AddProvidedItems_frame _ _ _ (GetApp_onAppAndInterfaces_app _ _ _ h)
    dsimp only at h1
    rw [h1]
  · rw [GetApp_section_requires_eq _ _ _ _ _ hn] at h
    obtain ⟨_, _, _, _, h1⟩ := AddRequiredItems_frame _ _ _ _ (GetApp_onAppAndInterfaces_app _ _ _ h)
    dsimp only at h1
    rw [h1]
  · rw [GetApp_section_sandboxed_eq _ _ _ _ _ hn] at h
    obtain ⟨v, h1⟩ := GetApp_assign_app _ _ _ _ _ h
    rw [h1]
  · rw [GetApp_section_start_eq _ _ _ _ _ hn] at h
    split at h
    · cases h
    exact hX.2.2.2.1 _ _ _ (GetApp_onApp_app _ _ _ h)
  · rw [GetApp_section_version_eq _ _ _ _ _ hn] at h
    repeat' (first | (cases h; done) | split at h)
    all_goals
      cases h
      rfl
  · rw [GetApp_section_watchdogAction_eq _ _ _ _ _ hn] at h
    split at h
    · cases h
    exact hX.2.2.2.2.1 _ _ _ (GetApp_onApp_app _ _ _ h)
  · rw [GetApp_section_watchdogTimeout_eq _ _ _ _ _ hn] at h
    split at h
    · cases h
    exact hX.2.2.2.2.2 _ _ _ (GetApp_onApp_app _ _ _ h)

end modeller

namespace modeller

open parseTree model

/-- The "processes" sections add to the list of process environments of the app, in
order, one process environment for each section: the one that the loop over the
subsections of the section builds from a new process environment. -/
theorem AddProcessesSections_envs (X : Collaborators) (env : std.map String)
    (processesSections : List CompoundItem_t) (app app1 : App_t)
    (h : AddProcessesSections X env app processesSections = .ok app1) :
    ∃ built : List ProcessEnv_t,
      app1 = { app with processEnvs := app.processEnvs ++ built }
      ∧ List.Forall₂
          (fun sectionPtr procEnv =>
            ∃ contents, ToCompoundItemListPtr sectionPtr = .ok contents
              ∧ contents.foldlM (AddProcessesSection.subsection X env) X.newProcessEnv
                = .ok procEnv)
          processesSections built := by
  unfold AddProcessesSections at h
  induction processesSections generalizing app with
  | nil =>
    simp only [List.foldlM_nil] at h
    cases h
    exact ⟨[], by simp, List.Forall₂.nil⟩
  | cons s rest ih =>
    rw [List.foldlM_cons] at h
    cases hcast : ToCompoundItemListPtr s with
    | error e => simp [hcast, bind, Except.bind] at h
    | ok contents =>
      simp only [hcast, bind, Except.bind, AddProcessesSection] at h
      cases hloop : contents.foldlM (AddProcessesSection.subsection X env) X.newProcessEnv with
      | error e => simp [hloop] at h
      | ok procEnv =>
        simp only [hloop] at h
        obtain ⟨built, rfl, hbuilt⟩ := ih _ h
        exact ⟨procEnv :: built, by simp, List.Forall₂.cons ⟨contents, hcast, hloop⟩ hbuilt⟩

/-- The process environments after `EnsurePathIsSet`: those of before, each left as
it is when it has a PATH variable and given the default one otherwise. -/
theorem EnsurePathIsSet_processEnvs (app : App_t) :
    (EnsurePathIsSet app).processEnvs
      = app.processEnvs.map fun procEnv =>
          if "PATH" ∈ procEnv.envVars.keys then procEnv
          else
            { procEnv with
              envVars := procEnv.envVars.assign "PATH"
                (if app.isSandboxed = false then
                  "/legato/systems/current/apps/" ++ app.name ++ "/read-only/bin:"
                    ++ "/usr/local/bin:/usr/bin:/bin"
                else "/usr/local/bin:/usr/bin:/bin") } := by
  apply List.ext_getElem?
  intro i
  cases hi : app.processEnvs[i]? with
  | none => simp [EnsurePathIsSet, hi]
  | some procEnv =>
    rw [EnsurePathIsSet_getElem? app i procEnv hi]
    simp [hi]

/-- C21: in every app that `GetApp` returns, the collaborators leaving the list of
process environments alone, every process environment has a PATH variable, and the
process environments are as many as the processes sections of the definition file
and stand in their order: each one is the process environment that the loop over
the subsections of its section builds, but for its variables, among which those of
the built environment keep their values. -/
theorem GetApp_process_environments (X : Collaborators) (hX : X.keepProcessEnvs)
    (adefPath : String) (buildParams : mk.BuildParams_t) (env : std.map String)
    (stderr : List String)
    (app : App_t) (hbuilt : (GetApp X adefPath buildParams env stderr).1 = .ok app) :
    (∀ procEnv ∈ app.processEnvs, "PATH" ∈ procEnv.envVars.keys)
      ∧ ∃ adefFilePtr, X.Parse adefPath buildParams.beVerbose = .ok adefFilePtr
        ∧ app.processEnvs.length
          = (adefFilePtr.sections.filter fun s =>
              decide (s.firstTokenPtr.text = "processes")).length
        ∧ List.Forall₂
            (fun sectionPtr procEnv =>
              ∃ contents built, ToCompoundItemListPtr sectionPtr = .ok contents
                ∧ contents.foldlM
                    (AddProcessesSection.subsection X
                      (envVars.Set env "CURDIR" (X.GetContainingDir adefPath)))
                    X.newProcessEnv
                  = .ok built
                ∧ { procEnv with envVars := built.envVars } = built
                ∧ ∀ key ∈ built.envVars.keys, procEnv.envVars.find key = built.envVars.find key)
            (adefFilePtr.sections.filter fun s => decide (s.firstTokenPtr.text = "processes"))
            app.processEnvs := by
  obtain ⟨adefFilePtr, locals, app1, app2, app3, hparse, hmain, hproc, hext, hbind, rfl⟩ :=
    GetApp_ok X adefPath buildParams env stderr (GetApp X adefPath buildParams env stderr).2 app
      (Prod.ext hbuilt rfl)
  have hsections := (GetApp_sections_deferred X buildParams _ _ _ _ hmain).2.1
  simp only [List.nil_append] at hsections
  have hlocals : locals.app.processEnvs = [] := by
    have := foldlM_rel (fun a b : GetApp.Locals => b.app.processEnvs = a.app.processEnvs)
      (fun _ => rfl) (fun _ _ _ h1 h2 => h2.trans h1) _
      (fun a x a1 hx => GetApp_section_processEnvs X hX _ _ _ _ _ hx) _ _ _ hmain
    rw [this]
    exact hX.1 adefFilePtr
  obtain ⟨built, rfl, hforall⟩ := AddProcessesSections_envs _ _ _ _ _ hproc
  rw [hsections] at hforall
  have h2 : app2.processEnvs = built := by
    have := foldlM_rel (fun a b : App_t => b.processEnvs = a.processEnvs)
      (fun _ => rfl) (fun _ _ _ h1 h2 => h2.trans h1) MakeInterfacesExternal.item
      (fun a x a1 hx => by
        obtain ⟨n, ptr, _, _, _, rfl⟩ := MakeInterfacesExternal_item_ok a a1 x hx
        cases ptr <;> rfl) _ _ _ hext
    rw [this]
    simp [hlocals]
  have h3 : app3.processEnvs = built := by
    have := foldlM_rel (fun a b : App_t => b.processEnvs = a.processEnvs)
      (fun _ => rfl) (fun _ _ _ h1 h2 => h2.trans h1) AddBindings
      (fun a x a1 hx => by
        unfold AddBindings at hx
        split at hx
        · cases hx
        · refine foldlM_rel (fun a b : App_t => b.processEnvs = a.processEnvs)
            (fun _ => rfl) (fun _ _ _ h1 h2 => h2.trans h1) _ (fun a y a1 hy => ?_) _ _ _ hx
          obtain ⟨spec, _, _, hitem⟩ := AddBindings_body_ok a a1 y hy
          by_cases hstar : (tokenAt spec.contents 0).type = .STAR
          · obtain ⟨b, _, _, rfl⟩ := AddBindings_item_wildcard_ok a a1 _ hstar hitem
            rfl
          · obtain ⟨c, b, _, _, _, rfl⟩ := AddBindings_item_specific_ok a a1 _ hstar hitem
            rfl) _ _ _ hbind
    rw [this, h2]
  have henvs := EnsurePathIsSet_processEnvs app3
  rw [h3] at henvs
  refine ⟨?_, adefFilePtr, hparse, ?_, ?_⟩
  · intro procEnv hmem
    rw [henvs] at hmem
    obtain ⟨b, _, rfl⟩ := List.mem_map.mp hmem
    by_cases hp : "PATH" ∈ b.envVars.keys
    · rw [if_pos hp]
      exact hp
    · rw [if_neg hp]
      exact (std.map.mem_keys_assign _ _ _ _).mpr (Or.inl rfl)
  · rw [henvs, List.length_map]
    exact hforall.length_eq.symm
  · rw [henvs, List.forall₂_map_right_iff]
    refine hforall.imp ?_
    rintro sectionPtr b ⟨contents, hcast, hloop⟩
    refine ⟨contents, b, hcast, hloop, ?_, ?_⟩
    · by_cases hp : "PATH" ∈ b.envVars.keys
      · rw [if_pos hp]
      · rw [if_neg hp]
    · intro key hkey
      by_cases hp : "PATH" ∈ b.envVars.keys
      · rw [if_pos hp]
      · rw [if_neg hp]
        have hne : key ≠ "PATH" := by
          rintro rfl
          exact hp hkey
        exact std.map.find_assign_of_ne _ _ _ _ hne

end modeller

namespace fixture

open parseTree model modeller

/-- The collaborators of the evaluation leave the list of process environments
alone. -/
theorem collaborators_keepProcessEnvs : collaborators.keepProcessEnvs :=
  ⟨fun _ => rfl, fun _ _ _ => rfl, fun _ _ _ h => by cases h; rfl,
    fun _ _ _ h => by cases h; rfl, fun _ _ _ h => by cases h; rfl,
    fun _ _ _ h => by cases h; rfl⟩

end fixture

namespace modeller

open parseTree model

theorem GetApp_process_environments_witness :
    (∀ procEnv ∈ fixture.builtLimits.processEnvs, "PATH" ∈ procEnv.envVars.keys)
      ∧ ∃ adefFilePtr,
        fixture.collaborators.Parse "/apps/limits/foo.adef" fixture.buildParams.beVerbose
          = .ok adefFilePtr
        ∧ fixture.builtLimits.processEnvs.length
          = (adefFilePtr.sections.filter fun s =>
              decide (s.firstTokenPtr.text = "processes")).length :=
  have h := GetApp_process_environments fixture.collaborators
    fixture.collaborators_keepProcessEnvs "/apps/limits/foo.adef" fixture.buildParams [] []
    fixture.builtLimits rfl
  ⟨h.1, h.2.imp fun _ hfile => ⟨hfile.1, hfile.2.1⟩⟩

end modeller

/-! ## Bundled files and directories -/

namespace modeller

open parseTree model

/-- What one turn of the loop over the items of a "file" subsection does with an
item that is a token list from which the extractor gets the bundled item `item`,
`path` being its source path, joined to the directory of the app when it is not
absolute. -/
theorem AddBundledItems_file_eq (X : Collaborators) (app : App_t) (itemPtr : CompoundItem_t)
    (spec : TokenList_t) (item : FileSystemObject_t) (path : String)
    (hspec : ToTokenListPtr itemPtr = .ok spec) (hitem : X.GetBundledItem spec = .ok item)
    (hpath : path
      = if X.IsAbsolute item.srcPath = true then item.srcPath
        else X.Combine app.dir item.srcPath) :
    AddBundledItems.file X app itemPtr
      = if X.FileExists path = true then
          .ok { app with bundledFiles := app.bundledFiles ++ [{ item with srcPath := path }] }
        else if X.AnythingExists path = true then
          .error (spec.ThrowException ("Not a regular file: '" ++ path ++ "'."), app)
        else .error (spec.ThrowException ("File not found: '" ++ path ++ "'."), app) := by
  unfold AddBundledItems.file
  simp only [hspec, hitem, liftExcept, bind, Except.bind, pure, Except.pure, throw, throwThe,
    MonadExceptOf.throw]
  by_cases habs : X.IsAbsolute item.srcPath = true
  · rw [if_pos habs] at hpath
    subst hpath
    simp [habs]
  · rw [if_neg habs] at hpath
    subst hpath
    simp [habs]

/-- The same for one turn of the loop over the items of a "dir" subsection. -/
theorem AddBundledItems_dir_eq (X : Collaborators) (app : App_t) (itemPtr : CompoundItem_t)
    (spec : TokenList_t) (item : FileSystemObject_t) (path : String)
    (hspec : ToTokenListPtr itemPtr = .ok spec) (hitem : X.GetBundledItem spec = .ok item)
    (hpath : path
      = if X.IsAbsolute item.srcPath = true then item.srcPath
        else X.Combine app.dir item.srcPath) :
    AddBundledItems.dir X app itemPtr
      = if X.DirectoryExists path = true then
          .ok { app with bundledDirs := app.bundledDirs ++ [{ item with srcPath := path }] }
        else if X.AnythingExists path = true then
          .error (spec.ThrowException ("Not a directory: '" ++ path ++ "'."), app)
        else .error (spec.ThrowException ("Directory not found: '" ++ path ++ "'."), app) := by
  unfold AddBundledItems.dir
  simp only [hspec, hitem, liftExcept, bind, Except.bind, pure, Except.pure, throw, throwThe,
    MonadExceptOf.throw]
  by_cases habs : X.IsAbsolute item.srcPath = true
  · rw [if_pos habs] at hpath
    subst hpath
    simp [habs]
  · rw [if_neg habs] at hpath
    subst hpath
    simp [habs]

/-- A bundles section handles its members one after the other: the members of a first
list, then, from the app these leave, the members of a second list. -/
theorem AddBundledItems_append (X : Collaborators) (app : App_t) (first : Token_t)
    (members1 members2 : List CompoundItem_t) :
    AddBundledItems X app (.itemList .COMPLEX_SECTION first (members1 ++ members2))
      = AddBundledItems X app (.itemList .COMPLEX_SECTION first members1) >>= fun app1 =>
          AddBundledItems X app1 (.itemList .COMPLEX_SECTION first members2) := by
  unfold AddBundledItems
  simp only [ToComplexSectionPtr, liftExcept, bind, Except.bind]
  rw [List.foldlM_append]
  rfl

/-- A bundles section whose only member is a "file" subsection handles the items of
the subsection one after the other. -/
theorem AddBundledItems_file_subsection (X : Collaborators) (app : App_t)
    (type : Content_t.Type_t) (first sub : Token_t) (hsub : sub.text = "file")
    (items : List CompoundItem_t) :
    AddBundledItems X app (.itemList .COMPLEX_SECTION first [.itemList type sub items])
      = items.foldlM (AddBundledItems.file X) app := by
  unfold AddBundledItems
  simp only [ToComplexSectionPtr, ToCompoundItemListPtr, liftExcept, bind, Except.bind,
    List.foldlM_cons, List.foldlM_nil, CompoundItem_t.firstTokenPtr, hsub, if_true]
  cases List.foldlM (AddBundledItems.file X) app items <;> rfl

/-- A bundles section whose only member is a "dir" subsection handles the items of
the subsection one after the other. -/
theorem AddBundledItems_dir_subsection (X : Collaborators) (app : App_t)
    (type : Content_t.Type_t) (first sub : Token_t) (hsub : sub.text = "dir")
    (items : List CompoundItem_t) :
    AddBundledItems X app (.itemList .COMPLEX_SECTION first [.itemList type sub items])
      = items.foldlM (AddBundledItems.dir X) app := by
  unfold AddBundledItems
  simp only [ToComplexSectionPtr, ToCompoundItemListPtr, liftExcept, bind, Except.bind,
    List.foldlM_cons, List.foldlM_nil, CompoundItem_t.firstTokenPtr, hsub,
    show ¬ ("dir" = "file") by decide, if_false, if_true]
  cases List.foldlM (AddBundledItems.dir X) app items <;> rfl

/-- When a bundles section, cut after some items of one of its subsections, returns
an app, the whole section goes on from that app: with the other items of the
subsection, handled by the loop `step` of the subsection, and then with the other
members of the section. -/
theorem AddBundledItems_reach (X : Collaborators) (app app1 : App_t)
    (type : Content_t.Type_t) (first sub : Token_t)
    (membersBefore membersAfter itemsBefore rest : List CompoundItem_t)
    (step : App_t → CompoundItem_t → Except (mk.Exception_t × App_t) App_t)
    (hstep : ∀ a items,
      AddBundledItems X a (.itemList .COMPLEX_SECTION first [.itemList type sub items])
        = items.foldlM step a)
    (hreach : AddBundledItems X app
        (.itemList .COMPLEX_SECTION first (membersBefore ++ [.itemList type sub itemsBefore]))
      = .ok app1) :
    AddBundledItems X app
        (.itemList .COMPLEX_SECTION first
          (membersBefore ++ .itemList type sub (itemsBefore ++ rest) :: membersAfter))
      = rest.foldlM step app1 >>= fun app2 =>
          AddBundledItems X app2 (.itemList .COMPLEX_SECTION first membersAfter) := by
  rw [AddBundledItems_append] at hreach ⊢
  cases hbefore : AddBundledItems X app (.itemList .COMPLEX_SECTION first membersBefore) with
  | error e =>
    rw [hbefore] at hreach
    cases hreach
  | ok app0 =>
    rw [hbefore] at hreach
    have hitems : itemsBefore.foldlM step app0 = .ok app1 := by
      rw [← hstep]
      exact hreach
    have hsub : AddBundledItems X app0
        (.itemList .COMPLEX_SECTION first [.itemList type sub (itemsBefore ++ rest)])
        = rest.foldlM step app1 := by
      rw [hstep, List.foldlM_append, hitems]
      rfl
    show AddBundledItems X app0
        (.itemList .COMPLEX_SECTION first
          (.itemList type sub (itemsBefore ++ rest) :: membersAfter))
      = _
    rw [← List.singleton_append, AddBundledItems_append, hsub]

/-- C25: for an item of a "file" subsection of a bundles section, reached by
`AddBundledItems` in the app `app1` (the section cut before the item returns `app1`),
that is a token list from which the extractor gets the bundled item `item`, with
`path` the source path of the item, joined to the directory of the app when it is not
absolute: `AddBundledItems`, on the section cut after the item, returns if and only
if `path` exists as a regular file, and then it has added the item, with that path,
at the end of the list of bundled files; otherwise `AddBundledItems` fails on the
section, whatever follows the item in it, from the item, with 'Not a regular file'
when something else exists at `path` and with 'File not found' when nothing does,
and leaves the app as `app1`.  The same holds for an item of a "dir" subsection, with
the list of bundled directories, existence as a directory, 'Not a directory' and
'Directory not found'. -/
theorem AddBundledItems_item (X : Collaborators) (app app1 : App_t)
    (type : Content_t.Type_t) (first sub : Token_t)
    (membersBefore membersAfter itemsBefore itemsAfter : List CompoundItem_t)
    (itemPtr : CompoundItem_t) (spec : TokenList_t) (item : FileSystemObject_t) (path : String)
    (hreach : AddBundledItems X app
        (.itemList .COMPLEX_SECTION first (membersBefore ++ [.itemList type sub itemsBefore]))
      = .ok app1)
    (hspec : ToTokenListPtr itemPtr = .ok spec) (hitem : X.GetBundledItem spec = .ok item)
    (hpath : path
      = if X.IsAbsolute item.srcPath = true then item.srcPath
        else X.Combine app.dir item.srcPath) :
    (sub.text = "file" →
        ((∃ app2, AddBundledItems X app
              (.itemList .COMPLEX_SECTION first
                (membersBefore ++ [.itemList type sub (itemsBefore ++ [itemPtr])]))
            = .ok app2)
          ↔ X.FileExists path = true)
        ∧ (X.FileExists path = true →
            AddBundledItems X app
                (.itemList .COMPLEX_SECTION first
                  (membersBefore ++ [.itemList type sub (itemsBefore ++ [itemPtr])]))
              = .ok { app1 with
                      bundledFiles := app1.bundledFiles ++ [{ item with srcPath := path }] })
        ∧ (X.FileExists path = false → X.AnythingExists path = true →
            AddBundledItems X app
                (.itemList .COMPLEX_SECTION first
                  (membersBefore
                    ++ .itemList type sub (itemsBefore ++ itemPtr :: itemsAfter) :: membersAfter))
              = .error (spec.ThrowException ("Not a regular file: '" ++ path ++ "'."), app1))
        ∧ (X.FileExists path = false → X.AnythingExists path = false →
            AddBundledItems X app
                (.itemList .COMPLEX_SECTION first
                  (membersBefore
                    ++ .itemList type sub (itemsBefore ++ itemPtr :: itemsAfter) :: membersAfter))
              = .error (spec.ThrowException ("File not found: '" ++ path ++ "'."), app1)))
      ∧ (sub.text = "dir" →
        ((∃ app2, AddBundledItems X app
              (.itemList .COMPLEX_SECTION first
                (membersBefore ++ [.itemList type sub (itemsBefore ++ [itemPtr])]))
            = .ok app2)
          ↔ X.DirectoryExists path = true)
        ∧ (X.DirectoryExists path = true →
            AddBundledItems X app
                (.itemList .COMPLEX_SECTION first
                  (membersBefore ++ [.itemList type sub (itemsBefore ++ [itemPtr])]))
              = .ok { app1 with
                      bundledDirs := app1.bundledDirs ++ [{ item with srcPath := path }] })
        ∧ (X.DirectoryExists path = false → X.AnythingExists path = true →
            AddBundledItems X app
                (.itemList .COMPLEX_SECTION first
                  (membersBefore
                    ++ .itemList type sub (itemsBefore ++ itemPtr :: itemsAfter) :: membersAfter))
              = .error (spec.ThrowException ("Not a directory: '" ++ path ++ "'."), app1))
        ∧ (X.DirectoryExists path = false → X.AnythingExists path = false →
            AddBundledItems X app
                (.itemList .COMPLEX_SECTION first
                  (membersBefore
                    ++ .itemList type sub (itemsBefore ++ itemPtr :: itemsAfter) :: membersAfter))
              = .error (spec.ThrowException ("Directory not found: '" ++ path ++ "'."),
                  app1))) := by
  -- the directory of the app is the same when the item is reached
  have hdir : app1.dir = app.dir := by
    obtain ⟨files, dirs, h1⟩ := AddBundledItems_frame X app app1 _ hreach
    rw [h1]
  have hpath1 : path
      = if X.IsAbsolute item.srcPath = true then item.srcPath
        else X.Combine app1.dir item.srcPath := by
    rw [hdir]
    exact hpath
  have hnil : ∀ a : App_t,
      AddBundledItems X a (.itemList .COMPLEX_SECTION first []) = .ok a := fun _ => rfl
  constructor
  · intro hsub
    have hfile := AddBundledItems_file_eq X app1 itemPtr spec item path hspec hitem hpath1
    have hcut : AddBundledItems X app
        (.itemList .COMPLEX_SECTION first
          (membersBefore ++ [.itemList type sub (itemsBefore ++ [itemPtr])]))
        = AddBundledItems.file X app1 itemPtr := by
      rw [AddBundledItems_reach X app app1 type first sub membersBefore [] itemsBefore [itemPtr]
        (AddBundledItems.file X)
        (fun a items => AddBundledItems_file_subsection X a type first sub hsub items) hreach]
      simp only [List.foldlM_cons, List.foldlM_nil, bind, Except.bind, pure, Except.pure]
      cases AddBundledItems.file X app1 itemPtr <;> rfl
    have hfull : ∀ err, AddBundledItems.file X app1 itemPtr = .error err →
        AddBundledItems X app
          (.itemList .COMPLEX_SECTION first
            (membersBefore
              ++ .itemList type sub (itemsBefore ++ itemPtr :: itemsAfter) :: membersAfter))
          = .error err := by
      intro err herr
      rw [AddBundledItems_reach X app app1 type first sub membersBefore membersAfter itemsBefore
        (itemPtr :: itemsAfter) (AddBundledItems.file X)
        (fun a items => AddBundledItems_file_subsection X a type first sub hsub items) hreach]
      simp only [List.foldlM_cons, herr, bind, Except.bind]
    rw [hcut]
    refine ⟨⟨?_, fun h => ⟨_, by rw [hfile, if_pos h]⟩⟩, fun h => by rw [hfile, if_pos h],
      fun h1 h2 => hfull _ (by rw [hfile]; simp [h1, h2]),
      fun h1 h2 => hfull _ (by rw [hfile]; simp [h1, h2])⟩
    rintro ⟨app2, h⟩
    by_contra hne
    rw [hfile, if_neg hne] at h
    split at h <;> cases h
  · intro hsub
    have hfile := AddBundledItems_dir_eq X app1 itemPtr spec item path hspec hitem hpath1
    have hcut : AddBundledItems X app
        (.itemList .COMPLEX_SECTION first
          (membersBefore ++ [.itemList type sub (itemsBefore ++ [itemPtr])]))
        = AddBundledItems.dir X app1 itemPtr := by
      rw [AddBundledItems_reach X app app1 type first sub membersBefore [] itemsBefore [itemPtr]
        (AddBundledItems.dir X)
        (fun a items => AddBundledItems_dir_subsection X a type first sub hsub items) hreach]
      simp only [List.foldlM_cons, List.foldlM_nil, bind, Except.bind, pure, Except.pure]
      cases AddBundledItems.dir X app1 itemPtr <;> rfl
    have hfull : ∀ err, AddBundledItems.dir X app1 itemPtr = .error err →
        AddBundledItems X app
          (.itemList .COMPLEX_SECTION first
            (membersBefore
              ++ .itemList type sub (itemsBefore ++ itemPtr :: itemsAfter) :: membersAfter))
          = .error err := by
      intro err herr
      rw [AddBundledItems_reach X app app1 type first sub membersBefore membersAfter itemsBefore
        (itemPtr :: itemsAfter) (AddBundledItems.dir X)
        (fun a items => AddBundledItems_dir_subsection X a type first sub hsub items) hreach]
      simp only [List.foldlM_cons, herr, bind, Except.bind]
    rw [hcut]
    refine ⟨⟨?_, fun h => ⟨_, by rw [hfile, if_pos h]⟩⟩, fun h => by rw [hfile, if_pos h],
      fun h1 h2 => hfull _ (by rw [hfile]; simp [h1, h2]),
      fun h1 h2 => hfull _ (by rw [hfile]; simp [h1, h2])⟩
    rintro ⟨app2, h⟩
    by_contra hne
    rw [hfile, if_neg hne] at h
    split at h <;> cases h

theorem AddBundledItems_item_witness :
    AddBundledItems fixture.collaborators fixture.app
        (.itemList .COMPLEX_SECTION (fixture.name "bundles" 68)
          ([] ++ [.itemList .COMPOUND_ITEM_LIST (fixture.name "file" 69)
            ([] ++ [fixture.bundledItem])]))
        = .ok { fixture.app with
                bundledFiles := fixture.app.bundledFiles
                  ++ [{ srcPath := "/apps/foo/data/table.csv", destPath := "data/table.csv",
                        permissions :=
                          { readable := true, writeable := false, executable := false } }] }
      ∧ AddBundledItems fixture.collaborators fixture.app
        (.itemList .COMPLEX_SECTION (fixture.name "bundles" 68)
          ([] ++ .itemList .COMPOUND_ITEM_LIST (fixture.name "dir" 71)
              ([] ++ fixture.bundledItem :: [fixture.bundledItem])
            :: [.itemList .COMPOUND_ITEM_LIST (fixture.name "file" 69) [fixture.bundledItem]]))
        = .error ((fixture.tokens .BUNDLED_FILE [fixture.name "data/table.csv" 70]).ThrowException
            ("Not a directory: '" ++ "/apps/foo/data/table.csv" ++ "'."), fixture.app) :=
  ⟨((AddBundledItems_item fixture.collaborators fixture.app fixture.app .COMPOUND_ITEM_LIST
        (fixture.name "bundles" 68) (fixture.name "file" 69) [] [] [] [] fixture.bundledItem
        (fixture.tokens .BUNDLED_FILE [fixture.name "data/table.csv" 70])
        { srcPath := "data/table.csv", destPath := "data/table.csv",
          permissions := { readable := true, writeable := false, executable := false } }
        "/apps/foo/data/table.csv" rfl rfl rfl rfl).1 rfl).2.1 rfl,
   ((AddBundledItems_item fixture.collaborators fixture.app fixture.app .COMPOUND_ITEM_LIST
        (fixture.name "bundles" 68) (fixture.name "dir" 71) []
        [.itemList .COMPOUND_ITEM_LIST (fixture.name "file" 69) [fixture.bundledItem]] []
        [fixture.bundledItem] fixture.bundledItem
        (fixture.tokens .BUNDLED_FILE [fixture.name "data/table.csv" 70])
        { srcPath := "data/table.csv", destPath := "data/table.csv",
          permissions := { readable := true, writeable := false, executable := false } }
        "/apps/foo/data/table.csv" rfl rfl rfl rfl).2 rfl).2.2.1 rfl rfl⟩

end modeller

/-! ## Required files, directories and devices -/

namespace modeller

open parseTree model

end modeller

namespace modeller

open parseTree model

end modeller

namespace modeller

open parseTree model

end modeller

/-! ## The CURDIR variable around `GetApp` -/

namespace std

namespace map

variable {α : Type}

/-- Assigning a value to a key and then the value the key had gives the map of
before. -/
theorem assign_assign_restore (m : map α) (k : String) (v w : α) (h : m.find k = some v) :
    (m.assign k w).assign k v = m := by
  induction m with
  | nil => rw [find_nil] at h; cases h
  | cons kv rest ih =>
    obtain ⟨k0, v0⟩ := kv
    by_cases hk : k = k0
    · subst hk
      rw [find_cons_self] at h
      cases h
      simp [assign]
    · rw [find_cons_of_ne _ _ _ _ hk] at h
      simp [assign, hk, ih h]

end map

end std

namespace modeller

open parseTree model

/-- The environment variables that a call of `GetApp` that returns the app leaves:
those of before, with CURDIR set to the directory of the definition file and then
to the value read before. -/
theorem GetApp_ok_env (X : Collaborators) (adefPath : String) (buildParams : mk.BuildParams_t)
    (env : std.map String) (stderr : List String) (app : App_t)
    (h : (GetApp X adefPath buildParams env stderr).1 = .ok app) :
    (GetApp X adefPath buildParams env stderr).2.1
      = envVars.Set (envVars.Set env "CURDIR" (X.GetContainingDir adefPath)) "CURDIR"
          (envVars.Get env "CURDIR") := by
  unfold GetApp at h ⊢
  dsimp only at h ⊢
  cases hp : X.Parse adefPath buildParams.beVerbose with
  | error e => rw [hp] at h; cases h
  | ok adefFilePtr =>
    rw [hp] at h
    dsimp only at h ⊢
    cases hm : GetApp.mainPass X buildParams
        (envVars.Set env "CURDIR" (X.GetContainingDir adefPath)) adefFilePtr with
    | error e => rw [hm] at h; cases h
    | ok locals =>
      rw [hm] at h
      dsimp only at h ⊢
      rw [GetApp_mainPass_env X buildParams _ adefFilePtr locals hm] at h ⊢
      cases hf : GetApp.finish X (envVars.Set env "CURDIR" (X.GetContainingDir adefPath))
          locals with
      | error e => rw [hf] at h; cases h
      | ok app0 => rfl

/-- C27: for every call of `GetApp` that returns the app, the value of CURDIR (as
`envVars::Get` reads it) is the same after the call as before it, and every other
variable is as before; when CURDIR was set before, the variables after the call are
exactly those of before.  During the call (for the pass over the sections, which
returns) CURDIR is the directory that contains the definition file. -/
theorem GetApp_restores_CURDIR (X : Collaborators) (adefPath : String)
    (buildParams : mk.BuildParams_t) (env : std.map String) (stderr : List String)
    (app : App_t)
    (h : (GetApp X adefPath buildParams env stderr).1 = .ok app) :
    envVars.Get (GetApp X adefPath buildParams env stderr).2.1 "CURDIR" = envVars.Get env "CURDIR"
      ∧ (∀ key, key ≠ "CURDIR" →
          (GetApp X adefPath buildParams env stderr).2.1.find key = env.find key)
      ∧ (∀ value, env.find "CURDIR" = some value →
          (GetApp X adefPath buildParams env stderr).2.1 = env)
      ∧ ∃ adefFilePtr locals,
          GetApp.mainPass X buildParams
              (envVars.Set env "CURDIR" (X.GetContainingDir adefPath)) adefFilePtr
            = .ok locals
          ∧ envVars.Get (envVars.Set env "CURDIR" (X.GetContainingDir adefPath)) "CURDIR"
            = X.GetContainingDir adefPath := by
  have henv := GetApp_ok_env X adefPath buildParams env stderr app h
  obtain ⟨adefFilePtr, locals, _, _, _, _, hmain, _⟩ :=
    GetApp_ok X adefPath buildParams env stderr (GetApp X adefPath buildParams env stderr).2 app
      (Prod.ext h rfl)
  refine ⟨?_, ?_, ?_, adefFilePtr, locals, hmain, ?_⟩
  · rw [henv]
    simp [envVars.Get, envVars.Set, std.map.find_assign_self]
  · intro key hkey
    rw [henv]
    simp only [envVars.Set]
    rw [std.map.find_assign_of_ne _ _ _ _ hkey, std.map.find_assign_of_ne _ _ _ _ hkey]
  · intro value hvalue
    rw [henv]
    simp only [envVars.Set, envVars.Get, hvalue, Option.getD_some]
    exact std.map.assign_assign_restore env "CURDIR" value _ hvalue
  · simp [envVars.Get, envVars.Set, std.map.find_assign_self]

theorem GetApp_restores_CURDIR_witness :
    envVars.Get
        (GetApp fixture.collaborators "/apps/foo.adef" fixture.buildParams
          [("HOME", "/root"), ("CURDIR", "/work")] []).2.1 "CURDIR"
      = "/work"
    ∧ (GetApp fixture.collaborators "/apps/foo.adef" fixture.buildParams
          [("HOME", "/root"), ("CURDIR", "/work")] []).2.1
      = [("HOME", "/root"), ("CURDIR", "/work")] :=
  have h := GetApp_restores_CURDIR fixture.collaborators "/apps/foo.adef" fixture.buildParams
    [("HOME", "/root"), ("CURDIR", "/work")] [] fixture.builtApp rfl
  ⟨h.1, h.2.2.1 "/work" rfl⟩

end modeller

/-! ## The set of components after `AddExecutable` -/

namespace modeller

open parseTree model

/-- The pointers that the set of components holds after an insertion: those of
before and the inserted one. -/
theorem mem_address_insertComponent (components : List Component_t)
    (componentPtr : Component_t) (address : Nat) :
    address ∈ (insertComponent components componentPtr).map (fun c => c.address)
      ↔ address ∈ components.map (fun c => c.address) ∨ address = componentPtr.address := by
  unfold insertComponent
  by_cases h : (components.any fun c => c.address == componentPtr.address) = true
  · rw [if_pos h]
    constructor
    · exact Or.inl
    · rintro (hc | rfl)
      · exact hc
      · obtain ⟨c, hc, heq⟩ := List.any_eq_true.mp h
        exact List.mem_map.mpr ⟨c, hc, by simpa using heq⟩
  · rw [if_neg h]
    simp [eq_comm]

/-- An insertion keeps the elements of the set, in their order, and adds at most the
inserted pointer. -/
theorem insertComponent_elements (components : List Component_t) (componentPtr : Component_t) :
    (∀ c ∈ components, c ∈ insertComponent components componentPtr)
      ∧ (∀ c ∈ insertComponent components componentPtr, c ∈ components ∨ c = componentPtr) := by
  unfold insertComponent
  by_cases h : (components.any fun c => c.address == componentPtr.address) = true
  · rw [if_pos h]
    exact ⟨fun c hc => hc, fun c hc => Or.inl hc⟩
  · rw [if_neg h]
    exact ⟨fun c hc => List.mem_append_left _ hc, fun c hc => by simpa using hc⟩

/-- An insertion keeps the set free of duplicates: no two elements are the same
pointer. -/
theorem nodup_insertComponent (components : List Component_t) (componentPtr : Component_t)
    (h : (components.map fun c => c.address).Nodup) :
    ((insertComponent components componentPtr).map fun c => c.address).Nodup := by
  unfold insertComponent
  by_cases hmem : (components.any fun c => c.address == componentPtr.address) = true
  · rw [if_pos hmem]
    exact h
  · rw [if_neg hmem]
    rw [List.map_append]
    refine List.Nodup.append h (List.nodup_singleton _) ?_
    intro address hin hsingle
    have heq : address = componentPtr.address := by simpa using hsingle
    subst heq
    obtain ⟨c, hc, hcaddr⟩ := List.mem_map.mp hin
    exact hmem (List.any_eq_true.mpr ⟨c, hc, by simpa using hcaddr⟩)

/-- The set of components after the loop of `AddExecutable` over the component
instances of the executable: it holds the pointers of before and those of the
instances, its elements are those of before and components of the instances, and no
two of its elements are the same pointer when that was so before. -/
theorem foldl_insertComponent_components (l : List ComponentInstance_t) (app : App_t) :
    (∀ address, address ∈ ((l.foldl
          (fun (app : App_t) (componentInstancePtr : ComponentInstance_t) =>
            { app with
              components := insertComponent app.components componentInstancePtr.componentPtr })
          app).components.map fun c => c.address)
        ↔ address ∈ app.components.map (fun c => c.address)
          ∨ ∃ ci ∈ l, ci.componentPtr.address = address)
      ∧ (∀ c ∈ app.components, c ∈ (l.foldl
          (fun (app : App_t) (componentInstancePtr : ComponentInstance_t) =>
            { app with
              components := insertComponent app.components componentInstancePtr.componentPtr })
          app).components)
      ∧ (∀ c ∈ (l.foldl
          (fun (app : App_t) (componentInstancePtr : ComponentInstance_t) =>
            { app with
              components := insertComponent app.components componentInstancePtr.componentPtr })
          app).components, c ∈ app.components ∨ ∃ ci ∈ l, ci.componentPtr = c)
      ∧ ((app.components.map fun c => c.address).Nodup →
          ((l.foldl
            (fun (app : App_t) (componentInstancePtr : ComponentInstance_t) =>
              { app with
                components := insertComponent app.components componentInstancePtr.componentPtr })
            app).components.map fun c => c.address).Nodup) := by
  induction l generalizing app with
  | nil => simp
  | cons x rest ih =>
    obtain ⟨haddr, hkeep, hfrom, hnodup⟩ := ih
      { app with components := insertComponent app.components x.componentPtr }
    rw [List.foldl_cons]
    obtain ⟨hkeep1, hfrom1⟩ := insertComponent_elements app.components x.componentPtr
    refine ⟨fun address => ?_, fun c hc => hkeep c (hkeep1 c hc), fun c hc => ?_,
      fun h => hnodup (nodup_insertComponent _ _ h)⟩
    · rw [haddr address]
      show address ∈ (insertComponent app.components x.componentPtr).map (fun c => c.address) ∨ _
        ↔ _
      rw [mem_address_insertComponent]
      constructor
      · rintro ((hc | rfl) | ⟨ci, hci, rfl⟩)
        · exact Or.inl hc
        · exact Or.inr ⟨x, List.mem_cons_self _ _, rfl⟩
        · exact Or.inr ⟨ci, List.mem_cons_of_mem _ hci, rfl⟩
      · rintro (hc | ⟨ci, hci, rfl⟩)
        · exact Or.inl (Or.inl hc)
        · rcases List.mem_cons.mp hci with rfl | hrest
          · exact Or.inl (Or.inr rfl)
          · exact Or.inr ⟨ci, hrest, rfl⟩
    · rcases hfrom c hc with h1 | ⟨ci, hci, rfl⟩
      · rcases hfrom1 c h1 with h2 | rfl
        · exact Or.inl h2
        · exact Or.inr ⟨x, List.mem_cons_self _ _, rfl⟩
      · exact Or.inr ⟨ci, List.mem_cons_of_mem _ hci, rfl⟩

/-- C28: the set of components of the app is a set of pointers.  After every call of
`AddExecutable` that returns, the component (the pointer) of each component instance
of the executable is in the set, every component that was in the set before is
still in it, nothing has come into it but components of the instances, and no two
elements of the set are the same pointer when that was so before: the set only
grows and holds each component once. -/
theorem AddExecutable_components (app app1 : App_t) (exePtr : Exe_t)
    (h : AddExecutable app exePtr = .ok app1) :
    (∀ componentInstancePtr ∈ exePtr.componentInstances,
        componentInstancePtr.componentPtr.address ∈ app1.components.map fun c => c.address)
      ∧ (∀ c ∈ app.components, c ∈ app1.components)
      ∧ (∀ c ∈ app1.components,
          c ∈ app.components ∨ ∃ ci ∈ exePtr.componentInstances, ci.componentPtr = c)
      ∧ ((app.components.map fun c => c.address).Nodup →
          (app1.components.map fun c => c.address).Nodup) := by
  have hrun : app1
      = exePtr.componentInstances.foldl
          (fun (app : App_t) (componentInstancePtr : ComponentInstance_t) =>
            { app with
              components := insertComponent app.components componentInstancePtr.componentPtr })
          { app with executables := (app.executables.insert exePtr.name exePtr).1 } := by
    unfold AddExecutable at h
    dsimp only at h
    repeat' (first | (cases h; done) | split at h)
    all_goals
      cases h
      rfl
  obtain ⟨haddr, hkeep, hfrom, hnodup⟩ :=
    foldl_insertComponent_components exePtr.componentInstances
      { app with executables := (app.executables.insert exePtr.name exePtr).1 }
  rw [hrun]
  exact ⟨fun ci hci => (haddr _).mpr (Or.inr ⟨ci, hci, rfl⟩), hkeep, hfrom, hnodup⟩

theorem AddExecutable_components_witness :
    (stateAfter (AddExecutable fixture.newApp fixture.exeTwins)).components
        = [fixture.compA, fixture.compATwin]
      ∧ (∀ componentInstancePtr ∈ fixture.exeTwins.componentInstances,
          componentInstancePtr.componentPtr.address
            ∈ (stateAfter (AddExecutable fixture.newApp fixture.exeTwins)).components.map
                fun c => c.address)
      ∧ ((stateAfter (AddExecutable fixture.newApp fixture.exeTwins)).components.map
          fun c => c.address).Nodup :=
  have h := AddExecutable_components fixture.newApp _ fixture.exeTwins rfl
  ⟨rfl, h.1, h.2.2.2 List.nodup_nil⟩

end modeller

/-! ## The processes of a run section -/

namespace modeller

open parseTree model

/-- C29: for run items of class `RunProcess_t` that have the shapes of the claim,
`AddProcesses` returns and has added to the process environment, in the order of
the items, the processes described: for an item that does not start with an open
parenthesis and has the content tokens `[n, p, a1 .. ak]`, the process named `n`
with the executable path `Unquote(p)` and the arguments `Unquote(a1) ..
Unquote(ak)`; for an item that starts with an open parenthesis and has the content
tokens `[p, a1 .. ak]`, the process named by the text of `p`, with the executable
path `Unquote(p)` and the same arguments. -/
theorem AddProcesses_described (X : Collaborators) (items : List TokenList_t)
    (processes : List Process_t) (procEnv : ProcessEnv_t)
    (hclass : ∀ processSpecPtr ∈ items, processSpecPtr.type = .RUN_PROCESS)
    (hshape : List.Forall₂ (fun processSpecPtr process =>
      describedProcess X processSpecPtr = some process) items processes) :
    AddProcesses X procEnv (items.map .tokenList)
      = .ok { procEnv with processes := procEnv.processes ++ processes } := by
  unfold AddProcesses
  induction hshape generalizing procEnv with
  | nil => simp [pure, Except.pure]
  | @cons spec process items processes hhead _ ih =>
    have hty := hclass spec (List.mem_cons_self _ _)
    have hturn : AddProcesses.item X procEnv (.tokenList spec)
        = .ok { procEnv with processes := procEnv.processes ++ [process] } := by
      simp only [AddProcesses.item, CompoundItem_t.dynamicCast, hty, if_true]
      unfold describedProcess at hhead
      by_cases hparen : spec.firstTokenPtr.type = .OPEN_PARENTHESIS
      · simp only [hparen, decide_True] at hhead
        cases hc : spec.Contents with
        | nil => rw [hc] at hhead; cases hhead
        | cons p args =>
          rw [hc] at hhead
          cases hhead
          simp [hparen, tokenAt]
      · simp only [hparen, decide_False] at hhead
        cases hc : spec.Contents with
        | nil => rw [hc] at hhead; cases hhead
        | cons n rest =>
          cases rest with
          | nil => rw [hc] at hhead; cases hhead
          | cons p args =>
            rw [hc] at hhead
            cases hhead
            simp [hparen, tokenAt]
    rw [List.map_cons, List.foldlM_cons, hturn]
    have := ih { procEnv with processes := procEnv.processes ++ [process] }
      (fun s hs => hclass s (List.mem_cons_of_mem _ hs))
    simp only [bind, Except.bind] at this ⊢
    rw [this]
    simp [List.append_assoc]

theorem AddProcesses_described_witness :
    AddProcesses fixture.collaborators fixture.newProcessEnv
        ([fixture.runNamed, fixture.runUnnamed].map .tokenList)
      = .ok { fixture.newProcessEnv with
              processes := fixture.newProcessEnv.processes
                ++ [{ name := "web", exePath := "/bin/httpd", commandLineArgs := ["-p", "80"] },
                    { name := "/bin/logger", exePath := "/bin/logger",
                      commandLineArgs := ["-v"] }] } :=
  AddProcesses_described fixture.collaborators [fixture.runNamed, fixture.runUnnamed] _
    fixture.newProcessEnv (by decide)
    (List.Forall₂.cons rfl (List.Forall₂.cons rfl List.Forall₂.nil))

end modeller

/-! ## The result of `pa_gnss_GetTtff` -/

namespace pa_gnss

/-- C30, on the code: `pa_gnss_GetTtff` of the default platform adaptor returns
`LE_FAULT` on every call, which is neither `LE_BUSY` nor `LE_OK`, the two result
codes that its documentation lists; it adds a line to the log and leaves the word
that `ttffPtr` points to as it is. -/
theorem pa_gnss_GetTtff_returns_fault (ttff : Nat) (log : List String) :
    (pa_gnss_GetTtff ttff log).1 = .LE_FAULT
      ∧ (pa_gnss_GetTtff ttff log).1 ≠ .LE_BUSY
      ∧ (pa_gnss_GetTtff ttff log).1 ≠ .LE_OK
      ∧ (pa_gnss_GetTtff ttff log).2.1 = ttff
      ∧ (pa_gnss_GetTtff ttff log).2.2 = log ++ ["Unsupported function called"] :=
  ⟨rfl, by simp [pa_gnss_GetTtff], by simp [pa_gnss_GetTtff], rfl, rfl⟩

end pa_gnss

/-! ## The server side of a binding, after either shape of client side -/

namespace modeller

open parseTree model

/-- The tokens of a specification from the server side on are read the same after
the two tokens of a wildcard client side and after the three tokens of a specific
one. -/
theorem tokenAt_after_client_side (s : List Token_t) (star x e c i : Token_t) (j : Nat) :
    tokenAt ([star, x] ++ s) (2 + j) = tokenAt ([e, c, i] ++ s) (3 + j) := by
  simp [tokenAt, Nat.add_comm]

/-- Claim C33.  The server side of a binding is parsed independently of the shape of
the client side: for every sequence `s` of server-side tokens and every app,
`GetBindingServerSide` reading the wildcard specification `[STAR, X] ++ s` from
offset 2 and reading the specific specification `[e, c, i] ++ s` from offset 3 have
the same outcome as far as the server side goes: both throw the same exception, or
both return, with the same server type, server agent name and server interface
name, whatever the binding objects that they fill in hold for the client side. -/
theorem GetBindingServerSide_client_shape (app : App_t) (s : List Token_t)
    (star x e c i : Token_t) (wildcardPtr specificPtr : Binding_t) :
    (GetBindingServerSide wildcardPtr ([star, x] ++ s) 2 app).map
        (fun b => (b.serverType, b.serverAgentName, b.serverIfName))
      = (GetBindingServerSide specificPtr ([e, c, i] ++ s) 3 app).map
        (fun b => (b.serverType, b.serverAgentName, b.serverIfName)) := by
  have h0 := tokenAt_after_client_side s star x e c i 0
  have h1 := tokenAt_after_client_side s star x e c i 1
  have h2 := tokenAt_after_client_side s star x e c i 2
  simp only [Nat.add_zero, Nat.reduceAdd] at h0 h1 h2
  unfold GetBindingServerSide
  simp only [Nat.reduceAdd, h0, h1, h2]
  split
  · split <;> rfl
  · split <;> rfl

end modeller

/-! ## An extern candidate whose interface name is on both sides of the component -/

namespace modeller

open parseTree model

/-- The interface instance that an extern candidate resolves to when the name of the
interface is found in the client-side list of the component instance: the
client-side instance, whatever the server-side list holds. -/
theorem externTarget_client (app : App_t) (exeTokenPtr componentTokenPtr interfaceTokenPtr : Token_t)
    (componentInstancePtr : ComponentInstance_t) (c : Nat)
    (hinstance : app.FindComponentInstance exeTokenPtr componentTokenPtr
      = .ok componentInstancePtr)
    (hclient : componentInstancePtr.FindClientInterface app interfaceTokenPtr.text = some c) :
    externTarget app exeTokenPtr componentTokenPtr interfaceTokenPtr = some (.client c) := by
  simp only [externTarget, hinstance, hclient]

/-- A call of `MakeInterfaceExternal` leaves the server-side interface instances and
the extern-server map as they are when the name of the interface is found in the
client-side list of the component instance, whether the call returns or throws. -/
theorem MakeInterfaceExternal_client_frame (app : App_t)
    (nameTokenPtr exeTokenPtr componentTokenPtr interfaceTokenPtr : Token_t)
    (componentInstancePtr : ComponentInstance_t) (c : Nat)
    (hinstance : app.FindComponentInstance exeTokenPtr componentTokenPtr
      = .ok componentInstancePtr)
    (hclient : componentInstancePtr.FindClientInterface app interfaceTokenPtr.text = some c) :
    (stateAfter (MakeInterfaceExternal app nameTokenPtr exeTokenPtr componentTokenPtr
        interfaceTokenPtr)).serverIfInstances = app.serverIfInstances
      ∧ (stateAfter (MakeInterfaceExternal app nameTokenPtr exeTokenPtr componentTokenPtr
        interfaceTokenPtr)).externServerInterfaces = app.externServerInterfaces := by
  cases hrun : MakeInterfaceExternal app nameTokenPtr exeTokenPtr componentTokenPtr
      interfaceTokenPtr with
  | error e =>
    obtain ⟨e1, app1⟩ := e
    have := MakeInterfaceExternal_error_state app app1 _ _ _ _ e1 hrun
    subst this
    exact ⟨rfl, rfl⟩
  | ok app1 =>
    obtain ⟨ptr, _, _, ht, _, rfl⟩ := MakeInterfaceExternal_ok app app1 _ _ _ _ hrun
    rw [externTarget_client app _ _ _ _ c hinstance hclient] at ht
    cases ht
    exact ⟨rfl, rfl⟩

/-- The counterexample to C36 as stated.  In the app `appBothMarked` the name `ifZ`
is found in the client-side and in the server-side interface list of the instance
of `compC` in `exeC`, and the client-side instance is already external under the
name `pubZ`.  For the candidate `again = exeC.compC.ifZ`, `MakeInterfaceExternal`
throws 'Same interface marked extern more than once': it neither marks nor registers
the client-side instance, which keeps the name `pubZ` and the first mark, and the
extern-client map has no entry for `again`. -/
theorem MakeInterfaceExternal_both_sides_marked :
    fixture.appBothMarked.FindComponentInstance (fixture.name "exeC" 24)
        (fixture.name "compC" 24)
      = .ok { componentPtr := fixture.compC, clientApis := [0], serverApis := [0] }
    ∧ ComponentInstance_t.FindClientInterface
        { componentPtr := fixture.compC, clientApis := [0], serverApis := [0] }
        fixture.appBothMarked "ifZ" = some 0
    ∧ ComponentInstance_t.FindServerInterface
        { componentPtr := fixture.compC, clientApis := [0], serverApis := [0] }
        fixture.appBothMarked "ifZ" = some 0
    ∧ MakeInterfaceExternal fixture.appBothMarked (fixture.name "again" 24)
        (fixture.name "exeC" 24) (fixture.name "compC" 24) (fixture.name "ifZ" 24)
        = .error ({ location := "app.adef:24",
                    message := "Same interface marked 'extern' more than once.\n"
                      ++ "app.adef:23: note: Previously done here." },
                  fixture.appBothMarked)
    ∧ (fixture.appBothMarked.clientIfInstances 0).name = "pubZ"
    ∧ (fixture.appBothMarked.clientIfInstances 0).externMarkPtr = some (fixture.name "pubZ" 23)
    ∧ fixture.appBothMarked.externClientInterfaces.find "again" = none :=
  ⟨rfl, rfl, rfl, rfl, rfl, rfl, rfl⟩

/-- Claim C36, amended.  When the name of the interface of an extern candidate is
found in the client-side and in the server-side interface list of the component
instance that the candidate resolves to, `MakeInterfaceExternal` leaves every
server-side interface instance (its name and its extern mark) and the extern-server
map as they are, whether it returns or throws; and when the candidate is not
rejected, that is, when its external name is not yet a key of either extern map and
the client-side instance is not yet marked external, it returns, having given the
client-side instance the external name and the mark, and having registered it under
the name in the extern-client map, whose other entries, like the other client-side
instances, are as they were. -/
theorem MakeInterfaceExternal_client_wins (app : App_t)
    (nameTokenPtr exeTokenPtr componentTokenPtr interfaceTokenPtr : Token_t)
    (componentInstancePtr : ComponentInstance_t) (c s : Nat)
    (hinstance : app.FindComponentInstance exeTokenPtr componentTokenPtr
      = .ok componentInstancePtr)
    (hclient : componentInstancePtr.FindClientInterface app interfaceTokenPtr.text = some c)
    (_hserver : componentInstancePtr.FindServerInterface app interfaceTokenPtr.text = some s) :
    (stateAfter (MakeInterfaceExternal app nameTokenPtr exeTokenPtr componentTokenPtr
        interfaceTokenPtr)).serverIfInstances = app.serverIfInstances
      ∧ (stateAfter (MakeInterfaceExternal app nameTokenPtr exeTokenPtr componentTokenPtr
        interfaceTokenPtr)).externServerInterfaces = app.externServerInterfaces
      ∧ ((app.externClientInterfaces.find nameTokenPtr.text).isSome = false →
          (app.externServerInterfaces.find nameTokenPtr.text).isSome = false →
          (app.clientIfInstances c).externMarkPtr = none →
          ∃ app1, MakeInterfaceExternal app nameTokenPtr exeTokenPtr componentTokenPtr
              interfaceTokenPtr = .ok app1
            ∧ (app1.clientIfInstances c).name = nameTokenPtr.text
            ∧ (app1.clientIfInstances c).externMarkPtr = some nameTokenPtr
            ∧ app1.externClientInterfaces.find nameTokenPtr.text = some c
            ∧ (∀ key, key ≠ nameTokenPtr.text →
                app1.externClientInterfaces.find key = app.externClientInterfaces.find key)
            ∧ (∀ p, p ≠ c → app1.clientIfInstances p = app.clientIfInstances p)
            ∧ app1.serverIfInstances = app.serverIfInstances
            ∧ app1.externServerInterfaces = app.externServerInterfaces) := by
  obtain ⟨h1, h2⟩ := MakeInterfaceExternal_client_frame app nameTokenPtr exeTokenPtr
    componentTokenPtr interfaceTokenPtr componentInstancePtr c hinstance hclient
  refine ⟨h1, h2, fun hc hs hmark => ?_⟩
  have hrun := MakeInterfaceExternal_fresh_name app nameTokenPtr exeTokenPtr componentTokenPtr
    interfaceTokenPtr (.client c) hc hs
    (externTarget_client app _ _ _ _ c hinstance hclient)
  have hm : MarkInterfaceExternal app (.client c) nameTokenPtr
      = .ok (app.setIfInstance (.client c)
          { name := nameTokenPtr.text, externMarkPtr := some nameTokenPtr }) := by
    unfold MarkInterfaceExternal
    have : (app.ifInstance (.client c)).externMarkPtr = none := hmark
    rw [this]
  rw [hm] at hrun
  refine ⟨_, hrun, ?_, ?_, ?_, ?_, ?_, rfl, rfl⟩
  · simp [recordExternal, App_t.setIfInstance]
  · simp [recordExternal, App_t.setIfInstance]
  · exact std.map.find_assign_self _ _ _
  · intro key hkey
    exact std.map.find_assign_of_ne _ _ _ _ hkey
  · intro p hp
    simp [recordExternal, App_t.setIfInstance, Function.update_noteq hp]

theorem MakeInterfaceExternal_client_wins_witness :
    (stateAfter (MakeInterfaceExternal fixture.appBoth (fixture.name "pubZ" 23)
        (fixture.name "exeC" 23) (fixture.name "compC" 23)
        (fixture.name "ifZ" 23))).serverIfInstances = fixture.appBoth.serverIfInstances
      ∧ (stateAfter (MakeInterfaceExternal fixture.appBoth (fixture.name "pubZ" 23)
        (fixture.name "exeC" 23) (fixture.name "compC" 23)
        (fixture.name "ifZ" 23))).externServerInterfaces = []
      ∧ ∃ app1, MakeInterfaceExternal fixture.appBoth (fixture.name "pubZ" 23)
            (fixture.name "exeC" 23) (fixture.name "compC" 23) (fixture.name "ifZ" 23)
            = .ok app1
          ∧ (app1.clientIfInstances 0).name = "pubZ"
          ∧ (app1.clientIfInstances 0).externMarkPtr = some (fixture.name "pubZ" 23)
          ∧ app1.externClientInterfaces.find "pubZ" = some 0
          ∧ app1.serverIfInstances = fixture.appBoth.serverIfInstances
          ∧ app1.externServerInterfaces = [] :=
  have h := MakeInterfaceExternal_client_wins fixture.appBoth (fixture.name "pubZ" 23)
    (fixture.name "exeC" 23) (fixture.name "compC" 23) (fixture.name "ifZ" 23)
    { componentPtr := fixture.compC, clientApis := [0], serverApis := [0] } 0 0 rfl rfl rfl
  ⟨h.1, h.2.1, (h.2.2 rfl rfl rfl).imp fun _ h1 =>
    ⟨h1.1, h1.2.1, h1.2.2.1, h1.2.2.2.1, h1.2.2.2.2.2.2.1, h1.2.2.2.2.2.2.2⟩⟩

end modeller

/-! ## The default permissions of a configuration tree, and the tree of the app -/

namespace modeller

open parseTree model

/-- What `AddConfigTree` does, given the permissions of the specification: those that
the extractor returns for the permissions token, or read-only when there is no such
token. -/
theorem AddConfigTree_run (X : Collaborators) (app : App_t) (specPtr : TokenList_t)
    (permissions : Permissions_t)
    (hperm : (tokenAt specPtr.Contents 0).type = .FILE_PERMISSIONS →
      X.GetPermissions (tokenAt specPtr.Contents 0) = .ok permissions)
    (hdefault : (tokenAt specPtr.Contents 0).type ≠ .FILE_PERMISSIONS →
      permissions = { readable := true, writeable := false, executable := false }) :
    AddConfigTree X app specPtr
      = if (app.configTrees.find (AddConfigTree.fileName app specPtr)).isSome then
          .error ((AddConfigTree.treeNameTokenPtr specPtr).ThrowException
            ("Configuration tree '" ++ AddConfigTree.fileName app specPtr
              ++ "' appears in application more than once."), app)
        else
          .ok { app with
                configTrees := app.configTrees.assign (AddConfigTree.fileName app specPtr)
                  permissions } := by
  unfold AddConfigTree AddConfigTree.fileName AddConfigTree.treeNameTokenPtr
  by_cases ht : (tokenAt specPtr.Contents 0).type = .FILE_PERMISSIONS
  · simp only [ht, if_true, hperm ht]
  · simp only [ht, if_false, hdefault ht]

/-- A specification whose tree is already a key of the map of configuration trees is
rejected as a duplicate, when the extractor returns for its permissions token, if it
has one. -/
theorem AddConfigTree_rejected (X : Collaborators) (app : App_t) (specPtr : TokenList_t)
    (permissions : Permissions_t)
    (hperm : (tokenAt specPtr.Contents 0).type = .FILE_PERMISSIONS →
      ∃ given, X.GetPermissions (tokenAt specPtr.Contents 0) = .ok given)
    (hkey : app.configTrees.find (AddConfigTree.fileName app specPtr) = some permissions) :
    AddConfigTree X app specPtr
      = .error ((AddConfigTree.treeNameTokenPtr specPtr).ThrowException
          ("Configuration tree '" ++ AddConfigTree.fileName app specPtr
            ++ "' appears in application more than once."), app) := by
  by_cases ht : (tokenAt specPtr.Contents 0).type = .FILE_PERMISSIONS
  · obtain ⟨given, hgiven⟩ := hperm ht
    rw [AddConfigTree_run X app specPtr given (fun _ => hgiven) (fun h => absurd ht h), hkey]
    rfl
  · rw [AddConfigTree_run X app specPtr _ (fun h => absurd h ht) (fun _ => rfl), hkey]
    rfl

/-- A call of `AddConfigTree` that returns has made the tree of the specification a
key of the map of configuration trees, and has left the name of the app as it
was. -/
theorem AddConfigTree_ok (X : Collaborators) (app app1 : App_t) (specPtr : TokenList_t)
    (h : AddConfigTree X app specPtr = .ok app1) :
    app1.name = app.name
      ∧ ∃ permissions,
          app1.configTrees.find (AddConfigTree.fileName app specPtr) = some permissions := by
  have hfinish : ∀ permissions : Permissions_t,
      AddConfigTree X app specPtr
        = (if (app.configTrees.find (AddConfigTree.fileName app specPtr)).isSome then
            .error ((AddConfigTree.treeNameTokenPtr specPtr).ThrowException
              ("Configuration tree '" ++ AddConfigTree.fileName app specPtr
                ++ "' appears in application more than once."), app)
          else
            .ok { app with
                  configTrees := app.configTrees.assign (AddConfigTree.fileName app specPtr)
                    permissions }) →
      app1.name = app.name
        ∧ ∃ permissions,
            app1.configTrees.find (AddConfigTree.fileName app specPtr) = some permissions := by
    intro permissions hrun
    rw [hrun] at h
    split at h
    · cases h
    · cases h
      exact ⟨rfl, permissions, std.map.find_assign_self _ _ _⟩
  by_cases ht : (tokenAt specPtr.Contents 0).type = .FILE_PERMISSIONS
  · cases hg : X.GetPermissions (tokenAt specPtr.Contents 0) with
    | error e =>
      unfold AddConfigTree at h
      simp only [ht, if_true, hg] at h
      cases h
    | ok given =>
      exact hfinish given
        (AddConfigTree_run X app specPtr given (fun _ => hg) (fun hne => absurd ht hne))
  · exact hfinish _ (AddConfigTree_run X app specPtr _ (fun hp => absurd hp ht) (fun _ => rfl))

/-- Claim C37.  For a specification without a leading FILE_PERMISSIONS token,
`AddConfigTree` rejects the specification as a duplicate when its tree is already a
key of the map of configuration trees, and otherwise grants read-only permission
(readable, not writeable) under that key, which is the name of the app when the
tree-name token is a DOT.  Hence a `.` specification and one that names the app
explicitly are rejected as duplicates of each other in the same app: once either of
them has been granted, `AddConfigTree` throws 'Configuration tree ... appears in
application more than once' for the other one (when the extractor returns for its
permissions token, if it has one). -/
theorem AddConfigTree_read_only_and_dot (X : Collaborators) (app : App_t)
    (dotSpec nameSpec : TokenList_t)
    (hdot : (AddConfigTree.treeNameTokenPtr dotSpec).type = .DOT)
    (hname : (AddConfigTree.treeNameTokenPtr nameSpec).type ≠ .DOT
      ∧ (AddConfigTree.treeNameTokenPtr nameSpec).text = app.name)
    (hdotPerm : (tokenAt dotSpec.Contents 0).type = .FILE_PERMISSIONS →
      ∃ given, X.GetPermissions (tokenAt dotSpec.Contents 0) = .ok given)
    (hnamePerm : (tokenAt nameSpec.Contents 0).type = .FILE_PERMISSIONS →
      ∃ given, X.GetPermissions (tokenAt nameSpec.Contents 0) = .ok given) :
    (∀ specPtr : TokenList_t, (tokenAt specPtr.Contents 0).type ≠ .FILE_PERMISSIONS →
      AddConfigTree X app specPtr
        = if (app.configTrees.find
              (if (tokenAt specPtr.Contents 0).type = .DOT then app.name
                else (tokenAt specPtr.Contents 0).text)).isSome then
            .error ((tokenAt specPtr.Contents 0).ThrowException
              ("Configuration tree '"
                ++ (if (tokenAt specPtr.Contents 0).type = .DOT then app.name
                    else (tokenAt specPtr.Contents 0).text)
                ++ "' appears in application more than once."), app)
          else
            .ok { app with
                  configTrees := app.configTrees.assign
                    (if (tokenAt specPtr.Contents 0).type = .DOT then app.name
                      else (tokenAt specPtr.Contents 0).text)
                    { readable := true, writeable := false, executable := false } })
      ∧ AddConfigTree.fileName app dotSpec = app.name
      ∧ AddConfigTree.fileName app nameSpec = app.name
      ∧ (∀ app1, AddConfigTree X app dotSpec = .ok app1 →
          AddConfigTree X app1 nameSpec
            = .error ((AddConfigTree.treeNameTokenPtr nameSpec).ThrowException
                ("Configuration tree '" ++ app.name
                  ++ "' appears in application more than once."), app1))
      ∧ (∀ app1, AddConfigTree X app nameSpec = .ok app1 →
          AddConfigTree X app1 dotSpec
            = .error ((AddConfigTree.treeNameTokenPtr dotSpec).ThrowException
                ("Configuration tree '" ++ app.name
                  ++ "' appears in application more than once."), app1)) := by
  have hfdot : ∀ a : App_t, AddConfigTree.fileName a dotSpec = a.name := by
    intro a
    simp only [AddConfigTree.fileName, hdot, if_true]
  have hfname : ∀ a : App_t, AddConfigTree.fileName a nameSpec = app.name := by
    intro a
    simp only [AddConfigTree.fileName, hname.1, if_false, hname.2]
  refine ⟨fun specPtr hnone => ?_, hfdot app, hfname app, fun app1 h1 => ?_, fun app1 h1 => ?_⟩
  · have := AddConfigTree_run X app specPtr _ (fun h => absurd h hnone) (fun _ => rfl)
    simpa only [AddConfigTree.fileName, AddConfigTree.treeNameTokenPtr, hnone, if_false]
      using this
  · obtain ⟨hn, permissions, hfind⟩ := AddConfigTree_ok X app app1 dotSpec h1
    rw [hfdot app] at hfind
    have hkey : app1.configTrees.find (AddConfigTree.fileName app1 nameSpec)
        = some permissions := by
      rw [hfname app1]
      exact hfind
    have := AddConfigTree_rejected X app1 nameSpec permissions hnamePerm hkey
    rw [hfname app1] at this
    exact this
  · obtain ⟨hn, permissions, hfind⟩ := AddConfigTree_ok X app app1 nameSpec h1
    rw [hfname app] at hfind
    have hkey : app1.configTrees.find (AddConfigTree.fileName app1 dotSpec)
        = some permissions := by
      rw [hfdot app1, hn]
      exact hfind
    have := AddConfigTree_rejected X app1 dotSpec permissions hdotPerm hkey
    rw [hfdot app1, hn] at this
    exact this

theorem AddConfigTree_read_only_and_dot_witness :
    AddConfigTree fixture.collaborators fixture.app fixture.treeDot
        = .ok { fixture.app with
                configTrees :=
                  [("foo", { readable := true, writeable := false, executable := false })] }
      ∧ AddConfigTree.fileName fixture.app fixture.treeDot = "foo"
      ∧ AddConfigTree fixture.collaborators
          { fixture.app with
            configTrees :=
              [("foo", { readable := true, writeable := false, executable := false })] }
          fixture.treeFoo
        = .error ((fixture.name "foo" 31).ThrowException
            ("Configuration tree '" ++ "foo" ++ "' appears in application more than once."),
            { fixture.app with
              configTrees :=
                [("foo", { readable := true, writeable := false, executable := false })] })
      ∧ (∀ app1, AddConfigTree fixture.collaborators fixture.app fixture.treeFoo = .ok app1 →
          AddConfigTree fixture.collaborators app1 fixture.treeDot
            = .error ((fixture.tok .DOT "." 30).ThrowException
                ("Configuration tree '" ++ "foo" ++ "' appears in application more than once."),
                app1)) :=
  have h := AddConfigTree_read_only_and_dot fixture.collaborators fixture.app fixture.treeDot
    fixture.treeFoo rfl ⟨by decide, rfl⟩ (fun h => absurd h (by decide))
    (fun h => absurd h (by decide))
  ⟨(h.1 fixture.treeDot (by decide)).trans rfl, h.2.1, h.2.2.2.1 _ rfl, h.2.2.2.2⟩

end modeller

/-! ## The CURDIR variable after a call of `GetApp` that throws -/

namespace modeller

open parseTree model

/-- A loop that throws has thrown in the turn for a member of the list. -/
theorem foldlM_error {σ β ε : Type} (f : σ → β → Except ε σ) (l : List β) (a : σ) (err : ε)
    (h : l.foldlM f a = .error err) : ∃ a1 x, x ∈ l ∧ f a1 x = .error err := by
  induction l generalizing a with
  | nil =>
    simp only [List.foldlM_nil, pure, Except.pure] at h
    cases h
  | cons x rest ih =>
    rw [List.foldlM_cons] at h
    cases hx : f a x with
    | error e =>
      rw [hx] at h
      cases h
      exact ⟨a, x, List.mem_cons_self _ _, hx⟩
    | ok a2 =>
      rw [hx] at h
      obtain ⟨a1, y, hy, hf⟩ := ih a2 h
      exact ⟨a1, y, List.mem_cons_of_mem _ hy, hf⟩

/-- A loop over states with a property that every returning turn keeps, when it
throws, has thrown in a turn from a state with the property. -/
theorem foldlM_error_invariant {σ β ε : Type} (P : σ → Prop) (f : σ → β → Except ε σ)
    (hstep : ∀ a x a1, P a → f a x = .ok a1 → P a1) (l : List β) (a : σ) (err : ε)
    (ha : P a) (h : l.foldlM f a = .error err) :
    ∃ a1 x, P a1 ∧ x ∈ l ∧ f a1 x = .error err := by
  induction l generalizing a with
  | nil =>
    simp only [List.foldlM_nil, pure, Except.pure] at h
    cases h
  | cons x rest ih =>
    rw [List.foldlM_cons] at h
    cases hx : f a x with
    | error e =>
      rw [hx] at h
      cases h
      exact ⟨a, x, ha, List.mem_cons_self _ _, hx⟩
    | ok a2 =>
      rw [hx] at h
      obtain ⟨a1, y, hp, hy, hf⟩ := ih a2 (hstep a x a2 ha hx) h
      exact ⟨a1, y, hp, List.mem_cons_of_mem _ hy, hf⟩

/-- An exception of a "components" section is an exception of the component
modeller, and the process environment variables at the throw are those that the
component modeller has left. -/
theorem AddComponents_error_env (X : Collaborators) (env : std.map String) (app : App_t)
    (sectionPtr : TokenList_t) (buildParams : mk.BuildParams_t) (e : mk.Exception_t)
    (app1 : App_t) (env1 : std.map String)
    (h : AddComponents X env app sectionPtr buildParams = .error (e, app1, env1)) :
    ∃ tokenPtr dirs, X.GetComponent env tokenPtr buildParams dirs = .error (e, env1) := by
  unfold AddComponents at h
  obtain ⟨a, x, _, hx⟩ := foldlM_error _ _ _ _ h
  cases hc : X.GetComponent env x buildParams [a.dir] with
  | error err =>
    simp only [hc, liftNested, bind, Except.bind] at hx
    cases hx
    exact ⟨x, _, hc⟩
  | ok c =>
    simp only [hc, liftNested, bind, Except.bind, pure, Except.pure] at hx
    cases c <;> cases hx

/-- An exception of an "executables" section leaves the process environment
variables as they were, unless it is an exception of the component modeller: then
they are as the component modeller has left them. -/
theorem AddExecutables_error_env (X : Collaborators) (env : std.map String) (app : App_t)
    (sectionPtr : CompoundItem_t) (buildParams : mk.BuildParams_t) (e : mk.Exception_t)
    (app1 : App_t) (env1 : std.map String)
    (h : AddExecutables X env app sectionPtr buildParams = .error (e, app1, env1)) :
    env1 = env
      ∨ ∃ tokenPtr dirs, X.GetComponent env tokenPtr buildParams dirs = .error (e, env1) := by
  unfold AddExecutables at h
  cases hcast : ToCompoundItemListPtr sectionPtr with
  | error err =>
    simp only [hcast, liftExcept, withEnv, bind, Except.bind] at h
    cases h
    exact Or.inl rfl
  | ok items =>
    simp only [hcast, liftExcept, withEnv, bind, Except.bind] at h
    obtain ⟨a, item, _, hitem⟩ := foldlM_error _ _ _ _ h
    cases hlist : ToTokenListPtr item with
    | error err =>
      simp only [hlist, liftExcept, withEnv, bind, Except.bind] at hitem
      cases hitem
      exact Or.inl rfl
    | ok itemPtr =>
      simp only [hlist, liftExcept, withEnv, bind, Except.bind] at hitem
      unfold AddExecutables.addExe at hitem
      simp only [bind, Except.bind] at hitem
      split at hitem
      · rename_i err hfold
        cases hitem
        obtain ⟨st, tokenPtr, _, htok⟩ := foldlM_error _ _ _ _ hfold
        unfold AddExecutables.addExe.component at htok
        cases hc : X.GetComponent env tokenPtr buildParams [st.1.dir] with
        | error err1 =>
          simp only [hc, liftNested, bind, Except.bind] at htok
          cases htok
          exact Or.inr ⟨tokenPtr, [st.1.dir], hc⟩
        | ok c =>
          simp only [hc, liftNested, bind, Except.bind, pure, Except.pure] at htok
          cases c <;> cases htok
      · exact Or.inl (withEnv_eq_error _ _ _ _ _ hitem).2

/-- The handling of one section that throws leaves the process environment variables
as they were, unless the exception is one of the component modeller: then they are
as the component modeller has left them. -/
theorem GetApp_section_error_env (X : Collaborators) (buildParams : mk.BuildParams_t)
    (env : std.map String) (locals locals1 : GetApp.Locals) (sectionPtr : CompoundItem_t)
    (e : mk.Exception_t) (hlocals : locals.env = env)
    (h : GetApp.section X buildParams env locals sectionPtr = .error (e, locals1)) :
    locals1.env = env
      ∨ ∃ tokenPtr dirs,
          X.GetComponent env tokenPtr buildParams dirs = .error (e, locals1.env) := by
  have honApp : ∀ (r : Except (mk.Exception_t × App_t) App_t) (l1 : GetApp.Locals),
      GetApp.onApp locals r = .error (e, l1) → l1.env = locals.env := by
    intro r l1 hr
    cases r with
    | ok app => cases hr
    | error err => cases hr; rfl
  have honInterfaces : ∀ (r : Except (mk.Exception_t × App_t × List (Option TokenList_t))
      (App_t × List (Option TokenList_t))) (l1 : GetApp.Locals),
      GetApp.onAppAndInterfaces locals r = .error (e, l1) → l1.env = locals.env := by
    intro r l1 hr
    cases r with
    | ok app => cases hr
    | error err => cases hr; rfl
  have hassign : ∀ (α : Type) (get : TokenList_t → Except mk.Exception_t α)
      (set : App_t → α → App_t) (l1 : GetApp.Locals),
      GetApp.assign locals sectionPtr get set = .error (e, l1) → l1.env = locals.env := by
    intro α get set l1 hr
    unfold GetApp.assign at hr
    split at hr
    · cases hr; rfl
    · split at hr
      · cases hr; rfl
      · cases hr
  have honEnv : ∀ (r : Except (mk.Exception_t × App_t × std.map String) App_t)
      (l1 : GetApp.Locals),
      (∀ app1 env1, r = .error (e, app1, env1) →
        env1 = env
          ∨ ∃ tokenPtr dirs, X.GetComponent env tokenPtr buildParams dirs = .error (e, env1)) →
      GetApp.onAppAndEnv locals r = .error (e, l1) →
      l1.env = env
        ∨ ∃ tokenPtr dirs,
            X.GetComponent env tokenPtr buildParams dirs = .error (e, l1.env) := by
    intro r l1 hr hl
    cases r with
    | ok app => cases hl
    | error err =>
      obtain ⟨e1, app1, env1⟩ := err
      cases hl
      exact hr app1 env1 rfl
  unfold GetApp.section at h
  dsimp only at h
  by_cases hn : sectionPtr.firstTokenPtr.text = "bindings"
  · rw [if_pos hn] at h
    cases h
  rw [if_neg hn] at h
  clear hn
  by_cases hn : sectionPtr.firstTokenPtr.text = "bundles"
  · rw [if_pos hn] at h
    exact Or.inl ((honApp _ _ h).trans hlocals)
  rw [if_neg hn] at h
  clear hn
  by_cases hn : sectionPtr.firstTokenPtr.text = "components"
  · rw [if_pos hn] at h
    split at h
    · cases h; exact Or.inl hlocals
    · exact honEnv _ _
        (fun app1 env1 hr => Or.inr (AddComponents_error_env _ _ _ _ _ _ _ _ hr)) h
  rw [if_neg hn] at h
  clear hn
  by_cases hn : sectionPtr.firstTokenPtr.text = "cpuShare"
  · rw [if_pos hn] at h
    exact Or.inl ((hassign _ _ _ _ h).trans hlocals)
  rw [if_neg hn] at h
  clear hn
  by_cases hn : sectionPtr.firstTokenPtr.text = "executables"
  · rw [if_pos hn] at h
    exact honEnv _ _ (fun app1 env1 hr => AddExecutables_error_env _ _ _ _ _ _ _ _ hr) h
  rw [if_neg hn] at h
  clear hn
  by_cases hn : sectionPtr.firstTokenPtr.text = "extern"
  · rw [if_pos hn] at h
    split at h
    · cases h; exact Or.inl hlocals
    · cases h
  rw [if_neg hn] at h
  clear hn
  by_cases hn : sectionPtr.firstTokenPtr.text = "groups"
  · rw [if_pos hn] at h
    split at h
    · cases h; exact Or.inl hlocals
    · exact Or.inl ((honApp _ _ h).trans hlocals)
  rw [if_neg hn] at h
  clear hn
  by_cases hn : sectionPtr.firstTokenPtr.text = "maxFileSystemBytes"
  · rw [if_pos hn] at h
    exact Or.inl ((hassign _ _ _ _ h).trans hlocals)
  rw [if_neg hn] at h
  clear hn
  by_cases hn : sectionPtr.firstTokenPtr.text = "maxMemoryBytes"
  · rw [if_pos hn] at h
    exact Or.inl ((hassign _ _ _ _ h).trans hlocals)
  rw [if_neg hn] at h
  clear hn
  by_cases hn : sectionPtr.firstTokenPtr.text = "maxMQueueBytes"
  · rw [if_pos hn] at h
    exact Or.inl ((hassign _ _ _ _ h).trans hlocals)
  rw [if_neg hn] at h
  clear hn
  by_cases hn : sectionPtr.firstTokenPtr.text = "maxQueuedSignals"
  · rw [if_pos hn] at h
    exact Or.inl ((hassign _ _ _ _ h).trans hlocals)
  rw [if_neg hn] at h
  clear hn
  by_cases hn : sectionPtr.firstTokenPtr.text = "maxThreads"
  · rw [if_pos hn] at h
    exact Or.inl ((hassign _ _ _ _ h).trans hlocals)
  rw [if_neg hn] at h
  clear hn
  by_cases hn : sectionPtr.firstTokenPtr.text = "maxSecureStorageBytes"
  · rw [if_pos hn] at h
    exact Or.inl ((hassign _ _ _ _ h).trans hlocals)
  rw [if_neg hn] at h
  clear hn
  by_cases hn : sectionPtr.firstTokenPtr.text = "processes"
  · rw [if_pos hn] at h
    cases h
  rw [if_neg hn] at h
  clear hn
  by_cases hn : sectionPtr.firstTokenPtr.text = "provides"
  · rw [if_pos hn] at h
    exact Or.inl ((honInterfaces _ _ h).trans hlocals)
  rw [if_neg hn] at h
  clear hn
  by_cases hn : sectionPtr.firstTokenPtr.text = "requires"
  · rw [if_pos hn] at h
    exact Or.inl ((honInterfaces _ _ h).trans hlocals)
  rw [if_neg hn] at h
  clear hn
  by_cases hn : sectionPtr.firstTokenPtr.text = "sandboxed"
  · rw [if_pos hn] at h
    exact Or.inl ((hassign _ _ _ _ h).trans hlocals)
  rw [if_neg hn] at h
  clear hn
  by_cases hn : sectionPtr.firstTokenPtr.text = "start"
  · rw [if_pos hn] at h
    split at h
    · cases h; exact Or.inl hlocals
    · exact Or.inl ((honApp _ _ h).trans hlocals)
  rw [if_neg hn] at h
  clear hn
  by_cases hn : sectionPtr.firstTokenPtr.text = "version"
  · rw [if_pos hn] at h
    split at h
    · cases h; exact Or.inl hlocals
    · split at h
      · split at h
        · cases h; exact Or.inl hlocals
        · cases h
      · cases h
  rw [if_neg hn] at h
  clear hn
  by_cases hn : sectionPtr.firstTokenPtr.text = "watchdogAction"
  · rw [if_pos hn] at h
    split at h
    · cases h; exact Or.inl hlocals
    · exact Or.inl ((honApp _ _ h).trans hlocals)
  rw [if_neg hn] at h
  clear hn
  by_cases hn : sectionPtr.firstTokenPtr.text = "watchdogTimeout"
  · rw [if_pos hn] at h
    split at h
    · cases h; exact Or.inl hlocals
    · exact Or.inl ((honApp _ _ h).trans hlocals)
  rw [if_neg hn] at h
  clear hn
  cases h
  exact Or.inl hlocals

/-- The pass over the sections that throws leaves the process environment variables
as they were, unless the exception is one of the component modeller: then they are
as the component modeller has left them. -/
theorem GetApp_mainPass_error_env (X : Collaborators) (buildParams : mk.BuildParams_t)
    (env : std.map String) (adefFilePtr : AdefFile_t) (locals : GetApp.Locals)
    (e : mk.Exception_t)
    (h : GetApp.mainPass X buildParams env adefFilePtr = .error (e, locals)) :
    locals.env = env
      ∨ ∃ tokenPtr dirs,
          X.GetComponent env tokenPtr buildParams dirs = .error (e, locals.env) := by
  unfold GetApp.mainPass at h
  obtain ⟨a, x, ha, _, hx⟩ := foldlM_error_invariant (fun l : GetApp.Locals => l.env = env)
    (GetApp.section X buildParams env)
    (fun a x a1 hp hx => (GetApp_section_env X buildParams env a a1 x hx).trans hp)
    _ _ _ rfl h
  exact GetApp_section_error_env X buildParams env a locals x e ha hx

/-- The process environment variables after a call of `GetApp` that throws: those of
before the call with CURDIR set to the directory that contains the definition file,
unless the exception is one of the component modeller: then they are as the
component modeller has left them.  No statement on the way to a throw sets CURDIR
again. -/
theorem GetApp_error_env (X : Collaborators) (adefPath : String)
    (buildParams : mk.BuildParams_t) (env : std.map String) (stderr : List String)
    (e : mk.Exception_t)
    (h : (GetApp X adefPath buildParams env stderr).1 = .error e) :
    (GetApp X adefPath buildParams env stderr).2.1
        = envVars.Set env "CURDIR" (X.GetContainingDir adefPath)
      ∨ ∃ tokenPtr dirs,
          X.GetComponent (envVars.Set env "CURDIR" (X.GetContainingDir adefPath)) tokenPtr
              buildParams dirs
            = .error (e, (GetApp X adefPath buildParams env stderr).2.1) := by
  unfold GetApp at h ⊢
  dsimp only at h ⊢
  cases hp : X.Parse adefPath buildParams.beVerbose with
  | error e1 => exact Or.inl rfl
  | ok adefFilePtr =>
    rw [hp] at h
    dsimp only at h ⊢
    cases hm : GetApp.mainPass X buildParams
        (envVars.Set env "CURDIR" (X.GetContainingDir adefPath)) adefFilePtr with
    | error err =>
      obtain ⟨e1, locals⟩ := err
      rw [hm] at h
      cases h
      exact GetApp_mainPass_error_env X buildParams _ adefFilePtr locals _ hm
    | ok locals =>
      rw [hm] at h
      dsimp only at h ⊢
      rw [GetApp_mainPass_env X buildParams _ adefFilePtr locals hm] at h ⊢
      cases hf : GetApp.finish X (envVars.Set env "CURDIR" (X.GetContainingDir adefPath))
          locals with
      | error err => exact Or.inl rfl
      | ok app0 => rw [hf] at h; cases h

/-- A throw of the component modeller from a nested build reaches the caller of
`GetApp` with CURDIR as the nested build has left it: neither the value of before the
call nor the directory that contains the definition file. -/
theorem GetApp_nested_throw_CURDIR :
    (GetApp fixture.collaboratorsNested "/apps/foo.adef" fixture.buildParams
        [("HOME", "/root"), ("CURDIR", "/work")] []).1
      = .error { location := "/components/compA/Component.cdef:1",
                 message := "Unexpected token." }
    ∧ (GetApp fixture.collaboratorsNested "/apps/foo.adef" fixture.buildParams
        [("HOME", "/root"), ("CURDIR", "/work")] []).2.1
      = [("HOME", "/root"), ("CURDIR", "/components/compA")] :=
  ⟨rfl, rfl⟩

/-- The counterexample to C31 as stated.  With CURDIR set to `/work`, `GetApp` is
called for the definition file `odd/foo.adef`, whose second section has the name
`frobnicate`: the call sets CURDIR to `/apps`, parses the file, and throws from that
section; after the call CURDIR is `/apps`, not `/work`. -/
theorem GetApp_fatal_keeps_new_CURDIR :
    envVars.Get [("HOME", "/root"), ("CURDIR", "/work")] "CURDIR" = "/work"
    ∧ (GetApp fixture.collaborators "/apps/odd/foo.adef" fixture.buildParams
          [("HOME", "/root"), ("CURDIR", "/work")] []).1
        = .error { location := "app.adef:5",
                   message := "Internal error: Unrecognized section 'frobnicate'." }
    ∧ envVars.Get
          (GetApp fixture.collaborators "/apps/odd/foo.adef" fixture.buildParams
            [("HOME", "/root"), ("CURDIR", "/work")] []).2.1 "CURDIR"
        = "/apps"
    ∧ (GetApp fixture.collaborators "/apps/odd/foo.adef" fixture.buildParams
          [("HOME", "/root"), ("CURDIR", "/work")] []).2.1
        = [("HOME", "/root"), ("CURDIR", "/apps")] :=
  ⟨rfl, rfl, rfl, rfl⟩

/-- Claim C31, amended.  When `GetApp` aborts with a fatal error (every one of them
is raised after it has set CURDIR) that is not an error that the component modeller,
whose nested builds set CURDIR themselves, throws when `GetApp` calls it, the CURDIR
variable is not restored: it has the value it had before the call if and only if
that value is the directory that contains the definition file, which is what
`GetApp` has set it to. -/
theorem GetApp_fatal_leaves_CURDIR (X : Collaborators) (adefPath : String)
    (buildParams : mk.BuildParams_t) (env : std.map String) (stderr : List String)
    (e : mk.Exception_t)
    (h : (GetApp X adefPath buildParams env stderr).1 = .error e)
    (hnested : ∀ tokenPtr dirs env1,
      X.GetComponent (envVars.Set env "CURDIR" (X.GetContainingDir adefPath)) tokenPtr
          buildParams dirs
        ≠ .error (e, env1)) :
    envVars.Get (GetApp X adefPath buildParams env stderr).2.1 "CURDIR" = envVars.Get env "CURDIR"
      ↔ envVars.Get env "CURDIR" = X.GetContainingDir adefPath := by
  have henv : (GetApp X adefPath buildParams env stderr).2.1
      = envVars.Set env "CURDIR" (X.GetContainingDir adefPath) := by
    rcases GetApp_error_env X adefPath buildParams env stderr e h with henv | ⟨tok, dirs, hc⟩
    · exact henv
    · exact absurd hc (hnested _ _ _)
  have hget : envVars.Get (GetApp X adefPath buildParams env stderr).2.1 "CURDIR"
      = X.GetContainingDir adefPath := by
    rw [henv]
    simp [envVars.Get, envVars.Set, std.map.find_assign_self]
  rw [hget]
  exact eq_comm

theorem GetApp_fatal_leaves_CURDIR_witness :
    envVars.Get
        (GetApp fixture.collaborators "/apps/odd/foo.adef" fixture.buildParams
          [("HOME", "/root"), ("CURDIR", "/work")] []).2.1 "CURDIR"
      ≠ "/work" :=
  fun hrestored =>
    absurd
      ((GetApp_fatal_leaves_CURDIR fixture.collaborators "/apps/odd/foo.adef"
          fixture.buildParams [("HOME", "/root"), ("CURDIR", "/work")] []
          { location := "app.adef:5",
            message := "Internal error: Unrecognized section 'frobnicate'." } rfl
          (fun _ _ _ hthrown => Except.noConfusion hthrown)).mp hrestored)
      (by decide)

end modeller

/-! ## The books of extern resolution -/

namespace std.map

variable {α : Type}

/-- In a map that holds each key once, the entries are what the lookups find. -/
theorem mem_iff_find_of_nodup (m : map α) (h : m.keys.Nodup) (k : String) (v : α) :
    (k, v) ∈ m ↔ m.find k = some v := by
  induction m with
  | nil => simp [find]
  | cons kv rest ih =>
    obtain ⟨k0, v0⟩ := kv
    have hn : k0 ∉ keys rest ∧ (keys rest).Nodup := by
      simpa [keys] using h
    by_cases hk : k = k0
    · subst hk
      rw [find_cons_self]
      constructor
      · intro hmem
        rcases List.mem_cons.mp hmem with heq | hmem
        · cases heq
          rfl
        · exact absurd (List.mem_map_of_mem Prod.fst hmem) hn.1
      · intro hv
        cases hv
        exact List.mem_cons_self _ _
    · rw [find_cons_of_ne _ _ _ _ hk, ← ih hn.2]
      constructor
      · intro hmem
        rcases List.mem_cons.mp hmem with heq | hmem
        · cases heq
          exact absurd rfl hk
        · exact hmem
      · exact List.mem_cons_of_mem _

/-- The keys after an assignment to a key that the map does not have. -/
theorem keys_assign_of_find_none (m : map α) (k : String) (v : α) (h : m.find k = none) :
    (m.assign k v).keys = m.keys ++ [k] := by
  rw [assign_of_find_none m k v h]
  simp [keys]

/-- A key is not among the keys of a map in which the lookup finds nothing for it. -/
theorem not_mem_keys_of_find_none (m : map α) (k : String) (h : (m.find k).isSome = false) :
    k ∉ m.keys := by
  rw [← find_isSome_iff_mem_keys, h]
  simp

end std.map

namespace modeller

open parseTree model

/-- A loop that stops at the first exception keeps what each of its turns keeps. -/
theorem foldlM_invariant {σ β ε : Type} (P : σ → Prop) (f : σ → β → Except ε σ)
    (hstep : ∀ a x a1, P a → f a x = .ok a1 → P a1) (l : List β) (a a1 : σ)
    (ha : P a) (h : l.foldlM f a = .ok a1) : P a1 := by
  induction l generalizing a with
  | nil =>
    simp only [List.foldlM_nil, pure, Except.pure] at h
    cases h
    exact ha
  | cons x rest ih =>
    rw [List.foldlM_cons] at h
    cases hx : f a x with
    | error e =>
      rw [hx] at h
      cases h
    | ok a2 =>
      rw [hx] at h
      exact ih a2 (hstep a x a2 ha hx) h

/-- A loop that stops at the first exception adds up what its turns add to a
measure of the state. -/
theorem foldlM_measure {σ β ε : Type} (m : σ → Nat) (g : β → Nat) (f : σ → β → Except ε σ)
    (hstep : ∀ a x a1, f a x = .ok a1 → m a1 = m a + g x) (l : List β) (a a1 : σ)
    (h : l.foldlM f a = .ok a1) : m a1 = m a + (l.map g).sum := by
  induction l generalizing a with
  | nil =>
    simp only [List.foldlM_nil, pure, Except.pure] at h
    cases h
    simp
  | cons x rest ih =>
    rw [List.foldlM_cons] at h
    cases hx : f a x with
    | error e =>
      rw [hx] at h
      cases h
    | ok a2 =>
      rw [hx] at h
      rw [ih a2 h, hstep a x a2 hx]
      simp [Nat.add_assoc]

theorem registeredExternal_setIfInstance (app : App_t) (ptr : ApiInterfaceInstancePtr)
    (v : ApiInterfaceInstance_t) (key : String) (q : ApiInterfaceInstancePtr) :
    registeredExternal (app.setIfInstance ptr v) key q ↔ registeredExternal app key q := by
  cases ptr <;> cases q <;> exact Iff.rfl

/-- The entries of the two maps of external interfaces after an instance has been
recorded under a name that was not a key of either map: the new entry, and the
entries of before. -/
theorem registeredExternal_recordExternal (app : App_t) (n : String)
    (ptr : ApiInterfaceInstancePtr)
    (hc : (app.externClientInterfaces.find n).isSome = false)
    (hs : (app.externServerInterfaces.find n).isSome = false)
    (key : String) (q : ApiInterfaceInstancePtr) :
    registeredExternal (recordExternal app n ptr) key q
      ↔ (key = n ∧ q = ptr) ∨ (key ≠ n ∧ registeredExternal app key q) := by
  have hc' : app.externClientInterfaces.find n = none := by
    cases hf : app.externClientInterfaces.find n with
    | none => rfl
    | some v => rw [hf] at hc; cases hc
  have hs' : app.externServerInterfaces.find n = none := by
    cases hf : app.externServerInterfaces.find n with
    | none => rfl
    | some v => rw [hf] at hs; cases hs
  by_cases hk : key = n
  · subst hk
    cases ptr <;> cases q <;>
      simp [registeredExternal, recordExternal, std.map.find_assign_self, hc', hs', eq_comm]
  · cases ptr <;> cases q <;>
      simp [registeredExternal, recordExternal, std.map.find_assign_of_ne _ _ _ _ hk, hk]

end modeller

namespace modeller

open parseTree model

/-- The books of extern resolution are consistent in a state of the app: every entry
of the two maps of external interfaces holds an instance that has the key for its
name and a mark whose token has the key for its text, and every marked instance is
held under its name in the map of its side. -/
theorem MakeInterfacesExternal_item_books (app app1 : App_t) (ifPtr : Option TokenList_t)
    (hbooks : (∀ key q, registeredExternal app key q →
        (app.ifInstance q).name = key
          ∧ ∃ mark, (app.ifInstance q).externMarkPtr = some mark ∧ mark.text = key)
      ∧ (∀ q mark, (app.ifInstance q).externMarkPtr = some mark →
          registeredExternal app (app.ifInstance q).name q))
    (h : MakeInterfacesExternal.item app ifPtr = .ok app1) :
    (∀ key q, registeredExternal app1 key q →
        (app1.ifInstance q).name = key
          ∧ ∃ mark, (app1.ifInstance q).externMarkPtr = some mark ∧ mark.text = key)
      ∧ (∀ q mark, (app1.ifInstance q).externMarkPtr = some mark →
          registeredExternal app1 (app1.ifInstance q).name q) := by
  obtain ⟨hentries, hmarked⟩ := hbooks
  obtain ⟨n, ptr, hc, hs, hm, rfl⟩ := MakeInterfacesExternal_item_ok app app1 ifPtr h
  have hc1 : ((app.setIfInstance ptr
      { name := n.text, externMarkPtr := some n }).externClientInterfaces.find n.text).isSome
      = false := by
    rw [externClientInterfaces_setIfInstance]
    exact hc
  have hs1 : ((app.setIfInstance ptr
      { name := n.text, externMarkPtr := some n }).externServerInterfaces.find n.text).isSome
      = false := by
    rw [externServerInterfaces_setIfInstance]
    exact hs
  constructor
  · intro key q hq
    rw [registeredExternal_recordExternal _ _ _ hc1 hs1, registeredExternal_setIfInstance] at hq
    rw [ifInstance_recordExternal]
    rcases hq with ⟨rfl, rfl⟩ | ⟨_, hq⟩
    · rw [ifInstance_setIfInstance_self]
      exact ⟨rfl, n, rfl, rfl⟩
    · have hold := hentries key q hq
      have hne : q ≠ ptr := by
        rintro rfl
        obtain ⟨_, mark, hmark, _⟩ := hold
        rw [hm] at hmark
        cases hmark
      rw [ifInstance_setIfInstance_of_ne _ _ _ _ hne]
      exact hold
  · intro q mark hq
    rw [ifInstance_recordExternal] at hq ⊢
    rw [registeredExternal_recordExternal _ _ _ hc1 hs1, registeredExternal_setIfInstance]
    by_cases hne : q = ptr
    · subst hne
      rw [ifInstance_setIfInstance_self]
      exact Or.inl ⟨rfl, rfl⟩
    · rw [ifInstance_setIfInstance_of_ne _ _ _ _ hne] at hq ⊢
      have hreg := hmarked q mark hq
      refine Or.inr ⟨?_, hreg⟩
      intro hkey
      rw [hkey] at hreg
      cases q with
      | client c =>
        have : app.externClientInterfaces.find n.text = some c := hreg
        rw [this] at hc
        cases hc
      | server s =>
        have : app.externServerInterfaces.find n.text = some s := hreg
        rw [this] at hs
        cases hs

/-- A turn of the loop of `MakeInterfacesExternal` that returns adds one entry to
one of the two maps of external interfaces, under a key that neither map had. -/
theorem MakeInterfacesExternal_item_entries (app app1 : App_t) (ifPtr : Option TokenList_t)
    (h : MakeInterfacesExternal.item app ifPtr = .ok app1) :
    app1.externClientInterfaces.length + app1.externServerInterfaces.length
        = app.externClientInterfaces.length + app.externServerInterfaces.length + 1
      ∧ (app.externClientInterfaces.keys.Nodup → app1.externClientInterfaces.keys.Nodup)
      ∧ (app.externServerInterfaces.keys.Nodup → app1.externServerInterfaces.keys.Nodup) := by
  obtain ⟨n, ptr, hc, hs, _, rfl⟩ := MakeInterfacesExternal_item_ok app app1 ifPtr h
  have hc' : app.externClientInterfaces.find n.text = none := by
    cases hf : app.externClientInterfaces.find n.text with
    | none => rfl
    | some v => rw [hf] at hc; cases hc
  have hs' : app.externServerInterfaces.find n.text = none := by
    cases hf : app.externServerInterfaces.find n.text with
    | none => rfl
    | some v => rw [hf] at hs; cases hs
  cases ptr with
  | client c =>
    simp only [recordExternal, App_t.setIfInstance]
    refine ⟨?_, fun hnodup => ?_, fun hnodup => hnodup⟩
    · rw [std.map.assign_of_find_none _ _ _ hc', List.length_append, List.length_singleton]
      omega
    · rw [std.map.keys_assign_of_find_none _ _ _ hc']
      exact List.Nodup.append hnodup (List.nodup_singleton _)
        (by simpa using std.map.not_mem_keys_of_find_none _ _ hc)
  | server s =>
    simp only [recordExternal, App_t.setIfInstance]
    refine ⟨?_, fun hnodup => hnodup, fun hnodup => ?_⟩
    · rw [std.map.assign_of_find_none _ _ _ hs', List.length_append, List.length_singleton]
      omega
    · rw [std.map.keys_assign_of_find_none _ _ _ hs']
      exact List.Nodup.append hnodup (List.nodup_singleton _)
        (by simpa using std.map.not_mem_keys_of_find_none _ _ hs)

/-- Claim C35.  Extern bookkeeping stays consistent.  Starting from an app in which
no interface instance has an extern mark and both extern maps are empty, after
`MakeInterfacesExternal` has returned for a queue: every entry `key -> inst` of the
extern-client map and of the extern-server map holds an instance whose name is
`key` and whose extern mark is a token of text `key`; every interface instance with
an extern mark is in the map of its side (a client-side instance in the extern-client
map, a server-side one in the extern-server map) under exactly one key; each map
holds each of its keys once, so that its entries are what the lookups find, and no
key is in both maps; and the two maps together have as many entries as the queue has
candidates. -/
theorem MakeInterfacesExternal_bookkeeping (app app1 : App_t)
    (interfaces : List (Option TokenList_t))
    (hmarks : ∀ q, (app.ifInstance q).externMarkPtr = none)
    (hclient : app.externClientInterfaces = [])
    (hserver : app.externServerInterfaces = [])
    (h : MakeInterfacesExternal app interfaces = .ok app1) :
    (∀ key q, registeredExternal app1 key q →
        (app1.ifInstance q).name = key
          ∧ ∃ mark, (app1.ifInstance q).externMarkPtr = some mark ∧ mark.text = key)
      ∧ (∀ q mark, (app1.ifInstance q).externMarkPtr = some mark →
          ∃! key, registeredExternal app1 key q)
      ∧ (∀ key c, (key, c) ∈ app1.externClientInterfaces
          ↔ registeredExternal app1 key (.client c))
      ∧ (∀ key s, (key, s) ∈ app1.externServerInterfaces
          ↔ registeredExternal app1 key (.server s))
      ∧ List.Disjoint app1.externClientInterfaces.keys app1.externServerInterfaces.keys
      ∧ app1.externClientInterfaces.length + app1.externServerInterfaces.length
          = interfaces.length := by
  have hstart : (∀ key q, registeredExternal app key q →
        (app.ifInstance q).name = key
          ∧ ∃ mark, (app.ifInstance q).externMarkPtr = some mark ∧ mark.text = key)
      ∧ (∀ q mark, (app.ifInstance q).externMarkPtr = some mark →
          registeredExternal app (app.ifInstance q).name q) := by
    constructor
    · intro key q hq
      cases q with
      | client c =>
        have hfind : app.externClientInterfaces.find key = some c := hq
        rw [hclient] at hfind
        cases hfind
      | server s =>
        have hfind : app.externServerInterfaces.find key = some s := hq
        rw [hserver] at hfind
        cases hfind
    · intro q mark hq
      rw [hmarks q] at hq
      cases hq
  have hbooks := foldlM_invariant
    (fun a : App_t =>
      (∀ key q, registeredExternal a key q →
        (a.ifInstance q).name = key
          ∧ ∃ mark, (a.ifInstance q).externMarkPtr = some mark ∧ mark.text = key)
      ∧ (∀ q mark, (a.ifInstance q).externMarkPtr = some mark →
          registeredExternal a (a.ifInstance q).name q))
    MakeInterfacesExternal.item
    (fun a x a1 ha hx => MakeInterfacesExternal_item_books a a1 x ha hx) interfaces app app1
    hstart h
  have hnodup := foldlM_invariant
    (fun a : App_t => a.externClientInterfaces.keys.Nodup ∧ a.externServerInterfaces.keys.Nodup)
    MakeInterfacesExternal.item
    (fun a x a1 ha hx =>
      ⟨(MakeInterfacesExternal_item_entries a a1 x hx).2.1 ha.1,
        (MakeInterfacesExternal_item_entries a a1 x hx).2.2 ha.2⟩) interfaces app app1
    ⟨by rw [hclient]; exact List.nodup_nil, by rw [hserver]; exact List.nodup_nil⟩ h
  have hcount := foldlM_measure
    (fun a : App_t => a.externClientInterfaces.length + a.externServerInterfaces.length)
    (fun _ => 1) MakeInterfacesExternal.item
    (fun a x a1 hx => (MakeInterfacesExternal_item_entries a a1 x hx).1) interfaces app app1 h
  refine ⟨hbooks.1, ?_, ?_, ?_, ?_, ?_⟩
  · intro q mark hq
    refine ⟨(app1.ifInstance q).name, hbooks.2 q mark hq, ?_⟩
    intro key hkey
    exact ((hbooks.1 key q hkey).1).symm
  · intro key c
    exact std.map.mem_iff_find_of_nodup _ hnodup.1 key c
  · intro key s
    exact std.map.mem_iff_find_of_nodup _ hnodup.2 key s
  · exact MakeInterfacesExternal_disjoint interfaces app app1 h (by rw [hclient]; simp [std.map.keys])
  · simpa [hclient, hserver] using hcount

theorem MakeInterfacesExternal_bookkeeping_witness :
    ∃ app1, MakeInterfacesExternal fixture.app [some fixture.externPubY] = .ok app1
      ∧ (∀ key q, registeredExternal app1 key q →
          (app1.ifInstance q).name = key
            ∧ ∃ mark, (app1.ifInstance q).externMarkPtr = some mark ∧ mark.text = key)
      ∧ (∀ q mark, (app1.ifInstance q).externMarkPtr = some mark →
          ∃! key, registeredExternal app1 key q)
      ∧ app1.externClientInterfaces.length + app1.externServerInterfaces.length = 1 :=
  ⟨_, rfl,
    (MakeInterfacesExternal_bookkeeping fixture.app _ [some fixture.externPubY]
      (fun q => by cases q <;> rfl) rfl rfl rfl).1,
    (MakeInterfacesExternal_bookkeeping fixture.app _ [some fixture.externPubY]
      (fun q => by cases q <;> rfl) rfl rfl rfl).2.1,
    (MakeInterfacesExternal_bookkeeping fixture.app _ [some fixture.externPubY]
      (fun q => by cases q <;> rfl) rfl rfl rfl).2.2.2.2.2⟩

end modeller

/-! ## The count of the bindings -/

namespace std.map

variable {α : Type}

/-- What a lookup finds is an entry of the map. -/
theorem mem_of_find (m : map α) (k : String) (v : α) (h : m.find k = some v) : (k, v) ∈ m := by
  induction m with
  | nil => cases h
  | cons kv rest ih =>
    obtain ⟨k0, v0⟩ := kv
    by_cases hk : k = k0
    · subst hk
      rw [find_cons_self] at h
      cases h
      exact List.mem_cons_self _ _
    · rw [find_cons_of_ne _ _ _ _ hk] at h
      exact List.mem_cons_of_mem _ (ih h)

end std.map

namespace model

/-- The pointer that the lookup of a client-side interface finds is one of the
client-side interface instances of the app. -/
theorem App_t.FindClientInterface_mem (app : App_t) (x y z : parseTree.Token_t) (c : Nat)
    (h : app.FindClientInterface x y z = .ok c) : c ∈ app.clientInstances := by
  unfold App_t.FindClientInterface App_t.FindComponentInstance at h
  cases hexe : app.executables.find x.text with
  | none =>
    rw [hexe] at h
    cases h
  | some exePtr =>
    rw [hexe] at h
    dsimp only at h
    cases hci : exePtr.componentInstances.find? (fun ci => ci.componentPtr.name == y.text) with
    | none =>
      rw [hci] at h
      cases h
    | some ci =>
      rw [hci] at h
      dsimp only at h
      cases hif : ci.FindClientInterface app z.text with
      | none =>
        rw [hif] at h
        cases h
      | some p =>
        rw [hif] at h
        cases h
        have hentry : (x.text, exePtr) ∈ app.executables := std.map.mem_of_find _ _ _ hexe
        have hmemci : ci ∈ exePtr.componentInstances := List.mem_of_find?_eq_some hci
        have hmemp : c ∈ ci.clientApis := List.mem_of_find?_eq_some hif
        unfold App_t.clientInstances
        rw [List.mem_flatMap]
        refine ⟨(x.text, exePtr), hentry, ?_⟩
        rw [List.mem_flatMap]
        exact ⟨ci, hmemci, hmemp⟩

end model

namespace modeller

open parseTree model

/-- Attaching a binding to a client-side interface instance of the app that has none
adds one to the number of client-side interface instances that carry a binding. -/
theorem boundClients_setBinding (app : App_t) (c : Nat) (b : Binding_t)
    (hmem : c ∈ app.clientInstances)
    (hunbound : (app.clientIfInstances c).bindingPtr = none) :
    (app.setBinding c b).boundClients.card = app.boundClients.card + 1 := by
  have hins : (app.setBinding c b).boundClients = insert c app.boundClients := by
    ext p
    simp only [App_t.boundClients, App_t.setBinding, App_t.clientInstances, Finset.mem_filter,
      Finset.mem_insert, List.mem_toFinset]
    by_cases hp : p = c
    · subst hp
      simp only [Function.update_same, Option.isSome_some, and_true, true_or, iff_true]
      exact hmem
    · simp only [Function.update_noteq hp, hp, false_or]
  have hnot : c ∉ app.boundClients := by
    simp [App_t.boundClients, hunbound]
  rw [hins, Finset.card_insert_of_not_mem hnot]

/-- A turn of the loop of `AddBindings` that returns adds one to the number of
bindings that the app holds: the number of client-side interface instances that carry
a binding plus the number of entries of the map of wildcard bindings. -/
theorem AddBindings_item_count (app app1 : App_t) (bindingSpecPtr : TokenList_t)
    (h : AddBindings.item app bindingSpecPtr = .ok app1) :
    app1.boundClients.card + app1.wildcardBindings.length
      = app.boundClients.card + app.wildcardBindings.length + 1 := by
  by_cases hw : (tokenAt bindingSpecPtr.contents 0).type = .STAR
  · obtain ⟨b, _, hkey, rfl⟩ := AddBindings_item_wildcard_ok app app1 bindingSpecPtr hw h
    have hnone : app.wildcardBindings.find b.clientIfName = none := by
      cases hf : app.wildcardBindings.find b.clientIfName with
      | none => rfl
      | some v => rw [hf] at hkey; cases hkey
    have hbound : App_t.boundClients
        { app with wildcardBindings := app.wildcardBindings.assign b.clientIfName b }
        = app.boundClients := rfl
    rw [hbound]
    dsimp only
    rw [std.map.assign_of_find_none _ _ _ hnone, List.length_append, List.length_singleton]
    omega
  · obtain ⟨c, b, hc, _, hunbound, rfl⟩ :=
      AddBindings_item_specific_ok app app1 bindingSpecPtr hw h
    rw [boundClients_setBinding app c b (App_t.FindClientInterface_mem app _ _ _ c hc) hunbound]
    have hwild : (app.setBinding c b).wildcardBindings = app.wildcardBindings := rfl
    rw [hwild]
    omega

/-- A turn of the loop of `AddBindings` that returns keeps each key of the map of
wildcard bindings held once. -/
theorem AddBindings_item_nodup (app app1 : App_t) (bindingSpecPtr : TokenList_t)
    (hnodup : app.wildcardBindings.keys.Nodup)
    (h : AddBindings.item app bindingSpecPtr = .ok app1) :
    app1.wildcardBindings.keys.Nodup := by
  by_cases hw : (tokenAt bindingSpecPtr.contents 0).type = .STAR
  · obtain ⟨b, _, hkey, rfl⟩ := AddBindings_item_wildcard_ok app app1 bindingSpecPtr hw h
    have hnone : app.wildcardBindings.find b.clientIfName = none := by
      cases hf : app.wildcardBindings.find b.clientIfName with
      | none => rfl
      | some v => rw [hf] at hkey; cases hkey
    dsimp only
    rw [std.map.keys_assign_of_find_none _ _ _ hnone]
    exact List.Nodup.append hnodup (List.nodup_singleton _)
      (by simpa using std.map.not_mem_keys_of_find_none _ _ hkey)
  · obtain ⟨c, b, _, _, _, rfl⟩ := AddBindings_item_specific_ok app app1 bindingSpecPtr hw h
    exact hnodup

end modeller

namespace modeller

open parseTree model

/-- A bindings section for which `AddBindings` returns adds as many bindings to the
app as it has binding specifications, and keeps each key of the map of wildcard
bindings held once. -/
theorem AddBindings_count (app app1 : App_t) (bindingsSectionPtr : CompoundItem_t)
    (h : AddBindings app bindingsSectionPtr = .ok app1) :
    app1.boundClients.card + app1.wildcardBindings.length
        = app.boundClients.card + app.wildcardBindings.length
          + (AddBindings.specifications [bindingsSectionPtr]).length
      ∧ (app.wildcardBindings.keys.Nodup → app1.wildcardBindings.keys.Nodup) := by
  unfold AddBindings at h
  cases hcast : ToCompoundItemListPtr bindingsSectionPtr with
  | error e =>
    rw [hcast] at h
    cases h
  | ok sectionContents =>
    rw [hcast] at h
    dsimp only at h
    have hspecs : AddBindings.specifications [bindingsSectionPtr] = sectionContents := by
      simp [AddBindings.specifications, hcast]
    rw [hspecs]
    constructor
    · have hcount := foldlM_measure
        (fun a : App_t => a.boundClients.card + a.wildcardBindings.length) (fun _ => 1) _
        (fun a x a1 hx => by
          obtain ⟨bindingSpecPtr, _, _, hitem⟩ := AddBindings_body_ok a a1 x hx
          exact AddBindings_item_count a a1 bindingSpecPtr hitem)
        sectionContents app app1 h
      simpa using hcount
    · intro hnodup
      exact foldlM_invariant (fun a : App_t => a.wildcardBindings.keys.Nodup) _
        (fun a x a1 ha hx => by
          obtain ⟨bindingSpecPtr, _, _, hitem⟩ := AddBindings_body_ok a a1 x hx
          exact AddBindings_item_nodup a a1 bindingSpecPtr ha hitem)
        sectionContents app app1 hnodup h

theorem AddBindings_specifications_cons (bindingsSectionPtr : CompoundItem_t)
    (rest : List CompoundItem_t) :
    (AddBindings.specifications (bindingsSectionPtr :: rest)).length
      = (AddBindings.specifications [bindingsSectionPtr]).length
        + (AddBindings.specifications rest).length := by
  simp [AddBindings.specifications]

/-- Claim C34.  No binding is silently lost or overwritten.  Starting from an app in
which no client-side interface instance has a binding and the map of wildcard
bindings is empty, after `AddBindings` has returned for a list of bindings sections,
the number of client-side interface instances of the app that carry a binding plus
the number of entries of the map of wildcard bindings (each of whose keys is held
once) is the total number of binding specifications in those sections. -/
theorem AddBindings_sections_count (app app1 : App_t) (bindingsSections : List CompoundItem_t)
    (hunbound : ∀ c ∈ app.clientInstances, (app.clientIfInstances c).bindingPtr = none)
    (hempty : app.wildcardBindings = [])
    (h : AddBindings.sections app bindingsSections = .ok app1) :
    app1.boundClients.card + app1.wildcardBindings.length
        = (AddBindings.specifications bindingsSections).length
      ∧ app1.wildcardBindings.keys.Nodup := by
  have hgeneral : ∀ (l : List CompoundItem_t) (a a1 : App_t),
      AddBindings.sections a l = .ok a1 →
      a1.boundClients.card + a1.wildcardBindings.length
          = a.boundClients.card + a.wildcardBindings.length
            + (AddBindings.specifications l).length
        ∧ (a.wildcardBindings.keys.Nodup → a1.wildcardBindings.keys.Nodup) := by
    intro l
    induction l with
    | nil =>
      intro a a1 hl
      simp only [AddBindings.sections, List.foldlM_nil, pure, Except.pure] at hl
      cases hl
      exact ⟨by simp [AddBindings.specifications], fun hn => hn⟩
    | cons x rest ih =>
      intro a a1 hl
      simp only [AddBindings.sections, List.foldlM_cons] at hl
      cases hx : AddBindings a x with
      | error e =>
        rw [hx] at hl
        cases hl
      | ok a2 =>
        rw [hx] at hl
        obtain ⟨h1, h2⟩ := AddBindings_count a a2 x hx
        obtain ⟨h3, h4⟩ := ih a2 a1 hl
        refine ⟨?_, fun hn => h4 (h2 hn)⟩
        have hsplit := AddBindings_specifications_cons x rest
        omega
  obtain ⟨hcount, hnodup⟩ := hgeneral bindingsSections app app1 h
  have hzero : app.boundClients.card = 0 := by
    rw [Finset.card_eq_zero]
    ext c
    simp only [App_t.boundClients, Finset.mem_filter, List.mem_toFinset, Finset.not_mem_empty,
      iff_false, not_and]
    intro hc
    rw [hunbound c hc]
    simp
  refine ⟨?_, hnodup (by rw [hempty]; exact List.nodup_nil)⟩
  rw [hcount, hzero, hempty]
  simp

theorem AddBindings_sections_count_witness :
    ∃ app1,
      AddBindings.sections fixture.app
          [.itemList .COMPOUND_ITEM_LIST (fixture.name "bindings" 9)
            [.tokenList fixture.bindInternal, .tokenList fixture.bindWildcard]]
        = .ok app1
      ∧ app1.boundClients.card + app1.wildcardBindings.length = 2 :=
  ⟨_, rfl,
    (AddBindings_sections_count fixture.app _
      [.itemList .COMPOUND_ITEM_LIST (fixture.name "bindings" 9)
        [.tokenList fixture.bindInternal, .tokenList fixture.bindWildcard]]
      (by decide) rfl rfl).1⟩

end modeller

/-! ## The order of the extern candidates -/

namespace modeller

open parseTree model

/-- When a turn of the loop of `MakeInterfacesExternal` returns, and what it has done
then: the external name of the candidate is a key of neither extern map, the
candidate resolves to an interface instance that has no extern mark, and the turn
gives the instance the name and the mark and records it under the name. -/
theorem MakeInterfacesExternal_item_ok_iff (app app1 : App_t) (cand : TokenList_t) :
    MakeInterfacesExternal.item app (some cand) = .ok app1
      ↔ ∃ ptr,
          (app.externClientInterfaces.find (externNameToken cand.contents).text).isSome = false
          ∧ (app.externServerInterfaces.find (externNameToken cand.contents).text).isSome = false
          ∧ externTarget app (externExeToken cand.contents) (externComponentToken cand.contents)
              (externInterfaceToken cand.contents) = some ptr
          ∧ (app.ifInstance ptr).externMarkPtr = none
          ∧ app1 = recordExternal
              (app.setIfInstance ptr
                { name := (externNameToken cand.contents).text,
                  externMarkPtr := some (externNameToken cand.contents) })
              (externNameToken cand.contents).text ptr := by
  rw [MakeInterfacesExternal_item_some]
  constructor
  · exact MakeInterfaceExternal_ok app app1 _ _ _ _
  · rintro ⟨ptr, hc, hs, ht, hm, rfl⟩
    rw [MakeInterfaceExternal_fresh_name app _ _ _ _ ptr hc hs ht]
    unfold MarkInterfaceExternal
    rw [hm]

theorem sameUpToMapOrder_refl (a : App_t) : sameUpToMapOrder a a :=
  ⟨rfl, List.Perm.refl _, List.Perm.refl _, fun _ => rfl, fun _ => rfl⟩

theorem sameUpToMapOrder_trans (a b c : App_t) (h1 : sameUpToMapOrder a b)
    (h2 : sameUpToMapOrder b c) : sameUpToMapOrder a c := by
  obtain ⟨hb, hp1, hp2, hf1, hf2⟩ := h1
  obtain ⟨hc, hq1, hq2, hg1, hg2⟩ := h2
  refine ⟨?_, hp1.trans hq1, hp2.trans hq2, fun key => (hf1 key).trans (hg1 key),
    fun key => (hf2 key).trans (hg2 key)⟩
  rw [hc]
  conv_lhs => rw [hb]

/-- States that differ at most by the order of the entries of the extern maps have
the same graph. -/
theorem sameGraph_of_sameUpToMapOrder (a b : App_t) (h : sameUpToMapOrder a b) :
    sameGraph a b := by
  obtain ⟨hb, _⟩ := h
  rw [hb]
  exact ⟨rfl, rfl, fun _ => rfl, fun _ => rfl⟩

theorem ifInstance_of_sameUpToMapOrder (a b : App_t) (h : sameUpToMapOrder a b)
    (q : ApiInterfaceInstancePtr) : b.ifInstance q = a.ifInstance q := by
  obtain ⟨hb, _⟩ := h
  rw [hb]
  cases q <;> rfl

/-- Recording the same instance under the same new name, after the same marking, in
two states that differ at most by the order of the entries of the extern maps, gives
two such states. -/
theorem sameUpToMapOrder_record (a b : App_t) (h : sameUpToMapOrder a b) (n : String)
    (ptr : ApiInterfaceInstancePtr) (v : ApiInterfaceInstance_t)
    (hc : (a.externClientInterfaces.find n).isSome = false)
    (hs : (a.externServerInterfaces.find n).isSome = false) :
    sameUpToMapOrder (recordExternal (a.setIfInstance ptr v) n ptr)
      (recordExternal (b.setIfInstance ptr v) n ptr) := by
  obtain ⟨hb, hp1, hp2, hf1, hf2⟩ := h
  have hca : a.externClientInterfaces.find n = none := by
    cases hf : a.externClientInterfaces.find n with
    | none => rfl
    | some x => rw [hf] at hc; cases hc
  have hsa : a.externServerInterfaces.find n = none := by
    cases hf : a.externServerInterfaces.find n with
    | none => rfl
    | some x => rw [hf] at hs; cases hs
  have hcb : b.externClientInterfaces.find n = none := by rw [← hf1, hca]
  have hsb : b.externServerInterfaces.find n = none := by rw [← hf2, hsa]
  cases ptr with
  | client c =>
    refine ⟨?_, ?_, hp2, ?_, hf2⟩
    · conv_lhs => rw [hb]
      rfl
    · show (a.externClientInterfaces.assign n c).Perm (b.externClientInterfaces.assign n c)
      rw [std.map.assign_of_find_none _ _ _ hca, std.map.assign_of_find_none _ _ _ hcb]
      exact List.Perm.append_right _ hp1
    · intro key
      show (a.externClientInterfaces.assign n c).find key
        = (b.externClientInterfaces.assign n c).find key
      rw [std.map.find_assign, std.map.find_assign, hf1 key]
  | server s =>
    refine ⟨?_, hp1, ?_, hf1, ?_⟩
    · conv_lhs => rw [hb]
      rfl
    · show (a.externServerInterfaces.assign n s).Perm (b.externServerInterfaces.assign n s)
      rw [std.map.assign_of_find_none _ _ _ hsa, std.map.assign_of_find_none _ _ _ hsb]
      exact List.Perm.append_right _ hp2
    · intro key
      show (a.externServerInterfaces.assign n s).find key
        = (b.externServerInterfaces.assign n s).find key
      rw [std.map.find_assign, std.map.find_assign, hf2 key]

/-- A turn of the loop of `MakeInterfacesExternal` that returns in a state returns in
every state that differs from it at most by the order of the entries of the extern
maps, and the two states after the turn differ at most by that order. -/
theorem MakeInterfacesExternal_item_respects (a b a1 : App_t) (ifPtr : Option TokenList_t)
    (hab : sameUpToMapOrder a b) (h : MakeInterfacesExternal.item a ifPtr = .ok a1) :
    ∃ b1, MakeInterfacesExternal.item b ifPtr = .ok b1 ∧ sameUpToMapOrder a1 b1 := by
  cases ifPtr with
  | none => cases h
  | some cand =>
    obtain ⟨ptr, hc, hs, ht, hm, rfl⟩ := (MakeInterfacesExternal_item_ok_iff a a1 cand).mp h
    refine ⟨_, (MakeInterfacesExternal_item_ok_iff b _ cand).mpr ⟨ptr, ?_, ?_, ?_, ?_, rfl⟩,
      sameUpToMapOrder_record a b hab _ ptr _ hc hs⟩
    · rw [← hab.2.2.2.1]
      exact hc
    · rw [← hab.2.2.2.2]
      exact hs
    · rw [← externTarget_sameGraph a b (sameGraph_of_sameUpToMapOrder a b hab)]
      exact ht
    · rw [ifInstance_of_sameUpToMapOrder a b hab]
      exact hm

/-- A run of `MakeInterfacesExternal` that returns from a state returns from every
state that differs from it at most by the order of the entries of the extern maps,
and the two states after the run differ at most by that order. -/
theorem MakeInterfacesExternal_respects (interfaces : List (Option TokenList_t))
    (a b a1 : App_t) (hab : sameUpToMapOrder a b)
    (h : MakeInterfacesExternal a interfaces = .ok a1) :
    ∃ b1, MakeInterfacesExternal b interfaces = .ok b1 ∧ sameUpToMapOrder a1 b1 := by
  induction interfaces generalizing a b with
  | nil =>
    simp only [MakeInterfacesExternal, List.foldlM_nil, pure, Except.pure] at h ⊢
    cases h
    exact ⟨b, rfl, hab⟩
  | cons x rest ih =>
    simp only [MakeInterfacesExternal, List.foldlM_cons] at h ⊢
    cases hx : MakeInterfacesExternal.item a x with
    | error e =>
      rw [hx] at h
      cases h
    | ok a2 =>
      rw [hx] at h
      obtain ⟨b2, hb2, hab2⟩ := MakeInterfacesExternal_item_respects a b a2 x hab hx
      rw [hb2]
      exact ih a2 b2 hab2 h

end modeller

namespace modeller

open parseTree model

/-- Marking and recording two distinct interface instances under two distinct names
in either order gives states that differ at most by the order of the entries of the
extern maps. -/
theorem sameUpToMapOrder_swap (a : App_t) (nx ny : String) (px py : ApiInterfaceInstancePtr)
    (vx vy : ApiInterfaceInstance_t) (hn : nx ≠ ny) (hp : px ≠ py)
    (hcx : a.externClientInterfaces.find nx = none)
    (hsx : a.externServerInterfaces.find nx = none)
    (hcy : a.externClientInterfaces.find ny = none)
    (hsy : a.externServerInterfaces.find ny = none) :
    sameUpToMapOrder
      (recordExternal ((recordExternal (a.setIfInstance py vy) ny py).setIfInstance px vx) nx px)
      (recordExternal ((recordExternal (a.setIfInstance px vx) nx px).setIfInstance py vy) ny py)
    := by
  have hperm : ∀ {α : Type} (m : std.map α) (x y : α), m.find nx = none → m.find ny = none →
      ((m.assign ny y).assign nx x).Perm ((m.assign nx x).assign ny y)
        ∧ ∀ key, ((m.assign ny y).assign nx x).find key = ((m.assign nx x).assign ny y).find key := by
    intro α m x y hx hy
    have hx1 : (m.assign ny y).find nx = none := by
      rw [std.map.find_assign_of_ne _ _ _ _ hn, hx]
    have hy1 : (m.assign nx x).find ny = none := by
      rw [std.map.find_assign_of_ne _ _ _ _ (Ne.symm hn), hy]
    constructor
    · rw [std.map.assign_of_find_none _ _ _ hx1, std.map.assign_of_find_none _ _ _ hy,
        std.map.assign_of_find_none _ _ _ hy1, std.map.assign_of_find_none _ _ _ hx,
        List.append_assoc, List.append_assoc]
      exact List.Perm.append_left _ (List.Perm.swap _ _ _)
    · intro key
      simp only [std.map.find_assign]
      by_cases h1 : key = nx
      · subst h1
        simp [hn]
      · simp [h1]
  cases px with
  | client cx =>
    cases py with
    | client cy =>
      have hne : cx ≠ cy := fun h => hp (by rw [h])
      obtain ⟨h1, h2⟩ := hperm a.externClientInterfaces cx cy hcx hcy
      refine ⟨?_, h1, List.Perm.refl _, h2, fun _ => rfl⟩
      simp only [recordExternal, App_t.setIfInstance, Function.update_noteq hne,
        Function.update_noteq (Ne.symm hne)]
      rw [Function.update_comm hne]
    | server sy =>
      exact ⟨rfl, List.Perm.refl _, List.Perm.refl _, fun _ => rfl, fun _ => rfl⟩
  | server sx =>
    cases py with
    | client cy =>
      exact ⟨rfl, List.Perm.refl _, List.Perm.refl _, fun _ => rfl, fun _ => rfl⟩
    | server sy =>
      have hne : sx ≠ sy := fun h => hp (by rw [h])
      obtain ⟨h1, h2⟩ := hperm a.externServerInterfaces sx sy hsx hsy
      refine ⟨?_, List.Perm.refl _, h1, fun _ => rfl, h2⟩
      simp only [recordExternal, App_t.setIfInstance, Function.update_noteq hne,
        Function.update_noteq (Ne.symm hne)]
      rw [Function.update_comm hne]

/-- Two consecutive turns of the loop of `MakeInterfacesExternal` that return also
return when the two candidates are taken in the other order, and the states after
the two turns differ at most by the order of the entries of the extern maps. -/
theorem MakeInterfacesExternal_item_swap (a a1 a2 : App_t) (x y : Option TokenList_t)
    (hy : MakeInterfacesExternal.item a y = .ok a1)
    (hx : MakeInterfacesExternal.item a1 x = .ok a2) :
    ∃ b1 b2, MakeInterfacesExternal.item a x = .ok b1
      ∧ MakeInterfacesExternal.item b1 y = .ok b2 ∧ sameUpToMapOrder a2 b2 := by
  cases y with
  | none => cases hy
  | some candy =>
  cases x with
  | none => cases hx
  | some candx =>
  obtain ⟨py, hcy, hsy, hty, hmy, rfl⟩ := (MakeInterfacesExternal_item_ok_iff a a1 candy).mp hy
  obtain ⟨px, hcx1, hsx1, htx1, hmx1, rfl⟩ :=
    (MakeInterfacesExternal_item_ok_iff _ a2 candx).mp hx
  have hcy1 : ((a.setIfInstance py
      { name := (externNameToken candy.contents).text,
        externMarkPtr := some (externNameToken candy.contents) }).externClientInterfaces.find
          (externNameToken candy.contents).text).isSome = false := by
    rw [externClientInterfaces_setIfInstance]
    exact hcy
  have hsy1 : ((a.setIfInstance py
      { name := (externNameToken candy.contents).text,
        externMarkPtr := some (externNameToken candy.contents) }).externServerInterfaces.find
          (externNameToken candy.contents).text).isSome = false := by
    rw [externServerInterfaces_setIfInstance]
    exact hsy
  -- the two names differ: the first one is a key after the first turn
  have hreg := registeredExternal_recordExternal_self
    (a.setIfInstance py
      { name := (externNameToken candy.contents).text,
        externMarkPtr := some (externNameToken candy.contents) })
    (externNameToken candy.contents).text py
  have hn : (externNameToken candx.contents).text ≠ (externNameToken candy.contents).text := by
    intro heq
    rw [heq] at hcx1 hsx1
    cases py with
    | client c =>
      have hfind : (recordExternal _ _ _).externClientInterfaces.find _ = some c := hreg
      rw [hfind] at hcx1
      cases hcx1
    | server s =>
      have hfind : (recordExternal _ _ _).externServerInterfaces.find _ = some s := hreg
      rw [hfind] at hsx1
      cases hsx1
  -- the two instances differ: the first one is marked after the first turn
  have hp : px ≠ py := by
    rintro rfl
    rw [ifInstance_recordExternal, ifInstance_setIfInstance_self] at hmx1
    cases hmx1
  have hmx : (a.ifInstance px).externMarkPtr = none := by
    rw [ifInstance_recordExternal, ifInstance_setIfInstance_of_ne _ _ _ _ hp] at hmx1
    exact hmx1
  have hgraph1 : sameGraph a
      (recordExternal
        (a.setIfInstance py
          { name := (externNameToken candy.contents).text,
            externMarkPtr := some (externNameToken candy.contents) })
        (externNameToken candy.contents).text py) :=
    sameGraph_trans _ _ _ (sameGraph_setIfInstance a py _) (sameGraph_recordExternal _ _ py)
  have htx : externTarget a (externExeToken candx.contents) (externComponentToken candx.contents)
      (externInterfaceToken candx.contents) = some px := by
    rw [externTarget_sameGraph a _ hgraph1]
    exact htx1
  have hcx : (a.externClientInterfaces.find (externNameToken candx.contents).text).isSome
      = false := by
    cases py with
    | client c =>
      change ((a.externClientInterfaces.assign (externNameToken candy.contents).text c).find
        (externNameToken candx.contents).text).isSome = false at hcx1
      rw [std.map.find_assign_of_ne _ _ _ _ hn] at hcx1
      exact hcx1
    | server s => exact hcx1
  have hsx : (a.externServerInterfaces.find (externNameToken candx.contents).text).isSome
      = false := by
    cases py with
    | client c => exact hsx1
    | server s =>
      change ((a.externServerInterfaces.assign (externNameToken candy.contents).text s).find
        (externNameToken candx.contents).text).isSome = false at hsx1
      rw [std.map.find_assign_of_ne _ _ _ _ hn] at hsx1
      exact hsx1
  have hnone : ∀ {α : Type} (m : std.map α) (k : String), (m.find k).isSome = false →
      m.find k = none := by
    intro α m k hk
    cases hf : m.find k with
    | none => rfl
    | some v => rw [hf] at hk; cases hk
  refine ⟨_, _, (MakeInterfacesExternal_item_ok_iff a _ candx).mpr ⟨px, hcx, hsx, htx, hmx, rfl⟩,
    (MakeInterfacesExternal_item_ok_iff _ _ candy).mpr ⟨py, ?_, ?_, ?_, ?_, rfl⟩,
    sameUpToMapOrder_swap a _ _ px py _ _ hn hp (hnone _ _ hcx) (hnone _ _ hsx) (hnone _ _ hcy)
      (hnone _ _ hsy)⟩
  · cases px with
    | client c =>
      show ((a.externClientInterfaces.assign (externNameToken candx.contents).text c).find
        (externNameToken candy.contents).text).isSome = false
      rw [std.map.find_assign_of_ne _ _ _ _ (Ne.symm hn)]
      exact hcy
    | server s => exact hcy
  · cases px with
    | client c => exact hsy
    | server s =>
      show ((a.externServerInterfaces.assign (externNameToken candx.contents).text s).find
        (externNameToken candy.contents).text).isSome = false
      rw [std.map.find_assign_of_ne _ _ _ _ (Ne.symm hn)]
      exact hsy
  · rw [← externTarget_sameGraph a _
      (sameGraph_trans _ _ _ (sameGraph_setIfInstance a px _) (sameGraph_recordExternal _ _ px))]
    exact hty
  · rw [ifInstance_recordExternal, ifInstance_setIfInstance_of_ne _ _ _ _ (Ne.symm hp)]
    exact hmy

/-- A run of `MakeInterfacesExternal` over a queue returns when its first turn does
and the run over the rest of the queue does. -/
theorem MakeInterfacesExternal_cons (a a1 : App_t) (x : Option TokenList_t)
    (l : List (Option TokenList_t)) :
    MakeInterfacesExternal a (x :: l) = .ok a1
      ↔ ∃ a2, MakeInterfacesExternal.item a x = .ok a2 ∧ MakeInterfacesExternal a2 l = .ok a1 := by
  simp only [MakeInterfacesExternal, List.foldlM_cons]
  cases hx : MakeInterfacesExternal.item a x with
  | error e =>
    constructor
    · intro h
      cases h
    · rintro ⟨a2, h2, _⟩
      cases h2
  | ok a2 =>
    constructor
    · intro h
      exact ⟨a2, rfl, h⟩
    · rintro ⟨a3, h3, h⟩
      cases h3
      exact h

/-- A run of `MakeInterfacesExternal` that returns for a queue returns for every
permutation of the queue, from every state that differs from the first one at most
by the order of the entries of the extern maps, and the states after the two runs
differ at most by that order. -/
theorem MakeInterfacesExternal_perm_respects (interfaces permuted : List (Option TokenList_t))
    (hperm : interfaces.Perm permuted) :
    ∀ a b a1 : App_t, sameUpToMapOrder a b → MakeInterfacesExternal a interfaces = .ok a1 →
      ∃ b1, MakeInterfacesExternal b permuted = .ok b1 ∧ sameUpToMapOrder a1 b1 := by
  induction hperm with
  | nil =>
    intro a b a1 hab h
    exact MakeInterfacesExternal_respects [] a b a1 hab h
  | cons x _ ih =>
    intro a b a1 hab h
    obtain ⟨a2, hx, hrest⟩ := (MakeInterfacesExternal_cons a a1 x _).mp h
    obtain ⟨b2, hb2, hab2⟩ := MakeInterfacesExternal_item_respects a b a2 x hab hx
    obtain ⟨b1, hb1, hab1⟩ := ih a2 b2 a1 hab2 hrest
    exact ⟨b1, (MakeInterfacesExternal_cons b b1 x _).mpr ⟨b2, hb2, hb1⟩, hab1⟩
  | swap x y l =>
    intro a b a1 hab h
    obtain ⟨a2, hy, hrest⟩ := (MakeInterfacesExternal_cons a a1 y _).mp h
    obtain ⟨a3, hx, hrest⟩ := (MakeInterfacesExternal_cons a2 a1 x _).mp hrest
    obtain ⟨c1, c2, hc1, hc2, hswap⟩ := MakeInterfacesExternal_item_swap a a2 a3 x y hy hx
    obtain ⟨b1, hb1, hab1⟩ := MakeInterfacesExternal_item_respects a b c1 x hab hc1
    obtain ⟨b2, hb2, hab2⟩ := MakeInterfacesExternal_item_respects c1 b1 c2 y hab1 hc2
    obtain ⟨b3, hb3, hab3⟩ := MakeInterfacesExternal_respects l a3 b2 a1
      (sameUpToMapOrder_trans _ _ _ hswap hab2) hrest
    exact ⟨b3, (MakeInterfacesExternal_cons b b3 x _).mpr
      ⟨b1, hb1, (MakeInterfacesExternal_cons b1 b3 y _).mpr ⟨b2, hb2, hb3⟩⟩, hab3⟩
  | trans _ _ ih1 ih2 =>
    intro a b a1 hab h
    obtain ⟨c1, hc1, hac1⟩ := ih1 a a a1 (sameUpToMapOrder_refl a) h
    obtain ⟨b1, hb1, hcb1⟩ := ih2 a b c1 hab hc1
    exact ⟨b1, hb1, sameUpToMapOrder_trans _ _ _ hac1 hcb1⟩

/-- Claim C32.  The order of the candidates in the queue does not matter for extern
resolution: when `MakeInterfacesExternal` returns for a queue, it returns for every
permutation of the queue, and the two resulting apps have the same extern-client map
and the same extern-server map (a lookup finds the same in both, and both list the
same entries), the same name and extern mark for every interface instance, and the
same in every other field. -/
theorem MakeInterfacesExternal_order_independent (app app1 : App_t)
    (interfaces permuted : List (Option TokenList_t)) (hperm : interfaces.Perm permuted)
    (h : MakeInterfacesExternal app interfaces = .ok app1) :
    ∃ app2, MakeInterfacesExternal app permuted = .ok app2
      ∧ (∀ key, app2.externClientInterfaces.find key = app1.externClientInterfaces.find key)
      ∧ (∀ key, app2.externServerInterfaces.find key = app1.externServerInterfaces.find key)
      ∧ app2.externClientInterfaces.Perm app1.externClientInterfaces
      ∧ app2.externServerInterfaces.Perm app1.externServerInterfaces
      ∧ (∀ q, (app2.ifInstance q).name = (app1.ifInstance q).name
          ∧ (app2.ifInstance q).externMarkPtr = (app1.ifInstance q).externMarkPtr)
      ∧ app2.clientIfInstances = app1.clientIfInstances
      ∧ app2.serverIfInstances = app1.serverIfInstances
      ∧ app2 = { app1 with
                 externClientInterfaces := app2.externClientInterfaces
                 externServerInterfaces := app2.externServerInterfaces } := by
  obtain ⟨app2, hrun, hsame⟩ := MakeInterfacesExternal_perm_respects interfaces permuted hperm
    app app app1 (sameUpToMapOrder_refl app) h
  have hinst := ifInstance_of_sameUpToMapOrder app1 app2 hsame
  obtain ⟨hfields, hp1, hp2, hf1, hf2⟩ := hsame
  refine ⟨app2, hrun, fun key => (hf1 key).symm, fun key => (hf2 key).symm, hp1.symm, hp2.symm,
    fun q => by rw [hinst q]; exact ⟨rfl, rfl⟩, ?_, ?_, hfields⟩
  · rw [hfields]
  · rw [hfields]

theorem MakeInterfacesExternal_order_independent_witness :
    ∃ app2,
      MakeInterfacesExternal fixture.app [some fixture.externPubX, some fixture.externPubY]
        = .ok app2
      ∧ (∀ key, app2.externClientInterfaces.find key
          = (stateAfter (MakeInterfacesExternal fixture.app
              [some fixture.externPubY, some fixture.externPubX])).externClientInterfaces.find key)
      ∧ app2.clientIfInstances
          = (stateAfter (MakeInterfacesExternal fixture.app
              [some fixture.externPubY, some fixture.externPubX])).clientIfInstances :=
  (MakeInterfacesExternal_order_independent fixture.app _
    [some fixture.externPubY, some fixture.externPubX]
    [some fixture.externPubX, some fixture.externPubY] (List.Perm.swap _ _ _) rfl).imp
    fun _ h => ⟨h.1, h.2.1, h.2.2.2.2.2.2.1⟩

end modeller

/-! ## The sandboxed flag through the sections -/

namespace modeller

open parseTree model

/-- An "executables" section leaves the sandboxed flag alone when
`AddComponentInstance` does. -/
theorem AddExecutables_isSandboxed (X : Collaborators)
    (hX : ∀ app exe comp, (X.AddComponentInstance app exe comp).1.isSandboxed = app.isSandboxed)
    (env : std.map String) (buildParams : mk.BuildParams_t) (app app1 : App_t)
    (sectionPtr : CompoundItem_t)
    (h : AddExecutables X env app sectionPtr buildParams = .ok app1) :
    app1.isSandboxed = app.isSandboxed := by
  unfold AddExecutables at h
  simp only [bind, Except.bind, liftExcept, withEnv] at h
  split at h
  · cases h
  refine foldlM_rel (fun a b : App_t => b.isSandboxed = a.isSandboxed)
    (fun _ => rfl) (fun _ _ _ h1 h2 => h2.trans h1) _ (fun a x a1 hx => ?_) _ _ _ h
  split at hx
  · cases hx
  unfold AddExecutables.addExe at hx
  simp only [bind, Except.bind] at hx
  split at hx
  · cases hx
  rename_i st hfold
  have hst : st.1.isSandboxed = a.isSandboxed := by
    refine foldlM_rel (fun a b : App_t × Exe_t => b.1.isSandboxed = a.1.isSandboxed)
      (fun _ => rfl) (fun _ _ _ h1 h2 => h2.trans h1) _ (fun a x a1 hx => ?_) _ _ _ hfold
    unfold AddExecutables.addExe.component at hx
    simp only [bind, Except.bind, liftNested, pure, Except.pure] at hx
    repeat' (first | (cases hx; done) | split at hx)
    all_goals
      cases hx
      first | rfl | exact hX _ _ _
  obtain ⟨_, _, components, h1⟩ := AddExecutable_ok _ _ _ ((withEnv_eq_ok _ _ _).mp hx)
  rw [h1]
  exact hst

/-- The handling of a section of another name than "sandboxed" leaves the sandboxed
flag of the app alone, when the collaborators do. -/
theorem GetApp_section_isSandboxed (X : Collaborators) (hX : X.keepSandboxed)
    (buildParams : mk.BuildParams_t) (env : std.map String)
    (locals locals1 : GetApp.Locals) (sectionPtr : CompoundItem_t)
    (hname : sectionPtr.firstTokenPtr.text ≠ "sandboxed")
    (h : GetApp.section X buildParams env locals sectionPtr = .ok locals1) :
    locals1.app.isSandboxed = locals.app.isSandboxed := by
  by_cases hv : sectionPtr.firstTokenPtr.text ∈ GetApp.vocabulary
  swap
  · rw [GetApp_section_unrecognized _ _ _ _ _ hv] at h
    cases h
  rcases GetApp_vocabulary_mem _ hv with
    hn | hn | hn | hn | hn | hn | hn | hn | hn | hn | hn | hn | hn | hn | hn | hn | hn | hn | hn | hn | hn
  · rw [GetApp_section_bindings_eq _ _ _ _ _ hn] at h
    cases h
    rfl
  · rw [GetApp_section_bundles_eq _ _ _ _ _ hn] at h
    obtain ⟨_, _, h1⟩ := AddBundledItems_frame _ _ _ _ (GetApp_onApp_app _ _ _ h)
    rw [h1]
  · rw [GetApp_section_components_eq _ _ _ _ _ hn] at h
    split at h
    · cases h
    obtain ⟨_, h1⟩ := AddComponents_frame _ _ _ _ _ _ (GetApp_onAppAndEnv_app _ _ _ h)
    rw [h1]
  · rw [GetApp_section_cpuShare_eq _ _ _ _ _ hn] at h
    obtain ⟨v, h1⟩ := GetApp_assign_app _ _ _ _ _ h
    rw [h1]
  · rw [GetApp_section_executables_eq _ _ _ _ _ hn] at h
    exact AddExecutables_isSandboxed X hX.1 _ _ _ _ _ (GetApp_onAppAndEnv_app _ _ _ h)
  · rw [GetApp_section_extern_eq _ _ _ _ _ hn] at h
    split at h
    · cases h
    cases h
    rfl
  · rw [GetApp_section_groups_eq _ _ _ _ _ hn] at h
    split at h
    · cases h
    exact hX.2.1 _ _ _ (GetApp_onApp_app _ _ _ h)
  · rw [GetApp_section_maxFileSystemBytes_eq _ _ _ _ _ hn] at h
    obtain ⟨v, h1⟩ := GetApp_assign_app _ _ _ _ _ h
    rw [h1]
  · rw [GetApp_section_maxMemoryBytes_eq _ _ _ _ _ hn] at h
    obtain ⟨v, h1⟩ := GetApp_assign_app _ _ _ _ _ h
    rw [h1]
  · rw [GetApp_section_maxMQueueBytes_eq _ _ _ _ _ hn] at h
    obtain ⟨v, h1⟩ := GetApp_assign_app _ _ _ _ _ h
    rw [h1]
  · rw [GetApp_section_maxQueuedSignals_eq _ _ _ _ _ hn] at h
    obtain ⟨v, h1⟩ := GetApp_assign_app _ _ _ _ _ h
    rw [h1]
  · rw [GetApp_section_maxThreads_eq _ _ _ _ _ hn] at h
    obtain ⟨v, h1⟩ := GetApp_assign_app _ _ _ _ _ h
    rw [h1]
  · rw [GetApp_section_maxSecureStorageBytes_eq _ _ _ _ _ hn] at h
    obtain ⟨v, h1⟩ := GetApp_assign_app _ _ _ _ _ h
    rw [h1]
  · rw [GetApp_section_processes_eq _ _ _ _ _ hn] at h
    cases h
    rfl
  · rw [GetApp_section_provides_eq _ _ _ _ _ hn] at h
    have h1 := AddProvidedItems_frame _ _ _ (GetApp_onAppAndInterfaces_app _ _ _ h)
    dsimp only at h1
    rw [h1]
  · rw [GetApp_section_requires_eq _ _ _ _ _ hn] at h
    obtain ⟨_, _, _, _, h1⟩ := AddRequiredItems_frame _ _ _ _ (GetApp_onAppAndInterfaces_app _ _ _ h)
    dsimp only at h1
    rw [h1]
  · exact absurd hn hname
  · rw [GetApp_section_start_eq _ _ _ _ _ hn] at h
    split at h
    · cases h
    exact hX.2.2.1 _ _ _ (GetApp_onApp_app _ _ _ h)
  · rw [GetApp_section_version_eq _ _ _ _ _ hn] at h
    repeat' (first | (cases h; done) | split at h)
    all_goals
      cases h
      rfl
  · rw [GetApp_section_watchdogAction_eq _ _ _ _ _ hn] at h
    split at h
    · cases h
    exact hX.2.2.2.1 _ _ _ (GetApp_onApp_app _ _ _ h)
  · rw [GetApp_section_watchdogTimeout_eq _ _ _ _ _ hn] at h
    split at h
    · cases h
    exact hX.2.2.2.2 _ _ _ (GetApp_onApp_app _ _ _ h)

end modeller

/-! ## The last sandboxed section and the default PATH -/

namespace modeller

open parseTree model

/-- Extern resolution changes the interface instances and the two maps of external
interfaces, and nothing else in the app. -/
theorem MakeInterfacesExternal_frame (interfaces : List (Option TokenList_t))
    (app app1 : App_t) (h : MakeInterfacesExternal app interfaces = .ok app1) :
    ∃ clients servers externClients externServers,
      app1 = { app with
               clientIfInstances := clients
               serverIfInstances := servers
               externClientInterfaces := externClients
               externServerInterfaces := externServers } := by
  refine foldlM_rel
    (fun a b : App_t => ∃ clients servers externClients externServers,
      b = { a with
            clientIfInstances := clients
            serverIfInstances := servers
            externClientInterfaces := externClients
            externServerInterfaces := externServers })
    (fun a => ⟨_, _, _, _, rfl⟩)
    (by rintro a b c ⟨_, _, _, _, rfl⟩ ⟨_, _, _, _, rfl⟩; exact ⟨_, _, _, _, rfl⟩)
    MakeInterfacesExternal.item (fun a x a1 hx => ?_) interfaces app app1 h
  obtain ⟨n, ptr, _, _, _, rfl⟩ := MakeInterfacesExternal_item_ok a a1 x hx
  cases ptr <;> exact ⟨_, _, _, _, rfl⟩

/-- Binding resolution changes the client-side interface instances and the map of
wildcard bindings, and nothing else in the app. -/
theorem AddBindings_sections_frame (bindingsSections : List CompoundItem_t)
    (app app1 : App_t) (h : AddBindings.sections app bindingsSections = .ok app1) :
    ∃ clients wildcards,
      app1 = { app with clientIfInstances := clients, wildcardBindings := wildcards } := by
  refine foldlM_rel
    (fun a b : App_t => ∃ clients wildcards,
      b = { a with clientIfInstances := clients, wildcardBindings := wildcards })
    (fun a => ⟨_, _, rfl⟩)
    (by rintro a b c ⟨_, _, rfl⟩ ⟨_, _, rfl⟩; exact ⟨_, _, rfl⟩)
    AddBindings (fun a x a1 hx => ?_) bindingsSections app app1 h
  unfold AddBindings at hx
  split at hx
  · cases hx
  · refine foldlM_rel
      (fun a b : App_t => ∃ clients wildcards,
        b = { a with clientIfInstances := clients, wildcardBindings := wildcards })
      (fun a => ⟨_, _, rfl⟩)
      (by rintro a b c ⟨_, _, rfl⟩ ⟨_, _, rfl⟩; exact ⟨_, _, rfl⟩)
      _ (fun a y a1 hy => ?_) _ _ _ hx
    obtain ⟨spec, _, _, hitem⟩ := AddBindings_body_ok a a1 y hy
    by_cases hstar : (tokenAt spec.contents 0).type = .STAR
    · obtain ⟨b, _, _, rfl⟩ := AddBindings_item_wildcard_ok a a1 _ hstar hitem
      exact ⟨_, _, rfl⟩
    · obtain ⟨c, b, _, _, _, rfl⟩ := AddBindings_item_specific_ok a a1 _ hstar hitem
      exact ⟨_, _, rfl⟩

/-- A pass over sections none of which has the name "sandboxed" leaves the sandboxed
flag of the app alone, when the collaborators do. -/
theorem GetApp_sections_isSandboxed (X : Collaborators) (hX : X.keepSandboxed)
    (buildParams : mk.BuildParams_t) (env : std.map String) (sections : List CompoundItem_t)
    (hall : ∀ s ∈ sections, s.firstTokenPtr.text ≠ "sandboxed")
    (locals locals1 : GetApp.Locals)
    (h : sections.foldlM (GetApp.section X buildParams env) locals = .ok locals1) :
    locals1.app.isSandboxed = locals.app.isSandboxed := by
  induction sections generalizing locals with
  | nil =>
    simp only [List.foldlM_nil, pure, Except.pure] at h
    cases h
    rfl
  | cons x rest ih =>
    rw [List.foldlM_cons] at h
    cases hx : GetApp.section X buildParams env locals x with
    | error e =>
      rw [hx] at h
      cases h
    | ok locals2 =>
      rw [hx] at h
      rw [ih (fun s hs => hall s (List.mem_cons_of_mem _ hs)) locals2 h]
      exact GetApp_section_isSandboxed X hX buildParams env locals locals2 x
        (hall x (List.mem_cons_self _ _)) hx

/-- A "sandboxed" section that the pass handles is a simple section, and the app is
sandboxed after it exactly when the text of the section is not `false`. -/
theorem GetApp_section_sandboxed (X : Collaborators) (buildParams : mk.BuildParams_t)
    (env : std.map String) (locals locals1 : GetApp.Locals) (sectionPtr : CompoundItem_t)
    (hname : sectionPtr.firstTokenPtr.text = "sandboxed")
    (h : GetApp.section X buildParams env locals sectionPtr = .ok locals1) :
    ∃ s, ToSimpleSectionPtr sectionPtr = .ok s
      ∧ locals1
        = { locals with app := { locals.app with isSandboxed := decide (s.Text ≠ "false") } } := by
  rw [GetApp_section_sandboxed_eq _ _ _ _ _ hname] at h
  unfold GetApp.assign at h
  cases hs : ToSimpleSectionPtr sectionPtr with
  | error e =>
    rw [hs] at h
    cases h
  | ok s =>
    rw [hs] at h
    cases h
    exact ⟨s, rfl, rfl⟩

end modeller

namespace fixture

open parseTree model modeller

/-- The collaborators of the evaluation leave the sandboxed flag alone. -/
theorem collaborators_keepSandboxed : collaborators.keepSandboxed :=
  ⟨fun _ _ _ => rfl, fun _ _ _ h => by cases h; rfl,
    fun _ _ _ h => by cases h; rfl, fun _ _ _ h => by cases h; rfl,
    fun _ _ _ h => by cases h; rfl⟩

end fixture

namespace modeller

open parseTree model

/-- Claim C38.  A "sandboxed" section makes the app unsandboxed if and only if its
text is exactly `false`: the handling of the section sets the sandboxed flag to
whether the text differs from `false`, whatever the flag was.  When the definition
file has sandboxed sections, the last one decides: in the app that `GetApp` returns
(for collaborators that leave the flag alone) the app is unsandboxed exactly when the
text of the last sandboxed section is `false`.  That text in turn decides the PATH
that `EnsurePathIsSet` synthesizes: the process environments of the returned app are
those of before the processes sections, then the one built from each processes
section of the file, wherever the section stands with respect to the sandboxed
section, each of them left as it is when it has a PATH variable and given, when it
has none, the PATH with the directory of the app in front when the text is `false`
and the plain one otherwise. -/
theorem GetApp_sandboxed_last_decides (X : Collaborators) (hX : X.keepSandboxed)
    (adefPath : String) (buildParams : mk.BuildParams_t) (env : std.map String)
    (stderr : List String)
    (adefFilePtr : AdefFile_t) (app : App_t)
    (hparse : X.Parse adefPath buildParams.beVerbose = .ok adefFilePtr)
    (hbuilt : (GetApp X adefPath buildParams env stderr).1 = .ok app)
    (before after : List CompoundItem_t) (last : CompoundItem_t)
    (hsections : adefFilePtr.sections = before ++ last :: after)
    (hlast : last.firstTokenPtr.text = "sandboxed")
    (hafter : ∀ s ∈ after, s.firstTokenPtr.text ≠ "sandboxed") :
    ∃ s, ToSimpleSectionPtr last = .ok s
      ∧ (∀ locals,
          GetApp.section X buildParams (envVars.Set env "CURDIR" (X.GetContainingDir adefPath))
              locals last
            = .ok { locals with
                    app := { locals.app with isSandboxed := decide (s.Text ≠ "false") } })
      ∧ (app.isSandboxed = false ↔ s.Text = "false")
      ∧ ∃ envs built : List ProcessEnv_t,
          List.Forall₂
              (fun sectionPtr procEnv =>
                ∃ contents, ToCompoundItemListPtr sectionPtr = .ok contents
                  ∧ contents.foldlM
                      (AddProcessesSection.subsection X
                        (envVars.Set env "CURDIR" (X.GetContainingDir adefPath)))
                      X.newProcessEnv
                    = .ok procEnv)
              (adefFilePtr.sections.filter fun s => decide (s.firstTokenPtr.text = "processes"))
              built
          ∧ app.processEnvs
            = (envs ++ built).map fun procEnv =>
                if "PATH" ∈ procEnv.envVars.keys then procEnv
                else
                  { procEnv with
                    envVars := procEnv.envVars.assign "PATH"
                      (if s.Text = "false" then
                        "/legato/systems/current/apps/" ++ app.name ++ "/read-only/bin:"
                          ++ "/usr/local/bin:/usr/bin:/bin"
                      else "/usr/local/bin:/usr/bin:/bin") } := by
  obtain ⟨adefFilePtr1, locals, app1, app2, app3, hparse1, hmain, hproc, hext, hbind, rfl⟩ :=
    GetApp_ok X adefPath buildParams env stderr (GetApp X adefPath buildParams env stderr).2 app
      (Prod.ext hbuilt rfl)
  rw [hparse] at hparse1
  cases hparse1
  have hprocs := (GetApp_sections_deferred X buildParams _ _ _ _ hmain).2.1
  simp only [List.nil_append] at hprocs
  -- the pass over the sections, cut at the last sandboxed section
  unfold GetApp.mainPass at hmain
  rw [hsections, List.foldlM_append] at hmain
  cases hbefore : List.foldlM
      (GetApp.section X buildParams (envVars.Set env "CURDIR" (X.GetContainingDir adefPath)))
      { app := X.newApp adefFilePtr, processesSections := [], bindingsSections := [],
        externApiInterfaces := [],
        env := envVars.Set env "CURDIR" (X.GetContainingDir adefPath) } before with
  | error e =>
    rw [hbefore] at hmain
    cases hmain
  | ok locals1 =>
  rw [hbefore] at hmain
  have hmain1 : List.foldlM
      (GetApp.section X buildParams (envVars.Set env "CURDIR" (X.GetContainingDir adefPath)))
      locals1 (last :: after) = .ok locals := hmain
  rw [List.foldlM_cons] at hmain1
  cases hsec : GetApp.section X buildParams
      (envVars.Set env "CURDIR" (X.GetContainingDir adefPath)) locals1 last with
  | error e =>
    rw [hsec] at hmain1
    cases hmain1
  | ok locals2 =>
  rw [hsec] at hmain1
  have hrest : List.foldlM
      (GetApp.section X buildParams (envVars.Set env "CURDIR" (X.GetContainingDir adefPath)))
      locals2 after = .ok locals := hmain1
  obtain ⟨s, hs, hlocals2⟩ := GetApp_section_sandboxed X buildParams _ locals1 locals2 last hlast hsec
  have hflag : locals.app.isSandboxed = decide (s.Text ≠ "false") := by
    rw [GetApp_sections_isSandboxed X hX buildParams _ after hafter locals2 locals hrest, hlocals2]
  -- the steps after the pass
  obtain ⟨built, hview1, hforall⟩ := AddProcessesSections_envs _ _ _ _ _ hproc
  obtain ⟨_, _, _, _, hview2⟩ := MakeInterfacesExternal_frame _ _ _ hext
  obtain ⟨_, _, hview3⟩ := AddBindings_sections_frame _ _ _ hbind
  have hflag3 : app3.isSandboxed = decide (s.Text ≠ "false") := by
    rw [hview3, hview2, hview1]
    exact hflag
  have henvs3 : app3.processEnvs = locals.app.processEnvs ++ built := by
    rw [hview3, hview2, hview1]
  refine ⟨s, hs, fun l => ?_, ?_, locals.app.processEnvs, built, ?_, ?_⟩
  · rw [GetApp_section_sandboxed_eq _ _ _ _ _ hlast]
    unfold GetApp.assign
    rw [hs]
  · show app3.isSandboxed = false ↔ s.Text = "false"
    rw [hflag3]
    simp
  · rw [← hprocs]
    exact hforall
  · rw [EnsurePathIsSet_processEnvs app3, henvs3]
    apply List.map_congr_left
    intro procEnv _
    have hname : (EnsurePathIsSet app3).name = app3.name := rfl
    rw [hname, hflag3]
    by_cases ht : s.Text = "false"
    · simp [ht]
    · simp [ht]

theorem GetApp_sandboxed_last_decides_witness :
    fixture.builtSandboxed.isSandboxed = false
      ∧ ∃ procEnv, fixture.builtSandboxed.processEnvs = [procEnv]
        ∧ procEnv.envVars.find "PATH"
          = some "/legato/systems/current/apps/foo/read-only/bin:/usr/local/bin:/usr/bin:/bin" := by
  obtain ⟨s, hs, _, hflag, _⟩ := GetApp_sandboxed_last_decides fixture.collaborators
    fixture.collaborators_keepSandboxed "/apps/sandboxed/foo.adef" fixture.buildParams [] []
    fixture.adefSandboxed fixture.builtSandboxed rfl rfl
    [.itemList .COMPOUND_ITEM_LIST (fixture.name "processes" 40) [],
     .tokenList
       { type := .SIMPLE_SECTION, firstTokenPtr := fixture.name "sandboxed" 41,
         contents := [fixture.name "no" 41] }]
    []
    (.tokenList
      { type := .SIMPLE_SECTION, firstTokenPtr := fixture.name "sandboxed" 42,
        contents := [fixture.name "false" 42] })
    rfl rfl (fun _ h => absurd h (List.not_mem_nil _))
  cases hs
  exact ⟨hflag.mpr rfl, _, rfl, rfl⟩

end modeller
